import Mathlib

/-! # Material manager (`CMatMan`, Cry3DEngine/MatMan.cpp)

A shallow embedding of the name-keyed material registry of `MatMan.cpp`:
the name map, the pending-load table with its manual reset events, the
retention list, the loader `LoadMaterialInternal` with `CheckMaterialCache`,
the builder `MakeMaterialFromXml` and `InitDefaults`.

Objects that the C++ code reaches through pointers (`CMatInfo`,
`ManualResetEvent`) live in two stores of the manager state and are named by
their index, so "the very same object" is equality of indices.  The code runs
on one thread here: a `Wait` on an event that is not set never returns, which
the embedding reports as the fault `deadlock`.
-/

namespace MatMan

/-! ## Plain data -/

/-- Index of a `CMatInfo` object in the material store. -/
abbrev MatId := Nat

/-- Index of a `ManualResetEvent` object in the event store. -/
abbrev EventId := Nat

/-- The values of `AzFramework::AssetSystem::AssetStatus` that the loader switches on. -/
inductive AssetStatus where
  | AssetStatus_Unknown
  | AssetStatus_Queued
  | AssetStatus_Compiling
  | AssetStatus_Compiled
  | AssetStatus_Missing
  | AssetStatus_Failed
  deriving DecidableEq, Repr

/-- A document node: tag, attributes in document order, child nodes in document order. -/
inductive XmlNode where
  | mk (tag : String) (attrs : List (String × String)) (children : List XmlNode)
  deriving Repr

/-- Tag of a node. -/
def XmlNode.tag : XmlNode → String
  | .mk t _ _ => t

/-- Attribute list of a node. -/
def XmlNode.attrs : XmlNode → List (String × String)
  | .mk _ a _ => a

/-- Child list of a node. -/
def XmlNode.children : XmlNode → List XmlNode
  | .mk _ _ c => c

/-- Lookup in an association list keyed by strings (`std::map::find`). -/
def mapFind {α : Type} : List (String × α) → String → Option α
  | [], _ => none
  | (k, v) :: rest, key => if k = key then some v else mapFind rest key

/-- Removal of a key (`std::map::erase(key)`). -/
def mapErase {α : Type} : List (String × α) → String → List (String × α)
  | [], _ => []
  | (k, v) :: rest, key => if k = key then mapErase rest key else (k, v) :: mapErase rest key

/-- Assignment through `operator[]`: the entry of the key is replaced or created. -/
def mapAssign {α : Type} (m : List (String × α)) (key : String) (v : α) : List (String × α) :=
  (key, v) :: mapErase m key

/-- Insertion through `emplace`: an existing entry of the key is kept. -/
def mapEmplace {α : Type} (m : List (String × α)) (key : String) (v : α) : List (String × α) :=
  match mapFind m key with
  | some _ => m
  | none => (key, v) :: m

/-- The keys of a map, in storage order. -/
def mapKeys {α : Type} (m : List (String × α)) : List String :=
  m.map Prod.fst

/-- Replacement of the element at an index of a list; out of range leaves the list as it is. -/
def listSet {α : Type} : List α → Nat → α → List α
  | [], _, _ => []
  | _ :: xs, 0, a => a :: xs
  | x :: xs, n + 1, a => x :: listSet xs n a

/-- `XmlNode::getAttr(key)` as a string: the value, or the empty string when the attribute is absent. -/
def XmlNode.getAttr (n : XmlNode) (key : String) : String :=
  (mapFind n.attrs key).getD ""

/-- `XmlNode::haveAttr(key)`. -/
def XmlNode.haveAttr (n : XmlNode) (key : String) : Bool :=
  (mapFind n.attrs key).isSome

/-- `XmlNode::findChild(tag)`: the first child carrying the tag. -/
def XmlNode.findChild (n : XmlNode) (tag : String) : Option XmlNode :=
  n.children.find? (fun c => c.tag == tag)

/-- `XmlNode::isTag(tag)`. -/
def XmlNode.isTag (n : XmlNode) (tag : String) : Bool :=
  n.tag == tag

/-- Value of a run of decimal digits, after the `C` function `atoi`: reading stops at the first
character that is not a digit. -/
def atoiDigits : List Char → Nat → Nat
  | [], acc => acc
  | c :: cs, acc => if c.isDigit then atoiDigits cs (acc * 10 + (c.toNat - 48)) else acc

/-- The `C` function `atoi` on a character list: an optional sign, then digits. -/
def atoi : List Char → Int
  | '-' :: cs => - (atoiDigits cs 0 : Int)
  | '+' :: cs => (atoiDigits cs 0 : Int)
  | cs => (atoiDigits cs 0 : Int)

/-- `XmlNode::getAttr(key, int&)` into a 32-bit pattern: the variable keeps its old value when
the attribute is absent. -/
def XmlNode.getAttrInt (n : XmlNode) (key : String) (old : Nat) : Nat :=
  match mapFind n.attrs key with
  | some v => ((atoi v.data) % (2 ^ 32 : Int)).toNat
  | none => old

/-- `XmlNode::getAttr(key, uint64&)`. -/
def XmlNode.getAttrUInt64 (n : XmlNode) (key : String) (old : Nat) : Nat :=
  match mapFind n.attrs key with
  | some v => ((atoi v.data) % (2 ^ 64 : Int)).toNat
  | none => old

/-- `XmlNode::getAttr(key, bool&)`: a number other than zero is true. -/
def XmlNode.getAttrBool (n : XmlNode) (key : String) (old : Bool) : Bool :=
  match mapFind n.attrs key with
  | some v => decide (atoi v.data ≠ 0)
  | none => old

/-! ## Shaders, shader resources, materials -/

/-- One generation bit of a shader (`SShaderGenBit`): its mask and the name of its parameter. -/
structure SShaderGenBit where
  m_Mask : Nat
  m_ParamName : String
  deriving DecidableEq, Repr

/-- What the code reads from a loaded shader (`IShader`): name, flags, generation mask and the
generation parameters (`GetGenerationParams`, absent for a shader that has none). -/
structure IShader where
  name : String
  flags : Nat
  generationMask : Nat
  generationParams : Option (List SShaderGenBit)
  deriving DecidableEq, Repr

/-- The texture slots the code names (`EEfResTextures`); the others are numbered. -/
inductive EEfResTextures where
  | EFTT_DIFFUSE
  | EFTT_NORMALS
  | other (n : Nat)
  deriving DecidableEq, Repr

/-- A public shader parameter (`SShaderParam`): its name and the text of its value (the four
floating-point components are kept as written). -/
structure SShaderParam where
  m_Name : String
  valueText : String
  deriving DecidableEq, Repr

/-- The fields of `SInputShaderResources` that the material manager reads or writes. -/
structure SInputShaderResources where
  m_szMaterialName : String := ""
  m_ResFlags : Nat := 0
  m_SortPrio : Nat := 0
  m_Opacity : Int := 0
  m_Diffuse : List Int := []
  m_Textures : List (EEfResTextures × String) := []
  m_ShaderParams : List SShaderParam := []
  helperData : List String := []
  deriving DecidableEq, Repr

/-- Name stored in a texture slot of the input resources; empty when the slot was never set. -/
def SInputShaderResources.textureName (sr : SInputShaderResources) (slot : EEfResTextures) : String :=
  match sr.m_Textures.find? (fun e => e.1 = slot) with
  | some e => e.2
  | none => ""

/-- Assignment of a texture slot name. -/
def SInputShaderResources.setTextureName (sr : SInputShaderResources) (slot : EEfResTextures)
    (name : String) : SInputShaderResources :=
  { sr with m_Textures := (slot, name) :: sr.m_Textures.filter (fun e => e.1 ≠ slot) }

/-- The render-side shader resources (`IRenderShaderResources`) as far as the manager touches
them: the input they were made from, the material name and the layer no-draw flags. -/
structure IRenderShaderResources where
  input : SInputShaderResources := {}
  materialName : String := ""
  mtlLayerNoDrawFlags : Nat := 0
  deriving DecidableEq, Repr

/-- A shader item (`SShaderItem`): the shader and its resources, either of which may be null. -/
structure SShaderItem where
  m_pShader : Option IShader := none
  m_pShaderResources : Option IRenderShaderResources := none
  deriving DecidableEq, Repr

/-- A material layer (`CMaterialLayer`): its flags and its shader item. -/
structure CMaterialLayer where
  m_nFlags : Nat := 0
  m_pShaderItem : SShaderItem := {}
  deriving DecidableEq, Repr

/-- A material object (`CMatInfo`).  Sub-material slots hold indices of other material objects;
an empty slot is `none`. -/
structure CMatInfo where
  m_sMaterialName : String := ""
  m_Flags : Nat := 0
  m_shaderItem : SShaderItem := {}
  m_sShaderName : String := ""
  m_pSurfaceType : Option String := none
  m_subMtls : List (Option MatId) := []
  m_pMaterialLayers : List (Option CMaterialLayer) := []
  m_sMaterialLinkName : String := ""
  m_sketchMode : Int := 0
  deriving DecidableEq, Repr

/-- A manual reset event (`ManualResetEvent`): the flag that `Set` raises and `Wait` waits
for, together with the number of `Set` calls it has received. -/
structure ManualResetEvent where
  m_flag : Bool := false
  setCalls : Nat := 0
  deriving DecidableEq, Repr

/-- Modelled from the spec: the class `UniqueManualEvent` (UniqueManualEvent.h is not among the
sources).  It is the handle through which the owner of a load holds the single-use gate: it
points at the event and records whether this caller has control of it. -/
structure UniqueManualEvent where
  m_manualResetEvent : Option EventId
  m_hasControl : Bool
  deriving DecidableEq, Repr

/-- What the manager tells its listener (`m_pListener`). -/
inductive ListenerCall where
  | OnCreateMaterial (m : MatId)
  | OnDeleteMaterial (m : MatId)
  deriving DecidableEq, Repr

/-- Faults of a run: the fuel of the embedding ran out, a `Wait` on an event that is never set
(one thread only), a call through a null event pointer, or a call through a null shader
pointer. -/
inductive Fault where
  | outOfFuel
  | deadlock
  | nullEvent
  | nullShader
  deriving DecidableEq, Repr

/-- Equality of results is decidable. -/
instance instDecidableEqExcept {ε α : Type} [DecidableEq ε] [DecidableEq α] :
    DecidableEq (Except ε α) :=
  fun a b => match a, b with
  | .ok x, .ok y =>
    if h : x = y then isTrue (by rw [h]) else isFalse (fun h2 => h (by cases h2; rfl))
  | .error x, .error y =>
    if h : x = y then isTrue (by rw [h]) else isFalse (fun h2 => h (by cases h2; rfl))
  | .ok _, .error _ => isFalse (fun h => by cases h)
  | .error _, .ok _ => isFalse (fun h => by cases h)

/-! ## The collaborators and constants that are not part of MatMan.cpp -/

/-- The parts of the engine that MatMan.cpp uses and that are defined elsewhere: the flag
constants of IMaterial.h, `MaterialUtils::UnifyMaterialName`, the console variables, the file
system, the asset system, the document loader, the renderer, the surface types and the
`MaterialHelpers` readers and writers.  They are parameters of every definition below. -/
structure Env where
  MTL_FLAG_PURE_CHILD : Nat
  MTL_FLAG_MULTI_SUBMTL : Nat
  MTL_FLAG_NODRAW : Nat
  MTL_FLAG_NON_REMOVABLE : Nat
  MTL_64BIT_SHADERGENMASK : Nat
  MTL_FLAGS_SAVE_MASK : Nat
  MTL_LAYER_MAX_SLOTS : Nat
  MTL_LAYER_USAGE_NODRAW : Nat
  MTL_LAYER_USAGE_FADEOUT : Nat
  MTL_LAYER_FROZEN : Nat
  EF_NOTFOUND : Nat
  UnifyMaterialName : String → String
  e_StatObjPreload : Int
  e_sketch_mode : Int
  Exists : String → Bool
  ExistsAfterStatus : String → Bool
  GetAssetStatus : String → AssetStatus
  LoadXmlFromFile : String → Option XmlNode
  EF_LoadShaderItem : String → Bool → Nat → SInputShaderResources → Nat → SShaderItem
  EF_LoadShader : String → Nat → Nat → Option IShader
  EF_GetRemapedShaderMaskGen : String → Nat → Bool → Nat
  EF_GetShaderGlobalMaskGenFromString : String → String → Nat → Nat
  GetSurfaceTypeByName : String → Option String
  SetLightingFromXml : SInputShaderResources → XmlNode → SInputShaderResources
  SetTexturesFromXml : SInputShaderResources → XmlNode → SInputShaderResources
  MigrateXmlLegacyData : SInputShaderResources → XmlNode → SInputShaderResources
  SetVertexDeformFromXml : SInputShaderResources → XmlNode → SInputShaderResources
  SetXmlFromLighting : SInputShaderResources → XmlNode → XmlNode
  SetXmlFromTextures : SInputShaderResources → XmlNode → XmlNode
  SetXmlFromVertexDeform : SInputShaderResources → XmlNode → XmlNode
  SetXmlFromShaderParams : SInputShaderResources → XmlNode → XmlNode
  szReplaceMe : String

/-! ## The manager state -/

/-- The state of a `CMatMan`: its members, and the two object stores that stand for the heap. -/
structure CMatMan where
  m_bInitialized : Bool := false
  m_bLoadSurfaceTypesInInit : Bool := true
  m_pListener : Bool := false
  m_pDefaultMtl : Option MatId := none
  m_pDefaultTerrainLayersMtl : Option MatId := none
  m_pDefaultLayersMtl : Option MatId := none
  m_pDefaultHelperMtl : Option MatId := none
  m_pNoDrawMtl : Option MatId := none
  m_mtlNameMap : List (String × MatId) := []
  m_pendingMaterialLoads : List (String × Option EventId) := []
  m_nonRemovables : List MatId := []
  materials : List CMatInfo := []
  events : List ManualResetEvent := []
  listenerCalls : List ListenerCall := []
  surfaceTypesLoaded : Bool := false
  deriving DecidableEq, Repr

/-- The manager as its constructor leaves it. -/
def CMatMan.new : CMatMan := {}

/-- The material object behind an index (a default object for an index never allocated). -/
def CMatMan.mat (s : CMatMan) (m : MatId) : CMatInfo :=
  s.materials.getD m {}

/-- In-place update of the material object behind an index. -/
def CMatMan.updMat (s : CMatMan) (m : MatId) (f : CMatInfo → CMatInfo) : CMatMan :=
  { s with materials := listSet s.materials m (f (s.mat m)) }

/-- The event object behind an index. -/
def CMatMan.event (s : CMatMan) (e : EventId) : ManualResetEvent :=
  s.events.getD e {}

/-- Allocation of a material object (`new CMatInfo`): the new index and the state. -/
def CMatMan.newMat (s : CMatMan) (init : CMatInfo) : MatId × CMatMan :=
  (s.materials.length, { s with materials := s.materials ++ [init] })

/-- `ManualResetEvent::Set` on the event behind an index. -/
def CMatMan.setEvent (s : CMatMan) (e : EventId) : CMatMan :=
  { s with events := listSet s.events e ⟨true, (s.event e).setCalls + 1⟩ }

/-- `CMatMan::UnifyName`. -/
def UnifyName (env : Env) (sMtlName : String) : String :=
  env.UnifyMaterialName sMtlName

/-! ## `CMatInfo` methods

Material.cpp is not among the sources; the methods that MatMan.cpp calls are modelled as plain
field accessors of the material object. -/

/-- Modelled from the spec: `CMatInfo::GetName` (Material.cpp is missing), the display name. -/
def CMatMan.GetName (s : CMatMan) (m : MatId) : String :=
  (s.mat m).m_sMaterialName

/-- Modelled from the spec: `CMatInfo::SetName` (Material.cpp is missing), stamps the name. -/
def CMatMan.SetName (s : CMatMan) (m : MatId) (name : String) : CMatMan :=
  s.updMat m (fun c => { c with m_sMaterialName := name })

/-- Modelled from the spec: `CMatInfo::GetFlags` (Material.cpp is missing), the flag set. -/
def CMatMan.GetFlags (s : CMatMan) (m : MatId) : Nat :=
  (s.mat m).m_Flags

/-- Modelled from the spec: `CMatInfo::SetFlags` (Material.cpp is missing), stores the flag set. -/
def CMatMan.SetFlags (s : CMatMan) (m : MatId) (flags : Nat) : CMatMan :=
  s.updMat m (fun c => { c with m_Flags := flags })

/-- Modelled from the spec: `CMatInfo::SetSurfaceType` (Material.cpp is missing), the surface
type reference found by name in the surface-type registry. -/
def CMatMan.SetSurfaceType (env : Env) (s : CMatMan) (m : MatId) (name : String) : CMatMan :=
  s.updMat m (fun c => { c with m_pSurfaceType := env.GetSurfaceTypeByName name })

/-- Modelled from the spec: `CMatInfo::SetMaterialLinkName` (Material.cpp is missing). -/
def CMatMan.SetMaterialLinkName (s : CMatMan) (m : MatId) (name : String) : CMatMan :=
  s.updMat m (fun c => { c with m_sMaterialLinkName := name })

/-- Modelled from the spec: `CMatInfo::GetShaderItem` (Material.cpp is missing). -/
def CMatMan.GetShaderItem (s : CMatMan) (m : MatId) : SShaderItem :=
  (s.mat m).m_shaderItem

/-- Modelled from the spec: `CMatInfo::AssignShaderItem` (Material.cpp is missing), binds the
shader item to the material. -/
def CMatMan.AssignShaderItem (s : CMatMan) (m : MatId) (si : SShaderItem) : CMatMan :=
  s.updMat m (fun c => { c with m_shaderItem := si })

/-- Modelled from the spec: `CMatInfo::SetShaderName` (Material.cpp is missing). -/
def CMatMan.SetShaderName (s : CMatMan) (m : MatId) (name : String) : CMatMan :=
  s.updMat m (fun c => { c with m_sShaderName := name })

/-- Modelled from the spec: `CMatInfo::SetSketchMode` (Material.cpp is missing). -/
def CMatMan.SetSketchMode (s : CMatMan) (m : MatId) (mode : Int) : CMatMan :=
  s.updMat m (fun c => { c with m_sketchMode := mode })

/-- Resizing of a slot vector (`std::vector::resize`): kept slots stay, new slots are empty. -/
def listResize {α : Type} (l : List (Option α)) (n : Nat) : List (Option α) :=
  (l ++ List.replicate (n - l.length) none).take n

/-- Modelled from the spec: `CMatInfo::GetSubMtlCount` (Material.cpp is missing). -/
def CMatMan.GetSubMtlCount (s : CMatMan) (m : MatId) : Nat :=
  (s.mat m).m_subMtls.length

/-- Modelled from the spec: `CMatInfo::SetSubMtlCount` (Material.cpp is missing), sets the
sub-material slot count. -/
def CMatMan.SetSubMtlCount (s : CMatMan) (m : MatId) (n : Nat) : CMatMan :=
  s.updMat m (fun c => { c with m_subMtls := listResize c.m_subMtls n })

/-- Modelled from the spec: `CMatInfo::GetSubMtl` (Material.cpp is missing); an index out of
range gives null. -/
def CMatMan.GetSubMtl (s : CMatMan) (m : MatId) (i : Nat) : Option MatId :=
  (s.mat m).m_subMtls.getD i none

/-- Modelled from the spec: `CMatInfo::SetSubMtl` (Material.cpp is missing), fills one slot. -/
def CMatMan.SetSubMtl (s : CMatMan) (m : MatId) (i : Nat) (child : Option MatId) : CMatMan :=
  s.updMat m (fun c => { c with m_subMtls := listSet c.m_subMtls i child })

/-- Modelled from the spec: `CMatInfo::SetLayerCount` (Material.cpp is missing). -/
def CMatMan.SetLayerCount (s : CMatMan) (m : MatId) (n : Nat) : CMatMan :=
  s.updMat m (fun c => { c with m_pMaterialLayers := listResize c.m_pMaterialLayers n })

/-- Modelled from the spec: `CMatInfo::GetLayer` (Material.cpp is missing); an index out of
range gives null. -/
def CMatMan.GetLayer (s : CMatMan) (m : MatId) (slot : Nat) : Option CMaterialLayer :=
  (s.mat m).m_pMaterialLayers.getD slot none

/-- Modelled from the spec: `CMatInfo::SetLayer` (Material.cpp is missing), fills one layer slot. -/
def CMatMan.SetLayer (s : CMatMan) (m : MatId) (slot : Nat) (layer : CMaterialLayer) : CMatMan :=
  s.updMat m (fun c => { c with m_pMaterialLayers := listSet c.m_pMaterialLayers slot (some layer) })

/-- Comparison of two strings without regard to letter case (`_stricmp(a, b) == 0`). -/
def stricmpEq (a b : String) : Bool :=
  decide (a.data.map Char.toLower = b.data.map Char.toLower)

/-! ## The registry operations -/

/-- `CMatMan::CreateMaterial` (lines 128-149). -/
def CreateMaterial (env : Env) (s : CMatMan) (sMtlName : String) (nMtlFlags : Nat) :
    MatId × CMatMan :=
  let pMat := (s.newMat {}).1
  let s1 := (s.newMat {}).2
  let s2 := s1.SetName pMat sMtlName
  let s3 := s2.SetFlags pMat (nMtlFlags ||| s2.GetFlags pMat)
  let s4 : CMatMan :=
    if nMtlFlags &&& env.MTL_FLAG_PURE_CHILD = 0 then
      { s3 with m_mtlNameMap := mapAssign s3.m_mtlNameMap (UnifyName env sMtlName) pMat }
    else s3
  let s5 : CMatMan :=
    if nMtlFlags &&& env.MTL_FLAG_NON_REMOVABLE ≠ 0 then
      { s4 with m_nonRemovables := s4.m_nonRemovables ++ [pMat] }
    else s4
  (pMat, s5)

/-- `CMatMan::NotifyCreateMaterial` (lines 152-158). -/
def NotifyCreateMaterial (s : CMatMan) (pMtl : MatId) : CMatMan :=
  if s.m_pListener then
    { s with listenerCalls := s.listenerCalls ++ [ListenerCall.OnCreateMaterial pMtl] }
  else s

/-- `CMatMan::Unregister` (lines 161-179). -/
def Unregister (env : Env) (s : CMatMan) (pMat : MatId) (deleteEditorMaterial : Bool) :
    Bool × CMatMan :=
  let s1 : CMatMan :=
    if s.m_pListener && deleteEditorMaterial then
      { s with listenerCalls := s.listenerCalls ++ [ListenerCall.OnDeleteMaterial pMat] }
    else s
  let s2 : CMatMan :=
    if (s1.mat pMat).m_Flags &&& env.MTL_FLAG_PURE_CHILD = 0 then
      let unifiedName := UnifyName env (s1.GetName pMat)
      { s1 with
        m_mtlNameMap := mapErase s1.m_mtlNameMap unifiedName
        m_pendingMaterialLoads := mapErase s1.m_pendingMaterialLoads unifiedName }
    else s1
  (true, s2)

/-- `CMatMan::RenameMaterial` (lines 182-206).  `operator[]` on the pending-load table yields
the stored event pointer, or a null pointer for a name without a record. -/
def RenameMaterial (env : Env) (s : CMatMan) (pMtl : MatId) (sNewName : String) : CMatMan :=
  let sName := s.GetName pMtl
  let resetEvent : Option EventId :=
    if sName ≠ "" then (mapFind s.m_pendingMaterialLoads (UnifyName env sName)).getD none
    else none
  let s1 : CMatMan :=
    if sName ≠ "" then
      { s with
        m_mtlNameMap := mapErase s.m_mtlNameMap (UnifyName env sName)
        m_pendingMaterialLoads := mapErase s.m_pendingMaterialLoads (UnifyName env sName) }
    else s
  let s2 := s1.SetName pMtl sNewName
  let newUnifiedName := UnifyName env sNewName
  { s2 with
    m_mtlNameMap := mapAssign s2.m_mtlNameMap newUnifiedName pMtl
    m_pendingMaterialLoads := mapAssign s2.m_pendingMaterialLoads newUnifiedName resetEvent }

/-- `CMatMan::FindMaterial` (lines 209-222). -/
def FindMaterial (env : Env) (s : CMatMan) (sMtlName : String) : Option MatId :=
  mapFind s.m_mtlNameMap (UnifyName env sMtlName)

/-- Modelled from the spec: `UniqueManualEvent::HasControl` (UniqueManualEvent.h is missing),
whether this caller is the owner of the load. -/
def UniqueManualEvent.HasControl (u : UniqueManualEvent) : Bool :=
  u.m_hasControl

/-- Modelled from the spec: `UniqueManualEvent::Set` (UniqueManualEvent.h is missing).  The
gate is single-use and only its owner sets it: a handle with control signals its event and
gives the control up, a handle without control does nothing. -/
def UniqueManualEvent.Set (u : UniqueManualEvent) (s : CMatMan) : UniqueManualEvent × CMatMan :=
  match u.m_manualResetEvent, u.m_hasControl with
  | some e, true => ({ u with m_hasControl := false }, s.setEvent e)
  | _, _ => (u, s)

/-- Modelled from the spec: the destructor of `UniqueManualEvent` (UniqueManualEvent.h is
missing).  The owner signals the gate on every exit path of the load routine, so leaving the
scope sets the event if the handle still has control. -/
def UniqueManualEvent.destroy (u : UniqueManualEvent) (s : CMatMan) : CMatMan :=
  (u.Set s).2

/-- `CMatMan::CheckMaterialCache` (lines 377-420): the handle, the cached material and the
state.  A record in the pending-load table makes the caller wait on its event and then read
the name map; without a record the caller gets a new event and control of it. -/
def CheckMaterialCache (s : CMatMan) (name : String) (cachedMaterial : Option MatId) :
    Except Fault (UniqueManualEvent × Option MatId × CMatMan) :=
  match mapFind s.m_pendingMaterialLoads name with
  | some none => .error Fault.nullEvent
  | some (some e) =>
    if (s.event e).m_flag then
      .ok (⟨some e, false⟩, mapFind s.m_mtlNameMap name, s)
    else .error Fault.deadlock
  | none =>
    let e := s.events.length
    .ok (⟨some e, true⟩, cachedMaterial,
      { s with
        events := s.events ++ [{}]
        m_pendingMaterialLoads := mapEmplace s.m_pendingMaterialLoads name (some e) })

/-! ## The builder: shader, layers -/

/-- `CMatMan::ParsePublicParams` (lines 799-821): the parameter list is rebuilt from the
attributes of the node, one parameter per attribute in document order. -/
def ParsePublicParams (sr : SInputShaderResources) (paramsNode : XmlNode) :
    SInputShaderResources :=
  { sr with m_ShaderParams := paramsNode.attrs.map (fun kv => ⟨kv.1, kv.2⟩) }

/-- `CMatMan::LoadMaterialShader` (lines 645-672): the result flag, the input resources (they
are passed by reference) and the state. -/
def LoadMaterialShader (env : Env) (s : CMatMan) (pMtl : MatId) (sShader : String)
    (nShaderGenMask : Nat) (sr : SInputShaderResources) (publicsNode : Option XmlNode) :
    Bool × SInputShaderResources × CMatMan :=
  let sr1 := { sr with m_ResFlags := s.GetFlags pMtl }
  let sr2 := match publicsNode with
    | some n => ParsePublicParams sr1 n
    | none => sr1
  let shaderItem := env.EF_LoadShaderItem sShader false 0 sr2 nShaderGenMask
  match shaderItem.m_pShader with
  | none => (false, sr2, s)
  | some _ => (true, sr2, s.AssignShaderItem pMtl shaderItem)

/-- The generation mask of the layer shader (lines 722-749): a layer bit is switched on when some
base bit that is active in the base mask has the same non-empty parameter name. -/
def layerGenMask (nMaskGenBase : Nat) (pShaderGenBase pShaderGenLayer : Option (List SShaderGenBit)) :
    Nat :=
  match pShaderGenBase, pShaderGenLayer with
  | some baseBits, some layerBits =>
    layerBits.foldl (fun nMaskGenLayer pLayerBit =>
      if baseBits.any (fun pBaseBit =>
          decide (nMaskGenBase &&& pBaseBit.m_Mask ≠ 0) &&
          decide (pLayerBit.m_ParamName ≠ "") && decide (pBaseBit.m_ParamName ≠ "") &&
          decide (pLayerBit.m_ParamName = pBaseBit.m_ParamName))
      then (nMaskGenLayer ||| pLayerBit.m_Mask) % 2 ^ 32
      else nMaskGenLayer) 0
  | _, _ => 0

/-- `CMatMan::LoadMaterialLayerSlot` (lines 674-785).  The caller has checked that the material
has a shader and shader resources. -/
def LoadMaterialLayerSlot (env : Env) (s : CMatMan) (nSlot : Nat) (pMtl : MatId)
    (szShaderName : String) (pBaseResources : SInputShaderResources)
    (pPublicsNode : Option XmlNode) (nLayerFlags : Nat) : Bool × CMatMan :=
  match pPublicsNode with
  | none => (false, s)
  | some publics =>
    if (s.GetLayer pMtl nSlot).isSome then (false, s)
    else if stricmpEq szShaderName "nodraw" then (false, s)
    else
      let pShaderItemBase := s.GetShaderItem pMtl
      let nMaskGenBase :=
        (match pShaderItemBase.m_pShader with
          | some sh => sh.generationMask
          | none => 0) % 2 ^ 32
      let pShaderGenBase :=
        match pShaderItemBase.m_pShader with
        | some sh => sh.generationParams
        | none => none
      let in0 : SInputShaderResources := { m_szMaterialName := pBaseResources.m_szMaterialName }
      let in1 := in0.setTextureName EEfResTextures.EFTT_DIFFUSE
        (pBaseResources.textureName EEfResTextures.EFTT_DIFFUSE)
      let in2 := in1.setTextureName EEfResTextures.EFTT_NORMALS
        (pBaseResources.textureName EEfResTextures.EFTT_NORMALS)
      let in3 := if in2.textureName EEfResTextures.EFTT_DIFFUSE = "" then
          in2.setTextureName EEfResTextures.EFTT_DIFFUSE env.szReplaceMe else in2
      let in4 := if in3.textureName EEfResTextures.EFTT_NORMALS = "" then
          in3.setTextureName EEfResTextures.EFTT_NORMALS "EngineAssets/Textures/white_ddn.dds"
        else in3
      match env.EF_LoadShader szShaderName 0 0 with
      | none => (false, s)
      | some pNewShader =>
        let nMaskGenLayer := layerGenMask nMaskGenBase pShaderGenBase pNewShader.generationParams
        match env.EF_LoadShader szShaderName 0 nMaskGenLayer with
        | none => (false, s)
        | some pShader =>
          let in5 := ParsePublicParams in4 publics
          let cloned : Option IRenderShaderResources :=
            pShaderItemBase.m_pShaderResources.map
              (fun r => { r with input := { r.input with m_ShaderParams := in5.m_ShaderParams } })
          let layer : CMaterialLayer :=
            { m_nFlags := nLayerFlags, m_pShaderItem := ⟨some pShader, cloned⟩ }
          (true, s.SetLayer pMtl nSlot layer)

/-- The flags of one layer node (lines 559-586): the layer flags and whether the layer raises
the frozen flag of the material. -/
def layerNodeFlags (env : Env) (pLayerNode : XmlNode) : Nat × Bool :=
  let pszShaderName := pLayerNode.getAttr "Name"
  let bNoDraw := pLayerNode.getAttrBool "NoDraw" false
  let f1 := if bNoDraw then env.MTL_LAYER_USAGE_NODRAW else 0
  let frozen := bNoDraw && stricmpEq pszShaderName "frozenlayerwip"
  let bFadeOut := pLayerNode.getAttrBool "FadeOut" false
  let f2 := if bFadeOut then f1 ||| env.MTL_LAYER_USAGE_FADEOUT else f1
  (f2 % 256, frozen)

/-- The loop over the layer nodes (lines 552-593), from slot `l` on: the material layer flags
collected so far and the state. -/
def loadLayerNodes (env : Env) (pMtl : MatId) (sr : SInputShaderResources) :
    List XmlNode → Nat → Nat → CMatMan → Nat × CMatMan
  | [], _, nMaterialLayerFlags, s => (nMaterialLayerFlags, s)
  | pLayerNode :: rest, l, nMaterialLayerFlags, s =>
    let fl := layerNodeFlags env pLayerNode
    let flags1 := if fl.2 then (nMaterialLayerFlags ||| env.MTL_LAYER_FROZEN) % 256
      else nMaterialLayerFlags
    let r := LoadMaterialLayerSlot env s l pMtl (pLayerNode.getAttr "Name") sr
      (pLayerNode.findChild "PublicParams") fl.1
    loadLayerNodes env pMtl sr rest (l + 1) flags1 r.2

/-- `SetMtlLayerNoDrawFlags` on the shader resources of the material (lines 595-599). -/
def setMtlLayerNoDrawFlags (s : CMatMan) (pMtl : MatId) (flags : Nat) : CMatMan :=
  s.updMat pMtl (fun c => { c with m_shaderItem := { c.m_shaderItem with
    m_pShaderResources := c.m_shaderItem.m_pShaderResources.map
      (fun r => { r with mtlLayerNoDrawFlags := flags }) } })

/-- The material layers part of `MakeMaterialFromXml` (lines 541-602). -/
def loadMaterialLayers (env : Env) (s : CMatMan) (pMtl : MatId) (node : XmlNode)
    (sr : SInputShaderResources) : CMatMan :=
  if (s.GetShaderItem pMtl).m_pShader.isSome && (s.GetShaderItem pMtl).m_pShaderResources.isSome then
    match node.findChild "MaterialLayers" with
    | none => s
    | some pMtlLayersNode =>
      let nLayerCount := min env.MTL_LAYER_MAX_SLOTS pMtlLayersNode.children.length
      if nLayerCount = 0 then s
      else
        let s1 := s.SetLayerCount pMtl nLayerCount
        let r := loadLayerNodes env pMtl sr (pMtlLayersNode.children.take nLayerCount) 0 0 s1
        setMtlLayerNoDrawFlags r.2 pMtl r.1
  else s

/-! ## The builder: flags, shader section -/

/-- The flags that `MakeMaterialFromXml` reads from the descriptor (lines 435-440). -/
def mtlFlagsFromXml (env : Env) (node : XmlNode) (bForcePureChild : Bool) : Nat :=
  let mtlFlags := (node.getAttrInt "MtlFlags" 0) &&& env.MTL_FLAGS_SAVE_MASK
  if bForcePureChild then mtlFlags ||| env.MTL_FLAG_PURE_CHILD else mtlFlags

/-- The material that `MakeMaterialFromXml` works on (lines 442-450): the existing one with the
descriptor flags added, or a new one from `CreateMaterial`. -/
def obtainMaterial (env : Env) (s : CMatMan) (sMtlName : String) (mtlFlags : Nat)
    (pExistingMtl : Option MatId) : MatId × CMatMan :=
  match pExistingMtl with
  | none => CreateMaterial env s sMtlName mtlFlags
  | some pMtl => (pMtl, s.SetFlags pMtl (mtlFlags ||| s.GetFlags pMtl))

/-- The shader generation mask read from the descriptor (lines 456-480), with the flags after
the 64-bit marker is added. -/
def shaderGenMaskFromXml (env : Env) (node : XmlNode) (shaderName : String) (mtlFlags : Nat) :
    Nat × Nat :=
  let first : Nat × Nat :=
    if mtlFlags &&& env.MTL_64BIT_SHADERGENMASK = 0 then
      (env.EF_GetRemapedShaderMaskGen shaderName (node.getAttrInt "GenMask" 0) false,
        mtlFlags ||| env.MTL_64BIT_SHADERGENMASK)
    else (node.getAttrUInt64 "GenMask" 0, mtlFlags)
  let nShaderGenMask :=
    if node.haveAttr "StringGenMask" then
      env.EF_GetShaderGlobalMaskGenFromString shaderName (node.getAttr "StringGenMask") first.1
    else
      env.EF_GetRemapedShaderMaskGen shaderName first.1
        (decide (first.2 &&& env.MTL_64BIT_SHADERGENMASK ≠ 0))
  (nShaderGenMask, first.2 ||| env.MTL_64BIT_SHADERGENMASK)

/-- The link name part of `MakeMaterialFromXml` (lines 511-516). -/
def loadMaterialLinkName (s : CMatMan) (pMtl : MatId) (node : XmlNode) : CMatMan :=
  match node.findChild "MaterialLinkName" with
  | some pLinkName => s.SetMaterialLinkName pMtl (pLinkName.getAttr "name")
  | none => s

/-- The part of `MakeMaterialFromXml` between the choice of the material and the sub-materials
(lines 452-602): shader name, generation mask, surface type, no-draw flag, lighting, textures,
link name, vertex deform, shader binding and layers.  It changes the material object only.
The two tests of the multi-sub-material flag (lines 452 and 529) read the flags before and
after the shader section. -/
def loadMaterialBody (env : Env) (s : CMatMan) (pMtl : MatId) (sMtlName : String)
    (node : XmlNode) (mtlFlags0 : Nat) (sortPrio : Nat) : CMatMan :=
  let sr0 : SInputShaderResources := { m_SortPrio := sortPrio }
  if mtlFlags0 &&& env.MTL_FLAG_MULTI_SUBMTL ≠ 0 then
    let s2 := loadMaterialLinkName s pMtl node
    let sr2 := env.SetVertexDeformFromXml sr0 node
    loadMaterialLayers env s2 pMtl node { sr2 with m_szMaterialName := sMtlName }
  else
    let shaderName := node.getAttr "Shader"
    let gm := shaderGenMaskFromXml env node shaderName mtlFlags0
    let a := CMatMan.SetSurfaceType env s pMtl (node.getAttr "SurfaceType")
    let mtlFlags := if stricmpEq shaderName "nodraw" then gm.2 ||| env.MTL_FLAG_NODRAW else gm.2
    let s1 := a.SetFlags pMtl (mtlFlags ||| a.GetFlags pMtl)
    let sr1 :=
      env.MigrateXmlLegacyData (env.SetTexturesFromXml (env.SetLightingFromXml sr0 node) node) node
    let s2 := loadMaterialLinkName s1 pMtl node
    let sr2 := env.SetVertexDeformFromXml sr1 node
    if mtlFlags &&& env.MTL_FLAG_MULTI_SUBMTL ≠ 0 then
      loadMaterialLayers env s2 pMtl node { sr2 with m_szMaterialName := sMtlName }
    else
      let ld := LoadMaterialShader env s2 pMtl shaderName gm.1
        { sr2 with m_szMaterialName := sMtlName } (node.findChild "PublicParams")
      let s3 := ld.2.2.SetShaderName pMtl shaderName
      loadMaterialLayers env s3 pMtl node { ld.2.1 with m_szMaterialName := sMtlName }

/-! ## The builder: sub-materials -/

/-- The loop over the children of the `SubMaterials` node (lines 610-638), from child `i` on.
`build` stands for the recursive call of `MakeMaterialFromXml` on an inline child (name, node,
sort priority, parent) and `load` for the call of `LoadMaterial` on a referenced child. -/
def loadSubMaterials
    (build : String → XmlNode → Nat → MatId → CMatMan → Except Fault (Option MatId × CMatMan))
    (load : String → CMatMan → Except Fault (Option MatId × CMatMan))
    (pMtl : MatId) (nSubMtls : Nat) :
    List XmlNode → Nat → CMatMan → Except Fault CMatMan
  | [], _, s => .ok s
  | mtlNode :: rest, i, s =>
    if mtlNode.isTag "Material" then
      match build (mtlNode.getAttr "Name") mtlNode ((nSubMtls - i - 1) % 65536) pMtl s with
      | .error e => .error e
      | .ok (some pChildMtl, s1) =>
        loadSubMaterials build load pMtl nSubMtls rest (i + 1) (s1.SetSubMtl pMtl i (some pChildMtl))
      | .ok (none, s1) =>
        loadSubMaterials build load pMtl nSubMtls rest (i + 1) (s1.SetSubMtl pMtl i s1.m_pDefaultMtl)
    else if mtlNode.getAttr "Name" ≠ "" then
      match load (mtlNode.getAttr "Name") s with
      | .error e => .error e
      | .ok (some pChildMtl, s1) =>
        loadSubMaterials build load pMtl nSubMtls rest (i + 1) (s1.SetSubMtl pMtl i (some pChildMtl))
      | .ok (none, s1) => loadSubMaterials build load pMtl nSubMtls rest (i + 1) s1
    else loadSubMaterials build load pMtl nSubMtls rest (i + 1) s

/-- The sub-materials part of `MakeMaterialFromXml` (lines 605-639). -/
def loadSubMaterialsNode
    (build : String → XmlNode → Nat → MatId → CMatMan → Except Fault (Option MatId × CMatMan))
    (load : String → CMatMan → Except Fault (Option MatId × CMatMan))
    (s : CMatMan) (pMtl : MatId) (node : XmlNode) : Except Fault CMatMan :=
  match node.findChild "SubMaterials" with
  | none => .ok s
  | some childsNode =>
    loadSubMaterials build load pMtl childsNode.children.length childsNode.children 0
      (s.SetSubMtlCount pMtl childsNode.children.length)

/-! ## The loader -/

/-- The file name of a unified material name (lines 273-279): the extension `.mtl` is added to
a name without a dot. -/
def materialFileName (name : String) : String :=
  if '.' ∈ name.data then name else name ++ ".mtl"

/-- The shader item of the placeholder material (lines 299-307): the generic `Illum` shader
over opaque white resources with the flat white texture, named after the material. -/
def placeholderShaderItem (env : Env) (unifiedName : String) : SShaderItem :=
  let sr0 : SInputShaderResources := { m_Opacity := 1, m_Diffuse := [1, 1, 1, 1] }
  let sr := sr0.setTextureName EEfResTextures.EFTT_DIFFUSE "EngineAssets/TextureMsg/color_White.tif"
  let si0 := env.EF_LoadShaderItem "Illum" true 0 sr 0
  { si0 with
    m_pShaderResources := si0.m_pShaderResources.map (fun r => { r with materialName := unifiedName }) }

/-- The placeholder material for an asset that is queued or being compiled (lines 298-309). -/
def createPlaceholder (env : Env) (s : CMatMan) (filename : String) : MatId × CMatMan :=
  let unifiedName := UnifyName env filename
  let si := placeholderShaderItem env unifiedName
  let c := CreateMaterial env s unifiedName 0
  (c.1, c.2.AssignShaderItem c.1 si)

/-- The eviction of a failed load (lines 330-332 and 356-358): the handle is set and the record
of the name leaves the pending-load table. -/
def evictPendingLoad (s : CMatMan) (u : UniqueManualEvent) (name : String) :
    UniqueManualEvent × CMatMan :=
  let r := u.Set s
  (r.1, { r.2 with m_pendingMaterialLoads := mapErase r.2.m_pendingMaterialLoads name })

/-- The switch on the asset status of a file that does not exist (lines 288-335): the material,
whether the file exists after all, the handle and the state. -/
def assetStatusSwitch (env : Env) (s : CMatMan) (u : UniqueManualEvent) (name filename : String) :
    Option MatId × Bool × UniqueManualEvent × CMatMan :=
  match env.GetAssetStatus filename with
  | AssetStatus.AssetStatus_Queued =>
    (some (createPlaceholder env s filename).1, false, u, (createPlaceholder env s filename).2)
  | AssetStatus.AssetStatus_Compiling =>
    (some (createPlaceholder env s filename).1, false, u, (createPlaceholder env s filename).2)
  | AssetStatus.AssetStatus_Compiled =>
    if env.ExistsAfterStatus filename then (none, true, u, s)
    else (none, false, (evictPendingLoad s u name).1, (evictPendingLoad s u name).2)
  | _ => (none, false, (evictPendingLoad s u name).1, (evictPendingLoad s u name).2)

/-- The end of `LoadMaterialInternal` (lines 362-373): the default material stands in for a
missing one on request, the result is retained on request, and the handle leaves scope. -/
def finishLoad (s : CMatMan) (u : UniqueManualEvent) (pMtl : Option MatId)
    (bMakeIfNotFound bNonremovable : Bool) : Option MatId × CMatMan :=
  let pMtl1 := if pMtl.isNone && bMakeIfNotFound then s.m_pDefaultMtl else pMtl
  let s1 : CMatMan :=
    match pMtl1 with
    | some m => if bNonremovable then { s with m_nonRemovables := s.m_nonRemovables ++ [m] } else s
    | none => s
  (pMtl1, u.destroy s1)

/-- A default material of `InitDefaults` (lines 1009-1021 and alike): a new object with a name
and the shader item of a generic shader. -/
def makeDefaultMaterial (env : Env) (s : CMatMan) (name shader : String) : MatId × CMatMan :=
  let a := s.newMat {}
  let s1 := a.2.SetName a.1 name
  let sr0 : SInputShaderResources := { m_Opacity := 1, m_Diffuse := [1, 1, 1, 1] }
  let sr := sr0.setTextureName EEfResTextures.EFTT_DIFFUSE env.szReplaceMe
  let si0 := env.EF_LoadShaderItem shader true 0 sr 0
  let si : SShaderItem := { si0 with
    m_pShaderResources := si0.m_pShaderResources.map (fun r => { r with materialName := name }) }
  (a.1, s1.AssignShaderItem a.1 si)

/-- The object of the no-draw material of `InitDefaults` (lines 1047-1052): a new object with
the no-draw flag, the name `nodraw` and the no-draw shader. -/
def newNoDrawMaterial (env : Env) (s : CMatMan) : MatId × CMatMan :=
  let a := s.newMat {}
  let s1 := a.2.SetFlags a.1 env.MTL_FLAG_NODRAW
  let s2 := s1.SetName a.1 "nodraw"
  let si : SShaderItem := { m_pShader := env.EF_LoadShader "nodraw" 0 0 }
  (a.1, s2.AssignShaderItem a.1 si)

/-- The no-draw material of `InitDefaults` (lines 1045-1060): the new object is put into the
name map under its unified name, together with a pending-load record whose event is set. -/
def installNoDrawMaterial (env : Env) (s : CMatMan) : CMatMan :=
  let a := newNoDrawMaterial env s
  let unifiedName := UnifyName env (a.2.GetName a.1)
  let e := a.2.events.length
  let s4 : CMatMan := { a.2 with events := a.2.events ++ [{}] }
  let s5 := s4.setEvent e
  { s5 with
    m_pNoDrawMtl := some a.1
    m_mtlNameMap := mapAssign a.2.m_mtlNameMap unifiedName a.1
    m_pendingMaterialLoads := mapEmplace a.2.m_pendingMaterialLoads unifiedName (some e) }

/-- Whether the early return of lines 240-243 applies: a default material exists and the
console variable `e_StatObjPreload` is 2. -/
def preloadShortCut (env : Env) (s : CMatMan) : Bool :=
  s.m_pDefaultMtl.isSome && decide (env.e_StatObjPreload = 2)

/-- The owner's part of `LoadMaterialInternal` (lines 265-373), entered with control of the
event: file name, existence check, asset status, document, build, fall-back and retention.
`build` stands for the call of `MakeMaterialFromXml` (state, name, document). -/
def loadAsOwner
    (build : CMatMan → String → XmlNode → Except Fault (Option MatId × CMatMan))
    (env : Env) (s2 : CMatMan) (u : UniqueManualEvent) (name : String)
    (bMakeIfNotFound bNonremovable : Bool) : Except Fault (Option MatId × CMatMan) :=
  let filename := materialFileName name
  let sw : Option MatId × Bool × UniqueManualEvent × CMatMan :=
    if env.Exists filename then (none, true, u, s2)
    else assetStatusSwitch env s2 u name filename
  if sw.2.1 then
    match env.LoadXmlFromFile filename with
    | some mtlNode =>
      match build sw.2.2.2 name mtlNode with
      | .error e => .error e
      | .ok (some m, s3) =>
        .ok (finishLoad
          (if env.e_sketch_mode ≠ 0 then s3.SetSketchMode m env.e_sketch_mode else s3)
          sw.2.2.1 (some m) bMakeIfNotFound bNonremovable)
      | .ok (none, s3) => .ok (finishLoad s3 sw.2.2.1 none bMakeIfNotFound bNonremovable)
    | none =>
      .ok (finishLoad (evictPendingLoad sw.2.2.2 sw.2.2.1 name).2
        (evictPendingLoad sw.2.2.2 sw.2.2.1 name).1 sw.1 bMakeIfNotFound bNonremovable)
  else .ok (finishLoad sw.2.2.2 sw.2.2.1 sw.1 bMakeIfNotFound bNonremovable)

/-- `LoadMaterialInternal` after the defaults are there (lines 240-373): the early return, the
look into the cache, the waiter's returns and the owner's load. -/
def loadAfterInit
    (build : CMatMan → String → XmlNode → Except Fault (Option MatId × CMatMan))
    (env : Env) (s1 : CMatMan) (sMtlName : String) (bMakeIfNotFound bNonremovable : Bool) :
    Except Fault (Option MatId × CMatMan) :=
  if preloadShortCut env s1 then .ok (s1.m_pDefaultMtl, s1)
  else
    match CheckMaterialCache s1 (UnifyName env sMtlName) none with
    | .error e => .error e
    | .ok (u, pMtl, s2) =>
      if pMtl.isSome then .ok (pMtl, u.destroy s2)
      else if !u.HasControl then
        .ok (if bMakeIfNotFound then s2.m_pDefaultMtl else none, u.destroy s2)
      else loadAsOwner build env s2 u (UnifyName env sMtlName) bMakeIfNotFound bNonremovable

/-- The body of `InitDefaults` for a manager that is not initialised (lines 993-1078).  `load`
stands for the call `LoadMaterial("Materials/material_layers_default", false)`. -/
def initDefaultsBody (load : CMatMan → Except Fault (Option MatId × CMatMan))
    (env : Env) (s : CMatMan) : Except Fault CMatMan :=
  let s0 : CMatMan := { s with m_bInitialized := true }
  let s1 : CMatMan :=
    if s0.m_bLoadSurfaceTypesInInit then { s0 with surfaceTypesLoaded := true } else s0
  let s2 : CMatMan :=
    if s1.m_pDefaultMtl.isNone then
      { (makeDefaultMaterial env s1 "Default" "Illum").2 with
        m_pDefaultMtl := some (makeDefaultMaterial env s1 "Default" "Illum").1 }
    else s1
  let s3 : CMatMan :=
    if s2.m_pDefaultTerrainLayersMtl.isNone then
      { (makeDefaultMaterial env s2 "DefaultTerrainLayer" "Terrain.Layer").2 with
        m_pDefaultTerrainLayersMtl :=
          some (makeDefaultMaterial env s2 "DefaultTerrainLayer" "Terrain.Layer").1 }
    else s2
  match (if s3.m_pDefaultLayersMtl.isNone then
      (match load s3 with
        | .error e => Except.error e
        | .ok (m, t) => Except.ok { t with m_pDefaultLayersMtl := m })
    else Except.ok s3) with
  | .error e => .error e
  | .ok s4 =>
    let s5 : CMatMan := if s4.m_pNoDrawMtl.isNone then installNoDrawMaterial env s4 else s4
    let s6 : CMatMan :=
      if s5.m_pDefaultHelperMtl.isNone then
        { (makeDefaultMaterial env s5 "DefaultHelper" "Helper").2 with
          m_pDefaultHelperMtl := some (makeDefaultMaterial env s5 "DefaultHelper" "Helper").1 }
      else s5
    .ok s6

/-- The body of `MakeMaterialFromXml` (lines 425-641) over its two recursive calls. -/
def makeMaterialBody
    (build : String → XmlNode → Nat → MatId → CMatMan → Except Fault (Option MatId × CMatMan))
    (load : String → CMatMan → Except Fault (Option MatId × CMatMan))
    (env : Env) (s : CMatMan) (sMtlName : String) (node : XmlNode) (bForcePureChild : Bool)
    (sortPrio : Nat) (pExistingMtl : Option MatId) : Except Fault (Option MatId × CMatMan) :=
  let mtlFlags := mtlFlagsFromXml env node bForcePureChild
  let o := obtainMaterial env s sMtlName mtlFlags pExistingMtl
  let s1 := loadMaterialBody env o.2 o.1 sMtlName node mtlFlags sortPrio
  match loadSubMaterialsNode build load s1 o.1 node with
  | .error e => .error e
  | .ok s2 => .ok (some o.1, NotifyCreateMaterial s2 o.1)

mutual

/-- `CMatMan::LoadMaterialInternal` (lines 233-374), with fuel for the nested loads. -/
def LoadMaterialInternal : Nat → Env → CMatMan → String → Bool → Bool → Nat →
    Except Fault (Option MatId × CMatMan)
  | 0, _, _, _, _, _, _ => .error Fault.outOfFuel
  | n + 1, env, s, sMtlName, bMakeIfNotFound, bNonremovable, nLoadingFlags =>
    match (if s.m_bInitialized then Except.ok s else InitDefaults n env s) with
    | .error e => .error e
    | .ok s1 =>
      loadAfterInit
        (fun t name mtlNode => MakeMaterialFromXml n env t name mtlNode false 0 none nLoadingFlags none)
        env s1 sMtlName bMakeIfNotFound bNonremovable

/-- `CMatMan::InitDefaults` (lines 987-1079), with fuel for the load of the default layers
material. -/
def InitDefaults : Nat → Env → CMatMan → Except Fault CMatMan
  | 0, _, _ => .error Fault.outOfFuel
  | n + 1, env, s =>
    if s.m_bInitialized then .ok s
    else
      initDefaultsBody
        (fun t => LoadMaterialInternal n env t "Materials/material_layers_default" false false 0)
        env s

/-- `CMatMan::MakeMaterialFromXml` (lines 423-642), with fuel for the nested builds and loads. -/
def MakeMaterialFromXml : Nat → Env → CMatMan → String → XmlNode → Bool → Nat → Option MatId →
    Nat → Option MatId → Except Fault (Option MatId × CMatMan)
  | 0, _, _, _, _, _, _, _, _, _ => .error Fault.outOfFuel
  | n + 1, env, s, sMtlName, node, bForcePureChild, sortPrio, pExistingMtl, nLoadingFlags, _ =>
    makeMaterialBody
      (fun name child prio parent t =>
        MakeMaterialFromXml n env t name child true prio none nLoadingFlags (some parent))
      (fun name t => LoadMaterialInternal n env t name true false nLoadingFlags)
      env s sMtlName node bForcePureChild sortPrio pExistingMtl

end

/-- The first step of `LoadMaterialInternal` (lines 235-238): the defaults are initialised
when they are not yet. -/
def ensureDefaults (fuel : Nat) (env : Env) (s : CMatMan) : Except Fault CMatMan :=
  if s.m_bInitialized then Except.ok s else InitDefaults fuel env s

/-- `CMatMan::LoadMaterial` (lines 225-228). -/
def LoadMaterial (fuel : Nat) (env : Env) (s : CMatMan) (sMtlName : String)
    (bMakeIfNotFound bNonremovable : Bool) (nLoadingFlags : Nat) :
    Except Fault (Option MatId × CMatMan) :=
  LoadMaterialInternal fuel env s sMtlName bMakeIfNotFound bNonremovable nLoadingFlags

/-- `CMatMan::LoadMaterialFromXml` (lines 1147-1169). -/
def LoadMaterialFromXml (fuel : Nat) (env : Env) (s : CMatMan) (sMtlName : String)
    (mtlNode : XmlNode) : Except Fault (Option MatId × CMatMan) :=
  let name := UnifyName env sMtlName
  match mapFind s.m_mtlNameMap name with
  | some pMtl => MakeMaterialFromXml fuel env s name mtlNode false 0 (some pMtl) 0 none
  | none => MakeMaterialFromXml fuel env s name mtlNode false 0 none 0 none

/-! ## The writer: `SaveMaterial` -/

/-- `XmlNode::setAttr(key, value)`: the value of an attribute that exists is replaced, a new
attribute goes to the end of the attributes. -/
def XmlNode.setAttr (n : XmlNode) (key value : String) : XmlNode :=
  .mk n.tag
    (if (mapFind n.attrs key).isSome then
      n.attrs.map (fun kv => if kv.1 = key then (kv.1, value) else kv)
    else n.attrs ++ [(key, value)])
    n.children

/-- `XmlNode::newChild(tag)` together with the writes to the new child: the finished child
goes to the end of the children. -/
def XmlNode.addChild (n child : XmlNode) : XmlNode :=
  .mk n.tag n.attrs (n.children ++ [child])

/-- The decimal digits of a number in front of the digits collected so far; the fuel bounds
the number of digits. -/
def decimalDigits : Nat → Nat → List Char → List Char
  | 0, _, acc => acc
  | fuel + 1, n, acc =>
    if n < 10 then Char.ofNat (48 + n) :: acc
    else decimalDigits fuel (n / 10) (Char.ofNat (48 + n % 10) :: acc)

/-- The decimal text of a number below `10 ^ 20`. -/
def decimal (n : Nat) : String :=
  String.mk (decimalDigits 20 n [])

/-- The text that `setAttr(key, int)` writes: the 32-bit pattern read as a signed number, in
decimal. -/
def intText (v : Nat) : String :=
  if v % 2 ^ 32 < 2 ^ 31 then decimal (v % 2 ^ 32) else "-" ++ decimal (2 ^ 32 - v % 2 ^ 32)

/-- The text that `setAttr(key, uint64)` writes, in the format that `getAttrUInt64` reads. -/
def uint64Text (v : Nat) : String :=
  decimal (v % 2 ^ 64)

/-- Modelled from the spec: the constructor of `SInputShaderResources` from render resources
(the renderer headers are missing); the input parameters that the resources were made from,
and empty parameters for a null pointer. -/
def inputResourcesOf (r : Option IRenderShaderResources) : SInputShaderResources :=
  match r with
  | some x => x.input
  | none => {}

/-- Modelled from the spec: `CMatInfo::GetShaderItem(int nSubMtlSlot)` (Material.cpp is
missing).  A material that is no multi-sub-material, or has no slots, gives its own shader
item; a multi-sub-material gives the item of the sub-material in the slot, and that of the
default material for an empty slot. -/
def CMatMan.GetShaderItemAt (env : Env) (s : CMatMan) (m : MatId) (nSubMtlSlot : Nat) :
    SShaderItem :=
  if (s.mat m).m_subMtls.isEmpty || decide ((s.mat m).m_Flags &&& env.MTL_FLAG_MULTI_SUBMTL = 0) then
    (s.mat m).m_shaderItem
  else
    match (s.mat m).m_subMtls.getD nSubMtlSlot none with
    | some c => (s.mat c).m_shaderItem
    | none =>
      match s.m_pDefaultMtl with
      | some d => (s.mat d).m_shaderItem
      | none => {}

/-- Modelled from the spec: `CMatInfo::GetSurfaceType` (Material.cpp is missing), as the name
of the surface type. -/
def CMatMan.GetSurfaceType (s : CMatMan) (m : MatId) : Option String :=
  (s.mat m).m_pSurfaceType

/-- Modelled from the spec: `CMatInfo::GetMaterialLinkName` (Material.cpp is missing). -/
def CMatMan.GetMaterialLinkName (s : CMatMan) (m : MatId) : String :=
  (s.mat m).m_sMaterialLinkName

/-- The shader of a layer slot that holds a shader with a non-empty name (the test of lines
1257 and 1271). -/
def layerShader (layer : Option CMaterialLayer) : Option IShader :=
  match layer with
  | some l =>
    match l.m_pShaderItem.m_pShader with
    | some sh => if sh.name ≠ "" then some sh else none
    | none => none
  | none => none

/-- The `Layer` node of one slot (lines 1268-1284): the node is made for every slot, and gets
its attributes and its public parameters only when the slot holds a named shader. -/
def saveLayerNode (env : Env) (layer : Option CMaterialLayer) : XmlNode :=
  match layerShader layer, layer with
  | some sh, some l =>
    let n1 := (XmlNode.mk "Layer" [] []).setAttr "Name" sh.name
    let n2 := n1.setAttr "NoDraw" (intText (sh.flags &&& env.MTL_LAYER_USAGE_NODRAW))
    let n3 := n2.setAttr "FadeOut" (intText (sh.flags &&& env.MTL_LAYER_USAGE_FADEOUT))
    let shaderRes := inputResourcesOf l.m_pShaderItem.m_pShaderResources
    if shaderRes.m_ShaderParams ≠ [] then
      n3.addChild (env.SetXmlFromShaderParams shaderRes (.mk "PublicParams" [] []))
    else n3
  | _, _ => .mk "Layer" [] []

/-- The material layers part of `SaveMaterial` (lines 1253-1286): the `MaterialLayers` node,
when some slot holds a named shader. -/
def saveMaterialLayers (env : Env) (s : CMatMan) (pMtl : MatId) : Option XmlNode :=
  if (List.range env.MTL_LAYER_MAX_SLOTS).any (fun l => (layerShader (s.GetLayer pMtl l)).isSome) then
    some (.mk "MaterialLayers" []
      ((List.range env.MTL_LAYER_MAX_SLOTS).map (fun l => saveLayerNode env (s.GetLayer pMtl l))))
  else none

/-- The first part of `SaveMaterial` (lines 1175-1207): flags, shader, generation mask, surface
type, lighting, textures, link name and vertex deform.  The shader pointer of a material that
is no multi-sub-material is used without a test. -/
def saveHead (env : Env) (s : CMatMan) (node : XmlNode) (pMtl : MatId) : Except Fault XmlNode :=
  let node1 := node.setAttr "MtlFlags" (intText (s.GetFlags pMtl))
  let si := s.GetShaderItemAt env pMtl 0
  let res := inputResourcesOf si.m_pShaderResources
  let r2 : Except Fault XmlNode :=
    if s.GetFlags pMtl &&& env.MTL_FLAG_MULTI_SUBMTL = 0 then
      match si.m_pShader with
      | none => .error Fault.nullShader
      | some sh =>
        .ok (env.SetXmlFromTextures res (env.SetXmlFromLighting res
          (((node1.setAttr "Shader" sh.name).setAttr "GenMask"
            (uint64Text sh.generationMask)).setAttr "SurfaceType"
              ((s.GetSurfaceType pMtl).getD ""))))
    else .ok node1
  match r2 with
  | .error e => .error e
  | .ok node2 =>
    .ok (env.SetXmlFromVertexDeform res
      (if s.GetMaterialLinkName pMtl ≠ "" then
        node2.addChild ((XmlNode.mk "MaterialLinkName" [] []).setAttr "name"
          (s.GetMaterialLinkName pMtl))
      else node2))

/-- The nodes that the last part of `SaveMaterial` adds (lines 1240-1286): the public
parameters and the material layers. -/
def saveTailNodes (env : Env) (s : CMatMan) (pMtl : MatId) : List XmlNode :=
  (if (inputResourcesOf (s.GetShaderItemAt env pMtl 0).m_pShaderResources).m_ShaderParams ≠ [] then
    [env.SetXmlFromShaderParams
      (inputResourcesOf (s.GetShaderItemAt env pMtl 0).m_pShaderResources)
      (.mk "PublicParams" [] [])]
  else []) ++
  (match saveMaterialLayers env s pMtl with
    | some n => [n]
    | none => [])

/-- The loop over the sub-material slots (lines 1213-1230): a pure-child sub-material becomes a
`Material` node with its name and its own saved descriptor, any other slot a `MaterialRef`
node, with the name of the sub-material when the slot is not empty.  `save` stands for the
recursive call of `SaveMaterial`. -/
def saveSubMaterials (save : XmlNode → MatId → Except Fault (Bool × XmlNode)) (env : Env)
    (s : CMatMan) : List (Option MatId) → Except Fault (List XmlNode)
  | [] => .ok []
  | some c :: rest =>
    if s.GetFlags c &&& env.MTL_FLAG_PURE_CHILD ≠ 0 then
      match save ((XmlNode.mk "Material" [] []).setAttr "Name" (s.GetName c)) c with
      | .error e => .error e
      | .ok d =>
        match saveSubMaterials save env s rest with
        | .error e => .error e
        | .ok ds => .ok (d.2 :: ds)
    else
      match saveSubMaterials save env s rest with
      | .error e => .error e
      | .ok ds => .ok ((XmlNode.mk "MaterialRef" [] []).setAttr "Name" (s.GetName c) :: ds)
  | none :: rest =>
    match saveSubMaterials save env s rest with
    | .error e => .error e
    | .ok ds => .ok (XmlNode.mk "MaterialRef" [] [] :: ds)

/-- `CMatMan::SaveMaterial` (lines 1172-1288), with fuel for the nested pure-child
sub-materials: the result flag and the node as it is after the call. -/
def SaveMaterial : Nat → Env → CMatMan → XmlNode → MatId → Except Fault (Bool × XmlNode)
  | 0, _, _, _, _ => .error Fault.outOfFuel
  | n + 1, env, s, node, pMtl =>
    match saveHead env s node pMtl with
    | .error e => .error e
    | .ok node4 =>
      match (if 0 < s.GetSubMtlCount pMtl then
          (match saveSubMaterials (fun nd c => SaveMaterial n env s nd c) env s
              (s.mat pMtl).m_subMtls with
            | .error e => Except.error e
            | .ok kids => Except.ok (node4.addChild (.mk "SubMaterials" [] kids)))
        else Except.ok node4) with
      | .error e => .error e
      | .ok node5 =>
        .ok (true, .mk node5.tag node5.attrs (node5.children ++ saveTailNodes env s pMtl))

/-! ## Notions used in the statements -/

/-- Number of entries stored under a key. -/
def mapCount {α : Type} (m : List (String × α)) (k : String) : Nat :=
  (m.filter (fun p => decide (p.1 = k))).length

/-- The second state differs from the first in the contents of material objects only: every
other member is the same and no object was allocated. -/
def SameRegistry (s t : CMatMan) : Prop :=
  t = { s with materials := t.materials } ∧ t.materials.length = s.materials.length

/-- The second state keeps the events of the first as they are (new events come behind them),
stays initialised, keeps every material index allocated and keeps a default material. -/
structure Grows (s t : CMatMan) : Prop where
  events : s.events <+: t.events
  initialized : s.m_bInitialized = true → t.m_bInitialized = true
  materials : s.materials.length ≤ t.materials.length
  defaultMtl : ∀ m, s.m_pDefaultMtl = some m → t.m_pDefaultMtl = some m

/-- What the owner's part of the load keeps, relative to a list of events that lies before the
owner's own event. -/
structure GrowsFrom (l : List ManualResetEvent) (s t : CMatMan) : Prop where
  events : l <+: t.events
  initialized : s.m_bInitialized = true → t.m_bInitialized = true
  materials : s.materials.length ≤ t.materials.length
  defaultMtl : ∀ m, s.m_pDefaultMtl = some m → t.m_pDefaultMtl = some m

/-- The state in which the owner of a load starts: the new event is in the store and the
record of the name is in the pending-load table (lines 395-397). -/
def ownerState (s1 : CMatMan) (name : String) : CMatMan :=
  { s1 with
    events := s1.events ++ [{}]
    m_pendingMaterialLoads := (name, some s1.events.length) :: s1.m_pendingMaterialLoads }

/-- The handle of the owner of a load started in state `s1`. -/
def ownerHandle (s1 : CMatMan) : UniqueManualEvent :=
  ⟨some s1.events.length, true⟩

/-- A load that ends in a terminal failure (lines 312-334 and 353-359): the file is absent and
the asset status is unknown, missing or failed, or compiled with the file still absent; or the
file is there (at once, or after a compiled status) and the document does not parse. -/
def terminalFailure (env : Env) (filename : String) : Prop :=
  (env.Exists filename = false ∧
    (env.GetAssetStatus filename = AssetStatus.AssetStatus_Unknown ∨
      env.GetAssetStatus filename = AssetStatus.AssetStatus_Missing ∨
      env.GetAssetStatus filename = AssetStatus.AssetStatus_Failed ∨
      (env.GetAssetStatus filename = AssetStatus.AssetStatus_Compiled ∧
        env.ExistsAfterStatus filename = false))) ∨
  ((env.Exists filename = true ∨
      (env.GetAssetStatus filename = AssetStatus.AssetStatus_Compiled ∧
        env.ExistsAfterStatus filename = true)) ∧
    env.LoadXmlFromFile filename = none)

/-- The descriptor file is found (line 282, or line 315 after a compiled status). -/
def fileFound (env : Env) (filename : String) : Prop :=
  env.Exists filename = true ∨
    (env.GetAssetStatus filename = AssetStatus.AssetStatus_Compiled ∧
      env.ExistsAfterStatus filename = true)

/-! ## An environment for the examples -/

/-- A stand-in for `MaterialUtils::UnifyMaterialName` in the examples: the name up to its
first dot. -/
def demoUnify (s : String) : String :=
  String.mk (s.data.takeWhile (fun c => decide (c ≠ '.')))

/-- The document of the material `a` in the examples: an inline sub-material `x` and a
reference to the material `q`. -/
def demoDocument : XmlNode :=
  .mk "Material" [("MtlFlags", "256")]
    [.mk "SubMaterials" []
      [.mk "Material" [("Name", "x"), ("Shader", "Illum")] [],
       .mk "MaterialRef" [("Name", "q")] []]]

/-- The environment of the examples.  The file `a.mtl` exists and parses, the file `bad.mtl`
exists and does not parse, the asset `q.mtl` is queued, everything else is unknown. -/
def demoEnv : Env where
  MTL_FLAG_PURE_CHILD := 0x80
  MTL_FLAG_MULTI_SUBMTL := 0x100
  MTL_FLAG_NODRAW := 0x400
  MTL_FLAG_NON_REMOVABLE := 0x10000
  MTL_64BIT_SHADERGENMASK := 0x80000
  MTL_FLAGS_SAVE_MASK := 0x80133
  MTL_LAYER_MAX_SLOTS := 3
  MTL_LAYER_USAGE_NODRAW := 1
  MTL_LAYER_USAGE_FADEOUT := 2
  MTL_LAYER_FROZEN := 1
  EF_NOTFOUND := 0x8000
  UnifyMaterialName := demoUnify
  e_StatObjPreload := 0
  e_sketch_mode := 0
  Exists := fun f => decide (f = "a.mtl" ∨ f = "bad.mtl")
  ExistsAfterStatus := fun _ => false
  GetAssetStatus := fun f =>
    if f = "q.mtl" then AssetStatus.AssetStatus_Queued else AssetStatus.AssetStatus_Unknown
  LoadXmlFromFile := fun f => if f = "a.mtl" then some demoDocument else none
  EF_LoadShaderItem := fun n _ _ sr _ => ⟨some ⟨n, 0, 0, none⟩, some { input := sr }⟩
  EF_LoadShader := fun n _ m => some ⟨n, 0, m, none⟩
  EF_GetRemapedShaderMaskGen := fun _ m _ => m
  EF_GetShaderGlobalMaskGenFromString := fun _ _ m => m
  GetSurfaceTypeByName := fun n => if n = "" then none else some n
  SetLightingFromXml := fun sr _ => sr
  SetTexturesFromXml := fun sr _ => sr
  MigrateXmlLegacyData := fun sr _ => sr
  SetVertexDeformFromXml := fun sr _ => sr
  SetXmlFromLighting := fun _ n => n
  SetXmlFromTextures := fun _ n => n
  SetXmlFromVertexDeform := fun _ n => n
  SetXmlFromShaderParams := fun sr n =>
    .mk n.tag (n.attrs ++ sr.m_ShaderParams.map (fun p => (p.m_Name, p.valueText))) n.children
  szReplaceMe := "EngineAssets/TextureMsg/ReplaceMe.tif"

/-- The environment of the examples with the console variable `e_StatObjPreload` at 2. -/
def preloadEnv : Env :=
  { demoEnv with e_StatObjPreload := 2 }

/-- An initialised manager that holds its default material and nothing else. -/
def demoState : CMatMan :=
  { m_bInitialized := true
    m_pDefaultMtl := some 0
    materials := [{ m_sMaterialName := "Default" }] }

/-- An initialised manager after a completed load of the material `a`: the material is in the
name map and its record, with the event set, is in the pending-load table. -/
def loadedState : CMatMan :=
  { m_bInitialized := true
    m_pDefaultMtl := some 0
    m_mtlNameMap := [("a", 1)]
    m_pendingMaterialLoads := [("a", some 0)]
    materials := [{ m_sMaterialName := "Default" }, { m_sMaterialName := "a" }]
    events := [⟨true, 1⟩] }

/-- The environment with another file system, asset system and document loader. -/
def withFileSystem (env : Env) (ex ex2 : String → Bool) (st : String → AssetStatus)
    (ld : String → Option XmlNode) : Env :=
  { env with Exists := ex, ExistsAfterStatus := ex2, GetAssetStatus := st, LoadXmlFromFile := ld }

/-- What the theorems on registration assume of `MaterialUtils::UnifyMaterialName`, which is
not among the sources: unifying a unified name gives it back, and so does unifying the file
name that `LoadMaterialInternal` makes of it (the extension `.mtl` is cut off again). -/
structure UnifyLaws (env : Env) : Prop where
  idem : ∀ x, env.UnifyMaterialName (env.UnifyMaterialName x) = env.UnifyMaterialName x
  file : ∀ x, env.UnifyMaterialName (materialFileName (env.UnifyMaterialName x)) =
    env.UnifyMaterialName x

/-- What a load or a build on an initialised manager does to the two tables, apart from the
key `x` that the step itself may register: records stay as they are, and the entry of a name
changes neither when the name had a record before nor when it has none afterwards. -/
structure Frames (x : Option String) (s t : CMatMan) : Prop where
  records : ∀ k v, mapFind s.m_pendingMaterialLoads k = some v →
    mapFind t.m_pendingMaterialLoads k = some v
  recorded : ∀ k, x ≠ some k → mapFind s.m_pendingMaterialLoads k ≠ none →
    mapFind t.m_mtlNameMap k = mapFind s.m_mtlNameMap k
  unrecorded : ∀ k, x ≠ some k → mapFind t.m_pendingMaterialLoads k = none →
    mapFind t.m_mtlNameMap k = mapFind s.m_mtlNameMap k

/-- What any load, also one that initialises the defaults first, does to the two tables:
records stay as they are, and the entry of a name that has no record afterwards is the one it
had before. -/
structure FramesInit (s t : CMatMan) : Prop where
  records : ∀ k v, mapFind s.m_pendingMaterialLoads k = some v →
    mapFind t.m_pendingMaterialLoads k = some v
  unrecorded : ∀ k, mapFind t.m_pendingMaterialLoads k = none →
    mapFind t.m_mtlNameMap k = mapFind s.m_mtlNameMap k

/-- No registered material carries the pure-child flag: every value of the name map is an
allocated object whose flags lack the pure-child bit. -/
def NoPureChildRegistered (env : Env) (s : CMatMan) : Prop :=
  ∀ k m, mapFind s.m_mtlNameMap k = some m →
    m < s.materials.length ∧ (s.mat m).m_Flags &&& env.MTL_FLAG_PURE_CHILD = 0

/-- What the theorems on the pure-child flag assume of the flag constants of IMaterial.h, which
is not among the sources: the flags that are saved and loaded, the marker of the 64-bit
generation mask and the no-draw flag do not contain the pure-child bit. -/
structure FlagLaws (env : Env) : Prop where
  save : env.MTL_FLAGS_SAVE_MASK &&& env.MTL_FLAG_PURE_CHILD = 0
  gen : env.MTL_64BIT_SHADERGENMASK &&& env.MTL_FLAG_PURE_CHILD = 0
  nodraw : env.MTL_FLAG_NODRAW &&& env.MTL_FLAG_PURE_CHILD = 0

/-- A step that changes the contents of the one material object `x` and nothing else, and
leaves the name, the flags and the sub-material slots of `x` as they are. -/
structure Touches (x : MatId) (s t : CMatMan) : Prop where
  same : SameRegistry s t
  others : ∀ m, m ≠ x → t.mat m = s.mat m
  name : (t.mat x).m_sMaterialName = (s.mat x).m_sMaterialName
  flags : (t.mat x).m_Flags = (s.mat x).m_Flags
  subMtls : (t.mat x).m_subMtls = (s.mat x).m_subMtls

/-- The states that a manager reaches from its construction through `CreateMaterial`,
`Unregister`, `RenameMaterial` of a material without the pure-child flag, `LoadMaterialInternal`,
`InitDefaults`, `LoadMaterialFromXml`, and the builder `MakeMaterialFromXml` called for a new
material or, without forcing a pure child, for an existing one. -/
inductive Reachable (env : Env) : CMatMan → Prop where
  | start : Reachable env CMatMan.new
  | create (s : CMatMan) (name : String) (flags : Nat) :
    Reachable env s → Reachable env (CreateMaterial env s name flags).2
  | unregister (s : CMatMan) (m : MatId) (notify : Bool) :
    Reachable env s → Reachable env (Unregister env s m notify).2
  | rename (s : CMatMan) (m : MatId) (newName : String) :
    Reachable env s → m < s.materials.length →
    (s.mat m).m_Flags &&& env.MTL_FLAG_PURE_CHILD = 0 →
    Reachable env (RenameMaterial env s m newName)
  | load (s : CMatMan) (fuel : Nat) (name : String) (mk nr : Bool) (lf : Nat) (r : Option MatId)
    (t : CMatMan) :
    Reachable env s → LoadMaterialInternal fuel env s name mk nr lf = .ok (r, t) →
    Reachable env t
  | init (s : CMatMan) (fuel : Nat) (t : CMatMan) :
    Reachable env s → InitDefaults fuel env s = .ok t → Reachable env t
  | loadXml (s : CMatMan) (fuel : Nat) (name : String) (node : XmlNode) (r : Option MatId)
    (t : CMatMan) :
    Reachable env s → LoadMaterialFromXml fuel env s name node = .ok (r, t) → Reachable env t
  | build (s : CMatMan) (fuel : Nat) (name : String) (node : XmlNode) (force : Bool)
    (prio : Nat) (ex : Option MatId) (lf : Nat) (par : Option MatId) (r : Option MatId)
    (t : CMatMan) :
    Reachable env s → (ex = none ∨ force = false) →
    MakeMaterialFromXml fuel env s name node force prio ex lf par = .ok (r, t) →
    Reachable env t

/-- A property of the manager state that depends on the name map and the material objects
only and that every step of a load, of the initialisation of the defaults and of a build
keeps; `Cond` says for which builds (forced pure child, existing material) this is asked. -/
structure StepClosed (env : Env) (Cond : Bool → Option MatId → Prop) (P : CMatMan → Prop) :
    Prop where
  core : ∀ u v : CMatMan, v.m_mtlNameMap = u.m_mtlNameMap → v.materials = u.materials →
    P u → P v
  placeholder : ∀ u f, P u → P (createPlaceholder env u f).2
  sketch : ∀ s : CMatMan, P s → ∀ u i, P u → P (u.SetSketchMode s.materials.length i)
  defaultMat : ∀ u name shader, P u → P (makeDefaultMaterial env u name shader).2
  noDraw : ∀ u, P u → P (installNoDrawMaterial env u)
  body : ∀ u name node b prio ex, Cond b ex → P u →
    P (loadMaterialBody env (obtainMaterial env u name (mtlFlagsFromXml env node b) ex).2
      (obtainMaterial env u name (mtlFlagsFromXml env node b) ex).1 name node
      (mtlFlagsFromXml env node b) prio)
  slots : ∀ s name flags b ex, Cond b ex → P s → ∀ u, P u →
    (∀ n, P (u.SetSubMtlCount (obtainMaterial env s name flags ex).1 n)) ∧
    (∀ i c, P (u.SetSubMtl (obtainMaterial env s name flags ex).1 i c))

/-- The manager of the examples after the first load of `a.mtl` on a new manager: the defaults
are initialised and the material `a` is built with its two sub-materials. -/
def demoLoaded : CMatMan :=
  match LoadMaterialInternal 4 demoEnv CMatMan.new "a.mtl" false false 0 with
  | .ok r => r.2
  | .error _ => CMatMan.new

/-- A pending-load record whose event exists and is set. -/
def Signaled (s : CMatMan) (r : Option EventId) : Prop :=
  ∃ e, r = some e ∧ (s.event e).m_flag = true

/-- Every pending-load record is signaled, apart from the records of the names in `X` (the
names whose load is under way). -/
def RecordsSet (X : List String) (s : CMatMan) : Prop :=
  ∀ k r, mapFind s.m_pendingMaterialLoads k = some r → k ∈ X ∨ Signaled s r

/-- What a load, an initialisation of the defaults or a build does to the pending-load table
and the events: the events that exist stay as they are, records stay, records that were
signaled stay signaled and new records are signaled on return; an initialised manager stays
initialised and keeps its no-draw material. -/
structure Settles (s t : CMatMan) : Prop where
  events : s.events <+: t.events
  persist : ∀ k r, mapFind s.m_pendingMaterialLoads k = some r →
    mapFind t.m_pendingMaterialLoads k = some r
  set : ∀ X, RecordsSet X s → RecordsSet X t
  initialized : s.m_bInitialized = true → t.m_bInitialized = true
  noDraw : s.m_bInitialized = true → t.m_pNoDrawMtl = s.m_pNoDrawMtl

/-- What an initialisation of the defaults does to the pending-load table and the events: the
events that exist stay as they are, records stay, and records that were signaled stay
signaled and new records are signaled on return. -/
structure SettlesInit (s t : CMatMan) : Prop where
  events : s.events <+: t.events
  persist : ∀ k r, mapFind s.m_pendingMaterialLoads k = some r →
    mapFind t.m_pendingMaterialLoads k = some r
  set : ∀ X, RecordsSet X s → RecordsSet X t

/-- The state in which `InitDefaults` loads the default layers material (lines 993-1037): the
manager is marked initialised, the surface types are loaded on request, and the default
material and the default terrain layer material exist. -/
def initDefaultsHead (env : Env) (s : CMatMan) : CMatMan :=
  let s0 : CMatMan := { s with m_bInitialized := true }
  let s1 : CMatMan :=
    if s0.m_bLoadSurfaceTypesInInit then { s0 with surfaceTypesLoaded := true } else s0
  let s2 : CMatMan :=
    if s1.m_pDefaultMtl.isNone then
      { (makeDefaultMaterial env s1 "Default" "Illum").2 with
        m_pDefaultMtl := some (makeDefaultMaterial env s1 "Default" "Illum").1 }
    else s1
  if s2.m_pDefaultTerrainLayersMtl.isNone then
    { (makeDefaultMaterial env s2 "DefaultTerrainLayer" "Terrain.Layer").2 with
      m_pDefaultTerrainLayersMtl :=
        some (makeDefaultMaterial env s2 "DefaultTerrainLayer" "Terrain.Layer").1 }
  else s2

/-- The end of `InitDefaults` after the default layers material (lines 1045-1076): the no-draw
material and the default helper material are made when they do not exist. -/
def initDefaultsTail (env : Env) (s4 : CMatMan) : CMatMan :=
  let s5 : CMatMan := if s4.m_pNoDrawMtl.isNone then installNoDrawMaterial env s4 else s4
  if s5.m_pDefaultHelperMtl.isNone then
    { (makeDefaultMaterial env s5 "DefaultHelper" "Helper").2 with
      m_pDefaultHelperMtl := some (makeDefaultMaterial env s5 "DefaultHelper" "Helper").1 }
  else s5

mutual

/-- Equality of two nodes is decidable. -/
def XmlNode.decEq : (a b : XmlNode) → Decidable (a = b)
  | .mk t a c, .mk t2 a2 c2 =>
    if ht : t = t2 then
      if ha : a = a2 then
        match XmlNode.decEqList c c2 with
        | isTrue hc => isTrue (by rw [ht, ha, hc])
        | isFalse hc => isFalse (fun h => by cases h; exact hc rfl)
      else isFalse (fun h => by cases h; exact ha rfl)
    else isFalse (fun h => by cases h; exact ht rfl)

/-- Equality of two lists of nodes is decidable. -/
def XmlNode.decEqList : (a b : List XmlNode) → Decidable (a = b)
  | [], [] => isTrue rfl
  | x :: xs, y :: ys =>
    match XmlNode.decEq x y with
    | isTrue h1 =>
      match XmlNode.decEqList xs ys with
      | isTrue h2 => isTrue (by rw [h1, h2])
      | isFalse h2 => isFalse (fun h => by cases h; exact h2 rfl)
    | isFalse h1 => isFalse (fun h => by cases h; exact h1 rfl)
  | [], _ :: _ => isFalse (fun h => by cases h)
  | _ :: _, [] => isFalse (fun h => by cases h)

end

/-- Equality of nodes is decidable. -/
instance instDecidableEqXmlNode : DecidableEq XmlNode :=
  XmlNode.decEq

/-- A material that `SaveMaterial` writes with the given fuel without a fault: it is a
multi-sub-material or has a shader to name, and so have, with one unit of fuel less, the
pure-child materials in its sub-material slots. -/
def Savable (env : Env) (s : CMatMan) : Nat → MatId → Prop
  | 0, _ => False
  | n + 1, m =>
    (s.GetFlags m &&& env.MTL_FLAG_MULTI_SUBMTL ≠ 0 ∨
      (s.GetShaderItemAt env m 0).m_pShader ≠ none) ∧
    ∀ c, some c ∈ (s.mat m).m_subMtls → s.GetFlags c &&& env.MTL_FLAG_PURE_CHILD ≠ 0 →
      Savable env s n c

/-- A descriptor with two layer nodes: the first has no public parameters, so that its slot
stays empty, the second is the layer `Frozen`. -/
def layDesc : XmlNode :=
  .mk "Material" [("Shader", "Illum")]
    [.mk "MaterialLayers" []
      [.mk "Layer" [] [],
       .mk "Layer" [("Name", "Frozen"), ("NoDraw", "1")] [.mk "PublicParams" [] []]]]

/-- The manager after the build of `layDesc` under the name `lay` on a new manager: object 0
has an empty layer slot 0 and the layer `Frozen` in slot 1. -/
def demoLayered : CMatMan :=
  match LoadMaterialFromXml 4 demoEnv CMatMan.new "lay" layDesc with
  | .ok r => r.2
  | .error _ => CMatMan.new

/-- What a nested load or build keeps of the material objects: every object that exists stays
allocated, and stays as it is unless it is the object `x`. -/
structure Keeps (x : Option MatId) (s t : CMatMan) : Prop where
  length : s.materials.length ≤ t.materials.length
  objects : ∀ m, m < s.materials.length → x ≠ some m → t.mat m = s.mat m

/-- One turn of the loop over the children of the `SubMaterials` node (lines 612-637): the
state after child `i` is handled. -/
def loadSubMaterial
    (build : String → XmlNode → Nat → MatId → CMatMan → Except Fault (Option MatId × CMatMan))
    (load : String → CMatMan → Except Fault (Option MatId × CMatMan))
    (pMtl nSubMtls : Nat) (mtlNode : XmlNode) (i : Nat) (s : CMatMan) : Except Fault CMatMan :=
  if mtlNode.isTag "Material" then
    match build (mtlNode.getAttr "Name") mtlNode ((nSubMtls - i - 1) % 65536) pMtl s with
    | .error e => .error e
    | .ok (some pChildMtl, s1) => .ok (s1.SetSubMtl pMtl i (some pChildMtl))
    | .ok (none, s1) => .ok (s1.SetSubMtl pMtl i s1.m_pDefaultMtl)
  else if mtlNode.getAttr "Name" ≠ "" then
    match load (mtlNode.getAttr "Name") s with
    | .error e => .error e
    | .ok (some pChildMtl, s1) => .ok (s1.SetSubMtl pMtl i (some pChildMtl))
    | .ok (none, s1) => .ok s1
  else .ok s

/-- The state in which `MakeMaterialFromXml` handles child `i` of the `SubMaterials` node
`subs` (lines 608-637): the part before the sub-materials is done, the slot count is set and
the loop has handled the children before `i`. -/
def stateBeforeChild (n : Nat) (env : Env) (s : CMatMan) (sMtlName : String) (node : XmlNode)
    (bForcePureChild : Bool) (sortPrio : Nat) (pExistingMtl : Option MatId) (nLoadingFlags : Nat)
    (subs : XmlNode) (i : Nat) : Except Fault CMatMan :=
  let mtlFlags := mtlFlagsFromXml env node bForcePureChild
  let o := obtainMaterial env s sMtlName mtlFlags pExistingMtl
  let s1 := loadMaterialBody env o.2 o.1 sMtlName node mtlFlags sortPrio
  loadSubMaterials
    (fun name child prio parent t =>
      MakeMaterialFromXml n env t name child true prio none nLoadingFlags (some parent))
    (fun name t => LoadMaterialInternal n env t name true false nLoadingFlags)
    o.1 subs.children.length (subs.children.take i) 0
    (s1.SetSubMtlCount o.1 subs.children.length)

/-- A descriptor for the material `a` of the examples whose only sub-material child is a
reference without a name. -/
def reloadDesc : XmlNode :=
  .mk "Material" [("MtlFlags", "256")] [.mk "SubMaterials" [] [.mk "MaterialRef" [] []]]

/-- A descriptor whose sub-material children are inline children or references without a
name, down to the given depth of nesting: a build from it with that much fuel starts no load. -/
def InlineOnly : Nat → XmlNode → Prop
  | 0, _ => False
  | n + 1, node =>
    ∀ subs, node.findChild "SubMaterials" = some subs →
      ∀ c, c ∈ subs.children →
        (c.isTag "Material" = true → InlineOnly n c) ∧
        (c.isTag "Material" = false → c.getAttr "Name" = "")

/-- The layer that `LoadMaterialLayerSlot` puts into an empty slot (lines 674-785) for a
material with the shader item `base`, or nothing when the layer node has no public parameters,
names the shader `nodraw`, or the renderer finds no shader. -/
def layerFor (env : Env) (base : SShaderItem) (szShaderName : String)
    (pPublicsNode : Option XmlNode) (nLayerFlags : Nat) : Option CMaterialLayer :=
  match pPublicsNode with
  | none => none
  | some publics =>
    if stricmpEq szShaderName "nodraw" then none
    else
      match env.EF_LoadShader szShaderName 0 0 with
      | none => none
      | some pNewShader =>
        match env.EF_LoadShader szShaderName 0
          (layerGenMask
            ((match base.m_pShader with
              | some sh => sh.generationMask
              | none => 0) % 2 ^ 32)
            (match base.m_pShader with
              | some sh => sh.generationParams
              | none => none)
            pNewShader.generationParams) with
        | none => none
        | some pShader =>
          some { m_nFlags := nLayerFlags,
                 m_pShaderItem := ⟨some pShader,
                   base.m_pShaderResources.map (fun r => { r with input := { r.input with
                     m_ShaderParams := publics.attrs.map (fun kv => ⟨kv.1, kv.2⟩) } })⟩ }

/-- What the round-trip theorem assumes of the writers of `MaterialHelpers`, which are not
among the sources: `SetXmlFromLighting`, `SetXmlFromTextures` and `SetXmlFromVertexDeform`
leave the tag of the node and its attributes `Name`, `MtlFlags`, `Shader`, `GenMask` and
`SurfaceType` as they are. -/
structure WriterLaws (env : Env) : Prop where
  lighting : ∀ sr n, (env.SetXmlFromLighting sr n).tag = n.tag ∧
    ∀ k, k ∈ ["Name", "MtlFlags", "Shader", "GenMask", "SurfaceType"] →
      (env.SetXmlFromLighting sr n).getAttr k = n.getAttr k
  textures : ∀ sr n, (env.SetXmlFromTextures sr n).tag = n.tag ∧
    ∀ k, k ∈ ["Name", "MtlFlags", "Shader", "GenMask", "SurfaceType"] →
      (env.SetXmlFromTextures sr n).getAttr k = n.getAttr k
  vertexDeform : ∀ sr n, (env.SetXmlFromVertexDeform sr n).tag = n.tag ∧
    ∀ k, k ∈ ["Name", "MtlFlags", "Shader", "GenMask", "SurfaceType"] →
      (env.SetXmlFromVertexDeform sr n).getAttr k = n.getAttr k

/-- A descriptor with a shader, a surface type, an inline sub-material, a reference to the
material `q` and two layer nodes, the second with the attribute `NoDraw`. -/
def roundTripDesc : XmlNode :=
  .mk "Material" [("MtlFlags", "0"), ("Shader", "Illum"), ("SurfaceType", "mat_metal")]
    [.mk "SubMaterials" []
      [.mk "Material" [("Name", "x"), ("Shader", "Illum")] [],
       .mk "MaterialRef" [("Name", "q")] []],
     .mk "MaterialLayers" []
      [.mk "Layer" [("Name", "Frozen")] [.mk "PublicParams" [] []],
       .mk "Layer" [("Name", "Wet"), ("NoDraw", "1")] [.mk "PublicParams" [] []]]]

/-- The manager of the examples after the build of a new material `rt` from `roundTripDesc`
on the state after the load of `a.mtl`: the new material is object 7, its inline sub-material
object 8. -/
def demoRoundTrip : CMatMan :=
  match MakeMaterialFromXml 3 demoEnv demoLoaded "rt" roundTripDesc false 0 none 0 none with
  | .ok r => r.2
  | .error _ => CMatMan.new

/-- A descriptor with one layer node, which has `NoDraw` set and names the layer
`FrozenLayerWIP`. -/
def frozenDesc : XmlNode :=
  .mk "Material" [("Shader", "Illum")]
    [.mk "MaterialLayers" []
      [.mk "Layer" [("Name", "FrozenLayerWIP"), ("NoDraw", "1")] [.mk "PublicParams" [] []]]]

/-- The initialised manager of the examples after the build of a new material `m` from
`frozenDesc`: the new material is object 1. -/
def demoFrozen : CMatMan :=
  match MakeMaterialFromXml 1 demoEnv demoState "m" frozenDesc false 0 none 0 none with
  | .ok r => r.2
  | .error _ => CMatMan.new

/-- The generation mask of a layer shader in the words of the specification, to be compared
with `layerGenMask`: the union of the masks of the layer bits whose parameter name is not
empty and is the parameter name of some base bit that is active in the base mask `M`; zero
when either shader has no generation parameters. -/
def layerGenMaskSpec (M : Nat) (B L : Option (List SShaderGenBit)) : Nat :=
  match B, L with
  | some baseBits, some layerBits =>
    ((layerBits.filter (fun l =>
      decide (l.m_ParamName ≠ "") &&
        baseBits.any (fun b =>
          decide (M &&& b.m_Mask ≠ 0) && decide (b.m_ParamName = l.m_ParamName)))).map
      (fun l => l.m_Mask)).foldr (fun m acc => m ||| acc) 0
  | _, _ => 0

/-- The environment of the examples with a renderer whose shaders, as `EF_LoadShader` loads
them, have the one generation bit 1 for the parameter `A` and report the generation mask they
were loaded with. -/
def genEnv : Env :=
  { demoEnv with EF_LoadShader := fun n _ m => some ⟨n, 0, m, some [⟨1, "A"⟩]⟩ }

/-- A manager with one material, whose shader has the generation bit `2 ^ 32` for the
parameter `A`, active in its generation mask, and which has one empty layer slot. -/
def genState : CMatMan :=
  { materials :=
      [{ m_shaderItem := ⟨some ⟨"Base", 0, 2 ^ 32, some [⟨2 ^ 32, "A"⟩]⟩, some {}⟩
         m_pMaterialLayers := [none] }] }

mutual

/-- `LoadMaterialInternal` from its second step on (lines 240-373), with the nested builds and
loads likewise: the loader as it runs on a manager whose defaults are there.  It has no call
of `InitDefaults`. -/
def LoadMaterialNoInit : Nat → Env → CMatMan → String → Bool → Bool → Nat →
    Except Fault (Option MatId × CMatMan)
  | 0, _, _, _, _, _, _ => .error Fault.outOfFuel
  | n + 1, env, s, sMtlName, bMakeIfNotFound, bNonremovable, nLoadingFlags =>
    loadAfterInit
      (fun t name mtlNode => MakeMaterialNoInit n env t name mtlNode false 0 none nLoadingFlags none)
      env s sMtlName bMakeIfNotFound bNonremovable

/-- `MakeMaterialFromXml` (lines 423-642) with the loads of its referenced sub-materials taken
from their second step on: the builder as it runs on a manager whose defaults are there. -/
def MakeMaterialNoInit : Nat → Env → CMatMan → String → XmlNode → Bool → Nat → Option MatId →
    Nat → Option MatId → Except Fault (Option MatId × CMatMan)
  | 0, _, _, _, _, _, _, _, _, _ => .error Fault.outOfFuel
  | n + 1, env, s, sMtlName, node, bForcePureChild, sortPrio, pExistingMtl, nLoadingFlags, _ =>
    makeMaterialBody
      (fun name child prio parent t =>
        MakeMaterialNoInit n env t name child true prio none nLoadingFlags (some parent))
      (fun name t => LoadMaterialNoInit n env t name true false nLoadingFlags)
      env s sMtlName node bForcePureChild sortPrio pExistingMtl

end

/-- Modelled from the spec: `CMatInfo::Clone` (Material.cpp is missing), a new material object
with the contents of this one; it is not put into the name map. -/
def CMatMan.Clone (s : CMatMan) (m : MatId) : MatId × CMatMan :=
  s.newMat (s.mat m)

/-- One turn of the loop of `CloneMaterial` over the sub-material slots (lines 901-918): an
empty slot of the source is skipped; with `bCloneAllSubMtls` the slot gets a clone of the
sub-material, otherwise the sub-material itself and, when the test `i == nSubMtls` of line 913
holds, a clone of it. -/
def cloneSubMaterial (pSrcMtl pMultiMat : MatId) (bCloneAllSubMtls : Bool) (nSubMtls : Nat)
    (s : CMatMan) (i : Nat) : CMatMan :=
  match s.GetSubMtl pSrcMtl i with
  | none => s
  | some pChildSrcMtl =>
    if bCloneAllSubMtls then
      (s.Clone pChildSrcMtl).2.SetSubMtl pMultiMat i (some (s.Clone pChildSrcMtl).1)
    else
      let s1 := s.SetSubMtl pMultiMat i (some pChildSrcMtl)
      if i = nSubMtls then
        (s1.Clone pChildSrcMtl).2.SetSubMtl pMultiMat i (some (s1.Clone pChildSrcMtl).1)
      else s1

/-- `CMatMan::CloneMaterial` (lines 885-929): the new material and the state. -/
def CloneMaterial (env : Env) (s : CMatMan) (pSrcMtl : MatId) (nSubMtl : Int) :
    MatId × CMatMan :=
  if s.GetFlags pSrcMtl &&& env.MTL_FLAG_MULTI_SUBMTL ≠ 0 then
    let a := s.newMat {}
    let s1 := a.2.SetName a.1 (a.2.GetName pSrcMtl)
    let s2 := s1.SetFlags a.1 (s1.GetFlags a.1 ||| env.MTL_FLAG_MULTI_SUBMTL)
    let nSubMtls := s2.GetSubMtlCount pSrcMtl
    let s3 := s2.SetSubMtlCount a.1 nSubMtls
    (a.1, (List.range nSubMtls).foldl
      (cloneSubMaterial pSrcMtl a.1 (decide (nSubMtl < 0)) nSubMtls) s3)
  else s.Clone pSrcMtl

/-! # Theorems -/

/-! ## Facts about the maps -/

theorem mapFind_mapErase_self {α : Type} (m : List (String × α)) (k : String) :
    mapFind (mapErase m k) k = none := by
  induction m with
  | nil => rfl
  | cons p rest ih =>
    obtain ⟨a, b⟩ := p
    by_cases h : a = k
    · simp [mapErase, h, ih]
    · simp [mapErase, mapFind, h, ih]

theorem mapFind_mapErase_ne {α : Type} (m : List (String × α)) {k k2 : String} (h : k ≠ k2) :
    mapFind (mapErase m k) k2 = mapFind m k2 := by
  induction m with
  | nil => rfl
  | cons p rest ih =>
    obtain ⟨a, b⟩ := p
    by_cases h1 : a = k
    · have h2 : a ≠ k2 := by rw [h1]; exact h
      simp [mapErase, mapFind, h1, ih, h]
    · by_cases h2 : a = k2
      · subst h2
        simp [mapErase, mapFind, h1]
      · simp [mapErase, mapFind, h1, h2, ih]

theorem mapErase_of_find_none {α : Type} (m : List (String × α)) (k : String)
    (h : mapFind m k = none) : mapErase m k = m := by
  induction m with
  | nil => rfl
  | cons p rest ih =>
    obtain ⟨a, b⟩ := p
    by_cases h1 : a = k
    · simp [mapFind, h1] at h
    · simp [mapFind, h1] at h
      simp [mapErase, h1, ih h]

theorem mapFind_mapAssign_self {α : Type} (m : List (String × α)) (k : String) (v : α) :
    mapFind (mapAssign m k v) k = some v := by
  simp [mapAssign, mapFind]

theorem mapFind_mapAssign_ne {α : Type} (m : List (String × α)) {k k2 : String} (v : α)
    (h : k ≠ k2) : mapFind (mapAssign m k v) k2 = mapFind m k2 := by
  simp [mapAssign, mapFind, h, mapFind_mapErase_ne m h]

theorem mapEmplace_of_find_none {α : Type} (m : List (String × α)) (k : String) (v : α)
    (h : mapFind m k = none) : mapEmplace m k v = (k, v) :: m := by
  simp [mapEmplace, h]

theorem mapFind_mapEmplace_self {α : Type} (m : List (String × α)) (k : String) (v : α)
    (h : mapFind m k = none) : mapFind (mapEmplace m k v) k = some v := by
  simp [mapEmplace_of_find_none m k v h, mapFind]

theorem mapFind_mapEmplace_ne {α : Type} (m : List (String × α)) {k k2 : String} (v : α)
    (h : k ≠ k2) : mapFind (mapEmplace m k v) k2 = mapFind m k2 := by
  unfold mapEmplace
  cases mapFind m k with
  | none => simp [mapFind, h]
  | some _ => rfl

theorem mapCount_mapErase_self {α : Type} (m : List (String × α)) (k : String) :
    mapCount (mapErase m k) k = 0 := by
  induction m with
  | nil => rfl
  | cons p rest ih =>
    obtain ⟨a, b⟩ := p
    by_cases h : a = k
    · simpa [mapErase, h] using ih
    · simpa [mapErase, mapCount, h, List.filter_cons] using ih

theorem mapCount_mapErase_ne {α : Type} (m : List (String × α)) {k k2 : String} (h : k ≠ k2) :
    mapCount (mapErase m k) k2 = mapCount m k2 := by
  induction m with
  | nil => rfl
  | cons p rest ih =>
    obtain ⟨a, b⟩ := p
    by_cases h1 : a = k
    · have h2 : a ≠ k2 := by rw [h1]; exact h
      simpa [mapErase, mapCount, h1, List.filter_cons, h] using ih
    · by_cases h2 : a = k2
      · subst h2
        simpa [mapErase, mapCount, h1, List.filter_cons] using ih
      · simpa [mapErase, mapCount, h1, h2, List.filter_cons] using ih

theorem listSet_length {α : Type} (l : List α) (i : Nat) (a : α) :
    (listSet l i a).length = l.length := by
  induction l generalizing i with
  | nil => rfl
  | cons x xs ih =>
    cases i with
    | zero => rfl
    | succ n => simp [listSet, ih]

theorem listSet_getD_ne {α : Type} (l : List α) {i j : Nat} (a d : α) (h : i ≠ j) :
    (listSet l i a).getD j d = l.getD j d := by
  induction l generalizing i j with
  | nil => rfl
  | cons x xs ih =>
    cases i with
    | zero =>
      cases j with
      | zero => exact absurd rfl h
      | succ m => rfl
    | succ n =>
      cases j with
      | zero => rfl
      | succ m =>
        have h2 : n ≠ m := fun e => h (by rw [e])
        simpa [listSet] using ih (i := n) (j := m) h2

theorem listSet_getD_self {α : Type} (l : List α) {i : Nat} (a d : α) (h : i < l.length) :
    (listSet l i a).getD i d = a := by
  induction l generalizing i with
  | nil => simp at h
  | cons x xs ih =>
    cases i with
    | zero => rfl
    | succ n =>
      have h2 : n < xs.length := by simpa using h
      simpa [listSet] using ih (i := n) h2

theorem listSet_of_length_le {α : Type} (l : List α) {i : Nat} (a : α) (h : l.length ≤ i) :
    listSet l i a = l := by
  induction l generalizing i with
  | nil => rfl
  | cons x xs ih =>
    cases i with
    | zero => simp at h
    | succ n =>
      have h2 : xs.length ≤ n := by simpa using h
      simp [listSet, ih h2]

theorem listSet_append_right {α : Type} (l r : List α) {i : Nat} (a : α) (h : l.length ≤ i) :
    listSet (l ++ r) i a = l ++ listSet r (i - l.length) a := by
  induction l generalizing i with
  | nil => simp
  | cons x xs ih =>
    cases i with
    | zero => simp at h
    | succ n =>
      have h2 : xs.length ≤ n := by simpa using h
      simp [listSet, ih h2]

/-! ## Steps that change material objects only -/

theorem SameRegistry.same_refl (s : CMatMan) : SameRegistry s s :=
  ⟨rfl, rfl⟩

theorem SameRegistry.same_trans {s t u : CMatMan} (h1 : SameRegistry s t) (h2 : SameRegistry t u) :
    SameRegistry s u := by
  obtain ⟨e1, l1⟩ := h1
  obtain ⟨e2, l2⟩ := h2
  refine ⟨?_, by omega⟩
  cases s; cases t; cases u
  simp only [CMatMan.mk.injEq] at e1 e2 ⊢
  obtain ⟨a1, a2, a3, a4, a5, a6, a7, a8, a9, a10, a11, -, a13, a14, a15⟩ := e1
  obtain ⟨b1, b2, b3, b4, b5, b6, b7, b8, b9, b10, b11, -, b13, b14, b15⟩ := e2
  subst a1 a2 a3 a4 a5 a6 a7 a8 a9 a10 a11 a13 a14 a15
  subst b1 b2 b3 b4 b5 b6 b7 b8 b9 b10 b11 b13 b14 b15
  simp

theorem SameRegistry.map_eq {s t : CMatMan} (h : SameRegistry s t) :
    t.m_mtlNameMap = s.m_mtlNameMap := by
  rw [h.1]

theorem SameRegistry.pending_eq {s t : CMatMan} (h : SameRegistry s t) :
    t.m_pendingMaterialLoads = s.m_pendingMaterialLoads := by
  rw [h.1]

theorem SameRegistry.events_eq {s t : CMatMan} (h : SameRegistry s t) : t.events = s.events := by
  rw [h.1]

theorem SameRegistry.initialized_eq {s t : CMatMan} (h : SameRegistry s t) :
    t.m_bInitialized = s.m_bInitialized := by
  rw [h.1]

theorem SameRegistry.defaultMtl_eq {s t : CMatMan} (h : SameRegistry s t) :
    t.m_pDefaultMtl = s.m_pDefaultMtl := by
  rw [h.1]

theorem SameRegistry.nonRemovables_eq {s t : CMatMan} (h : SameRegistry s t) :
    t.m_nonRemovables = s.m_nonRemovables := by
  rw [h.1]

theorem SameRegistry.listener_eq {s t : CMatMan} (h : SameRegistry s t) :
    t.m_pListener = s.m_pListener := by
  rw [h.1]

theorem SameRegistry.event_eq {s t : CMatMan} (h : SameRegistry s t) (e : EventId) :
    t.event e = s.event e := by
  unfold CMatMan.event
  rw [h.events_eq]

theorem sameRegistry_updMat (s : CMatMan) (m : MatId) (f : CMatInfo → CMatInfo) :
    SameRegistry s (s.updMat m f) :=
  ⟨rfl, by simp [CMatMan.updMat, listSet_length]⟩

theorem sameRegistry_AssignShaderItem (s : CMatMan) (m : MatId) (si : SShaderItem) :
    SameRegistry s (s.AssignShaderItem m si) :=
  sameRegistry_updMat s _ _

theorem sameRegistry_SetLayer (s : CMatMan) (m : MatId) (slot : Nat) (layer : CMaterialLayer) :
    SameRegistry s (s.SetLayer m slot layer) :=
  sameRegistry_updMat s _ _

theorem sameRegistry_SetSubMtl (s : CMatMan) (m : MatId) (i : Nat) (c : Option MatId) :
    SameRegistry s (s.SetSubMtl m i c) :=
  sameRegistry_updMat s _ _

theorem sameRegistry_SetSubMtlCount (s : CMatMan) (m : MatId) (n : Nat) :
    SameRegistry s (s.SetSubMtlCount m n) :=
  sameRegistry_updMat s _ _

theorem sameRegistry_SetFlags (s : CMatMan) (m : MatId) (f : Nat) :
    SameRegistry s (s.SetFlags m f) :=
  sameRegistry_updMat s _ _

theorem sameRegistry_SetName (s : CMatMan) (m : MatId) (n : String) :
    SameRegistry s (s.SetName m n) :=
  sameRegistry_updMat s _ _

theorem sameRegistry_SetSketchMode (s : CMatMan) (m : MatId) (n : Int) :
    SameRegistry s (s.SetSketchMode m n) :=
  sameRegistry_updMat s _ _

theorem sameRegistry_LoadMaterialShader (env : Env) (s : CMatMan) (pMtl : MatId) (sShader : String)
    (gm : Nat) (sr : SInputShaderResources) (pn : Option XmlNode) :
    SameRegistry s (LoadMaterialShader env s pMtl sShader gm sr pn).2.2 := by
  unfold LoadMaterialShader
  dsimp only
  split
  · exact SameRegistry.same_refl s
  · exact sameRegistry_AssignShaderItem s _ _

theorem sameRegistry_LoadMaterialLayerSlot (env : Env) (s : CMatMan) (nSlot : Nat) (pMtl : MatId)
    (name : String) (sr : SInputShaderResources) (pn : Option XmlNode) (fl : Nat) :
    SameRegistry s (LoadMaterialLayerSlot env s nSlot pMtl name sr pn fl).2 := by
  unfold LoadMaterialLayerSlot
  split
  · exact SameRegistry.same_refl s
  · dsimp only
    split
    · exact SameRegistry.same_refl s
    · split
      · exact SameRegistry.same_refl s
      · split
        · exact SameRegistry.same_refl s
        · split
          · exact SameRegistry.same_refl s
          · exact sameRegistry_SetLayer s _ _ _

theorem sameRegistry_loadLayerNodes (env : Env) (pMtl : MatId) (sr : SInputShaderResources)
    (nodes : List XmlNode) (l fl : Nat) (s : CMatMan) :
    SameRegistry s (loadLayerNodes env pMtl sr nodes l fl s).2 := by
  induction nodes generalizing l fl s with
  | nil => exact SameRegistry.same_refl s
  | cons x xs ih =>
    unfold loadLayerNodes
    exact SameRegistry.same_trans (sameRegistry_LoadMaterialLayerSlot _ _ _ _ _ _ _ _) (ih _ _ _)

theorem sameRegistry_loadMaterialLayers (env : Env) (s : CMatMan) (pMtl : MatId) (node : XmlNode)
    (sr : SInputShaderResources) : SameRegistry s (loadMaterialLayers env s pMtl node sr) := by
  unfold loadMaterialLayers
  split
  · split
    · exact SameRegistry.same_refl s
    · dsimp only
      split
      · exact SameRegistry.same_refl s
      · exact SameRegistry.same_trans (sameRegistry_updMat s _ _)
          (SameRegistry.same_trans (sameRegistry_loadLayerNodes _ _ _ _ _ _ _) (sameRegistry_updMat _ _ _))
  · exact SameRegistry.same_refl s

theorem sameRegistry_loadMaterialLinkName (s : CMatMan) (pMtl : MatId) (node : XmlNode) :
    SameRegistry s (loadMaterialLinkName s pMtl node) := by
  unfold loadMaterialLinkName
  split
  · exact sameRegistry_updMat s _ _
  · exact SameRegistry.same_refl s

theorem sameRegistry_loadMaterialBody (env : Env) (s : CMatMan) (pMtl : MatId) (sMtlName : String)
    (node : XmlNode) (mtlFlags0 sortPrio : Nat) :
    SameRegistry s (loadMaterialBody env s pMtl sMtlName node mtlFlags0 sortPrio) := by
  unfold loadMaterialBody
  dsimp only
  have hA : SameRegistry s (CMatMan.SetSurfaceType env s pMtl (node.getAttr "SurfaceType")) :=
    sameRegistry_updMat s _ _
  split
  · exact SameRegistry.same_trans (sameRegistry_loadMaterialLinkName _ _ _)
      (sameRegistry_loadMaterialLayers _ _ _ _ _)
  · generalize (if stricmpEq (node.getAttr "Shader") "nodraw" = true then
        (shaderGenMaskFromXml env node (node.getAttr "Shader") mtlFlags0).2 ||| env.MTL_FLAG_NODRAW
      else (shaderGenMaskFromXml env node (node.getAttr "Shader") mtlFlags0).2) = mtlFlags
    split
    · exact SameRegistry.same_trans hA (SameRegistry.same_trans (sameRegistry_updMat _ _ _)
        (SameRegistry.same_trans (sameRegistry_loadMaterialLinkName _ _ _)
          (sameRegistry_loadMaterialLayers _ _ _ _ _)))
    · exact SameRegistry.same_trans hA (SameRegistry.same_trans (sameRegistry_updMat _ _ _)
        (SameRegistry.same_trans (sameRegistry_loadMaterialLinkName _ _ _)
          (SameRegistry.same_trans (sameRegistry_LoadMaterialShader _ _ _ _ _ _ _)
            (SameRegistry.same_trans (sameRegistry_updMat _ _ _)
              (sameRegistry_loadMaterialLayers _ _ _ _ _)))))

/-! ## Facts about `CreateMaterial` -/

theorem CreateMaterial_fst (env : Env) (s : CMatMan) (n : String) (f : Nat) :
    (CreateMaterial env s n f).1 = s.materials.length := rfl

theorem CreateMaterial_map (env : Env) (s : CMatMan) (n : String) (f : Nat) :
    (CreateMaterial env s n f).2.m_mtlNameMap =
      if f &&& env.MTL_FLAG_PURE_CHILD = 0 then
        mapAssign s.m_mtlNameMap (UnifyName env n) s.materials.length
      else s.m_mtlNameMap := by
  unfold CreateMaterial
  dsimp only
  split <;> split <;> rfl

theorem CreateMaterial_nonRemovables (env : Env) (s : CMatMan) (n : String) (f : Nat) :
    (CreateMaterial env s n f).2.m_nonRemovables =
      if f &&& env.MTL_FLAG_NON_REMOVABLE ≠ 0 then s.m_nonRemovables ++ [s.materials.length]
      else s.m_nonRemovables := by
  unfold CreateMaterial
  dsimp only
  split <;> split <;> rfl

theorem CreateMaterial_pending (env : Env) (s : CMatMan) (n : String) (f : Nat) :
    (CreateMaterial env s n f).2.m_pendingMaterialLoads = s.m_pendingMaterialLoads := by
  unfold CreateMaterial
  dsimp only
  split <;> split <;> rfl

theorem CreateMaterial_events (env : Env) (s : CMatMan) (n : String) (f : Nat) :
    (CreateMaterial env s n f).2.events = s.events := by
  unfold CreateMaterial
  dsimp only
  split <;> split <;> rfl

theorem CreateMaterial_initialized (env : Env) (s : CMatMan) (n : String) (f : Nat) :
    (CreateMaterial env s n f).2.m_bInitialized = s.m_bInitialized := by
  unfold CreateMaterial
  dsimp only
  split <;> split <;> rfl

theorem CreateMaterial_defaultMtl (env : Env) (s : CMatMan) (n : String) (f : Nat) :
    (CreateMaterial env s n f).2.m_pDefaultMtl = s.m_pDefaultMtl := by
  unfold CreateMaterial
  dsimp only
  split <;> split <;> rfl

theorem CreateMaterial_materials (env : Env) (s : CMatMan) (n : String) (f : Nat) :
    (CreateMaterial env s n f).2.materials =
      s.materials ++ [{ m_sMaterialName := n, m_Flags := f ||| 0 }] := by
  have h : listSet (listSet (s.materials ++ [({} : CMatInfo)]) s.materials.length
      { m_sMaterialName := n }) s.materials.length { m_sMaterialName := n, m_Flags := f ||| 0 } =
      s.materials ++ [{ m_sMaterialName := n, m_Flags := f ||| 0 }] := by
    rw [listSet_append_right _ _ _ (Nat.le_refl _), listSet_append_right _ _ _ (Nat.le_refl _)]
    simp [listSet]
  have e1 : ((s.materials ++ [({} : CMatInfo)]).getD s.materials.length {}) = {} := by
    simp [List.getD]
  have e2 : ((listSet (s.materials ++ [({} : CMatInfo)]) s.materials.length
      { m_sMaterialName := n }).getD s.materials.length {}) = { m_sMaterialName := n } := by
    rw [listSet_getD_self]
    simp
  unfold CreateMaterial
  dsimp only
  split <;> split <;>
    simp only [CMatMan.newMat, CMatMan.SetName, CMatMan.SetFlags, CMatMan.GetFlags, CMatMan.updMat,
      CMatMan.mat, e1, e2] <;> exact h

/-- C10: `CreateMaterial(name, flags)` returns a new material object stamped with the name
and the flags.  Without the pure-child bit the name map gets the new object under the unified
name, as the only entry of that name, and every other name keeps its entries; with the
pure-child bit the name map is unchanged; so, over a name map whose values are allocated
objects, the map changes exactly when the bit is absent.  The retention list gains the new
object exactly when the non-removable bit is set, and the pending-load table is unchanged. -/
theorem CreateMaterial_registers_unless_pure_child (env : Env) (s : CMatMan) (sMtlName : String)
    (nMtlFlags : Nat) :
    (CreateMaterial env s sMtlName nMtlFlags).1 = s.materials.length ∧
    (CreateMaterial env s sMtlName nMtlFlags).2.materials =
      s.materials ++ [{ m_sMaterialName := sMtlName, m_Flags := nMtlFlags ||| 0 }] ∧
    (nMtlFlags &&& env.MTL_FLAG_PURE_CHILD = 0 →
      mapFind (CreateMaterial env s sMtlName nMtlFlags).2.m_mtlNameMap (UnifyName env sMtlName) =
          some (CreateMaterial env s sMtlName nMtlFlags).1 ∧
        mapCount (CreateMaterial env s sMtlName nMtlFlags).2.m_mtlNameMap (UnifyName env sMtlName) = 1 ∧
        ∀ k, k ≠ UnifyName env sMtlName →
          mapFind (CreateMaterial env s sMtlName nMtlFlags).2.m_mtlNameMap k = mapFind s.m_mtlNameMap k ∧
          mapCount (CreateMaterial env s sMtlName nMtlFlags).2.m_mtlNameMap k = mapCount s.m_mtlNameMap k) ∧
    (nMtlFlags &&& env.MTL_FLAG_PURE_CHILD ≠ 0 →
      (CreateMaterial env s sMtlName nMtlFlags).2.m_mtlNameMap = s.m_mtlNameMap) ∧
    ((∀ p ∈ s.m_mtlNameMap, p.2 < s.materials.length) →
      ((CreateMaterial env s sMtlName nMtlFlags).2.m_mtlNameMap ≠ s.m_mtlNameMap ↔
        nMtlFlags &&& env.MTL_FLAG_PURE_CHILD = 0)) ∧
    (CreateMaterial env s sMtlName nMtlFlags).2.m_nonRemovables =
      (if nMtlFlags &&& env.MTL_FLAG_NON_REMOVABLE ≠ 0 then
        s.m_nonRemovables ++ [(CreateMaterial env s sMtlName nMtlFlags).1]
      else s.m_nonRemovables) ∧
    (CreateMaterial env s sMtlName nMtlFlags).2.m_pendingMaterialLoads = s.m_pendingMaterialLoads := by
  refine ⟨rfl, CreateMaterial_materials env s sMtlName nMtlFlags, ?_, ?_, ?_,
    CreateMaterial_nonRemovables env s sMtlName nMtlFlags,
    CreateMaterial_pending env s sMtlName nMtlFlags⟩
  · intro h
    rw [CreateMaterial_map, if_pos h, CreateMaterial_fst]
    refine ⟨mapFind_mapAssign_self _ _ _, ?_, ?_⟩
    · have := mapCount_mapErase_self s.m_mtlNameMap (UnifyName env sMtlName)
      simp only [mapCount] at this
      simp [mapAssign, mapCount, List.filter_cons, this]
    · intro k hk
      refine ⟨mapFind_mapAssign_ne _ _ (Ne.symm hk), ?_⟩
      have := mapCount_mapErase_ne s.m_mtlNameMap (Ne.symm hk)
      simp only [mapCount] at this
      simp [mapAssign, mapCount, List.filter_cons, Ne.symm hk, this]
  · intro h
    rw [CreateMaterial_map, if_neg h]
  · intro hv
    rw [CreateMaterial_map]
    constructor
    · intro hne
      by_contra hb
      rw [if_neg hb] at hne
      exact hne rfl
    · intro hb
      rw [if_pos hb]
      intro heq
      have hmem : (UnifyName env sMtlName, s.materials.length) ∈ s.m_mtlNameMap := by
        rw [← heq]
        simp [mapAssign]
      exact Nat.lt_irrefl _ (hv _ hmem)

/-! ## Facts about the event handle and the steps of the loader -/

theorem setEvent_map (s : CMatMan) (e : EventId) : (s.setEvent e).m_mtlNameMap = s.m_mtlNameMap := rfl

theorem setEvent_pending (s : CMatMan) (e : EventId) :
    (s.setEvent e).m_pendingMaterialLoads = s.m_pendingMaterialLoads := rfl

theorem setEvent_initialized (s : CMatMan) (e : EventId) :
    (s.setEvent e).m_bInitialized = s.m_bInitialized := rfl

theorem setEvent_defaultMtl (s : CMatMan) (e : EventId) :
    (s.setEvent e).m_pDefaultMtl = s.m_pDefaultMtl := rfl

theorem setEvent_nonRemovables (s : CMatMan) (e : EventId) :
    (s.setEvent e).m_nonRemovables = s.m_nonRemovables := rfl

theorem setEvent_materials (s : CMatMan) (e : EventId) :
    (s.setEvent e).materials = s.materials := rfl

theorem setEvent_event_self (s : CMatMan) (e : EventId) (h : e < s.events.length) :
    (s.setEvent e).event e = ⟨true, (s.event e).setCalls + 1⟩ := by
  simp only [CMatMan.setEvent, CMatMan.event]
  exact listSet_getD_self _ _ _ h

theorem setEvent_event_ne (s : CMatMan) {e e2 : EventId} (h : e ≠ e2) :
    (s.setEvent e).event e2 = s.event e2 := by
  simp only [CMatMan.setEvent, CMatMan.event]
  exact listSet_getD_ne _ _ _ h

theorem prefix_listSet {α : Type} {l m : List α} (h : l <+: m) {i : Nat} (a : α)
    (hi : l.length ≤ i) : l <+: listSet m i a := by
  obtain ⟨r, rfl⟩ := h
  rw [listSet_append_right l r a hi]
  exact List.prefix_append _ _

theorem prefix_setEvent {l : List ManualResetEvent} {s : CMatMan} (h : l <+: s.events)
    {e : EventId} (he : l.length ≤ e) : l <+: (s.setEvent e).events :=
  prefix_listSet h _ he

theorem Set_fst_event (u : UniqueManualEvent) (s : CMatMan) :
    (u.Set s).1.m_manualResetEvent = u.m_manualResetEvent := by
  unfold UniqueManualEvent.Set
  split <;> rfl

theorem Set_fst_of_event (e : EventId) (c : Bool) (s : CMatMan) :
    ((⟨some e, c⟩ : UniqueManualEvent).Set s).1 = ⟨some e, false⟩ := by
  cases c <;> rfl

theorem Set_snd_of_control (e : EventId) (s : CMatMan) :
    ((⟨some e, true⟩ : UniqueManualEvent).Set s).2 = s.setEvent e := rfl

theorem Set_snd_of_no_control (o : Option EventId) (s : CMatMan) :
    ((⟨o, false⟩ : UniqueManualEvent).Set s).2 = s := by
  unfold UniqueManualEvent.Set
  split
  · rename_i h1 h2
    simp at h2
  · rfl

theorem Set_snd_cases (u : UniqueManualEvent) (s : CMatMan) :
    (u.Set s).2 = s ∨ ∃ e, u.m_manualResetEvent = some e ∧ (u.Set s).2 = s.setEvent e := by
  unfold UniqueManualEvent.Set
  split
  · rename_i e h1 h2
    exact Or.inr ⟨e, h1, rfl⟩
  · exact Or.inl rfl

theorem Set_map (u : UniqueManualEvent) (s : CMatMan) :
    (u.Set s).2.m_mtlNameMap = s.m_mtlNameMap := by
  rcases Set_snd_cases u s with h | ⟨e, _, h⟩ <;> rw [h]
  rfl

theorem Set_pending (u : UniqueManualEvent) (s : CMatMan) :
    (u.Set s).2.m_pendingMaterialLoads = s.m_pendingMaterialLoads := by
  rcases Set_snd_cases u s with h | ⟨e, _, h⟩ <;> rw [h]
  rfl

theorem Set_initialized (u : UniqueManualEvent) (s : CMatMan) :
    (u.Set s).2.m_bInitialized = s.m_bInitialized := by
  rcases Set_snd_cases u s with h | ⟨e, _, h⟩ <;> rw [h]
  rfl

theorem Set_defaultMtl (u : UniqueManualEvent) (s : CMatMan) :
    (u.Set s).2.m_pDefaultMtl = s.m_pDefaultMtl := by
  rcases Set_snd_cases u s with h | ⟨e, _, h⟩ <;> rw [h]
  rfl

theorem Set_nonRemovables (u : UniqueManualEvent) (s : CMatMan) :
    (u.Set s).2.m_nonRemovables = s.m_nonRemovables := by
  rcases Set_snd_cases u s with h | ⟨e, _, h⟩ <;> rw [h]
  rfl

theorem Set_materials (u : UniqueManualEvent) (s : CMatMan) :
    (u.Set s).2.materials = s.materials := by
  rcases Set_snd_cases u s with h | ⟨e, _, h⟩ <;> rw [h]
  rfl

theorem Set_keeps_events (u : UniqueManualEvent) (s : CMatMan) {l : List ManualResetEvent}
    (h : l <+: s.events) (hu : ∀ e, u.m_manualResetEvent = some e → l.length ≤ e) :
    l <+: (u.Set s).2.events := by
  rcases Set_snd_cases u s with h1 | ⟨e, he, h1⟩ <;> rw [h1]
  · exact h
  · exact prefix_setEvent h (hu e he)

theorem evictPendingLoad_fst (s : CMatMan) (u : UniqueManualEvent) (name : String) :
    (evictPendingLoad s u name).1 = (u.Set s).1 := rfl

theorem evictPendingLoad_map (s : CMatMan) (u : UniqueManualEvent) (name : String) :
    (evictPendingLoad s u name).2.m_mtlNameMap = s.m_mtlNameMap :=
  Set_map u s

theorem evictPendingLoad_pending (s : CMatMan) (u : UniqueManualEvent) (name : String) :
    (evictPendingLoad s u name).2.m_pendingMaterialLoads =
      mapErase s.m_pendingMaterialLoads name := by
  simp only [evictPendingLoad, Set_pending]

theorem evictPendingLoad_initialized (s : CMatMan) (u : UniqueManualEvent) (name : String) :
    (evictPendingLoad s u name).2.m_bInitialized = s.m_bInitialized :=
  Set_initialized u s

theorem evictPendingLoad_defaultMtl (s : CMatMan) (u : UniqueManualEvent) (name : String) :
    (evictPendingLoad s u name).2.m_pDefaultMtl = s.m_pDefaultMtl :=
  Set_defaultMtl u s

theorem evictPendingLoad_nonRemovables (s : CMatMan) (u : UniqueManualEvent) (name : String) :
    (evictPendingLoad s u name).2.m_nonRemovables = s.m_nonRemovables :=
  Set_nonRemovables u s

theorem evictPendingLoad_materials (s : CMatMan) (u : UniqueManualEvent) (name : String) :
    (evictPendingLoad s u name).2.materials = s.materials :=
  Set_materials u s

theorem evictPendingLoad_events (s : CMatMan) (u : UniqueManualEvent) (name : String) :
    (evictPendingLoad s u name).2.events = (u.Set s).2.events := rfl

theorem finishLoad_fst (s : CMatMan) (u : UniqueManualEvent) (p : Option MatId) (mk nr : Bool) :
    (finishLoad s u p mk nr).1 = if p.isNone && mk then s.m_pDefaultMtl else p := rfl

theorem finishLoad_map (s : CMatMan) (u : UniqueManualEvent) (p : Option MatId) (mk nr : Bool) :
    (finishLoad s u p mk nr).2.m_mtlNameMap = s.m_mtlNameMap := by
  simp only [finishLoad, UniqueManualEvent.destroy, Set_map]
  split
  · split <;> rfl
  · rfl

theorem finishLoad_pending (s : CMatMan) (u : UniqueManualEvent) (p : Option MatId) (mk nr : Bool) :
    (finishLoad s u p mk nr).2.m_pendingMaterialLoads = s.m_pendingMaterialLoads := by
  simp only [finishLoad, UniqueManualEvent.destroy, Set_pending]
  split
  · split <;> rfl
  · rfl

theorem finishLoad_initialized (s : CMatMan) (u : UniqueManualEvent) (p : Option MatId)
    (mk nr : Bool) : (finishLoad s u p mk nr).2.m_bInitialized = s.m_bInitialized := by
  simp only [finishLoad, UniqueManualEvent.destroy, Set_initialized]
  split
  · split <;> rfl
  · rfl

theorem finishLoad_defaultMtl (s : CMatMan) (u : UniqueManualEvent) (p : Option MatId)
    (mk nr : Bool) : (finishLoad s u p mk nr).2.m_pDefaultMtl = s.m_pDefaultMtl := by
  simp only [finishLoad, UniqueManualEvent.destroy, Set_defaultMtl]
  split
  · split <;> rfl
  · rfl

theorem finishLoad_materials (s : CMatMan) (u : UniqueManualEvent) (p : Option MatId)
    (mk nr : Bool) : (finishLoad s u p mk nr).2.materials = s.materials := by
  simp only [finishLoad, UniqueManualEvent.destroy, Set_materials]
  split
  · split <;> rfl
  · rfl

theorem finishLoad_nonRemovables (s : CMatMan) (u : UniqueManualEvent) (p : Option MatId)
    (mk nr : Bool) :
    (finishLoad s u p mk nr).2.m_nonRemovables =
      match (finishLoad s u p mk nr).1 with
      | some m => if nr then s.m_nonRemovables ++ [m] else s.m_nonRemovables
      | none => s.m_nonRemovables := by
  simp only [finishLoad, UniqueManualEvent.destroy, Set_nonRemovables]
  split
  · split <;> rfl
  · rfl

theorem finishLoad_keeps_events (s : CMatMan) (u : UniqueManualEvent) (p : Option MatId)
    (mk nr : Bool) {l : List ManualResetEvent} (h : l <+: s.events)
    (hu : ∀ e, u.m_manualResetEvent = some e → l.length ≤ e) :
    l <+: (finishLoad s u p mk nr).2.events := by
  simp only [finishLoad, UniqueManualEvent.destroy]
  apply Set_keeps_events _ _ _ hu
  split
  · split
    · exact h
    · exact h
  · exact h

theorem createPlaceholder_fst (env : Env) (s : CMatMan) (filename : String) :
    (createPlaceholder env s filename).1 = s.materials.length := rfl

theorem createPlaceholder_sameRegistry (env : Env) (s : CMatMan) (filename : String) :
    SameRegistry (CreateMaterial env s (UnifyName env filename) 0).2
      (createPlaceholder env s filename).2 :=
  sameRegistry_AssignShaderItem _ _ _

theorem createPlaceholder_map (env : Env) (s : CMatMan) (filename : String) :
    (createPlaceholder env s filename).2.m_mtlNameMap =
      mapAssign s.m_mtlNameMap (UnifyName env (UnifyName env filename)) s.materials.length := by
  rw [(createPlaceholder_sameRegistry env s filename).map_eq, CreateMaterial_map]
  simp

theorem createPlaceholder_pending (env : Env) (s : CMatMan) (filename : String) :
    (createPlaceholder env s filename).2.m_pendingMaterialLoads = s.m_pendingMaterialLoads := by
  rw [(createPlaceholder_sameRegistry env s filename).pending_eq, CreateMaterial_pending]

theorem createPlaceholder_events (env : Env) (s : CMatMan) (filename : String) :
    (createPlaceholder env s filename).2.events = s.events := by
  rw [(createPlaceholder_sameRegistry env s filename).events_eq, CreateMaterial_events]

theorem createPlaceholder_initialized (env : Env) (s : CMatMan) (filename : String) :
    (createPlaceholder env s filename).2.m_bInitialized = s.m_bInitialized := by
  rw [(createPlaceholder_sameRegistry env s filename).initialized_eq, CreateMaterial_initialized]

theorem createPlaceholder_defaultMtl (env : Env) (s : CMatMan) (filename : String) :
    (createPlaceholder env s filename).2.m_pDefaultMtl = s.m_pDefaultMtl := by
  rw [(createPlaceholder_sameRegistry env s filename).defaultMtl_eq, CreateMaterial_defaultMtl]

theorem createPlaceholder_nonRemovables (env : Env) (s : CMatMan) (filename : String) :
    (createPlaceholder env s filename).2.m_nonRemovables = s.m_nonRemovables := by
  rw [(createPlaceholder_sameRegistry env s filename).nonRemovables_eq, CreateMaterial_nonRemovables]
  simp

theorem createPlaceholder_materials_length (env : Env) (s : CMatMan) (filename : String) :
    (createPlaceholder env s filename).2.materials.length = s.materials.length + 1 := by
  rw [(createPlaceholder_sameRegistry env s filename).2, CreateMaterial_materials]
  simp

/-! ## What loads, builds and the initialisation never undo -/

theorem Grows.grows_refl (s : CMatMan) : Grows s s :=
  ⟨List.prefix_refl _, fun h => h, Nat.le_refl _, fun _ h => h⟩

theorem Grows.grows_trans {s t u : CMatMan} (h1 : Grows s t) (h2 : Grows t u) : Grows s u :=
  ⟨List.IsPrefix.trans h1.events h2.events, fun h => h2.initialized (h1.initialized h),
    Nat.le_trans h1.materials h2.materials, fun m h => h2.defaultMtl m (h1.defaultMtl m h)⟩

theorem SameRegistry.grows {s t : CMatMan} (h : SameRegistry s t) : Grows s t :=
  ⟨by rw [h.events_eq], fun hi => by rw [h.initialized_eq]; exact hi, by rw [h.2],
    fun m hm => by rw [h.defaultMtl_eq]; exact hm⟩

theorem CreateMaterial_grows (env : Env) (s : CMatMan) (n : String) (f : Nat) :
    Grows s (CreateMaterial env s n f).2 :=
  ⟨by rw [CreateMaterial_events], fun hi => by rw [CreateMaterial_initialized]; exact hi,
    by rw [CreateMaterial_materials]; simp,
    fun m hm => by rw [CreateMaterial_defaultMtl]; exact hm⟩

theorem NotifyCreateMaterial_grows (s : CMatMan) (m : MatId) : Grows s (NotifyCreateMaterial s m) := by
  unfold NotifyCreateMaterial
  split
  · exact ⟨List.prefix_refl _, fun h => h, Nat.le_refl _, fun _ h => h⟩
  · exact Grows.grows_refl s

theorem obtainMaterial_grows (env : Env) (s : CMatMan) (n : String) (f : Nat) (ex : Option MatId) :
    Grows s (obtainMaterial env s n f ex).2 := by
  unfold obtainMaterial
  split
  · exact CreateMaterial_grows env s n f
  · exact (sameRegistry_SetFlags s _ _).grows

theorem loadSubMaterials_grows
    (build : String → XmlNode → Nat → MatId → CMatMan → Except Fault (Option MatId × CMatMan))
    (load : String → CMatMan → Except Fault (Option MatId × CMatMan))
    (hb : ∀ name node prio par t r t2, build name node prio par t = .ok (r, t2) → Grows t t2)
    (hl : ∀ name t r t2, load name t = .ok (r, t2) → Grows t t2)
    (pMtl nSub : Nat) (nodes : List XmlNode) (i : Nat) (s s2 : CMatMan)
    (h : loadSubMaterials build load pMtl nSub nodes i s = .ok s2) : Grows s s2 := by
  induction nodes generalizing i s with
  | nil =>
    simp only [loadSubMaterials, Except.ok.injEq] at h
    rw [← h]
    exact Grows.grows_refl s
  | cons x xs ih =>
    unfold loadSubMaterials at h
    split at h
    · split at h
      · exact absurd h (by simp)
      · rename_i c s1 hc
        exact ((hb _ _ _ _ _ _ _ hc).grows_trans (sameRegistry_SetSubMtl _ _ _ _).grows).grows_trans (ih _ _ h)
      · rename_i s1 hc
        exact ((hb _ _ _ _ _ _ _ hc).grows_trans (sameRegistry_SetSubMtl _ _ _ _).grows).grows_trans (ih _ _ h)
    · split at h
      · split at h
        · exact absurd h (by simp)
        · rename_i c s1 hc
          exact ((hl _ _ _ _ hc).grows_trans (sameRegistry_SetSubMtl _ _ _ _).grows).grows_trans (ih _ _ h)
        · rename_i s1 hc
          exact (hl _ _ _ _ hc).grows_trans (ih _ _ h)
      · exact ih _ _ h

theorem makeMaterialBody_grows
    (build : String → XmlNode → Nat → MatId → CMatMan → Except Fault (Option MatId × CMatMan))
    (load : String → CMatMan → Except Fault (Option MatId × CMatMan))
    (hb : ∀ name node prio par t r t2, build name node prio par t = .ok (r, t2) → Grows t t2)
    (hl : ∀ name t r t2, load name t = .ok (r, t2) → Grows t t2)
    (env : Env) (s : CMatMan) (sMtlName : String) (node : XmlNode) (b : Bool) (prio : Nat)
    (ex : Option MatId) (r : Option MatId) (s2 : CMatMan)
    (h : makeMaterialBody build load env s sMtlName node b prio ex = .ok (r, s2)) : Grows s s2 := by
  unfold makeMaterialBody at h
  dsimp only at h
  split at h
  · exact absurd h (by simp)
  · rename_i t ht
    simp only [Except.ok.injEq, Prod.mk.injEq] at h
    rw [← h.2]
    have g1 := obtainMaterial_grows env s sMtlName (mtlFlagsFromXml env node b) ex
    have g2 := (sameRegistry_loadMaterialBody env
      (obtainMaterial env s sMtlName (mtlFlagsFromXml env node b) ex).2
      (obtainMaterial env s sMtlName (mtlFlagsFromXml env node b) ex).1 sMtlName node
      (mtlFlagsFromXml env node b) prio).grows
    have g3 : Grows (loadMaterialBody env
        (obtainMaterial env s sMtlName (mtlFlagsFromXml env node b) ex).2
        (obtainMaterial env s sMtlName (mtlFlagsFromXml env node b) ex).1 sMtlName node
        (mtlFlagsFromXml env node b) prio) t := by
      unfold loadSubMaterialsNode at ht
      split at ht
      · simp only [Except.ok.injEq] at ht
        rw [← ht]
        exact Grows.grows_refl _
      · exact (sameRegistry_SetSubMtlCount _ _ _).grows.grows_trans
          (loadSubMaterials_grows build load hb hl _ _ _ _ _ _ ht)
    exact ((g1.grows_trans g2).grows_trans g3).grows_trans (NotifyCreateMaterial_grows _ _)

/-! ## The cache check and the asset status switch, case by case -/

theorem CheckMaterialCache_owner (s : CMatMan) (name : String) (c : Option MatId)
    (h : mapFind s.m_pendingMaterialLoads name = none) :
    CheckMaterialCache s name c =
      .ok (⟨some s.events.length, true⟩, c,
        { s with
          events := s.events ++ [{}]
          m_pendingMaterialLoads := (name, some s.events.length) :: s.m_pendingMaterialLoads }) := by
  unfold CheckMaterialCache
  rw [h]
  simp only [mapEmplace_of_find_none _ _ _ h]

theorem CheckMaterialCache_waiter (s : CMatMan) (name : String) (c : Option MatId) (e : EventId)
    (h : mapFind s.m_pendingMaterialLoads name = some (some e)) (hf : (s.event e).m_flag = true) :
    CheckMaterialCache s name c = .ok (⟨some e, false⟩, mapFind s.m_mtlNameMap name, s) := by
  unfold CheckMaterialCache
  rw [h]
  simp only [hf, if_true]

theorem CheckMaterialCache_cases (s : CMatMan) (name : String) (c : Option MatId)
    (u : UniqueManualEvent) (p : Option MatId) (s2 : CMatMan)
    (h : CheckMaterialCache s name c = .ok (u, p, s2)) :
    (∃ e, mapFind s.m_pendingMaterialLoads name = some (some e) ∧ (s.event e).m_flag = true ∧
        u = ⟨some e, false⟩ ∧ p = mapFind s.m_mtlNameMap name ∧ s2 = s) ∨
    (mapFind s.m_pendingMaterialLoads name = none ∧ u = ⟨some s.events.length, true⟩ ∧ p = c ∧
        s2 = { s with
          events := s.events ++ [{}]
          m_pendingMaterialLoads := (name, some s.events.length) :: s.m_pendingMaterialLoads }) := by
  cases hp : mapFind s.m_pendingMaterialLoads name with
  | none =>
    rw [CheckMaterialCache_owner s name c hp] at h
    simp only [Except.ok.injEq, Prod.mk.injEq] at h
    exact Or.inr ⟨rfl, h.1.symm, h.2.1.symm, h.2.2.symm⟩
  | some o =>
    cases o with
    | none =>
      unfold CheckMaterialCache at h
      rw [hp] at h
      exact absurd h (by simp)
    | some e =>
      by_cases hf : (s.event e).m_flag = true
      · rw [CheckMaterialCache_waiter s name c e hp hf] at h
        simp only [Except.ok.injEq, Prod.mk.injEq] at h
        exact Or.inl ⟨e, rfl, hf, h.1.symm, h.2.1.symm, h.2.2.symm⟩
      · unfold CheckMaterialCache at h
        rw [hp] at h
        simp only [hf] at h
        exact absurd h (by simp)

theorem assetStatusSwitch_cases (env : Env) (s : CMatMan) (u : UniqueManualEvent)
    (name filename : String) :
    ((env.GetAssetStatus filename = AssetStatus.AssetStatus_Queued ∨
        env.GetAssetStatus filename = AssetStatus.AssetStatus_Compiling) ∧
      assetStatusSwitch env s u name filename =
        (some (createPlaceholder env s filename).1, false, u, (createPlaceholder env s filename).2)) ∨
    ((env.GetAssetStatus filename = AssetStatus.AssetStatus_Compiled ∧
        env.ExistsAfterStatus filename = true) ∧
      assetStatusSwitch env s u name filename = (none, true, u, s)) ∨
    (((env.GetAssetStatus filename = AssetStatus.AssetStatus_Compiled ∧
          env.ExistsAfterStatus filename = false) ∨
        env.GetAssetStatus filename = AssetStatus.AssetStatus_Unknown ∨
        env.GetAssetStatus filename = AssetStatus.AssetStatus_Missing ∨
        env.GetAssetStatus filename = AssetStatus.AssetStatus_Failed) ∧
      assetStatusSwitch env s u name filename =
        (none, false, (evictPendingLoad s u name).1, (evictPendingLoad s u name).2)) := by
  unfold assetStatusSwitch
  cases hs : env.GetAssetStatus filename with
  | AssetStatus_Unknown => exact Or.inr (Or.inr ⟨by simp, rfl⟩)
  | AssetStatus_Queued => exact Or.inl ⟨by simp, rfl⟩
  | AssetStatus_Compiling => exact Or.inl ⟨by simp, rfl⟩
  | AssetStatus_Compiled =>
    cases hx : env.ExistsAfterStatus filename with
    | true => exact Or.inr (Or.inl ⟨by simp, by simp⟩)
    | false => exact Or.inr (Or.inr ⟨by simp, by simp⟩)
  | AssetStatus_Missing => exact Or.inr (Or.inr ⟨by simp, rfl⟩)
  | AssetStatus_Failed => exact Or.inr (Or.inr ⟨by simp, rfl⟩)

theorem Grows.growsFrom {l : List ManualResetEvent} {s t : CMatMan} (h : Grows s t)
    (hl : l <+: s.events) : GrowsFrom l s t :=
  ⟨List.IsPrefix.trans hl h.events, h.initialized, h.materials, h.defaultMtl⟩

theorem GrowsFrom.trans_grows {l : List ManualResetEvent} {s t u : CMatMan}
    (h1 : GrowsFrom l s t) (h2 : Grows t u) : GrowsFrom l s u :=
  ⟨List.IsPrefix.trans h1.events h2.events, fun h => h2.initialized (h1.initialized h),
    Nat.le_trans h1.materials h2.materials, fun m h => h2.defaultMtl m (h1.defaultMtl m h)⟩

theorem evictPendingLoad_growsFrom {l : List ManualResetEvent} (s : CMatMan)
    (u : UniqueManualEvent) (name : String) (hl : l <+: s.events)
    (hu : ∀ e, u.m_manualResetEvent = some e → l.length ≤ e) :
    GrowsFrom l s (evictPendingLoad s u name).2 :=
  ⟨by rw [evictPendingLoad_events]; exact Set_keeps_events u s hl hu,
    fun h => by rw [evictPendingLoad_initialized]; exact h,
    by rw [evictPendingLoad_materials],
    fun m h => by rw [evictPendingLoad_defaultMtl]; exact h⟩

theorem finishLoad_growsFrom {l : List ManualResetEvent} (s0 s : CMatMan)
    (u : UniqueManualEvent) (p : Option MatId) (mk nr : Bool) (h0 : GrowsFrom l s0 s)
    (hu : ∀ e, u.m_manualResetEvent = some e → l.length ≤ e) :
    GrowsFrom l s0 (finishLoad s u p mk nr).2 :=
  ⟨finishLoad_keeps_events s u p mk nr h0.events hu,
    fun h => by rw [finishLoad_initialized]; exact h0.initialized h,
    by rw [finishLoad_materials]; exact h0.materials,
    fun m h => by rw [finishLoad_defaultMtl]; exact h0.defaultMtl m h⟩

theorem createPlaceholder_grows (env : Env) (s : CMatMan) (filename : String) :
    Grows s (createPlaceholder env s filename).2 :=
  (CreateMaterial_grows env s _ 0).grows_trans (createPlaceholder_sameRegistry env s filename).grows

theorem loadAsOwner_growsFrom
    (build : CMatMan → String → XmlNode → Except Fault (Option MatId × CMatMan))
    (hb : ∀ t name node r t2, build t name node = .ok (r, t2) → Grows t t2)
    (env : Env) (s2 : CMatMan) (u : UniqueManualEvent) (name : String) (mk nr : Bool)
    (r : Option MatId) (s3 : CMatMan) (l : List ManualResetEvent) (hl : l <+: s2.events)
    (hu : ∀ e, u.m_manualResetEvent = some e → l.length ≤ e)
    (h : loadAsOwner build env s2 u name mk nr = .ok (r, s3)) : GrowsFrom l s2 s3 := by
  unfold loadAsOwner at h
  dsimp only at h
  have hsw : ∀ sw : Option MatId × Bool × UniqueManualEvent × CMatMan,
      sw = (if env.Exists (materialFileName name) = true then (none, true, u, s2)
        else assetStatusSwitch env s2 u name (materialFileName name)) →
      GrowsFrom l s2 sw.2.2.2 ∧ (∀ e, sw.2.2.1.m_manualResetEvent = some e → l.length ≤ e) := by
    intro sw hsw
    by_cases hx : env.Exists (materialFileName name) = true
    · rw [if_pos hx] at hsw
      rw [hsw]
      exact ⟨(Grows.grows_refl s2).growsFrom hl, hu⟩
    · rw [if_neg hx] at hsw
      rcases assetStatusSwitch_cases env s2 u name (materialFileName name) with
        ⟨_, e1⟩ | ⟨_, e1⟩ | ⟨_, e1⟩ <;> rw [e1] at hsw <;> rw [hsw]
      · exact ⟨(createPlaceholder_grows env s2 _).growsFrom hl, hu⟩
      · exact ⟨(Grows.grows_refl s2).growsFrom hl, hu⟩
      · refine ⟨evictPendingLoad_growsFrom s2 u name hl hu, ?_⟩
        intro e he
        rw [evictPendingLoad_fst, Set_fst_event] at he
        exact hu e he
  generalize (if env.Exists (materialFileName name) = true then (none, true, u, s2)
        else assetStatusSwitch env s2 u name (materialFileName name)) = sw at h hsw
  obtain ⟨g, hu2⟩ := hsw sw rfl
  split at h
  · split at h
    · split at h
      · exact absurd h (by simp)
      · rename_i m t hbt
        simp only [Except.ok.injEq] at h
        have hr : s3 = (finishLoad (if env.e_sketch_mode ≠ 0 then t.SetSketchMode m env.e_sketch_mode
            else t) sw.2.2.1 (some m) mk nr).2 := by rw [h]
        rw [hr]
        refine finishLoad_growsFrom s2 _ _ _ _ _ ?_ hu2
        refine (g.trans_grows (hb _ _ _ _ _ hbt)).trans_grows ?_
        split
        · exact (sameRegistry_SetSketchMode _ _ _).grows
        · exact Grows.grows_refl _
      · rename_i t hbt
        simp only [Except.ok.injEq] at h
        have hr : s3 = (finishLoad t sw.2.2.1 none mk nr).2 := by rw [h]
        rw [hr]
        exact finishLoad_growsFrom s2 _ _ _ _ _ (g.trans_grows (hb _ _ _ _ _ hbt)) hu2
    · simp only [Except.ok.injEq] at h
      have hr : s3 = (finishLoad (evictPendingLoad sw.2.2.2 sw.2.2.1 name).2
          (evictPendingLoad sw.2.2.2 sw.2.2.1 name).1 sw.1 mk nr).2 := by rw [h]
      rw [hr]
      have g2 := evictPendingLoad_growsFrom sw.2.2.2 sw.2.2.1 name g.events hu2
      refine finishLoad_growsFrom s2 _ _ _ _ _ ⟨g2.events, fun hi => g2.initialized (g.initialized hi),
        Nat.le_trans g.materials g2.materials, fun m hm => g2.defaultMtl m (g.defaultMtl m hm)⟩ ?_
      intro e he
      rw [evictPendingLoad_fst, Set_fst_event] at he
      exact hu2 e he
  · simp only [Except.ok.injEq] at h
    have hr : s3 = (finishLoad sw.2.2.2 sw.2.2.1 sw.1 mk nr).2 := by rw [h]
    rw [hr]
    exact finishLoad_growsFrom s2 _ _ _ _ _ g hu2

theorem destroy_of_no_control (o : Option EventId) (s : CMatMan) :
    (⟨o, false⟩ : UniqueManualEvent).destroy s = s :=
  Set_snd_of_no_control o s

theorem loadAfterInit_grows
    (build : CMatMan → String → XmlNode → Except Fault (Option MatId × CMatMan))
    (hb : ∀ t name node r t2, build t name node = .ok (r, t2) → Grows t t2)
    (env : Env) (s1 : CMatMan) (sMtlName : String) (mk nr : Bool)
    (r : Option MatId) (s3 : CMatMan)
    (h : loadAfterInit build env s1 sMtlName mk nr = .ok (r, s3)) : Grows s1 s3 := by
  unfold loadAfterInit at h
  split at h
  · simp only [Except.ok.injEq, Prod.mk.injEq] at h
    rw [← h.2]
    exact Grows.grows_refl s1
  · split at h
    · exact absurd h (by simp)
    · rename_i u p s2 hc
      rcases CheckMaterialCache_cases _ _ _ _ _ _ hc with ⟨e, _, _, hu, _, hs⟩ | ⟨_, hu, hp, hs⟩
      · subst hu hs
        rw [destroy_of_no_control] at h
        split at h
        · simp only [Except.ok.injEq, Prod.mk.injEq] at h
          rw [← h.2]
          exact Grows.grows_refl _
        · simp only [UniqueManualEvent.HasControl, Bool.not_false, if_true, Except.ok.injEq,
            Prod.mk.injEq] at h
          rw [← h.2]
          exact Grows.grows_refl _
      · subst hu hp hs
        simp only [Option.isSome_none, Bool.false_eq_true, if_false, UniqueManualEvent.HasControl,
          Bool.not_true] at h
        have g := loadAsOwner_growsFrom build hb env _ _ _ mk nr r s3 s1.events
          (List.prefix_append _ _) (fun e he => by
            cases he
            exact Nat.le_refl _) h
        exact ⟨g.events, g.initialized, by simpa using g.materials, g.defaultMtl⟩

theorem newMat_grows (s : CMatMan) (c : CMatInfo) : Grows s (s.newMat c).2 :=
  ⟨List.prefix_refl _, fun h => h, by simp [CMatMan.newMat], fun _ h => h⟩

theorem makeDefaultMaterial_grows (env : Env) (s : CMatMan) (name shader : String) :
    Grows s (makeDefaultMaterial env s name shader).2 :=
  (newMat_grows s {}).grows_trans
    ((sameRegistry_SetName _ _ _).same_trans (sameRegistry_AssignShaderItem _ _ _)).grows

theorem newNoDrawMaterial_grows (env : Env) (s : CMatMan) :
    Grows s (newNoDrawMaterial env s).2 :=
  (newMat_grows s {}).grows_trans ((sameRegistry_SetFlags _ _ _).same_trans
    ((sameRegistry_SetName _ _ _).same_trans (sameRegistry_AssignShaderItem _ _ _))).grows

theorem installNoDrawMaterial_grows (env : Env) (s : CMatMan) :
    Grows s (installNoDrawMaterial env s) := by
  have g := newNoDrawMaterial_grows env s
  unfold installNoDrawMaterial
  dsimp only
  refine ⟨?_, g.initialized, g.materials, g.defaultMtl⟩
  simp only [CMatMan.setEvent]
  exact prefix_listSet (List.IsPrefix.trans g.events (List.prefix_append _ _)) _
    (List.IsPrefix.length_le g.events)

theorem initDefaultsBody_grows (load : CMatMan → Except Fault (Option MatId × CMatMan))
    (hl : ∀ t r t2, load t = .ok (r, t2) → Grows t t2) (env : Env) (s s2 : CMatMan)
    (h : initDefaultsBody load env s = .ok s2) :
    s.events <+: s2.events ∧ s2.m_bInitialized = true ∧ s.materials.length ≤ s2.materials.length ∧
      (∀ m, s.m_pDefaultMtl = some m → s2.m_pDefaultMtl = some m) := by
  unfold initDefaultsBody at h
  dsimp only at h
  have a1 : ∀ t : CMatMan, t = (if s.m_bLoadSurfaceTypesInInit = true then
      ({ s with m_bInitialized := true, surfaceTypesLoaded := true } : CMatMan)
      else { s with m_bInitialized := true }) →
      t.events = s.events ∧ t.m_bInitialized = true ∧ t.materials = s.materials ∧
        t.m_pDefaultMtl = s.m_pDefaultMtl := by
    intro t ht
    rw [ht]
    split <;> exact ⟨rfl, rfl, rfl, rfl⟩
  generalize (if s.m_bLoadSurfaceTypesInInit = true then
      ({ s with m_bInitialized := true, surfaceTypesLoaded := true } : CMatMan)
      else { s with m_bInitialized := true }) = t1 at h a1
  obtain ⟨e1, i1, m1, d1⟩ := a1 t1 rfl
  have a2 : ∀ t : CMatMan, t = (if t1.m_pDefaultMtl.isNone = true then
      { (makeDefaultMaterial env t1 "Default" "Illum").2 with
        m_pDefaultMtl := some (makeDefaultMaterial env t1 "Default" "Illum").1 }
      else t1) → Grows t1 t := by
    intro t ht
    rw [ht]
    split
    · rename_i hn
      have g := makeDefaultMaterial_grows env t1 "Default" "Illum"
      refine ⟨g.events, g.initialized, g.materials, ?_⟩
      intro m hm
      rw [hm] at hn
      simp at hn
    · exact Grows.grows_refl t1
  generalize (if t1.m_pDefaultMtl.isNone = true then
      { (makeDefaultMaterial env t1 "Default" "Illum").2 with
        m_pDefaultMtl := some (makeDefaultMaterial env t1 "Default" "Illum").1 }
      else t1) = t2 at h a2
  have g2 := a2 t2 rfl
  have a3 : ∀ t : CMatMan, t = (if t2.m_pDefaultTerrainLayersMtl.isNone = true then
      { (makeDefaultMaterial env t2 "DefaultTerrainLayer" "Terrain.Layer").2 with
        m_pDefaultTerrainLayersMtl :=
          some (makeDefaultMaterial env t2 "DefaultTerrainLayer" "Terrain.Layer").1 }
      else t2) → Grows t2 t := by
    intro t ht
    rw [ht]
    split
    · have g := makeDefaultMaterial_grows env t2 "DefaultTerrainLayer" "Terrain.Layer"
      exact ⟨g.events, g.initialized, g.materials, g.defaultMtl⟩
    · exact Grows.grows_refl t2
  generalize (if t2.m_pDefaultTerrainLayersMtl.isNone = true then
      { (makeDefaultMaterial env t2 "DefaultTerrainLayer" "Terrain.Layer").2 with
        m_pDefaultTerrainLayersMtl :=
          some (makeDefaultMaterial env t2 "DefaultTerrainLayer" "Terrain.Layer").1 }
      else t2) = t3 at h a3
  have g3 := a3 t3 rfl
  split at h
  · exact absurd h (by simp)
  · rename_i t4 h4
    have g4 : Grows t3 t4 := by
      split at h4
      · split at h4
        · exact absurd h4 (by simp)
        · rename_i m t hlt
          simp only [Except.ok.injEq] at h4
          rw [← h4]
          have g := hl _ _ _ hlt
          exact ⟨g.events, g.initialized, g.materials, g.defaultMtl⟩
      · simp only [Except.ok.injEq] at h4
        rw [← h4]
        exact Grows.grows_refl t3
    have a5 : ∀ t : CMatMan, t = (if t4.m_pNoDrawMtl.isNone = true then installNoDrawMaterial env t4
        else t4) → Grows t4 t := by
      intro t ht
      rw [ht]
      split
      · exact installNoDrawMaterial_grows env t4
      · exact Grows.grows_refl t4
    generalize (if t4.m_pNoDrawMtl.isNone = true then installNoDrawMaterial env t4
        else t4) = t5 at h a5
    have g5 := a5 t5 rfl
    have g6 : Grows t5 s2 := by
      simp only [Except.ok.injEq] at h
      rw [← h]
      split
      · have g := makeDefaultMaterial_grows env t5 "DefaultHelper" "Helper"
        exact ⟨g.events, g.initialized, g.materials, g.defaultMtl⟩
      · exact Grows.grows_refl t5
    have g := ((g2.grows_trans g3).grows_trans g4).grows_trans (g5.grows_trans g6)
    refine ⟨by rw [← e1]; exact g.events, g.initialized i1, by rw [← m1]; exact g.materials, ?_⟩
    intro m hm
    rw [← d1] at hm
    exact g.defaultMtl m hm

/-- Every load, every initialisation of the defaults and every build keeps the events that
exist, keeps the manager initialised, and allocates but never frees objects. -/
theorem grows_all (n : Nat) :
    (∀ env s N mk nr lf r s2,
      LoadMaterialInternal n env s N mk nr lf = .ok (r, s2) →
        s.events <+: s2.events ∧ s2.m_bInitialized = true ∧
          s.materials.length ≤ s2.materials.length ∧
          (∀ m, s.m_pDefaultMtl = some m → s2.m_pDefaultMtl = some m)) ∧
    (∀ env s s2, InitDefaults n env s = .ok s2 →
        s.events <+: s2.events ∧ s2.m_bInitialized = true ∧
          s.materials.length ≤ s2.materials.length ∧
          (∀ m, s.m_pDefaultMtl = some m → s2.m_pDefaultMtl = some m)) ∧
    (∀ env s name node b prio ex lf par r s2,
      MakeMaterialFromXml n env s name node b prio ex lf par = .ok (r, s2) → Grows s s2) := by
  induction n with
  | zero =>
    refine ⟨?_, ?_, ?_⟩
    · intro env s N mk nr lf r s2 h
      simp [LoadMaterialInternal] at h
    · intro env s s2 h
      simp [InitDefaults] at h
    · intro env s name node b prio ex lf par r s2 h
      simp [MakeMaterialFromXml] at h
  | succ n ih =>
    obtain ⟨ihL, ihI, ihM⟩ := ih
    have ihL2 : ∀ env s N mk nr lf r s2,
        LoadMaterialInternal n env s N mk nr lf = .ok (r, s2) → Grows s s2 := by
      intro env s N mk nr lf r s2 h
      obtain ⟨a, b, c, d⟩ := ihL env s N mk nr lf r s2 h
      exact ⟨a, fun _ => b, c, d⟩
    refine ⟨?_, ?_, ?_⟩
    · intro env s N mk nr lf r s2 h
      rw [LoadMaterialInternal] at h
      split at h
      · exact absurd h (by simp)
      · rename_i s1 h1
        have g := loadAfterInit_grows _ (fun t name node r t2 hb => ihM env t name node false 0 none lf none r t2 hb)
          env s1 N mk nr r s2 h
        by_cases hi : s.m_bInitialized = true
        · rw [if_pos hi] at h1
          simp only [Except.ok.injEq] at h1
          subst h1
          exact ⟨g.events, g.initialized hi, g.materials, g.defaultMtl⟩
        · rw [if_neg hi] at h1
          obtain ⟨a, b, c, d⟩ := ihI env s s1 h1
          exact ⟨List.IsPrefix.trans a g.events, g.initialized b, Nat.le_trans c g.materials,
            fun m hm => g.defaultMtl m (d m hm)⟩
    · intro env s s2 h
      rw [InitDefaults] at h
      split at h
      · rename_i hi
        simp only [Except.ok.injEq] at h
        subst h
        exact ⟨List.prefix_refl _, hi, Nat.le_refl _, fun _ hm => hm⟩
      · exact initDefaultsBody_grows _ (fun t r t2 hl => ihL2 env t _ false false 0 r t2 hl) env s s2 h
    · intro env s name node b prio ex lf par r s2 h
      rw [MakeMaterialFromXml] at h
      exact makeMaterialBody_grows _ _
        (fun name node prio par t r t2 hb => ihM env t name node true prio none lf (some par) r t2 hb)
        (fun name t r t2 hl => ihL2 env t name true false lf r t2 hl)
        env s name node b prio ex r s2 h

/-! ## The paths of `LoadMaterialInternal` -/

theorem LoadMaterialInternal_succ (n : Nat) (env : Env) (s : CMatMan) (N : String) (mk nr : Bool)
    (lf : Nat) :
    LoadMaterialInternal (n + 1) env s N mk nr lf =
      match ensureDefaults n env s with
      | .error e => .error e
      | .ok s1 =>
        loadAfterInit
          (fun t name mtlNode => MakeMaterialFromXml n env t name mtlNode false 0 none lf none)
          env s1 N mk nr := by
  rw [LoadMaterialInternal]
  rfl

theorem ensureDefaults_of_initialized (n : Nat) (env : Env) (s : CMatMan)
    (h : s.m_bInitialized = true) : ensureDefaults n env s = .ok s := by
  simp [ensureDefaults, h]

theorem ensureDefaults_initialized (n : Nat) (env : Env) (s s1 : CMatMan)
    (h : ensureDefaults n env s = .ok s1) : s1.m_bInitialized = true := by
  unfold ensureDefaults at h
  split at h
  · rename_i hi
    simp only [Except.ok.injEq] at h
    rw [← h]
    exact hi
  · exact ((grows_all n).2.1 env s s1 h).2.1

theorem loadAfterInit_waiter
    (build : CMatMan → String → XmlNode → Except Fault (Option MatId × CMatMan))
    (env : Env) (s1 : CMatMan) (N : String) (mk nr : Bool) (e : EventId)
    (hp : preloadShortCut env s1 = false)
    (hrec : mapFind s1.m_pendingMaterialLoads (UnifyName env N) = some (some e))
    (hset : (s1.event e).m_flag = true) :
    loadAfterInit build env s1 N mk nr =
      .ok ((match mapFind s1.m_mtlNameMap (UnifyName env N) with
        | some m => some m
        | none => if mk then s1.m_pDefaultMtl else none), s1) := by
  unfold loadAfterInit
  rw [hp, CheckMaterialCache_waiter s1 _ none e hrec hset]
  simp only [Bool.false_eq_true, if_false, destroy_of_no_control, UniqueManualEvent.HasControl,
    Bool.not_false, if_true]
  cases mapFind s1.m_mtlNameMap (UnifyName env N) with
  | none => simp
  | some m => simp

theorem loadAfterInit_owner
    (build : CMatMan → String → XmlNode → Except Fault (Option MatId × CMatMan))
    (env : Env) (s1 : CMatMan) (N : String) (mk nr : Bool)
    (hp : preloadShortCut env s1 = false)
    (hrec : mapFind s1.m_pendingMaterialLoads (UnifyName env N) = none) :
    loadAfterInit build env s1 N mk nr =
      loadAsOwner build env (ownerState s1 (UnifyName env N)) (ownerHandle s1) (UnifyName env N)
        mk nr := by
  unfold loadAfterInit
  rw [hp, CheckMaterialCache_owner s1 _ none hrec]
  simp [UniqueManualEvent.HasControl, ownerState, ownerHandle]

theorem loadAsOwner_terminal
    (build : CMatMan → String → XmlNode → Except Fault (Option MatId × CMatMan))
    (env : Env) (s2 : CMatMan) (e : EventId) (name : String) (mk nr : Bool)
    (h : terminalFailure env (materialFileName name)) :
    loadAsOwner build env s2 ⟨some e, true⟩ name mk nr =
      .ok (finishLoad (evictPendingLoad s2 ⟨some e, true⟩ name).2 ⟨some e, false⟩ none mk nr) := by
  unfold loadAsOwner
  dsimp only
  rcases h with ⟨hx, hs⟩ | ⟨hf, hxml⟩
  · have e1 : assetStatusSwitch env s2 ⟨some e, true⟩ name (materialFileName name) =
        (none, false, (evictPendingLoad s2 ⟨some e, true⟩ name).1,
          (evictPendingLoad s2 ⟨some e, true⟩ name).2) := by
      unfold assetStatusSwitch
      rcases hs with h1 | h1 | h1 | ⟨h1, h2⟩ <;> simp [h1]
      exact h2
    simp only [hx, Bool.false_eq_true, if_false, e1]
    rfl
  · by_cases hx : env.Exists (materialFileName name) = true
    · simp only [hx, if_true, hxml]
      rfl
    · rcases hf with h1 | ⟨h1, h2⟩
      · exact absurd h1 hx
      · have e1 : assetStatusSwitch env s2 ⟨some e, true⟩ name (materialFileName name) =
            (none, true, ⟨some e, true⟩, s2) := by
          unfold assetStatusSwitch
          simp [h1, h2]
        simp only [hx, if_false, e1, if_true, hxml]
        rfl

theorem loadAsOwner_placeholder
    (build : CMatMan → String → XmlNode → Except Fault (Option MatId × CMatMan))
    (env : Env) (s2 : CMatMan) (u : UniqueManualEvent) (name : String) (mk nr : Bool)
    (hx : env.Exists (materialFileName name) = false)
    (hs : env.GetAssetStatus (materialFileName name) = AssetStatus.AssetStatus_Queued ∨
      env.GetAssetStatus (materialFileName name) = AssetStatus.AssetStatus_Compiling) :
    loadAsOwner build env s2 u name mk nr =
      .ok (finishLoad (createPlaceholder env s2 (materialFileName name)).2 u
        (some (createPlaceholder env s2 (materialFileName name)).1) mk nr) := by
  unfold loadAsOwner
  dsimp only
  have e1 : assetStatusSwitch env s2 u name (materialFileName name) =
      (some (createPlaceholder env s2 (materialFileName name)).1, false, u,
        (createPlaceholder env s2 (materialFileName name)).2) := by
    unfold assetStatusSwitch
    rcases hs with h1 | h1 <;> simp [h1]
  simp only [hx, Bool.false_eq_true, if_false, e1]

theorem loadAsOwner_build
    (build : CMatMan → String → XmlNode → Except Fault (Option MatId × CMatMan))
    (env : Env) (s2 : CMatMan) (u : UniqueManualEvent) (name : String) (mk nr : Bool)
    (node : XmlNode) (hf : fileFound env (materialFileName name))
    (hxml : env.LoadXmlFromFile (materialFileName name) = some node) :
    loadAsOwner build env s2 u name mk nr =
      match build s2 name node with
      | .error e => .error e
      | .ok (some m, s3) =>
        .ok (finishLoad
          (if env.e_sketch_mode ≠ 0 then s3.SetSketchMode m env.e_sketch_mode else s3)
          u (some m) mk nr)
      | .ok (none, s3) => .ok (finishLoad s3 u none mk nr) := by
  unfold loadAsOwner
  dsimp only
  by_cases hx : env.Exists (materialFileName name) = true
  · simp only [hx, if_true, hxml]
  · rcases hf with h1 | ⟨h1, h2⟩
    · exact absurd h1 hx
    · have e1 : assetStatusSwitch env s2 u name (materialFileName name) = (none, true, u, s2) := by
        unfold assetStatusSwitch
        simp [h1, h2]
      simp only [hx, Bool.false_eq_true, if_false, e1, if_true, hxml]

/-! ## C2: the waiter path -/

/-- C2 as stated fails: with the console variable `e_StatObjPreload` at 2 and a default
material, a name with a set record and an entry in the name map does not get its entry; the
load returns the default material (object 0, not the entry, object 1). -/
theorem preload_short_cut_overrides_entry :
    mapFind loadedState.m_pendingMaterialLoads (UnifyName preloadEnv "a") = some (some 0) ∧
    (loadedState.event 0).m_flag = true ∧
    mapFind loadedState.m_mtlNameMap (UnifyName preloadEnv "a") = some 1 ∧
    LoadMaterialInternal 1 preloadEnv loadedState "a" false false 0 = .ok (some 0, loadedState) := by
  decide!

/-- C2, amended: once the defaults are there (state `s1`, which is the state before the call
for an initialised manager), a load of a name whose unified name has a record with a set
event returns with the state `s1` itself, so nothing is built and neither the name map nor the
pending-load table changes.  Unless the early return for `e_StatObjPreload = 2` applies, the
result is the entry of the unified name when there is one, and otherwise the default material
when `bMakeIfNotFound` is set and null when it is not; when the early return applies, the
result is the default material. -/
theorem waiter_reads_name_map (n : Nat) (env : Env) (s s1 : CMatMan) (N : String) (mk nr : Bool)
    (lf : Nat) (e : EventId)
    (h0 : ensureDefaults n env s = .ok s1)
    (hrec : mapFind s1.m_pendingMaterialLoads (UnifyName env N) = some (some e))
    (hset : (s1.event e).m_flag = true) :
    (preloadShortCut env s1 = false →
      ∃ r, LoadMaterialInternal (n + 1) env s N mk nr lf = .ok (r, s1) ∧
        (∀ m, mapFind s1.m_mtlNameMap (UnifyName env N) = some m → r = some m) ∧
        (mapFind s1.m_mtlNameMap (UnifyName env N) = none →
          r = if mk then s1.m_pDefaultMtl else none)) ∧
    (preloadShortCut env s1 = true →
      LoadMaterialInternal (n + 1) env s N mk nr lf = .ok (s1.m_pDefaultMtl, s1)) := by
  constructor
  · intro hp
    rw [LoadMaterialInternal_succ, h0]
    dsimp only
    rw [loadAfterInit_waiter _ env s1 N mk nr e hp hrec hset]
    refine ⟨_, rfl, ?_, ?_⟩
    · intro m hm
      rw [hm]
    · intro hm
      rw [hm]
  · intro hp
    rw [LoadMaterialInternal_succ, h0]
    dsimp only
    unfold loadAfterInit
    rw [if_pos hp]

/-- The amended C2 at the loaded manager of the examples: the load of `a` returns the entry,
object 1, and with `e_StatObjPreload` at 2 the default material, object 0. -/
theorem waiter_reads_name_map_witness :
    ((preloadShortCut demoEnv loadedState = false →
      ∃ r, LoadMaterialInternal 1 demoEnv loadedState "a" true false 0 = .ok (r, loadedState) ∧
        (∀ m, mapFind loadedState.m_mtlNameMap (UnifyName demoEnv "a") = some m → r = some m) ∧
        (mapFind loadedState.m_mtlNameMap (UnifyName demoEnv "a") = none →
          r = if true then loadedState.m_pDefaultMtl else none)) ∧
    (preloadShortCut demoEnv loadedState = true →
      LoadMaterialInternal 1 demoEnv loadedState "a" true false 0 =
        .ok (loadedState.m_pDefaultMtl, loadedState))) ∧
    preloadShortCut demoEnv loadedState = false ∧
    mapFind loadedState.m_mtlNameMap (UnifyName demoEnv "a") = some 1 :=
  ⟨waiter_reads_name_map 0 demoEnv loadedState loadedState "a" true false 0 0
    (by decide!) (by decide!) (by decide!), by decide!, by decide!⟩

/-! ## C3: a name in the name map without a record -/

/-- C3 as stated fails: right after `CreateMaterial("zz", 0)` the name is in the name map
(object 1), yet a load of it is not answered from the map.  The caller becomes the owner and
asks the file system: without a file it reports null, and for the name `a`, whose file exists,
it builds a new object (2) that replaces the registered one (1). -/
theorem created_name_is_not_cache_hit :
    FindMaterial demoEnv (CreateMaterial demoEnv demoState "zz" 0).2 "zz" = some 1 ∧
    (LoadMaterialInternal 1 demoEnv (CreateMaterial demoEnv demoState "zz" 0).2 "zz" false false 0).map
      (fun r => (r.1, r.2.m_mtlNameMap)) = .ok (none, [("zz", 1)]) ∧
    FindMaterial demoEnv (CreateMaterial demoEnv demoState "a" 0).2 "a" = some 1 ∧
    (LoadMaterialInternal 4 demoEnv (CreateMaterial demoEnv demoState "a" 0).2 "a" false false 0).map
      (fun r => (r.1, mapFind r.2.m_mtlNameMap "a")) = .ok (some 2, some 2) := by
  decide!

/-- C3, amended: on an initialised manager, unless the early return for `e_StatObjPreload = 2`
applies, a name that is in the name map is answered from the name map when its unified
name also has a record with a set event (as after a completed load, or for the no-draw
material): then the load returns the registered object and leaves the state as it is, so the
caller does not become the owner, and the answer is the same for every file system, asset
status and document loader.  Without a record (as right after `CreateMaterial`) the caller
becomes the owner and the file system decides: when the load ends in a terminal failure the
result is not the registered object but the default material or null, and the entry stays. -/
theorem cache_hit_needs_pending_record (n : Nat) (env : Env) (s : CMatMan) (N : String)
    (mk nr : Bool) (lf : Nat) (m : MatId)
    (ex ex2 : String → Bool) (st : String → AssetStatus) (ld : String → Option XmlNode)
    (hi : s.m_bInitialized = true)
    (hp : preloadShortCut env s = false)
    (hm : mapFind s.m_mtlNameMap (UnifyName env N) = some m) :
    (∀ e, mapFind s.m_pendingMaterialLoads (UnifyName env N) = some (some e) →
      (s.event e).m_flag = true →
      LoadMaterialInternal (n + 1) (withFileSystem env ex ex2 st ld) s N mk nr lf =
        .ok (some m, s)) ∧
    (mapFind s.m_pendingMaterialLoads (UnifyName env N) = none →
      terminalFailure (withFileSystem env ex ex2 st ld) (materialFileName (UnifyName env N)) →
      ∃ s2, LoadMaterialInternal (n + 1) (withFileSystem env ex ex2 st ld) s N mk nr lf =
          .ok ((if mk then s.m_pDefaultMtl else none), s2) ∧
        mapFind s2.m_mtlNameMap (UnifyName env N) = some m) := by
  constructor
  · intro e hrec hset
    rw [LoadMaterialInternal_succ, ensureDefaults_of_initialized _ _ _ hi]
    dsimp only
    rw [loadAfterInit_waiter _ (withFileSystem env ex ex2 st ld) s N mk nr e hp hrec hset]
    have hm2 : mapFind s.m_mtlNameMap (UnifyName (withFileSystem env ex ex2 st ld) N) = some m := hm
    rw [hm2]
  · intro hrec hfail
    rw [LoadMaterialInternal_succ, ensureDefaults_of_initialized _ _ _ hi]
    dsimp only
    rw [loadAfterInit_owner _ (withFileSystem env ex ex2 st ld) s N mk nr hp hrec]
    unfold ownerHandle
    have hfail2 : terminalFailure (withFileSystem env ex ex2 st ld)
        (materialFileName (UnifyName (withFileSystem env ex ex2 st ld) N)) := hfail
    rw [loadAsOwner_terminal _ (withFileSystem env ex ex2 st ld) _ _ _ mk nr hfail2]
    generalize hF : finishLoad (evictPendingLoad
        (ownerState s (UnifyName (withFileSystem env ex ex2 st ld) N))
        ⟨some s.events.length, true⟩ (UnifyName (withFileSystem env ex ex2 st ld) N)).2
        ⟨some s.events.length, false⟩ none mk nr = F
    have h1 : F.1 = if mk then s.m_pDefaultMtl else none := by
      rw [← hF, finishLoad_fst, evictPendingLoad_defaultMtl]
      simp [ownerState]
    have hmap : F.2.m_mtlNameMap = s.m_mtlNameMap := by
      rw [← hF, finishLoad_map, evictPendingLoad_map]
      rfl
    refine ⟨F.2, ?_, ?_⟩
    · rw [← h1]
    · rw [hmap]
      exact hm

/-- The amended C3 at the loaded manager of the examples, with a file system in which nothing
exists: the load of `a`, which has a record with a set event, returns object 1. -/
theorem cache_hit_needs_pending_record_witness :
    ((∀ e, mapFind loadedState.m_pendingMaterialLoads (UnifyName demoEnv "a") = some (some e) →
      (loadedState.event e).m_flag = true →
      LoadMaterialInternal 1
        (withFileSystem demoEnv (fun _ => false) (fun _ => false)
          (fun _ => AssetStatus.AssetStatus_Missing) (fun _ => none))
        loadedState "a" false false 0 = .ok (some 1, loadedState)) ∧
    (mapFind loadedState.m_pendingMaterialLoads (UnifyName demoEnv "a") = none →
      terminalFailure
        (withFileSystem demoEnv (fun _ => false) (fun _ => false)
          (fun _ => AssetStatus.AssetStatus_Missing) (fun _ => none))
        (materialFileName (UnifyName demoEnv "a")) →
      ∃ s2, LoadMaterialInternal 1
          (withFileSystem demoEnv (fun _ => false) (fun _ => false)
            (fun _ => AssetStatus.AssetStatus_Missing) (fun _ => none))
          loadedState "a" false false 0 =
            .ok ((if false then loadedState.m_pDefaultMtl else none), s2) ∧
        mapFind s2.m_mtlNameMap (UnifyName demoEnv "a") = some 1)) ∧
    mapFind loadedState.m_pendingMaterialLoads (UnifyName demoEnv "a") = some (some 0) ∧
    (loadedState.event 0).m_flag = true :=
  ⟨cache_hit_needs_pending_record 0 demoEnv loadedState "a" false false 0 1
    (fun _ => false) (fun _ => false) (fun _ => AssetStatus.AssetStatus_Missing) (fun _ => none)
    (by decide!) (by decide!) (by decide!), by decide!, by decide!⟩

/-! ## C4: terminal failure on the owner path -/

theorem ownerState_map (s1 : CMatMan) (name : String) :
    (ownerState s1 name).m_mtlNameMap = s1.m_mtlNameMap := rfl

theorem ownerState_pending (s1 : CMatMan) (name : String) :
    (ownerState s1 name).m_pendingMaterialLoads =
      (name, some s1.events.length) :: s1.m_pendingMaterialLoads := rfl

theorem ownerState_events (s1 : CMatMan) (name : String) :
    (ownerState s1 name).events = s1.events ++ [({} : ManualResetEvent)] := rfl

theorem ownerState_defaultMtl (s1 : CMatMan) (name : String) :
    (ownerState s1 name).m_pDefaultMtl = s1.m_pDefaultMtl := rfl

theorem ownerState_initialized (s1 : CMatMan) (name : String) :
    (ownerState s1 name).m_bInitialized = s1.m_bInitialized := rfl

theorem ownerState_nonRemovables (s1 : CMatMan) (name : String) :
    (ownerState s1 name).m_nonRemovables = s1.m_nonRemovables := rfl

theorem ownerState_materials (s1 : CMatMan) (name : String) :
    (ownerState s1 name).materials = s1.materials := rfl

theorem mapErase_cons_self {α : Type} (m : List (String × α)) (k : String) (v : α) :
    mapErase ((k, v) :: m) k = mapErase m k := by
  simp [mapErase]

/-- C4 as stated fails: the first load on a manager that is not initialised goes through
`InitDefaults`, which puts the no-draw material into the name map.  The load of `zz` takes the
owner path and ends in a terminal failure (no file, status unknown), and the name map, empty
before the call, holds the entry `nodraw` on return. -/
theorem first_load_changes_name_map :
    (ensureDefaults 2 demoEnv CMatMan.new).map
      (fun s1 => (preloadShortCut demoEnv s1,
        mapFind s1.m_pendingMaterialLoads (UnifyName demoEnv "zz"))) = .ok (false, none) ∧
    demoEnv.Exists (materialFileName (UnifyName demoEnv "zz")) = false ∧
    demoEnv.GetAssetStatus (materialFileName (UnifyName demoEnv "zz")) =
      AssetStatus.AssetStatus_Unknown ∧
    CMatMan.new.m_mtlNameMap = [] ∧
    (LoadMaterialInternal 3 demoEnv CMatMan.new "zz" false false 0).map
      (fun r => (r.1, r.2.m_mtlNameMap, r.2.m_pendingMaterialLoads)) =
        .ok (none, [("nodraw", 2)], [("nodraw", some 1)]) := by
  decide!

/-- C4, amended: when a load takes the owner path (no record for the unified name once the
defaults are there, state `s1`) and ends in a terminal failure, the call returns, the
pending-load table holds no record for the unified name and is the table of `s1`, and the name
map is exactly the name map of `s1`: the one before the call on an initialised manager, and
the one that the initialisation of the defaults left otherwise. -/
theorem terminal_failure_restores_tables (n : Nat) (env : Env) (s s1 : CMatMan) (N : String)
    (mk nr : Bool) (lf : Nat)
    (h0 : ensureDefaults n env s = .ok s1)
    (hp : preloadShortCut env s1 = false)
    (hrec : mapFind s1.m_pendingMaterialLoads (UnifyName env N) = none)
    (hfail : terminalFailure env (materialFileName (UnifyName env N))) :
    ∃ r s2, LoadMaterialInternal (n + 1) env s N mk nr lf = .ok (r, s2) ∧
      mapFind s2.m_pendingMaterialLoads (UnifyName env N) = none ∧
      s2.m_pendingMaterialLoads = s1.m_pendingMaterialLoads ∧
      s2.m_mtlNameMap = s1.m_mtlNameMap := by
  rw [LoadMaterialInternal_succ, h0]
  dsimp only
  rw [loadAfterInit_owner _ env s1 N mk nr hp hrec]
  unfold ownerHandle
  rw [loadAsOwner_terminal _ env _ _ _ mk nr hfail]
  generalize hF : finishLoad (evictPendingLoad (ownerState s1 (UnifyName env N))
      ⟨some s1.events.length, true⟩ (UnifyName env N)).2 ⟨some s1.events.length, false⟩ none mk
      nr = F
  have hpend : F.2.m_pendingMaterialLoads = s1.m_pendingMaterialLoads := by
    rw [← hF, finishLoad_pending, evictPendingLoad_pending, ownerState_pending, mapErase_cons_self,
      mapErase_of_find_none _ _ hrec]
  refine ⟨F.1, F.2, rfl, ?_, hpend, ?_⟩
  · rw [hpend]
    exact hrec
  · rw [← hF, finishLoad_map, evictPendingLoad_map, ownerState_map]

/-- The amended C4 at the initialised manager of the examples and the name `zz`. -/
theorem terminal_failure_restores_tables_witness :
    ∃ r s2, LoadMaterialInternal 1 demoEnv demoState "zz" false false 0 = .ok (r, s2) ∧
      mapFind s2.m_pendingMaterialLoads (UnifyName demoEnv "zz") = none ∧
      s2.m_pendingMaterialLoads = demoState.m_pendingMaterialLoads ∧
      s2.m_mtlNameMap = demoState.m_mtlNameMap :=
  terminal_failure_restores_tables 0 demoEnv demoState demoState "zz" false false 0
    (by decide!) (by decide!) (by decide!) (Or.inl ⟨by decide!, Or.inl (by decide!)⟩)

/-! ## The three ways in which the owner's load ends -/

theorem owner_cases (env : Env) (f : String) :
    terminalFailure env f ∨
    (env.Exists f = false ∧
      (env.GetAssetStatus f = AssetStatus.AssetStatus_Queued ∨
        env.GetAssetStatus f = AssetStatus.AssetStatus_Compiling)) ∨
    (∃ node, fileFound env f ∧ env.LoadXmlFromFile f = some node) := by
  unfold terminalFailure fileFound
  cases hx : env.Exists f with
  | true =>
    cases hd : env.LoadXmlFromFile f with
    | none => exact Or.inl (Or.inr ⟨Or.inl rfl, rfl⟩)
    | some node => exact Or.inr (Or.inr ⟨node, Or.inl rfl, rfl⟩)
  | false =>
    cases hs : env.GetAssetStatus f with
    | AssetStatus_Unknown => exact Or.inl (Or.inl ⟨rfl, Or.inl rfl⟩)
    | AssetStatus_Queued => exact Or.inr (Or.inl ⟨rfl, Or.inl rfl⟩)
    | AssetStatus_Compiling => exact Or.inr (Or.inl ⟨rfl, Or.inr rfl⟩)
    | AssetStatus_Compiled =>
      cases h2 : env.ExistsAfterStatus f with
      | false => exact Or.inl (Or.inl ⟨rfl, Or.inr (Or.inr (Or.inr ⟨rfl, rfl⟩))⟩)
      | true =>
        cases hd : env.LoadXmlFromFile f with
        | none => exact Or.inl (Or.inr ⟨Or.inr ⟨rfl, rfl⟩, rfl⟩)
        | some node => exact Or.inr (Or.inr ⟨node, Or.inr ⟨rfl, rfl⟩, rfl⟩)
    | AssetStatus_Missing => exact Or.inl (Or.inl ⟨rfl, Or.inr (Or.inl rfl)⟩)
    | AssetStatus_Failed => exact Or.inl (Or.inl ⟨rfl, Or.inr (Or.inr (Or.inl rfl))⟩)

/-- The owner's load ends in `finishLoad`, entered in one of four ways: after the eviction of
the record, with the placeholder, or after the build with or without a material. -/
theorem loadAsOwner_ends
    (build : CMatMan → String → XmlNode → Except Fault (Option MatId × CMatMan))
    (env : Env) (s2 : CMatMan) (e : EventId) (name : String) (mk nr : Bool)
    (r : Option MatId) (s3 : CMatMan)
    (h : loadAsOwner build env s2 ⟨some e, true⟩ name mk nr = .ok (r, s3)) :
    (terminalFailure env (materialFileName name) ∧
      (r, s3) = finishLoad (evictPendingLoad s2 ⟨some e, true⟩ name).2 ⟨some e, false⟩ none mk nr) ∨
    ((env.Exists (materialFileName name) = false ∧
        (env.GetAssetStatus (materialFileName name) = AssetStatus.AssetStatus_Queued ∨
          env.GetAssetStatus (materialFileName name) = AssetStatus.AssetStatus_Compiling)) ∧
      (r, s3) = finishLoad (createPlaceholder env s2 (materialFileName name)).2 ⟨some e, true⟩
        (some (createPlaceholder env s2 (materialFileName name)).1) mk nr) ∨
    (∃ node m t, fileFound env (materialFileName name) ∧
      env.LoadXmlFromFile (materialFileName name) = some node ∧
      build s2 name node = .ok (some m, t) ∧
      (r, s3) = finishLoad (if env.e_sketch_mode ≠ 0 then t.SetSketchMode m env.e_sketch_mode else t)
        ⟨some e, true⟩ (some m) mk nr) ∨
    (∃ node t, fileFound env (materialFileName name) ∧
      env.LoadXmlFromFile (materialFileName name) = some node ∧
      build s2 name node = .ok (none, t) ∧
      (r, s3) = finishLoad t ⟨some e, true⟩ none mk nr) := by
  rcases owner_cases env (materialFileName name) with hf | ⟨hx, hs⟩ | ⟨node, hf, hd⟩
  · rw [loadAsOwner_terminal build env s2 e name mk nr hf] at h
    simp only [Except.ok.injEq] at h
    exact Or.inl ⟨hf, h.symm⟩
  · rw [loadAsOwner_placeholder build env s2 _ name mk nr hx hs] at h
    simp only [Except.ok.injEq] at h
    exact Or.inr (Or.inl ⟨⟨hx, hs⟩, h.symm⟩)
  · rw [loadAsOwner_build build env s2 _ name mk nr node hf hd] at h
    split at h
    · exact absurd h (by simp)
    · rename_i m t hb
      simp only [Except.ok.injEq] at h
      exact Or.inr (Or.inr (Or.inl ⟨node, m, t, hf, hd, hb, h.symm⟩))
    · rename_i t hb
      simp only [Except.ok.injEq] at h
      exact Or.inr (Or.inr (Or.inr ⟨node, t, hf, hd, hb, h.symm⟩))

theorem finishLoad_nonRemovables_of_some (s : CMatMan) (u : UniqueManualEvent) (p : Option MatId)
    (mk : Bool) (m : MatId) (h : (finishLoad s u p mk true).1 = some m) :
    (finishLoad s u p mk true).2.m_nonRemovables = s.m_nonRemovables ++ [m] := by
  rw [finishLoad_nonRemovables, h]
  simp

/-! ## C6: the retention list -/

/-- C6 as stated fails: on the waiter path the load returns the registered object without
touching the retention list.  With `bNonremovable` set, the load of `a` on the loaded manager
returns object 1 and the state is unchanged, so the retention list is still empty. -/
theorem waiter_result_is_not_retained :
    LoadMaterialInternal 1 demoEnv loadedState "a" false true 0 = .ok (some 1, loadedState) ∧
    loadedState.m_nonRemovables = [] := by
  decide!

/-- C6, amended: when a load with `bNonremovable` set takes the owner path and returns a
material (from a build, the placeholder, or the default material standing in for a failed
load), that material is the last element of the retention list on return; on the waiter path
the call returns with the state it found, so the retention list is unchanged there. -/
theorem owner_result_is_retained (n : Nat) (env : Env) (s s1 : CMatMan) (N : String) (mk : Bool)
    (lf : Nat)
    (h0 : ensureDefaults n env s = .ok s1)
    (hp : preloadShortCut env s1 = false) :
    (mapFind s1.m_pendingMaterialLoads (UnifyName env N) = none →
      ∀ m s2, LoadMaterialInternal (n + 1) env s N mk true lf = .ok (some m, s2) →
        ∃ l, s2.m_nonRemovables = l ++ [m]) ∧
    (∀ e, mapFind s1.m_pendingMaterialLoads (UnifyName env N) = some (some e) →
      (s1.event e).m_flag = true →
      ∃ r, LoadMaterialInternal (n + 1) env s N mk true lf = .ok (r, s1)) := by
  constructor
  · intro hrec m s2 h
    rw [LoadMaterialInternal_succ, h0] at h
    dsimp only at h
    rw [loadAfterInit_owner _ env s1 N mk true hp hrec] at h
    unfold ownerHandle at h
    rcases loadAsOwner_ends _ env _ _ _ mk true _ _ h with ⟨_, hF⟩ | ⟨_, hF⟩ | ⟨_, _, _, _, _, _, hF⟩ |
      ⟨_, _, _, _, _, hF⟩
    all_goals
      have h1 := congrArg Prod.fst hF
      have h2 := congrArg Prod.snd hF
      dsimp only at h1 h2
      rw [h2]
      exact ⟨_, finishLoad_nonRemovables_of_some _ _ _ _ m h1.symm⟩
  · intro e hrec hset
    rw [LoadMaterialInternal_succ, h0]
    dsimp only
    rw [loadAfterInit_waiter _ env s1 N mk true e hp hrec hset]
    exact ⟨_, rfl⟩

/-- The amended C6 at the initialised manager of the examples: the placeholder of `q` is
retained, and the waiter on `a` leaves the state as it is. -/
theorem owner_result_is_retained_witness :
    ((mapFind demoState.m_pendingMaterialLoads (UnifyName demoEnv "q") = none →
      ∀ m s2, LoadMaterialInternal 1 demoEnv demoState "q" false true 0 = .ok (some m, s2) →
        ∃ l, s2.m_nonRemovables = l ++ [m]) ∧
    (∀ e, mapFind demoState.m_pendingMaterialLoads (UnifyName demoEnv "q") = some (some e) →
      (demoState.event e).m_flag = true →
      ∃ r, LoadMaterialInternal 1 demoEnv demoState "q" false true 0 = .ok (r, demoState))) ∧
    mapFind demoState.m_pendingMaterialLoads (UnifyName demoEnv "q") = none ∧
    (LoadMaterialInternal 1 demoEnv demoState "q" false true 0).map
      (fun r => (r.1, r.2.m_nonRemovables)) = .ok (some 1, [1]) :=
  ⟨owner_result_is_retained 0 demoEnv demoState demoState "q" false 0 (by decide!) (by decide!),
    by decide!, by decide!⟩

/-! ## The events on the owner's exits -/

theorem finishLoad_events_of_control (s : CMatMan) (e : EventId) (p : Option MatId)
    (mk nr : Bool) :
    (finishLoad s ⟨some e, true⟩ p mk nr).2.events = (s.setEvent e).events := by
  simp only [finishLoad, UniqueManualEvent.destroy, Set_snd_of_control]
  split
  · split <;> rfl
  · rfl

theorem finishLoad_events_of_no_control (s : CMatMan) (o : Option EventId) (p : Option MatId)
    (mk nr : Bool) :
    (finishLoad s ⟨o, false⟩ p mk nr).2.events = s.events := by
  simp only [finishLoad, UniqueManualEvent.destroy, Set_snd_of_no_control]
  split
  · split <;> rfl
  · rfl

theorem event_congr {s t : CMatMan} (h : t.events = s.events) (e : EventId) :
    t.event e = s.event e := by
  unfold CMatMan.event
  rw [h]

theorem event_of_initial_events {l : List ManualResetEvent} {s : CMatMan} (h : l <+: s.events)
    {i : Nat} (hi : i < l.length) : s.event i = l.getD i {} := by
  obtain ⟨r, hr⟩ := h
  unfold CMatMan.event
  rw [← hr]
  simp [List.getD, List.getElem?_append_left hi]

theorem ownerState_event_new (s1 : CMatMan) (name : String) :
    (ownerState s1 name).event s1.events.length = {} := by
  simp [CMatMan.event, ownerState, List.getD]

theorem setEvent_new_event (s : CMatMan) (e : EventId) (h : e < s.events.length)
    (h0 : s.event e = {}) : (s.setEvent e).event e = ⟨true, 1⟩ := by
  rw [setEvent_event_self s e h, h0]

/-- On every return of the owner's load the owner's event, which was not set and had received
no `Set` when the owner started, is set and has received exactly one `Set`. -/
theorem loadAsOwner_sets_once
    (build : CMatMan → String → XmlNode → Except Fault (Option MatId × CMatMan))
    (hb : ∀ t name node r t2, build t name node = .ok (r, t2) → Grows t t2)
    (env : Env) (s2 : CMatMan) (e : EventId) (name : String) (mk nr : Bool)
    (r : Option MatId) (s3 : CMatMan)
    (he : e < s2.events.length) (h0 : s2.event e = {})
    (h : loadAsOwner build env s2 ⟨some e, true⟩ name mk nr = .ok (r, s3)) :
    s3.event e = ⟨true, 1⟩ := by
  rcases loadAsOwner_ends build env s2 e name mk nr r s3 h with ⟨_, hF⟩ | ⟨_, hF⟩ |
    ⟨node, m, t, _, _, hbt, hF⟩ | ⟨node, t, _, _, hbt, hF⟩
  · have h2 := congrArg Prod.snd hF
    dsimp only at h2
    rw [h2, event_congr (finishLoad_events_of_no_control _ _ _ _ _),
      event_congr (evictPendingLoad_events _ _ _), Set_snd_of_control]
    exact setEvent_new_event s2 e he h0
  · have h2 := congrArg Prod.snd hF
    dsimp only at h2
    rw [h2, event_congr (finishLoad_events_of_control _ _ _ _ _)]
    apply setEvent_new_event
    · rw [createPlaceholder_events]
      exact he
    · rw [event_congr (createPlaceholder_events env s2 _)]
      exact h0
  · have h2 := congrArg Prod.snd hF
    dsimp only at h2
    have g := hb _ _ _ _ _ hbt
    have hs : (if env.e_sketch_mode ≠ 0 then t.SetSketchMode m env.e_sketch_mode else t).events =
        t.events := by
      split
      · exact (sameRegistry_SetSketchMode _ _ _).events_eq
      · rfl
    rw [h2, event_congr (finishLoad_events_of_control _ _ _ _ _)]
    apply setEvent_new_event
    · rw [hs]
      exact Nat.lt_of_lt_of_le he (List.IsPrefix.length_le g.events)
    · rw [event_congr hs, event_of_initial_events g.events he]
      exact h0
  · have h2 := congrArg Prod.snd hF
    dsimp only at h2
    have g := hb _ _ _ _ _ hbt
    rw [h2, event_congr (finishLoad_events_of_control _ _ _ _ _)]
    apply setEvent_new_event
    · exact Nat.lt_of_lt_of_le he (List.IsPrefix.length_le g.events)
    · rw [event_of_initial_events g.events he]
      exact h0

/-! ## C8: the gate of the owner -/

/-- C8: on every return of a load that takes the owner path (after a build, with the
placeholder, after a terminal asset status, after a document that does not parse), the event
created for that load, which is the one at index `s1.events.length`, is set and has received
exactly one `Set`. -/
theorem owner_sets_gate_exactly_once (n : Nat) (env : Env) (s s1 : CMatMan) (N : String)
    (mk nr : Bool) (lf : Nat) (r : Option MatId) (s2 : CMatMan)
    (h0 : ensureDefaults n env s = .ok s1)
    (hp : preloadShortCut env s1 = false)
    (hrec : mapFind s1.m_pendingMaterialLoads (UnifyName env N) = none)
    (hret : LoadMaterialInternal (n + 1) env s N mk nr lf = .ok (r, s2)) :
    s1.event s1.events.length = {} ∧ s2.event s1.events.length = ⟨true, 1⟩ := by
  constructor
  · simp [CMatMan.event, List.getD]
  · rw [LoadMaterialInternal_succ, h0] at hret
    dsimp only at hret
    rw [loadAfterInit_owner _ env s1 N mk nr hp hrec] at hret
    unfold ownerHandle at hret
    exact loadAsOwner_sets_once _
      (fun t name node r t2 hbt => (grows_all n).2.2 env t name node false 0 none lf none r t2 hbt)
      env _ _ _ mk nr r s2 (by simp [ownerState]) (ownerState_event_new s1 _) hret

/-- C8 at the initialised manager of the examples, for the build of `a`. -/
theorem owner_sets_gate_exactly_once_witness :
    (demoState.event demoState.events.length = {} ∧
      (LoadMaterialInternal 4 demoEnv demoState "a" false false 0).map
        (fun r => r.2.event demoState.events.length) = .ok ⟨true, 1⟩) := by
  have hr : (LoadMaterialInternal 4 demoEnv demoState "a" false false 0).map (fun r => r.1) =
      .ok (some 1) := by decide!
  have hret : ∃ r s2, LoadMaterialInternal 4 demoEnv demoState "a" false false 0 = .ok (r, s2) := by
    cases h : LoadMaterialInternal 4 demoEnv demoState "a" false false 0 with
    | error e =>
      rw [h] at hr
      exact absurd hr (by simp [Except.map])
    | ok p => exact ⟨p.1, p.2, rfl⟩
  obtain ⟨r, s2, h⟩ := hret
  have w := owner_sets_gate_exactly_once 3 demoEnv demoState demoState "a" false false 0 r s2
    (by decide!) (by decide!) (by decide!) h
  rw [h]
  exact ⟨w.1, congrArg Except.ok w.2⟩

/-- C10 at the loaded manager of the examples: a material created under the name `a.mtl`
without flags replaces the entry of the unified name `a`. -/
theorem CreateMaterial_registers_unless_pure_child_witness :
    (0 &&& demoEnv.MTL_FLAG_PURE_CHILD = 0 ∧
      ∀ p ∈ loadedState.m_mtlNameMap, p.2 < loadedState.materials.length) ∧
    mapFind (CreateMaterial demoEnv loadedState "a.mtl" 0).2.m_mtlNameMap (UnifyName demoEnv "a.mtl") =
      some (CreateMaterial demoEnv loadedState "a.mtl" 0).1 ∧
    mapCount (CreateMaterial demoEnv loadedState "a.mtl" 0).2.m_mtlNameMap (UnifyName demoEnv "a.mtl") = 1 ∧
    ((CreateMaterial demoEnv loadedState "a.mtl" 0).2.m_mtlNameMap ≠ loadedState.m_mtlNameMap ↔
      0 &&& demoEnv.MTL_FLAG_PURE_CHILD = 0) :=
  have h := CreateMaterial_registers_unless_pure_child demoEnv loadedState "a.mtl" 0
  have hv : ∀ p ∈ loadedState.m_mtlNameMap, p.2 < loadedState.materials.length := by decide!
  ⟨⟨by decide!, hv⟩, (h.2.2.1 (by decide!)).1, (h.2.2.1 (by decide!)).2.1, h.2.2.2.2.1 hv⟩

/-! ## What loads and builds do to the two tables -/

theorem lor_land_self (a p : Nat) : (a ||| p) &&& p = p := by
  apply Nat.eq_of_testBit_eq
  intro i
  rw [Nat.testBit_and, Nat.testBit_or]
  cases a.testBit i <;> cases p.testBit i <;> rfl

theorem Frames.of_same_tables {s t : CMatMan} (x : Option String)
    (hm : t.m_mtlNameMap = s.m_mtlNameMap)
    (hp : t.m_pendingMaterialLoads = s.m_pendingMaterialLoads) : Frames x s t :=
  ⟨fun k v h => by rw [hp]; exact h, fun k _ _ => by rw [hm], fun k _ _ => by rw [hm]⟩

theorem Frames.frames_trans {x : Option String} {s t u : CMatMan} (h1 : Frames x s t)
    (h2 : Frames x t u) : Frames x s u := by
  refine ⟨fun k v h => h2.records k v (h1.records k v h), ?_, ?_⟩
  · intro k hx hk
    have hk2 : mapFind t.m_pendingMaterialLoads k ≠ none := by
      cases hv : mapFind s.m_pendingMaterialLoads k with
      | none => exact absurd hv hk
      | some v => rw [h1.records k v hv]; simp
    rw [h2.recorded k hx hk2, h1.recorded k hx hk]
  · intro k hx hk
    have hk2 : mapFind t.m_pendingMaterialLoads k = none := by
      cases hv : mapFind t.m_pendingMaterialLoads k with
      | none => rfl
      | some v =>
        rw [h2.records k v hv] at hk
        exact absurd hk (by simp)
    rw [h2.unrecorded k hx hk, h1.unrecorded k hx hk2]

theorem Frames.weaken {s t : CMatMan} (x : Option String) (h : Frames none s t) : Frames x s t :=
  ⟨h.records, fun k _ hk => h.recorded k (by simp) hk, fun k _ hk => h.unrecorded k (by simp) hk⟩

theorem SameRegistry.frames {s t : CMatMan} (x : Option String) (h : SameRegistry s t) :
    Frames x s t :=
  Frames.of_same_tables x h.map_eq h.pending_eq

theorem CreateMaterial_frames (env : Env) (s : CMatMan) (n : String) (f : Nat) :
    Frames (some (UnifyName env n)) s (CreateMaterial env s n f).2 := by
  refine ⟨fun k v h => by rw [CreateMaterial_pending]; exact h, ?_, ?_⟩
  · intro k hx _
    rw [CreateMaterial_map]
    split
    · exact mapFind_mapAssign_ne _ _ (fun e => hx (by rw [e]))
    · rfl
  · intro k hx _
    rw [CreateMaterial_map]
    split
    · exact mapFind_mapAssign_ne _ _ (fun e => hx (by rw [e]))
    · rfl

theorem CreateMaterial_frames_pure (env : Env) (s : CMatMan) (n : String) (f : Nat)
    (h : f &&& env.MTL_FLAG_PURE_CHILD ≠ 0) : Frames none s (CreateMaterial env s n f).2 :=
  Frames.of_same_tables none (by rw [CreateMaterial_map, if_neg h]) (CreateMaterial_pending env s n f)

theorem NotifyCreateMaterial_frames (s : CMatMan) (m : MatId) :
    Frames none s (NotifyCreateMaterial s m) := by
  unfold NotifyCreateMaterial
  split
  · exact Frames.of_same_tables none rfl rfl
  · exact Frames.of_same_tables none rfl rfl

theorem mtlFlagsFromXml_forced (env : Env) (node : XmlNode) (hP : env.MTL_FLAG_PURE_CHILD ≠ 0) :
    mtlFlagsFromXml env node true &&& env.MTL_FLAG_PURE_CHILD ≠ 0 := by
  simp only [mtlFlagsFromXml, if_true]
  rw [lor_land_self]
  exact hP

/-- The key that a build may register: the unified name, unless the build is forced to make a
pure child or works on an existing material. -/
theorem obtainMaterial_frames (env : Env) (hP : env.MTL_FLAG_PURE_CHILD ≠ 0) (s : CMatMan)
    (n : String) (node : XmlNode) (b : Bool) (ex : Option MatId) :
    Frames (if b = true ∨ ex.isSome = true then none else some (UnifyName env n)) s
      (obtainMaterial env s n (mtlFlagsFromXml env node b) ex).2 := by
  unfold obtainMaterial
  cases ex with
  | some m =>
    simp only [Option.isSome_some, or_true, if_true]
    exact (sameRegistry_SetFlags s _ _).frames none
  | none =>
    cases b with
    | true =>
      simp only [true_or, if_true]
      exact CreateMaterial_frames_pure env s n _ (mtlFlagsFromXml_forced env node hP)
    | false =>
      simp only [Option.isSome_none, Bool.false_eq_true, or_self, if_false]
      exact CreateMaterial_frames env s n _

theorem loadSubMaterials_frames
    (build : String → XmlNode → Nat → MatId → CMatMan → Except Fault (Option MatId × CMatMan))
    (load : String → CMatMan → Except Fault (Option MatId × CMatMan))
    (hb : ∀ name node prio par t r t2, t.m_bInitialized = true →
      build name node prio par t = .ok (r, t2) → Frames none t t2 ∧ t2.m_bInitialized = true)
    (hl : ∀ name t r t2, t.m_bInitialized = true →
      load name t = .ok (r, t2) → Frames none t t2 ∧ t2.m_bInitialized = true)
    (pMtl nSub : Nat) (nodes : List XmlNode) (i : Nat) (s s2 : CMatMan)
    (hi : s.m_bInitialized = true)
    (h : loadSubMaterials build load pMtl nSub nodes i s = .ok s2) :
    Frames none s s2 ∧ s2.m_bInitialized = true := by
  induction nodes generalizing i s with
  | nil =>
    simp only [loadSubMaterials, Except.ok.injEq] at h
    rw [← h]
    exact ⟨Frames.of_same_tables none rfl rfl, hi⟩
  | cons x xs ih =>
    unfold loadSubMaterials at h
    split at h
    · split at h
      · exact absurd h (by simp)
      · rename_i c s1 hc
        obtain ⟨f1, i1⟩ := hb _ _ _ _ _ _ _ hi hc
        have sr := sameRegistry_SetSubMtl s1 pMtl i (some c)
        obtain ⟨f2, i2⟩ := ih _ _ (by rw [sr.initialized_eq]; exact i1) h
        exact ⟨(f1.frames_trans (sr.frames none)).frames_trans f2, i2⟩
      · rename_i s1 hc
        obtain ⟨f1, i1⟩ := hb _ _ _ _ _ _ _ hi hc
        have sr := sameRegistry_SetSubMtl s1 pMtl i s1.m_pDefaultMtl
        obtain ⟨f2, i2⟩ := ih _ _ (by rw [sr.initialized_eq]; exact i1) h
        exact ⟨(f1.frames_trans (sr.frames none)).frames_trans f2, i2⟩
    · split at h
      · split at h
        · exact absurd h (by simp)
        · rename_i c s1 hc
          obtain ⟨f1, i1⟩ := hl _ _ _ _ hi hc
          have sr := sameRegistry_SetSubMtl s1 pMtl i (some c)
          obtain ⟨f2, i2⟩ := ih _ _ (by rw [sr.initialized_eq]; exact i1) h
          exact ⟨(f1.frames_trans (sr.frames none)).frames_trans f2, i2⟩
        · rename_i s1 hc
          obtain ⟨f1, i1⟩ := hl _ _ _ _ hi hc
          obtain ⟨f2, i2⟩ := ih _ _ i1 h
          exact ⟨f1.frames_trans f2, i2⟩
      · exact ih _ _ hi h

theorem loadSubMaterialsNode_frames
    (build : String → XmlNode → Nat → MatId → CMatMan → Except Fault (Option MatId × CMatMan))
    (load : String → CMatMan → Except Fault (Option MatId × CMatMan))
    (hb : ∀ name node prio par t r t2, t.m_bInitialized = true →
      build name node prio par t = .ok (r, t2) → Frames none t t2 ∧ t2.m_bInitialized = true)
    (hl : ∀ name t r t2, t.m_bInitialized = true →
      load name t = .ok (r, t2) → Frames none t t2 ∧ t2.m_bInitialized = true)
    (s : CMatMan) (pMtl : MatId) (node : XmlNode) (s2 : CMatMan)
    (hi : s.m_bInitialized = true)
    (h : loadSubMaterialsNode build load s pMtl node = .ok s2) :
    Frames none s s2 ∧ s2.m_bInitialized = true := by
  unfold loadSubMaterialsNode at h
  split at h
  · simp only [Except.ok.injEq] at h
    rw [← h]
    exact ⟨Frames.of_same_tables none rfl rfl, hi⟩
  · rename_i childs _
    have sr := sameRegistry_SetSubMtlCount s pMtl childs.children.length
    obtain ⟨f, i2⟩ := loadSubMaterials_frames build load hb hl _ _ _ _ _ _
      (by rw [sr.initialized_eq]; exact hi) h
    exact ⟨(sr.frames none).frames_trans f, i2⟩

theorem makeMaterialBody_frames
    (build : String → XmlNode → Nat → MatId → CMatMan → Except Fault (Option MatId × CMatMan))
    (load : String → CMatMan → Except Fault (Option MatId × CMatMan))
    (hb : ∀ name node prio par t r t2, t.m_bInitialized = true →
      build name node prio par t = .ok (r, t2) → Frames none t t2 ∧ t2.m_bInitialized = true)
    (hl : ∀ name t r t2, t.m_bInitialized = true →
      load name t = .ok (r, t2) → Frames none t t2 ∧ t2.m_bInitialized = true)
    (env : Env) (hP : env.MTL_FLAG_PURE_CHILD ≠ 0) (s : CMatMan) (sMtlName : String)
    (node : XmlNode) (b : Bool) (prio : Nat) (ex : Option MatId) (r : Option MatId) (s2 : CMatMan)
    (hi : s.m_bInitialized = true)
    (h : makeMaterialBody build load env s sMtlName node b prio ex = .ok (r, s2)) :
    Frames (if b = true ∨ ex.isSome = true then none else some (UnifyName env sMtlName)) s s2 ∧
      s2.m_bInitialized = true := by
  unfold makeMaterialBody at h
  dsimp only at h
  split at h
  · exact absurd h (by simp)
  · rename_i t ht
    simp only [Except.ok.injEq, Prod.mk.injEq] at h
    rw [← h.2]
    have f1 := obtainMaterial_frames env hP s sMtlName node b ex
    have g1 := obtainMaterial_grows env s sMtlName (mtlFlagsFromXml env node b) ex
    have sr := sameRegistry_loadMaterialBody env
      (obtainMaterial env s sMtlName (mtlFlagsFromXml env node b) ex).2
      (obtainMaterial env s sMtlName (mtlFlagsFromXml env node b) ex).1 sMtlName node
      (mtlFlagsFromXml env node b) prio
    obtain ⟨f3, i3⟩ := loadSubMaterialsNode_frames build load hb hl _ _ _ _
      (by rw [sr.initialized_eq]; exact g1.initialized hi) ht
    refine ⟨(f1.frames_trans ((sr.frames none).weaken _)).frames_trans
      ((f3.frames_trans (NotifyCreateMaterial_frames _ _)).weaken _), ?_⟩
    exact (NotifyCreateMaterial_grows _ _).initialized i3

theorem finishLoad_frames (x : Option String) (s : CMatMan) (u : UniqueManualEvent)
    (p : Option MatId) (mk nr : Bool) : Frames x s (finishLoad s u p mk nr).2 :=
  Frames.of_same_tables x (finishLoad_map s u p mk nr) (finishLoad_pending s u p mk nr)

theorem mapFind_cons_self {α : Type} (m : List (String × α)) (k : String) (v : α) :
    mapFind ((k, v) :: m) k = some v := by
  simp [mapFind]

theorem mapFind_cons_ne {α : Type} (m : List (String × α)) {k k2 : String} (v : α) (h : k ≠ k2) :
    mapFind ((k, v) :: m) k2 = mapFind m k2 := by
  simp [mapFind, h]

/-- From the owner's start to the state before it: a step that frames everything but the
owner's own key frames everything, seen from the state in which the key had no record. -/
theorem frames_of_owner {s1 t : CMatMan} {k : String}
    (hrec : mapFind s1.m_pendingMaterialLoads k = none)
    (h : Frames (some k) (ownerState s1 k) t) : Frames none s1 t := by
  have hk : mapFind t.m_pendingMaterialLoads k = some (some s1.events.length) :=
    h.records k _ (by rw [ownerState_pending]; exact mapFind_cons_self _ _ _)
  have hne : ∀ k2, mapFind s1.m_pendingMaterialLoads k2 ≠ none → k ≠ k2 := by
    intro k2 h2 e
    rw [← e] at h2
    exact h2 hrec
  refine ⟨?_, ?_, ?_⟩
  · intro k2 v hv
    apply h.records
    rw [ownerState_pending, mapFind_cons_ne _ _ (hne k2 (by rw [hv]; simp))]
    exact hv
  · intro k2 _ h2
    have hkk := hne k2 h2
    rw [h.recorded k2 (fun e => hkk (by injection e)) (by
      rw [ownerState_pending, mapFind_cons_ne _ _ hkk]
      exact h2), ownerState_map]
  · intro k2 _ h2
    have hkk : k ≠ k2 := by
      intro e
      rw [← e, hk] at h2
      exact absurd h2 (by simp)
    rw [h.unrecorded k2 (fun e => hkk (by injection e)) h2, ownerState_map]

theorem createPlaceholder_frames (env : Env) (s : CMatMan) (filename : String) :
    Frames (some (UnifyName env (UnifyName env filename))) s (createPlaceholder env s filename).2 :=
  (CreateMaterial_frames env s (UnifyName env filename) 0).frames_trans
    ((createPlaceholder_sameRegistry env s filename).frames _)

theorem loadAsOwner_frames
    (build : CMatMan → String → XmlNode → Except Fault (Option MatId × CMatMan))
    (env : Env) (hU : UnifyLaws env)
    (hb : ∀ t name node r t2, t.m_bInitialized = true → build t (UnifyName env name) node = .ok (r, t2) →
      Frames (some (UnifyName env name)) t t2)
    (s1 : CMatMan) (N : String) (mk nr : Bool) (r : Option MatId) (s3 : CMatMan)
    (hi : s1.m_bInitialized = true)
    (hrec : mapFind s1.m_pendingMaterialLoads (UnifyName env N) = none)
    (h : loadAsOwner build env (ownerState s1 (UnifyName env N)) (ownerHandle s1) (UnifyName env N)
      mk nr = .ok (r, s3)) : Frames none s1 s3 := by
  unfold ownerHandle at h
  rcases loadAsOwner_ends build env _ _ _ mk nr r s3 h with ⟨_, hF⟩ | ⟨_, hF⟩ |
    ⟨node, m, t, _, _, hbt, hF⟩ | ⟨node, t, _, _, hbt, hF⟩
  · have h2 := congrArg Prod.snd hF
    dsimp only at h2
    rw [h2]
    apply Frames.of_same_tables
    · rw [finishLoad_map, evictPendingLoad_map, ownerState_map]
    · rw [finishLoad_pending, evictPendingLoad_pending, ownerState_pending, mapErase_cons_self,
        mapErase_of_find_none _ _ hrec]
  · have h2 := congrArg Prod.snd hF
    dsimp only at h2
    rw [h2]
    apply frames_of_owner hrec
    have hk : UnifyName env (UnifyName env (materialFileName (UnifyName env N))) =
        UnifyName env N := by
      unfold UnifyName
      rw [hU.file, hU.idem]
    have f1 := createPlaceholder_frames env (ownerState s1 (UnifyName env N))
      (materialFileName (UnifyName env N))
    rw [hk] at f1
    exact f1.frames_trans (finishLoad_frames _ _ _ _ _ _)
  · have h2 := congrArg Prod.snd hF
    dsimp only at h2
    rw [h2]
    apply frames_of_owner hrec
    have f1 := hb _ N node _ _ (by rw [ownerState_initialized]; exact hi) hbt
    refine (f1.frames_trans ?_).frames_trans (finishLoad_frames _ _ _ _ _ _)
    split
    · exact (sameRegistry_SetSketchMode _ _ _).frames _
    · exact Frames.of_same_tables _ rfl rfl
  · have h2 := congrArg Prod.snd hF
    dsimp only at h2
    rw [h2]
    apply frames_of_owner hrec
    have f1 := hb _ N node _ _ (by rw [ownerState_initialized]; exact hi) hbt
    exact f1.frames_trans (finishLoad_frames _ _ _ _ _ _)

theorem loadAfterInit_frames
    (build : CMatMan → String → XmlNode → Except Fault (Option MatId × CMatMan))
    (env : Env) (hU : UnifyLaws env)
    (hb : ∀ t name node r t2, t.m_bInitialized = true → build t (UnifyName env name) node = .ok (r, t2) →
      Frames (some (UnifyName env name)) t t2)
    (s1 : CMatMan) (N : String) (mk nr : Bool) (r : Option MatId) (s3 : CMatMan)
    (hi : s1.m_bInitialized = true)
    (h : loadAfterInit build env s1 N mk nr = .ok (r, s3)) : Frames none s1 s3 := by
  by_cases hp : preloadShortCut env s1 = true
  · unfold loadAfterInit at h
    rw [if_pos hp] at h
    simp only [Except.ok.injEq, Prod.mk.injEq] at h
    rw [← h.2]
    exact Frames.of_same_tables none rfl rfl
  · have hp2 : preloadShortCut env s1 = false := by simpa using hp
    cases hrec : mapFind s1.m_pendingMaterialLoads (UnifyName env N) with
    | none =>
      rw [loadAfterInit_owner build env s1 N mk nr hp2 hrec] at h
      exact loadAsOwner_frames build env hU hb s1 N mk nr r s3 hi hrec h
    | some o =>
      unfold loadAfterInit at h
      rw [if_neg hp] at h
      split at h
      · exact absurd h (by simp)
      · rename_i u p s2 hc
        rcases CheckMaterialCache_cases _ _ _ _ _ _ hc with ⟨e, _, _, hu, _, hs⟩ | ⟨hn, _, _, _⟩
        · subst hu hs
          rw [destroy_of_no_control] at h
          split at h
          · simp only [Except.ok.injEq, Prod.mk.injEq] at h
            rw [← h.2]
            exact Frames.of_same_tables none rfl rfl
          · simp only [UniqueManualEvent.HasControl, Bool.not_false, if_true, Except.ok.injEq,
              Prod.mk.injEq] at h
            rw [← h.2]
            exact Frames.of_same_tables none rfl rfl
        · rw [hrec] at hn
          exact absurd hn (by simp)

theorem Frames.toInit {s t : CMatMan} (h : Frames none s t) : FramesInit s t :=
  ⟨h.records, fun k hk => h.unrecorded k (by simp) hk⟩

theorem FramesInit.init_trans {s t u : CMatMan} (h1 : FramesInit s t) (h2 : FramesInit t u) :
    FramesInit s u := by
  refine ⟨fun k v h => h2.records k v (h1.records k v h), ?_⟩
  intro k hk
  have hk2 : mapFind t.m_pendingMaterialLoads k = none := by
    cases hv : mapFind t.m_pendingMaterialLoads k with
    | none => rfl
    | some v =>
      rw [h2.records k v hv] at hk
      exact absurd hk (by simp)
  rw [h2.unrecorded k hk, h1.unrecorded k hk2]

theorem makeDefaultMaterial_map (env : Env) (s : CMatMan) (name shader : String) :
    (makeDefaultMaterial env s name shader).2.m_mtlNameMap = s.m_mtlNameMap := rfl

theorem makeDefaultMaterial_pending (env : Env) (s : CMatMan) (name shader : String) :
    (makeDefaultMaterial env s name shader).2.m_pendingMaterialLoads = s.m_pendingMaterialLoads :=
  rfl

theorem newNoDrawMaterial_map (env : Env) (s : CMatMan) :
    (newNoDrawMaterial env s).2.m_mtlNameMap = s.m_mtlNameMap := rfl

theorem newNoDrawMaterial_pending (env : Env) (s : CMatMan) :
    (newNoDrawMaterial env s).2.m_pendingMaterialLoads = s.m_pendingMaterialLoads := rfl

theorem installNoDrawMaterial_tables (env : Env) (s : CMatMan) :
    ∃ kn m e, (installNoDrawMaterial env s).m_mtlNameMap = mapAssign s.m_mtlNameMap kn m ∧
      (installNoDrawMaterial env s).m_pendingMaterialLoads =
        mapEmplace s.m_pendingMaterialLoads kn (some e) := by
  refine ⟨UnifyName env ((newNoDrawMaterial env s).2.GetName (newNoDrawMaterial env s).1),
    (newNoDrawMaterial env s).1, (newNoDrawMaterial env s).2.events.length, ?_, ?_⟩
  · rw [← newNoDrawMaterial_map env s]
    rfl
  · rw [← newNoDrawMaterial_pending env s]
    rfl

theorem mapFind_mapEmplace_ne_none {α : Type} (m : List (String × α)) (k : String) (v : α) :
    mapFind (mapEmplace m k v) k ≠ none := by
  unfold mapEmplace
  cases h : mapFind m k with
  | none => simp [mapFind]
  | some w => simp [h]

theorem mapFind_mapEmplace_of_some {α : Type} (m : List (String × α)) (k k2 : String) (v w : α)
    (h : mapFind m k2 = some w) : mapFind (mapEmplace m k v) k2 = some w := by
  by_cases e : k = k2
  · subst e
    unfold mapEmplace
    rw [h]
    exact h
  · rw [mapFind_mapEmplace_ne m v e]
    exact h

theorem installNoDrawMaterial_framesInit (env : Env) (s : CMatMan) :
    FramesInit s (installNoDrawMaterial env s) := by
  obtain ⟨kn, m, e, hm, hp⟩ := installNoDrawMaterial_tables env s
  refine ⟨?_, ?_⟩
  · intro k v hv
    rw [hp]
    exact mapFind_mapEmplace_of_some _ _ _ _ _ hv
  · intro k hk
    rw [hp] at hk
    have hne : kn ≠ k := by
      intro e2
      rw [← e2] at hk
      exact mapFind_mapEmplace_ne_none _ _ _ hk
    rw [hm, mapFind_mapAssign_ne _ _ hne]

theorem initDefaultsBody_framesInit (load : CMatMan → Except Fault (Option MatId × CMatMan))
    (hl : ∀ t r t2, t.m_bInitialized = true → load t = .ok (r, t2) → Frames none t t2)
    (env : Env) (s s2 : CMatMan) (h : initDefaultsBody load env s = .ok s2) :
    FramesInit s s2 := by
  unfold initDefaultsBody at h
  dsimp only at h
  have a1 : ∀ t : CMatMan, t = (if s.m_bLoadSurfaceTypesInInit = true then
      ({ s with m_bInitialized := true, surfaceTypesLoaded := true } : CMatMan)
      else { s with m_bInitialized := true }) →
      t.m_mtlNameMap = s.m_mtlNameMap ∧ t.m_pendingMaterialLoads = s.m_pendingMaterialLoads ∧
        t.m_bInitialized = true := by
    intro t ht
    rw [ht]
    split <;> exact ⟨rfl, rfl, rfl⟩
  generalize (if s.m_bLoadSurfaceTypesInInit = true then
      ({ s with m_bInitialized := true, surfaceTypesLoaded := true } : CMatMan)
      else { s with m_bInitialized := true }) = t1 at h a1
  obtain ⟨m1, p1, i1⟩ := a1 t1 rfl
  have a2 : ∀ t : CMatMan, t = (if t1.m_pDefaultMtl.isNone = true then
      { (makeDefaultMaterial env t1 "Default" "Illum").2 with
        m_pDefaultMtl := some (makeDefaultMaterial env t1 "Default" "Illum").1 }
      else t1) →
      t.m_mtlNameMap = t1.m_mtlNameMap ∧ t.m_pendingMaterialLoads = t1.m_pendingMaterialLoads ∧
        t.m_bInitialized = t1.m_bInitialized := by
    intro t ht
    rw [ht]
    split <;> exact ⟨rfl, rfl, rfl⟩
  generalize (if t1.m_pDefaultMtl.isNone = true then
      { (makeDefaultMaterial env t1 "Default" "Illum").2 with
        m_pDefaultMtl := some (makeDefaultMaterial env t1 "Default" "Illum").1 }
      else t1) = t2 at h a2
  obtain ⟨m2, p2, i2⟩ := a2 t2 rfl
  have a3 : ∀ t : CMatMan, t = (if t2.m_pDefaultTerrainLayersMtl.isNone = true then
      { (makeDefaultMaterial env t2 "DefaultTerrainLayer" "Terrain.Layer").2 with
        m_pDefaultTerrainLayersMtl :=
          some (makeDefaultMaterial env t2 "DefaultTerrainLayer" "Terrain.Layer").1 }
      else t2) →
      t.m_mtlNameMap = t2.m_mtlNameMap ∧ t.m_pendingMaterialLoads = t2.m_pendingMaterialLoads ∧
        t.m_bInitialized = t2.m_bInitialized := by
    intro t ht
    rw [ht]
    split <;> exact ⟨rfl, rfl, rfl⟩
  generalize (if t2.m_pDefaultTerrainLayersMtl.isNone = true then
      { (makeDefaultMaterial env t2 "DefaultTerrainLayer" "Terrain.Layer").2 with
        m_pDefaultTerrainLayersMtl :=
          some (makeDefaultMaterial env t2 "DefaultTerrainLayer" "Terrain.Layer").1 }
      else t2) = t3 at h a3
  obtain ⟨m3, p3, i3⟩ := a3 t3 rfl
  have f03 : Frames none s t3 :=
    Frames.of_same_tables none (by rw [m3, m2, m1]) (by rw [p3, p2, p1])
  have hi3 : t3.m_bInitialized = true := by rw [i3, i2, i1]
  split at h
  · exact absurd h (by simp)
  · rename_i t4 h4
    have f34 : Frames none t3 t4 := by
      split at h4
      · split at h4
        · exact absurd h4 (by simp)
        · rename_i m t hlt
          simp only [Except.ok.injEq] at h4
          rw [← h4]
          exact (hl _ _ _ hi3 hlt).frames_trans (Frames.of_same_tables none rfl rfl)
      · simp only [Except.ok.injEq] at h4
        rw [← h4]
        exact Frames.of_same_tables none rfl rfl
    have a5 : ∀ t : CMatMan, t = (if t4.m_pNoDrawMtl.isNone = true then installNoDrawMaterial env t4
        else t4) → FramesInit t4 t := by
      intro t ht
      rw [ht]
      split
      · exact installNoDrawMaterial_framesInit env t4
      · exact (Frames.of_same_tables none rfl rfl).toInit
    generalize (if t4.m_pNoDrawMtl.isNone = true then installNoDrawMaterial env t4
        else t4) = t5 at h a5
    have f45 := a5 t5 rfl
    have f56 : FramesInit t5 s2 := by
      simp only [Except.ok.injEq] at h
      rw [← h]
      split
      · refine Frames.toInit (Frames.of_same_tables none ?_ ?_) <;> rfl
      · refine Frames.toInit (Frames.of_same_tables none ?_ ?_) <;> rfl
    exact ((f03.frames_trans f34).toInit.init_trans f45).init_trans f56

/-- Under the assumptions on the unified names and with a pure-child bit that is not empty:
every load keeps the records of the pending-load table and changes no entry of a name that
has no record afterwards; on an initialised manager it also changes no entry of a name that
had a record before; and a build changes entries only under its own unified name, and none at
all when it is forced to make a pure child or works on an existing material. -/
theorem frames_all (env : Env) (hU : UnifyLaws env) (hP : env.MTL_FLAG_PURE_CHILD ≠ 0) (n : Nat) :
    (∀ s N mk nr lf r s2, LoadMaterialInternal n env s N mk nr lf = .ok (r, s2) →
      FramesInit s s2 ∧ (s.m_bInitialized = true → Frames none s s2)) ∧
    (∀ s s2, InitDefaults n env s = .ok s2 → FramesInit s s2) ∧
    (∀ s name node b prio ex lf par r s2, s.m_bInitialized = true →
      MakeMaterialFromXml n env s name node b prio ex lf par = .ok (r, s2) →
      Frames (if b = true ∨ ex.isSome = true then none else some (UnifyName env name)) s s2) := by
  induction n with
  | zero =>
    refine ⟨?_, ?_, ?_⟩
    · intro s N mk nr lf r s2 h
      simp [LoadMaterialInternal] at h
    · intro s s2 h
      simp [InitDefaults] at h
    · intro s name node b prio ex lf par r s2 _ h
      simp [MakeMaterialFromXml] at h
  | succ n ih =>
    obtain ⟨ihL, ihI, ihM⟩ := ih
    have hbuild : ∀ lf t name node r t2, t.m_bInitialized = true →
        MakeMaterialFromXml n env t (UnifyName env name) node false 0 none lf none = .ok (r, t2) →
        Frames (some (UnifyName env name)) t t2 := by
      intro lf t name node r t2 hi hb
      have f := ihM t (UnifyName env name) node false 0 none lf none r t2 hi hb
      simp only [Bool.false_eq_true, Option.isSome_none, or_self, if_false] at f
      have e : UnifyName env (UnifyName env name) = UnifyName env name := hU.idem name
      rw [e] at f
      exact f
    have hloadInit : ∀ s N mk nr lf r s2, s.m_bInitialized = true →
        LoadMaterialInternal (n + 1) env s N mk nr lf = .ok (r, s2) → Frames none s s2 := by
      intro s N mk nr lf r s2 hi h
      rw [LoadMaterialInternal_succ, ensureDefaults_of_initialized _ _ _ hi] at h
      exact loadAfterInit_frames _ env hU (hbuild lf) s N mk nr r s2 hi h
    refine ⟨?_, ?_, ?_⟩
    · intro s N mk nr lf r s2 h
      refine ⟨?_, fun hi => hloadInit s N mk nr lf r s2 hi h⟩
      by_cases hi : s.m_bInitialized = true
      · exact (hloadInit s N mk nr lf r s2 hi h).toInit
      · rw [LoadMaterialInternal_succ] at h
        split at h
        · exact absurd h (by simp)
        · rename_i s1 h1
          have hi1 := ensureDefaults_initialized n env s s1 h1
          have f1 : FramesInit s s1 := by
            unfold ensureDefaults at h1
            rw [if_neg hi] at h1
            exact ihI s s1 h1
          exact f1.init_trans
            (loadAfterInit_frames _ env hU (hbuild lf) s1 N mk nr r s2 hi1 h).toInit
    · intro s s2 h
      rw [InitDefaults] at h
      split at h
      · simp only [Except.ok.injEq] at h
        rw [← h]
        exact (Frames.of_same_tables none rfl rfl).toInit
      · exact initDefaultsBody_framesInit _
          (fun t r t2 hi hl => (ihL t _ false false 0 r t2 hl).2 hi) env s s2 h
    · intro s name node b prio ex lf par r s2 hi h
      rw [MakeMaterialFromXml] at h
      exact (makeMaterialBody_frames _ _
        (fun name node prio par t r t2 hi hb => by
          have f := ihM t name node true prio none lf (some par) r t2 hi hb
          simp only [true_or, if_true] at f
          exact ⟨f, ((grows_all n).2.2 env t name node true prio none lf (some par) r t2 hb).initialized hi⟩)
        (fun name t r t2 hi hl =>
          ⟨(ihL t name true false lf r t2 hl).2 hi,
            ((grows_all n).1 env t name true false lf r t2 hl).2.1⟩)
        env hP s name node b prio ex r s2 hi h).1

theorem ensureDefaults_framesInit (env : Env) (hU : UnifyLaws env)
    (hP : env.MTL_FLAG_PURE_CHILD ≠ 0) (n : Nat) (s s1 : CMatMan)
    (h : ensureDefaults n env s = .ok s1) : FramesInit s s1 := by
  unfold ensureDefaults at h
  split at h
  · simp only [Except.ok.injEq] at h
    rw [← h]
    exact (Frames.of_same_tables none rfl rfl).toInit
  · exact (frames_all env hU hP n).2.1 s s1 h

/-! ## C5: no material produced -/

/-- C5: when a load produces no material, on the owner path with a terminal failure or as
a waiter that finds no entry for the unified name, the call returns the default material if
`bMakeIfNotFound` is set and null if it is not, and when a default material exists the result
is null only if `bMakeIfNotFound` is false.  Nothing is registered for the name: the name map
on return is the name map `s1` had once the defaults were there; a name without an entry then
has none on return; and on the owner path, under the laws of `UnifyMaterialName` and with a
pure-child bit that is not empty, the entry of the name is the one it had before the call. -/
theorem no_material_gives_default_or_null (n : Nat) (env : Env) (s s1 : CMatMan) (N : String)
    (mk nr : Bool) (lf : Nat)
    (h0 : ensureDefaults n env s = .ok s1)
    (hp : preloadShortCut env s1 = false)
    (hcase :
      (mapFind s1.m_pendingMaterialLoads (UnifyName env N) = none ∧
        terminalFailure env (materialFileName (UnifyName env N))) ∨
      (∃ e, mapFind s1.m_pendingMaterialLoads (UnifyName env N) = some (some e) ∧
        (s1.event e).m_flag = true ∧ mapFind s1.m_mtlNameMap (UnifyName env N) = none)) :
    ∃ s2, LoadMaterialInternal (n + 1) env s N mk nr lf =
        .ok ((if mk then s1.m_pDefaultMtl else none), s2) ∧
      s2.m_mtlNameMap = s1.m_mtlNameMap ∧
      s2.m_pDefaultMtl = s1.m_pDefaultMtl ∧
      (s1.m_pDefaultMtl ≠ none → ((if mk then s1.m_pDefaultMtl else none) = none ↔ mk = false)) ∧
      (mapFind s1.m_mtlNameMap (UnifyName env N) = none →
        mapFind s2.m_mtlNameMap (UnifyName env N) = none) ∧
      (mapFind s1.m_pendingMaterialLoads (UnifyName env N) = none → UnifyLaws env →
        env.MTL_FLAG_PURE_CHILD ≠ 0 →
        mapFind s2.m_mtlNameMap (UnifyName env N) = mapFind s.m_mtlNameMap (UnifyName env N)) := by
  have hframe : ∀ t : CMatMan, t.m_mtlNameMap = s1.m_mtlNameMap →
      (mapFind s1.m_mtlNameMap (UnifyName env N) = none →
        mapFind t.m_mtlNameMap (UnifyName env N) = none) ∧
      (mapFind s1.m_pendingMaterialLoads (UnifyName env N) = none → UnifyLaws env →
        env.MTL_FLAG_PURE_CHILD ≠ 0 →
        mapFind t.m_mtlNameMap (UnifyName env N) = mapFind s.m_mtlNameMap (UnifyName env N)) := by
    intro t ht
    rw [ht]
    exact ⟨fun h => h, fun hr hU hP =>
      (ensureDefaults_framesInit env hU hP n s s1 h0).unrecorded _ hr⟩
  have hlast : s1.m_pDefaultMtl ≠ none →
      ((if mk then s1.m_pDefaultMtl else none) = none ↔ mk = false) := by
    intro hd
    cases mk with
    | false => simp
    | true => simp [hd]
  rcases hcase with ⟨hrec, hfail⟩ | ⟨e, hrec, hset, hnone⟩
  · rw [LoadMaterialInternal_succ, h0]
    dsimp only
    rw [loadAfterInit_owner _ env s1 N mk nr hp hrec]
    unfold ownerHandle
    rw [loadAsOwner_terminal _ env _ _ _ mk nr hfail]
    generalize hF : finishLoad (evictPendingLoad (ownerState s1 (UnifyName env N))
        ⟨some s1.events.length, true⟩ (UnifyName env N)).2 ⟨some s1.events.length, false⟩ none mk
        nr = F
    have h1 : F.1 = if mk then s1.m_pDefaultMtl else none := by
      rw [← hF, finishLoad_fst, evictPendingLoad_defaultMtl, ownerState_defaultMtl]
      simp
    have hmap : F.2.m_mtlNameMap = s1.m_mtlNameMap := by
      rw [← hF, finishLoad_map, evictPendingLoad_map, ownerState_map]
    refine ⟨F.2, ?_, hmap, ?_, hlast, hframe F.2 hmap⟩
    · rw [← h1]
    · rw [← hF, finishLoad_defaultMtl, evictPendingLoad_defaultMtl, ownerState_defaultMtl]
  · rw [LoadMaterialInternal_succ, h0]
    dsimp only
    rw [loadAfterInit_waiter _ env s1 N mk nr e hp hrec hset, hnone]
    exact ⟨s1, rfl, rfl, rfl, hlast, fun _ => hnone, (hframe s1 rfl).2⟩

/-- C5 at the initialised manager of the examples: the load of `zz` with `bMakeIfNotFound`
returns the default material, object 0. -/
theorem no_material_gives_default_or_null_witness :
    ∃ s2, LoadMaterialInternal 1 demoEnv demoState "zz" true false 0 =
        .ok ((if true then demoState.m_pDefaultMtl else none), s2) ∧
      s2.m_mtlNameMap = demoState.m_mtlNameMap ∧
      s2.m_pDefaultMtl = demoState.m_pDefaultMtl ∧
      (demoState.m_pDefaultMtl ≠ none →
        ((if true then demoState.m_pDefaultMtl else none) = none ↔ true = false)) ∧
      (mapFind demoState.m_mtlNameMap (UnifyName demoEnv "zz") = none →
        mapFind s2.m_mtlNameMap (UnifyName demoEnv "zz") = none) ∧
      (mapFind demoState.m_pendingMaterialLoads (UnifyName demoEnv "zz") = none →
        UnifyLaws demoEnv → demoEnv.MTL_FLAG_PURE_CHILD ≠ 0 →
        mapFind s2.m_mtlNameMap (UnifyName demoEnv "zz") =
          mapFind demoState.m_mtlNameMap (UnifyName demoEnv "zz")) :=
  no_material_gives_default_or_null 0 demoEnv demoState demoState "zz" true false 0
    (by decide!) (by decide!)
    (Or.inl ⟨by decide!, Or.inl ⟨by decide!, Or.inl (by decide!)⟩⟩)

/-! ## C1: a built material is found under its name -/

theorem makeMaterialBody_registers
    (build : String → XmlNode → Nat → MatId → CMatMan → Except Fault (Option MatId × CMatMan))
    (load : String → CMatMan → Except Fault (Option MatId × CMatMan))
    (hb : ∀ name node prio par t r t2, t.m_bInitialized = true →
      build name node prio par t = .ok (r, t2) → Frames none t t2 ∧ t2.m_bInitialized = true)
    (hl : ∀ name t r t2, t.m_bInitialized = true →
      load name t = .ok (r, t2) → Frames none t t2 ∧ t2.m_bInitialized = true)
    (env : Env) (s : CMatMan) (sMtlName : String) (node : XmlNode) (prio : Nat)
    (r : Option MatId) (s2 : CMatMan)
    (hi : s.m_bInitialized = true)
    (hflags : mtlFlagsFromXml env node false &&& env.MTL_FLAG_PURE_CHILD = 0)
    (hrec : mapFind s.m_pendingMaterialLoads (UnifyName env sMtlName) ≠ none)
    (h : makeMaterialBody build load env s sMtlName node false prio none = .ok (r, s2)) :
    r = some s.materials.length ∧
      mapFind s2.m_mtlNameMap (UnifyName env sMtlName) = some s.materials.length := by
  unfold makeMaterialBody at h
  dsimp only at h
  split at h
  · exact absurd h (by simp)
  · rename_i t ht
    simp only [Except.ok.injEq, Prod.mk.injEq] at h
    have ho : obtainMaterial env s sMtlName (mtlFlagsFromXml env node false) none =
        CreateMaterial env s sMtlName (mtlFlagsFromXml env node false) := rfl
    rw [ho] at h ht
    have sr := sameRegistry_loadMaterialBody env
      (CreateMaterial env s sMtlName (mtlFlagsFromXml env node false)).2
      (CreateMaterial env s sMtlName (mtlFlagsFromXml env node false)).1 sMtlName node
      (mtlFlagsFromXml env node false) prio
    have i1 : (loadMaterialBody env
        (CreateMaterial env s sMtlName (mtlFlagsFromXml env node false)).2
        (CreateMaterial env s sMtlName (mtlFlagsFromXml env node false)).1 sMtlName node
        (mtlFlagsFromXml env node false) prio).m_bInitialized = true := by
      rw [sr.initialized_eq, CreateMaterial_initialized]
      exact hi
    obtain ⟨f3, _⟩ := loadSubMaterialsNode_frames build load hb hl _ _ _ _ i1 ht
    have hk : mapFind t.m_mtlNameMap (UnifyName env sMtlName) = some s.materials.length := by
      rw [f3.recorded _ (by simp) (by rw [sr.pending_eq, CreateMaterial_pending]; exact hrec),
        sr.map_eq, CreateMaterial_map, if_pos hflags]
      exact mapFind_mapAssign_self _ _ _
    refine ⟨by rw [← h.1, CreateMaterial_fst], ?_⟩
    rw [← h.2, (NotifyCreateMaterial_frames t _).recorded _ (by simp)
      (by
        cases hv : mapFind s.m_pendingMaterialLoads (UnifyName env sMtlName) with
        | none => exact absurd hv hrec
        | some v =>
          rw [f3.records _ v (by rw [sr.pending_eq, CreateMaterial_pending]; exact hv)]
          simp)]
    exact hk

/-- C1: when a load takes the owner path, finds the descriptor file and the build of the
document returns, the call returns a material, it is a new object, and `FindMaterial` of the
same name on the state after the call returns that very object.  Assumed of the parts that are
not in the sources: the laws of `UnifyMaterialName`, a pure-child bit that is not empty, and
that the flags kept of the descriptor do not carry the pure-child bit. -/
theorem load_then_find_same_object (n : Nat) (env : Env) (s s1 : CMatMan) (N : String)
    (mk nr : Bool) (lf : Nat) (node : XmlNode) (r : Option MatId) (s2 : CMatMan)
    (hU : UnifyLaws env) (hP : env.MTL_FLAG_PURE_CHILD ≠ 0)
    (hflags : mtlFlagsFromXml env node false &&& env.MTL_FLAG_PURE_CHILD = 0)
    (h0 : ensureDefaults n env s = .ok s1)
    (hp : preloadShortCut env s1 = false)
    (hrec : mapFind s1.m_pendingMaterialLoads (UnifyName env N) = none)
    (hf : fileFound env (materialFileName (UnifyName env N)))
    (hxml : env.LoadXmlFromFile (materialFileName (UnifyName env N)) = some node)
    (hret : LoadMaterialInternal (n + 1) env s N mk nr lf = .ok (r, s2)) :
    r = some s1.materials.length ∧ FindMaterial env s2 N = some s1.materials.length := by
  rw [LoadMaterialInternal_succ, h0] at hret
  dsimp only at hret
  rw [loadAfterInit_owner _ env s1 N mk nr hp hrec,
    loadAsOwner_build _ env _ _ _ mk nr node hf hxml] at hret
  have hi1 := ensureDefaults_initialized n env s s1 h0
  have key : ∀ r3 s3,
      MakeMaterialFromXml n env (ownerState s1 (UnifyName env N)) (UnifyName env N) node false 0
        none lf none = .ok (r3, s3) →
      r3 = some s1.materials.length ∧
        mapFind s3.m_mtlNameMap (UnifyName env N) = some s1.materials.length := by
    intro r3 s3 hb
    cases n with
    | zero => simp [MakeMaterialFromXml] at hb
    | succ k =>
      rw [MakeMaterialFromXml] at hb
      have hid : UnifyName env (UnifyName env N) = UnifyName env N := hU.idem N
      have := makeMaterialBody_registers _ _
        (fun name node prio par t r t2 hi hb2 => by
          have f := (frames_all env hU hP k).2.2 t name node true prio none lf (some par) r t2 hi hb2
          simp only [true_or, if_true] at f
          exact ⟨f, ((grows_all k).2.2 env t name node true prio none lf (some par) r t2 hb2).initialized hi⟩)
        (fun name t r t2 hi hl2 =>
          ⟨((frames_all env hU hP k).1 t name true false lf r t2 hl2).2 hi,
            ((grows_all k).1 env t name true false lf r t2 hl2).2.1⟩)
        env (ownerState s1 (UnifyName env N)) (UnifyName env N) node 0 r3 s3
        (by rw [ownerState_initialized]; exact hi1) hflags
        (by rw [hid, ownerState_pending, mapFind_cons_self]; simp) hb
      rw [hid, ownerState_materials] at this
      exact this
  unfold FindMaterial
  split at hret
  · exact absurd hret (by simp)
  · rename_i m t hb
    obtain ⟨e1, e2⟩ := key _ _ hb
    simp only [Except.ok.injEq] at hret
    have h1 := congrArg Prod.fst hret
    have h2 := congrArg Prod.snd hret
    dsimp only at h1 h2
    rw [finishLoad_fst] at h1
    simp only [Option.isNone_some, Bool.false_and, Bool.false_eq_true, if_false] at h1
    refine ⟨by rw [← h1]; exact e1, ?_⟩
    rw [← h2, finishLoad_map]
    split
    · rw [(sameRegistry_SetSketchMode _ _ _).map_eq]
      exact e2
    · exact e2
  · rename_i t hb
    obtain ⟨e1, _⟩ := key _ _ hb
    exact absurd e1 (by simp)

theorem demoUnify_data (x : String) :
    (demoUnify x).data = x.data.takeWhile (fun c => decide (c ≠ '.')) := rfl

theorem demoUnify_idem (x : String) : demoUnify (demoUnify x) = demoUnify x := by
  unfold demoUnify
  simp only [List.takeWhile_idem]

theorem demoUnify_no_dot (x : String) : '.' ∉ (demoUnify x).data := by
  intro h
  rw [demoUnify_data] at h
  have := List.mem_takeWhile_imp h
  simp at this

theorem demoUnify_file (x : String) : demoUnify (materialFileName (demoUnify x)) = demoUnify x := by
  unfold materialFileName
  rw [if_neg (demoUnify_no_dot x)]
  have h1 : (demoUnify x ++ ".mtl").data = (demoUnify x).data ++ ['.', 'm', 't', 'l'] := rfl
  have h2 : ∀ a ∈ (demoUnify x).data, (fun c => decide (c ≠ '.')) a = true := by
    intro a ha
    rw [demoUnify_data] at ha
    exact List.mem_takeWhile_imp (p := fun c => decide (c ≠ '.')) ha
  have h3 : (demoUnify (demoUnify x ++ ".mtl")).data = (demoUnify x).data := by
    rw [demoUnify_data, h1, List.takeWhile_append_of_pos h2]
    simp [List.takeWhile]
  cases hd : demoUnify (demoUnify x ++ ".mtl") with
  | mk d1 =>
    cases hd2 : demoUnify x with
    | mk d2 =>
      rw [hd, hd2] at h3
      simp only at h3
      rw [h3]

theorem demoEnv_laws : UnifyLaws demoEnv :=
  ⟨demoUnify_idem, demoUnify_file⟩

/-- C1 at the initialised manager of the examples: the load of `A.mtl` builds object 1 from
the file `a.mtl`, and `FindMaterial` gives object 1 for the same name. -/
theorem load_then_find_same_object_witness :
    ∃ r s2, LoadMaterialInternal 4 demoEnv demoState "a.mtl" false false 0 = .ok (r, s2) ∧
      r = some demoState.materials.length ∧
      FindMaterial demoEnv s2 "a.mtl" = some demoState.materials.length := by
  have hr : (LoadMaterialInternal 4 demoEnv demoState "a.mtl" false false 0).map (fun r => r.1) =
      .ok (some 1) := by decide!
  cases h : LoadMaterialInternal 4 demoEnv demoState "a.mtl" false false 0 with
  | error e =>
    rw [h] at hr
    exact absurd hr (by simp [Except.map])
  | ok p =>
    exact ⟨p.1, p.2, rfl,
      load_then_find_same_object 3 demoEnv demoState demoState "a.mtl" false false 0 demoDocument
        p.1 p.2 demoEnv_laws (by decide!) (by decide!) (by decide!) (by decide!) (by decide!)
        (Or.inl (by decide!)) (by rfl) h⟩

/-! ## C7: the placeholder -/

theorem createPlaceholder_mat (env : Env) (s : CMatMan) (filename : String) :
    (createPlaceholder env s filename).2.mat s.materials.length =
      { m_sMaterialName := UnifyName env filename, m_Flags := 0 ||| 0,
        m_shaderItem := placeholderShaderItem env (UnifyName env filename) } := by
  have hm := CreateMaterial_materials env s (UnifyName env filename) 0
  have h1 : (CreateMaterial env s (UnifyName env filename) 0).2.mat s.materials.length =
      { m_sMaterialName := UnifyName env filename, m_Flags := 0 ||| 0 } := by
    unfold CMatMan.mat
    rw [hm]
    simp [List.getD]
  unfold createPlaceholder
  dsimp only
  unfold CMatMan.AssignShaderItem CMatMan.updMat
  rw [CreateMaterial_fst, h1]
  unfold CMatMan.mat
  dsimp only
  rw [listSet_getD_self _ _ _ (by rw [hm]; simp)]

theorem mat_congr {s t : CMatMan} (h : t.materials = s.materials) (m : MatId) :
    t.mat m = s.mat m := by
  unfold CMatMan.mat
  rw [h]

/-- C7: when the descriptor file of a name does not exist and its asset status is queued or
compiling, a load on the owner path returns, whatever `bMakeIfNotFound` is, a new material
object, the placeholder with the flat white texture; the record of the name stays in the
pending-load table; the placeholder is in the name map, so that `FindMaterial` of the name
and every later load of the name return that same object.  Assumed of `UnifyMaterialName`,
which is not among the sources: unifying the file name of the unified name, twice as the code
does, gives the unified name back. -/
theorem placeholder_is_registered (n : Nat) (env : Env) (s s1 : CMatMan) (N : String)
    (mk nr : Bool) (lf : Nat)
    (h0 : ensureDefaults n env s = .ok s1)
    (hp : preloadShortCut env s1 = false)
    (hrec : mapFind s1.m_pendingMaterialLoads (UnifyName env N) = none)
    (hx : env.Exists (materialFileName (UnifyName env N)) = false)
    (hs : env.GetAssetStatus (materialFileName (UnifyName env N)) = AssetStatus.AssetStatus_Queued ∨
      env.GetAssetStatus (materialFileName (UnifyName env N)) = AssetStatus.AssetStatus_Compiling)
    (hkey : UnifyName env (UnifyName env (materialFileName (UnifyName env N))) = UnifyName env N) :
    ∃ s2, LoadMaterialInternal (n + 1) env s N mk nr lf = .ok (some s1.materials.length, s2) ∧
      (s2.mat s1.materials.length).m_shaderItem =
        placeholderShaderItem env (UnifyName env (materialFileName (UnifyName env N))) ∧
      mapFind s2.m_pendingMaterialLoads (UnifyName env N) = some (some s1.events.length) ∧
      FindMaterial env s2 N = some s1.materials.length ∧
      ∀ n2 mk2 nr2 lf2,
        LoadMaterialInternal (n2 + 1) env s2 N mk2 nr2 lf2 = .ok (some s1.materials.length, s2) := by
  rw [LoadMaterialInternal_succ, h0]
  dsimp only
  rw [loadAfterInit_owner _ env s1 N mk nr hp hrec, loadAsOwner_placeholder _ env _ _ _ mk nr hx hs]
  unfold ownerHandle
  generalize hF : finishLoad
    (createPlaceholder env (ownerState s1 (UnifyName env N)) (materialFileName (UnifyName env N))).2
    ⟨some s1.events.length, true⟩
    (some (createPlaceholder env (ownerState s1 (UnifyName env N))
      (materialFileName (UnifyName env N))).1) mk nr = F
  have hi1 := ensureDefaults_initialized n env s s1 h0
  have e1 : F.1 = some s1.materials.length := by
    rw [← hF, finishLoad_fst]
    simp [createPlaceholder_fst, ownerState_materials]
  have emap : F.2.m_mtlNameMap =
      mapAssign s1.m_mtlNameMap (UnifyName env N) s1.materials.length := by
    rw [← hF, finishLoad_map, createPlaceholder_map, hkey, ownerState_map, ownerState_materials]
  have epend : F.2.m_pendingMaterialLoads =
      (UnifyName env N, some s1.events.length) :: s1.m_pendingMaterialLoads := by
    rw [← hF, finishLoad_pending, createPlaceholder_pending, ownerState_pending]
  have einit : F.2.m_bInitialized = true := by
    rw [← hF, finishLoad_initialized, createPlaceholder_initialized, ownerState_initialized]
    exact hi1
  have edef : F.2.m_pDefaultMtl = s1.m_pDefaultMtl := by
    rw [← hF, finishLoad_defaultMtl, createPlaceholder_defaultMtl, ownerState_defaultMtl]
  have eev : (F.2.event s1.events.length).m_flag = true := by
    rw [← hF, event_congr (finishLoad_events_of_control _ _ _ _ _), setEvent_event_self]
    rw [createPlaceholder_events, ownerState_events]
    simp
  have emat : (F.2.mat s1.materials.length).m_shaderItem =
      placeholderShaderItem env (UnifyName env (materialFileName (UnifyName env N))) := by
    rw [← hF, mat_congr (finishLoad_materials _ _ _ _ _)]
    have := createPlaceholder_mat env (ownerState s1 (UnifyName env N))
      (materialFileName (UnifyName env N))
    rw [ownerState_materials] at this
    rw [this]
  have efind : mapFind F.2.m_mtlNameMap (UnifyName env N) = some s1.materials.length := by
    rw [emap]
    exact mapFind_mapAssign_self _ _ _
  have erec : mapFind F.2.m_pendingMaterialLoads (UnifyName env N) = some (some s1.events.length) := by
    rw [epend]
    exact mapFind_cons_self _ _ _
  refine ⟨F.2, ?_, emat, erec, efind, ?_⟩
  · rw [← e1]
  · intro n2 mk2 nr2 lf2
    rw [LoadMaterialInternal_succ, ensureDefaults_of_initialized _ _ _ einit]
    dsimp only
    have hp2 : preloadShortCut env F.2 = false := by
      unfold preloadShortCut at hp ⊢
      rw [edef]
      exact hp
    rw [loadAfterInit_waiter _ env F.2 N mk2 nr2 _ hp2 erec eev, efind]

/-- C7 at the initialised manager of the examples: the queued material `q` gets the
placeholder, object 1. -/
theorem placeholder_is_registered_witness :
    ∃ s2, LoadMaterialInternal 1 demoEnv demoState "q" false false 0 =
        .ok (some demoState.materials.length, s2) ∧
      (s2.mat demoState.materials.length).m_shaderItem =
        placeholderShaderItem demoEnv (UnifyName demoEnv (materialFileName (UnifyName demoEnv "q"))) ∧
      mapFind s2.m_pendingMaterialLoads (UnifyName demoEnv "q") = some (some demoState.events.length) ∧
      FindMaterial demoEnv s2 "q" = some demoState.materials.length ∧
      ∀ n2 mk2 nr2 lf2,
        LoadMaterialInternal (n2 + 1) demoEnv s2 "q" mk2 nr2 lf2 =
          .ok (some demoState.materials.length, s2) :=
  placeholder_is_registered 0 demoEnv demoState demoState "q" false false 0
    (by decide!) (by decide!) (by decide!) (by decide!) (Or.inl (by decide!)) (by decide!)

/-! ## C12, C13: renaming -/

theorem RenameMaterial_map (env : Env) (s : CMatMan) (m : MatId) (B : String) :
    (RenameMaterial env s m B).m_mtlNameMap =
      mapAssign (if s.GetName m ≠ "" then mapErase s.m_mtlNameMap (UnifyName env (s.GetName m))
        else s.m_mtlNameMap) (UnifyName env B) m := by
  unfold RenameMaterial
  by_cases h : s.GetName m ≠ "" <;> simp [h, CMatMan.SetName, CMatMan.updMat]

theorem RenameMaterial_pending (env : Env) (s : CMatMan) (m : MatId) (B : String) :
    (RenameMaterial env s m B).m_pendingMaterialLoads =
      mapAssign
        (if s.GetName m ≠ "" then mapErase s.m_pendingMaterialLoads (UnifyName env (s.GetName m))
          else s.m_pendingMaterialLoads)
        (UnifyName env B)
        (if s.GetName m ≠ "" then
          (mapFind s.m_pendingMaterialLoads (UnifyName env (s.GetName m))).getD none
        else none) := by
  unfold RenameMaterial
  by_cases h : s.GetName m ≠ "" <;> simp [h, CMatMan.SetName, CMatMan.updMat]

theorem RenameMaterial_events (env : Env) (s : CMatMan) (m : MatId) (B : String) :
    (RenameMaterial env s m B).events = s.events := by
  unfold RenameMaterial
  by_cases h : s.GetName m ≠ "" <;> simp [h, CMatMan.SetName, CMatMan.updMat]

/-- C12 as stated fails for a registered material whose name is empty: `RenameMaterial`
removes the old entry only for a non-empty name (line 190), so after the material created
under the empty name is renamed to `b`, a look-up of the empty name still gives it. -/
theorem empty_name_survives_rename :
    (CreateMaterial demoEnv demoState "" 0).1 = 1 ∧
    FindMaterial demoEnv (CreateMaterial demoEnv demoState "" 0).2 "" = some 1 ∧
    (CreateMaterial demoEnv demoState "" 0).2.GetName 1 = "" ∧
    UnifyName demoEnv "b" ≠ UnifyName demoEnv "" ∧
    FindMaterial demoEnv (RenameMaterial demoEnv (CreateMaterial demoEnv demoState "" 0).2 1 "b") "" =
      some 1 := by
  decide!

/-- C12, amended: for a material `m` with a non-empty name `A` (registered or not) and a new
name `B` whose unified name differs from that of `A`, after `RenameMaterial(m, B)` a look-up of
`A` gives nothing, a look-up of `B` gives `m`, and the pending-load table has no record under
the unified name of `A`. -/
theorem rename_moves_entry (env : Env) (s : CMatMan) (m : MatId) (A B : String)
    (hname : s.GetName m = A) (hA : A ≠ "")
    (hne : UnifyName env B ≠ UnifyName env A) :
    FindMaterial env (RenameMaterial env s m B) A = none ∧
    FindMaterial env (RenameMaterial env s m B) B = some m ∧
    mapFind (RenameMaterial env s m B).m_pendingMaterialLoads (UnifyName env A) = none := by
  subst hname
  refine ⟨?_, ?_, ?_⟩
  · unfold FindMaterial
    rw [RenameMaterial_map, if_pos hA, mapFind_mapAssign_ne _ _ hne, mapFind_mapErase_self]
  · unfold FindMaterial
    rw [RenameMaterial_map, mapFind_mapAssign_self]
  · rw [RenameMaterial_pending, if_pos hA, mapFind_mapAssign_ne _ _ hne, mapFind_mapErase_self]

/-- C13: for a material `m` with a non-empty name `A` whose unified name has a pending-load
record `g`, after `RenameMaterial(m, B)` the record under the unified name of `B` is `g` itself
(the same event), the events are as they were (so the event is signaled exactly when it was),
and the record under every unified name other than those of `A` and `B` is unchanged. -/
theorem rename_carries_record (env : Env) (s : CMatMan) (m : MatId) (A B : String)
    (g : Option EventId)
    (hname : s.GetName m = A) (hA : A ≠ "")
    (hrec : mapFind s.m_pendingMaterialLoads (UnifyName env A) = some g) :
    mapFind (RenameMaterial env s m B).m_pendingMaterialLoads (UnifyName env B) = some g ∧
    (RenameMaterial env s m B).events = s.events ∧
    (∀ e, (RenameMaterial env s m B).event e = s.event e) ∧
    (∀ k, k ≠ UnifyName env A → k ≠ UnifyName env B →
      mapFind (RenameMaterial env s m B).m_pendingMaterialLoads k =
        mapFind s.m_pendingMaterialLoads k) := by
  subst hname
  refine ⟨?_, RenameMaterial_events env s m B, ?_, ?_⟩
  · rw [RenameMaterial_pending, mapFind_mapAssign_self, if_pos hA, hrec]
    rfl
  · intro e
    exact event_congr (RenameMaterial_events env s m B) e
  · intro k hkA hkB
    rw [RenameMaterial_pending, if_pos hA, mapFind_mapAssign_ne _ _ (Ne.symm hkB),
      mapFind_mapErase_ne _ (Ne.symm hkA)]

/-- The amended C12 at the loaded manager of the examples: the material `a` (object 1) is
renamed to `b`. -/
theorem rename_moves_entry_witness :
    FindMaterial demoEnv (RenameMaterial demoEnv loadedState 1 "b") "a" = none ∧
    FindMaterial demoEnv (RenameMaterial demoEnv loadedState 1 "b") "b" = some 1 ∧
    mapFind (RenameMaterial demoEnv loadedState 1 "b").m_pendingMaterialLoads
      (UnifyName demoEnv "a") = none :=
  rename_moves_entry demoEnv loadedState 1 "a" "b" (by decide!) (by decide!) (by decide!)

/-- C13 at the loaded manager of the examples: the record of `a`, event 0, which is set, is
found under `b` after the renaming. -/
theorem rename_carries_record_witness :
    mapFind (RenameMaterial demoEnv loadedState 1 "b").m_pendingMaterialLoads
        (UnifyName demoEnv "b") = some (some 0) ∧
    (RenameMaterial demoEnv loadedState 1 "b").events = loadedState.events ∧
    (∀ e, (RenameMaterial demoEnv loadedState 1 "b").event e = loadedState.event e) ∧
    (∀ k, k ≠ UnifyName demoEnv "a" → k ≠ UnifyName demoEnv "b" →
      mapFind (RenameMaterial demoEnv loadedState 1 "b").m_pendingMaterialLoads k =
        mapFind loadedState.m_pendingMaterialLoads k) :=
  rename_carries_record demoEnv loadedState 1 "a" "b" (some 0) (by decide!) (by decide!)
    (by decide!)

/-! ## C14: unregistering -/

theorem Unregister_map (env : Env) (s : CMatMan) (m : MatId) (d : Bool) :
    (Unregister env s m d).2.m_mtlNameMap =
      if (s.mat m).m_Flags &&& env.MTL_FLAG_PURE_CHILD = 0 then
        mapErase s.m_mtlNameMap (UnifyName env (s.GetName m))
      else s.m_mtlNameMap := by
  unfold Unregister
  dsimp only
  split_ifs <;> simp_all [CMatMan.mat, CMatMan.GetName]

theorem Unregister_pending (env : Env) (s : CMatMan) (m : MatId) (d : Bool) :
    (Unregister env s m d).2.m_pendingMaterialLoads =
      if (s.mat m).m_Flags &&& env.MTL_FLAG_PURE_CHILD = 0 then
        mapErase s.m_pendingMaterialLoads (UnifyName env (s.GetName m))
      else s.m_pendingMaterialLoads := by
  unfold Unregister
  dsimp only
  split_ifs <;> simp_all [CMatMan.mat, CMatMan.GetName]

theorem Unregister_initialized (env : Env) (s : CMatMan) (m : MatId) (d : Bool) :
    (Unregister env s m d).2.m_bInitialized = s.m_bInitialized := by
  unfold Unregister
  dsimp only
  split_ifs <;> simp_all [CMatMan.mat, CMatMan.GetName]

theorem Unregister_defaultMtl (env : Env) (s : CMatMan) (m : MatId) (d : Bool) :
    (Unregister env s m d).2.m_pDefaultMtl = s.m_pDefaultMtl := by
  unfold Unregister
  dsimp only
  split_ifs <;> simp_all [CMatMan.mat, CMatMan.GetName]

theorem Unregister_materials (env : Env) (s : CMatMan) (m : MatId) (d : Bool) :
    (Unregister env s m d).2.materials = s.materials := by
  unfold Unregister
  dsimp only
  split_ifs <;> simp_all [CMatMan.mat, CMatMan.GetName]

theorem Unregister_events (env : Env) (s : CMatMan) (m : MatId) (d : Bool) :
    (Unregister env s m d).2.events = s.events := by
  unfold Unregister
  dsimp only
  split_ifs <;> simp_all [CMatMan.mat, CMatMan.GetName]

theorem preloadShortCut_congr {env : Env} {s t : CMatMan} (h : t.m_pDefaultMtl = s.m_pDefaultMtl) :
    preloadShortCut env t = preloadShortCut env s := by
  unfold preloadShortCut
  rw [h]

theorem makeMaterialBody_result
    (build : String → XmlNode → Nat → MatId → CMatMan → Except Fault (Option MatId × CMatMan))
    (load : String → CMatMan → Except Fault (Option MatId × CMatMan))
    (env : Env) (s : CMatMan) (sMtlName : String) (node : XmlNode) (b : Bool) (prio : Nat)
    (ex : Option MatId) (r : Option MatId) (s2 : CMatMan)
    (h : makeMaterialBody build load env s sMtlName node b prio ex = .ok (r, s2)) :
    r = some (obtainMaterial env s sMtlName (mtlFlagsFromXml env node b) ex).1 := by
  unfold makeMaterialBody at h
  dsimp only at h
  split at h
  · cases h
  · cases h
    rfl

theorem MakeMaterialFromXml_result (n : Nat) (env : Env) (s : CMatMan) (name : String)
    (node : XmlNode) (b : Bool) (prio : Nat) (ex : Option MatId) (lf : Nat) (par : Option MatId)
    (r : Option MatId) (s2 : CMatMan)
    (h : MakeMaterialFromXml n env s name node b prio ex lf par = .ok (r, s2)) :
    r = some (ex.getD s.materials.length) := by
  cases n with
  | zero => simp [MakeMaterialFromXml] at h
  | succ n =>
    rw [MakeMaterialFromXml] at h
    rw [makeMaterialBody_result _ _ env s name node b prio ex r s2 h]
    cases ex with
    | none => simp [obtainMaterial, CreateMaterial_fst]
    | some m => simp [obtainMaterial]

/-- C14 as stated fails in two situations.  With `e_StatObjPreload` at 2, the load after the
unregistering of `a` returns the default material (object 0) at once and leaves the state as it
is, so there is no owner and no load.  On a manager that is not initialised, the load after the
unregistering of a material named `nodraw` first initialises the defaults, which install the
no-draw material with a set record, and then returns that material (object 3) as a waiter. -/
theorem load_after_unregister_is_not_always_owner :
    (loadedState.mat 1).m_Flags &&& preloadEnv.MTL_FLAG_PURE_CHILD = 0 ∧
    loadedState.GetName 1 = "a" ∧
    LoadMaterialInternal 1 preloadEnv (Unregister preloadEnv loadedState 1 false).2 "a" false false 0 =
      .ok (some 0, (Unregister preloadEnv loadedState 1 false).2) ∧
    (CreateMaterial demoEnv CMatMan.new "nodraw" 0).1 = 0 ∧
    LoadMaterialInternal 3 demoEnv
        (Unregister demoEnv (CreateMaterial demoEnv CMatMan.new "nodraw" 0).2 0 false).2
        "nodraw" false false 0 =
      (ensureDefaults 2 demoEnv
        (Unregister demoEnv (CreateMaterial demoEnv CMatMan.new "nodraw" 0).2 0 false).2).map
        (fun s1 => (some 3, s1)) ∧
    (ensureDefaults 2 demoEnv
        (Unregister demoEnv (CreateMaterial demoEnv CMatMan.new "nodraw" 0).2 0 false).2).map
      (fun s1 => (s1.m_pNoDrawMtl, s1.m_pendingMaterialLoads)) =
        .ok (some 3, [("nodraw", some 1)]) := by
  decide!

/-- C14, amended: for a material `m` without the pure-child flag, after `Unregister(m, notify)`
a look-up of the name of `m` gives nothing, the pending-load table has no record under the
unified name of `m`, and the entries and records under every other unified name are
unchanged.  On an initialised manager, and unless the early return for `e_StatObjPreload = 2`
applies, the next load of that name takes the owner path (a new event, a new record, then the
file system), and what it returns is never the object `m` itself, except when `m` is the
default material that stands in for a failed load.  For a pure-child `m` both tables are
unchanged. -/
theorem unregister_removes_entry (env : Env) (s : CMatMan) (m : MatId) (notify : Bool) :
    ((s.mat m).m_Flags &&& env.MTL_FLAG_PURE_CHILD = 0 →
      FindMaterial env (Unregister env s m notify).2 (s.GetName m) = none ∧
      mapFind (Unregister env s m notify).2.m_pendingMaterialLoads (UnifyName env (s.GetName m)) =
        none ∧
      (∀ k, k ≠ UnifyName env (s.GetName m) →
        mapFind (Unregister env s m notify).2.m_mtlNameMap k = mapFind s.m_mtlNameMap k ∧
        mapFind (Unregister env s m notify).2.m_pendingMaterialLoads k =
          mapFind s.m_pendingMaterialLoads k) ∧
      (s.m_bInitialized = true → preloadShortCut env s = false →
        ∀ n mk nr lf,
          LoadMaterialInternal (n + 1) env (Unregister env s m notify).2 (s.GetName m) mk nr lf =
            loadAsOwner
              (fun t name node => MakeMaterialFromXml n env t name node false 0 none lf none)
              env (ownerState (Unregister env s m notify).2 (UnifyName env (s.GetName m)))
              (ownerHandle (Unregister env s m notify).2) (UnifyName env (s.GetName m)) mk nr ∧
          (m < s.materials.length → ∀ s2,
            LoadMaterialInternal (n + 1) env (Unregister env s m notify).2 (s.GetName m) mk nr lf =
              .ok (some m, s2) → s.m_pDefaultMtl = some m ∧ mk = true))) ∧
    ((s.mat m).m_Flags &&& env.MTL_FLAG_PURE_CHILD ≠ 0 →
      (Unregister env s m notify).2.m_mtlNameMap = s.m_mtlNameMap ∧
      (Unregister env s m notify).2.m_pendingMaterialLoads = s.m_pendingMaterialLoads) := by
  constructor
  · intro hf
    have hrec : mapFind (Unregister env s m notify).2.m_pendingMaterialLoads
        (UnifyName env (s.GetName m)) = none := by
      rw [Unregister_pending, if_pos hf, mapFind_mapErase_self]
    refine ⟨?_, hrec, ?_, ?_⟩
    · unfold FindMaterial
      rw [Unregister_map, if_pos hf, mapFind_mapErase_self]
    · intro k hk
      rw [Unregister_map, Unregister_pending, if_pos hf, if_pos hf,
        mapFind_mapErase_ne _ (Ne.symm hk), mapFind_mapErase_ne _ (Ne.symm hk)]
      exact ⟨rfl, rfl⟩
    · intro hi hp n mk nr lf
      have hi2 : (Unregister env s m notify).2.m_bInitialized = true := by
        rw [Unregister_initialized]
        exact hi
      have hp2 : preloadShortCut env (Unregister env s m notify).2 = false := by
        rw [preloadShortCut_congr (Unregister_defaultMtl env s m notify)]
        exact hp
      have hcall : LoadMaterialInternal (n + 1) env (Unregister env s m notify).2 (s.GetName m)
          mk nr lf =
          loadAsOwner
            (fun t name node => MakeMaterialFromXml n env t name node false 0 none lf none)
            env (ownerState (Unregister env s m notify).2 (UnifyName env (s.GetName m)))
            (ownerHandle (Unregister env s m notify).2) (UnifyName env (s.GetName m)) mk nr := by
        rw [LoadMaterialInternal_succ, ensureDefaults_of_initialized _ _ _ hi2]
        dsimp only
        rw [loadAfterInit_owner _ env _ _ mk nr hp2 hrec]
      refine ⟨hcall, ?_⟩
      intro hm s2 hret
      rw [hcall] at hret
      unfold ownerHandle at hret
      have hlen : (ownerState (Unregister env s m notify).2
          (UnifyName env (s.GetName m))).materials.length = s.materials.length := by
        rw [ownerState_materials, Unregister_materials]
      have hdef : (ownerState (Unregister env s m notify).2
          (UnifyName env (s.GetName m))).m_pDefaultMtl = s.m_pDefaultMtl := by
        rw [ownerState_defaultMtl, Unregister_defaultMtl]
      rcases loadAsOwner_ends _ env _ _ _ mk nr _ _ hret with
        ⟨_, he⟩ | ⟨_, he⟩ | ⟨node, m2, t, _, _, hb, he⟩ | ⟨node, t, _, _, hb, he⟩
      · have h1 := congrArg Prod.fst he
        rw [finishLoad_fst, evictPendingLoad_defaultMtl, hdef] at h1
        cases mk with
        | false => simp at h1
        | true =>
          simp at h1
          exact ⟨h1.symm, rfl⟩
      · have h1 := congrArg Prod.fst he
        rw [finishLoad_fst, createPlaceholder_fst, hlen] at h1
        have h3 : some m = some s.materials.length := by simpa using h1
        injection h3 with h4
        rw [h4] at hm
        exact absurd hm (Nat.lt_irrefl _)
      · have h1 := congrArg Prod.fst he
        rw [finishLoad_fst] at h1
        have h3 : some m = some m2 := by simpa using h1
        injection h3 with h4
        have h2 := MakeMaterialFromXml_result _ _ _ _ _ _ _ _ _ _ _ _ hb
        rw [Option.getD_none, hlen] at h2
        injection h2 with h5
        rw [h4, h5] at hm
        exact absurd hm (Nat.lt_irrefl _)
      · have h2 := MakeMaterialFromXml_result _ _ _ _ _ _ _ _ _ _ _ _ hb
        simp at h2
  · intro hf
    rw [Unregister_map, Unregister_pending, if_neg hf, if_neg hf]
    exact ⟨rfl, rfl⟩

/-- The amended C14 at the loaded manager of the examples: the material `a` (object 1) is
unregistered. -/
theorem unregister_removes_entry_witness :
    FindMaterial demoEnv (Unregister demoEnv loadedState 1 false).2 (loadedState.GetName 1) = none ∧
    mapFind (Unregister demoEnv loadedState 1 false).2.m_pendingMaterialLoads
      (UnifyName demoEnv (loadedState.GetName 1)) = none ∧
    (LoadMaterialInternal 4 demoEnv (Unregister demoEnv loadedState 1 false).2
      (loadedState.GetName 1) false false 0).map (fun r => r.1) = .ok (some 2) :=
  ⟨((unregister_removes_entry demoEnv loadedState 1 false).1 (by decide!)).1,
    ((unregister_removes_entry demoEnv loadedState 1 false).1 (by decide!)).2.1, by decide!⟩

/-! ## C16: hot reload through `LoadMaterialFromXml` -/

theorem LoadMaterialFromXml_of_entry (fuel : Nat) (env : Env) (s : CMatMan) (N : String)
    (node : XmlNode) (m : MatId) (hm : FindMaterial env s N = some m) :
    LoadMaterialFromXml fuel env s N node =
      MakeMaterialFromXml fuel env s (UnifyName env N) node false 0 (some m) 0 none := by
  unfold FindMaterial at hm
  unfold LoadMaterialFromXml
  dsimp only
  rw [hm]

theorem LoadMaterialFromXml_of_no_entry (fuel : Nat) (env : Env) (s : CMatMan) (N : String)
    (node : XmlNode) (hm : FindMaterial env s N = none) :
    LoadMaterialFromXml fuel env s N node =
      MakeMaterialFromXml fuel env s (UnifyName env N) node false 0 none 0 none := by
  unfold FindMaterial at hm
  unfold LoadMaterialFromXml
  dsimp only
  rw [hm]

theorem NotifyCreateMaterial_sameTables (s : CMatMan) (m : MatId) :
    (NotifyCreateMaterial s m).m_mtlNameMap = s.m_mtlNameMap ∧
    (NotifyCreateMaterial s m).m_pendingMaterialLoads = s.m_pendingMaterialLoads ∧
    (NotifyCreateMaterial s m).materials = s.materials := by
  unfold NotifyCreateMaterial
  split <;> exact ⟨rfl, rfl, rfl⟩

theorem MakeMaterialFromXml_leaf (n : Nat) (env : Env) (s : CMatMan) (name : String)
    (node : XmlNode) (b : Bool) (prio : Nat) (ex : Option MatId) (lf : Nat) (par : Option MatId)
    (hleaf : node.findChild "SubMaterials" = none) :
    MakeMaterialFromXml (n + 1) env s name node b prio ex lf par =
      .ok (some (obtainMaterial env s name (mtlFlagsFromXml env node b) ex).1,
        NotifyCreateMaterial
          (loadMaterialBody env (obtainMaterial env s name (mtlFlagsFromXml env node b) ex).2
            (obtainMaterial env s name (mtlFlagsFromXml env node b) ex).1 name node
            (mtlFlagsFromXml env node b) prio)
          (obtainMaterial env s name (mtlFlagsFromXml env node b) ex).1) := by
  rw [MakeMaterialFromXml]
  unfold makeMaterialBody loadSubMaterialsNode
  dsimp only
  rw [hleaf]

theorem makeMaterialBody_registers_either
    (build : String → XmlNode → Nat → MatId → CMatMan → Except Fault (Option MatId × CMatMan))
    (load : String → CMatMan → Except Fault (Option MatId × CMatMan))
    (hb : ∀ name node prio par t r t2, t.m_bInitialized = true →
      build name node prio par t = .ok (r, t2) → Frames none t t2 ∧ t2.m_bInitialized = true)
    (hl : ∀ name t r t2, t.m_bInitialized = true →
      load name t = .ok (r, t2) → Frames none t t2 ∧ t2.m_bInitialized = true)
    (env : Env) (s : CMatMan) (sMtlName : String) (node : XmlNode) (prio : Nat)
    (r : Option MatId) (s2 : CMatMan)
    (hi : s.m_bInitialized = true)
    (hflags : mtlFlagsFromXml env node false &&& env.MTL_FLAG_PURE_CHILD = 0)
    (hrec : mapFind s.m_pendingMaterialLoads (UnifyName env sMtlName) ≠ none ∨
      mapFind s2.m_pendingMaterialLoads (UnifyName env sMtlName) = none)
    (h : makeMaterialBody build load env s sMtlName node false prio none = .ok (r, s2)) :
    mapFind s2.m_mtlNameMap (UnifyName env sMtlName) = some s.materials.length := by
  unfold makeMaterialBody at h
  dsimp only at h
  split at h
  · exact absurd h (by simp)
  · rename_i t ht
    simp only [Except.ok.injEq, Prod.mk.injEq] at h
    have ho : obtainMaterial env s sMtlName (mtlFlagsFromXml env node false) none =
        CreateMaterial env s sMtlName (mtlFlagsFromXml env node false) := rfl
    rw [ho] at h ht
    have sr := sameRegistry_loadMaterialBody env
      (CreateMaterial env s sMtlName (mtlFlagsFromXml env node false)).2
      (CreateMaterial env s sMtlName (mtlFlagsFromXml env node false)).1 sMtlName node
      (mtlFlagsFromXml env node false) prio
    have i1 : (loadMaterialBody env
        (CreateMaterial env s sMtlName (mtlFlagsFromXml env node false)).2
        (CreateMaterial env s sMtlName (mtlFlagsFromXml env node false)).1 sMtlName node
        (mtlFlagsFromXml env node false) prio).m_bInitialized = true := by
      rw [sr.initialized_eq, CreateMaterial_initialized]
      exact hi
    obtain ⟨f3, _⟩ := loadSubMaterialsNode_frames build load hb hl _ _ _ _ i1 ht
    have hn := NotifyCreateMaterial_sameTables t
      (CreateMaterial env s sMtlName (mtlFlagsFromXml env node false)).1
    rw [← h.2, hn.1]
    have hstart : mapFind (loadMaterialBody env
        (CreateMaterial env s sMtlName (mtlFlagsFromXml env node false)).2
        (CreateMaterial env s sMtlName (mtlFlagsFromXml env node false)).1 sMtlName node
        (mtlFlagsFromXml env node false) prio).m_mtlNameMap (UnifyName env sMtlName) =
        some s.materials.length := by
      rw [sr.map_eq, CreateMaterial_map, if_pos hflags]
      exact mapFind_mapAssign_self _ _ _
    rcases hrec with hrec | hrec
    · rw [f3.recorded _ (by simp) (by rw [sr.pending_eq, CreateMaterial_pending]; exact hrec)]
      exact hstart
    · rw [← h.2, hn.2.1] at hrec
      rw [f3.unrecorded _ (by simp) hrec]
      exact hstart

theorem loadMaterialBody_leaf_tables (env : Env) (s : CMatMan) (name : String) (node : XmlNode)
    (b : Bool) (prio : Nat) (m : MatId) :
    (NotifyCreateMaterial
      (loadMaterialBody env (obtainMaterial env s name (mtlFlagsFromXml env node b) (some m)).2
        (obtainMaterial env s name (mtlFlagsFromXml env node b) (some m)).1 name node
        (mtlFlagsFromXml env node b) prio)
      (obtainMaterial env s name (mtlFlagsFromXml env node b) (some m)).1).m_mtlNameMap =
        s.m_mtlNameMap ∧
    (NotifyCreateMaterial
      (loadMaterialBody env (obtainMaterial env s name (mtlFlagsFromXml env node b) (some m)).2
        (obtainMaterial env s name (mtlFlagsFromXml env node b) (some m)).1 name node
        (mtlFlagsFromXml env node b) prio)
      (obtainMaterial env s name (mtlFlagsFromXml env node b) (some m)).1).materials.length =
        s.materials.length := by
  have hn := NotifyCreateMaterial_sameTables
    (loadMaterialBody env (obtainMaterial env s name (mtlFlagsFromXml env node b) (some m)).2
      (obtainMaterial env s name (mtlFlagsFromXml env node b) (some m)).1 name node
      (mtlFlagsFromXml env node b) prio)
    (obtainMaterial env s name (mtlFlagsFromXml env node b) (some m)).1
  have sr := sameRegistry_loadMaterialBody env
    (obtainMaterial env s name (mtlFlagsFromXml env node b) (some m)).2
    (obtainMaterial env s name (mtlFlagsFromXml env node b) (some m)).1 name node
    (mtlFlagsFromXml env node b) prio
  have so : SameRegistry s (obtainMaterial env s name (mtlFlagsFromXml env node b) (some m)).2 :=
    sameRegistry_SetFlags _ _ _
  refine ⟨?_, ?_⟩
  · rw [hn.1, sr.map_eq, so.map_eq]
  · rw [hn.2.2, sr.2, so.2]

/-- C16 as stated fails for a descriptor that refers to the name it is loaded under.  The
material `a` (object 1) was made by `CreateMaterial`, so it has no pending-load record; the
descriptor holds a reference to `a`, the builder loads that reference as an owner from the file
`a.mtl`, and the load registers a new object (2) under `a`.  The call returns object 1, but a
look-up of `a` afterwards gives object 2. -/
theorem hot_reload_can_lose_entry :
    FindMaterial demoEnv (CreateMaterial demoEnv demoState "a" 0).2 "a" = some 1 ∧
    (LoadMaterialFromXml 5 demoEnv (CreateMaterial demoEnv demoState "a" 0).2 "a"
      (.mk "Material" [] [.mk "SubMaterials" [] [.mk "MaterialRef" [("Name", "a")] []]])).map
      (fun r => (r.1, FindMaterial demoEnv r.2 "a")) = .ok (some 1, some 2) := by
  decide!

/-- C16, amended: for a name `N` registered to a material `m`, whenever
`LoadMaterialFromXml(N, descriptor)` returns it returns `m` itself; on an initialised manager a
look-up of `N` afterwards still gives `m` when the unified name of `N` has a pending-load
record before the call or has none after it (no reference in the descriptor made a load of `N`
register another object); for a descriptor without a `SubMaterials` node the call returns with
any fuel, allocates no object and leaves the name map as it is.  When `N` has no entry, the
call returns a new object, and under the same conditions (and with descriptor flags that lack
the pure-child bit) that object is what a look-up of `N` gives afterwards. -/
theorem hot_reload_merges_into_live_object (fuel : Nat) (env : Env) (s : CMatMan) (N : String)
    (node : XmlNode) :
    (∀ m, FindMaterial env s N = some m →
      (∀ r t, LoadMaterialFromXml fuel env s N node = .ok (r, t) →
        r = some m ∧
        (UnifyLaws env → env.MTL_FLAG_PURE_CHILD ≠ 0 → s.m_bInitialized = true →
          (mapFind s.m_pendingMaterialLoads (UnifyName env N) ≠ none ∨
            mapFind t.m_pendingMaterialLoads (UnifyName env N) = none) →
          FindMaterial env t N = some m)) ∧
      (node.findChild "SubMaterials" = none →
        ∃ t, LoadMaterialFromXml (fuel + 1) env s N node = .ok (some m, t) ∧
          FindMaterial env t N = some m ∧ t.m_mtlNameMap = s.m_mtlNameMap ∧
          t.materials.length = s.materials.length)) ∧
    (FindMaterial env s N = none →
      ∀ r t, LoadMaterialFromXml fuel env s N node = .ok (r, t) →
        r = some s.materials.length ∧
        (UnifyLaws env → env.MTL_FLAG_PURE_CHILD ≠ 0 → s.m_bInitialized = true →
          mtlFlagsFromXml env node false &&& env.MTL_FLAG_PURE_CHILD = 0 →
          (mapFind s.m_pendingMaterialLoads (UnifyName env N) ≠ none ∨
            mapFind t.m_pendingMaterialLoads (UnifyName env N) = none) →
          FindMaterial env t N = some s.materials.length)) := by
  constructor
  · intro m hm
    constructor
    · intro r t h
      rw [LoadMaterialFromXml_of_entry fuel env s N node m hm] at h
      refine ⟨?_, ?_⟩
      · rw [MakeMaterialFromXml_result _ _ _ _ _ _ _ _ _ _ _ _ h]
        rfl
      · intro hU hP hi hrec
        have f := (frames_all env hU hP fuel).2.2 s (UnifyName env N) node false 0 (some m) 0 none
          r t hi h
        simp only [Option.isSome_some, or_true, if_true] at f
        unfold FindMaterial at hm ⊢
        rcases hrec with hrec | hrec
        · rw [f.recorded _ (by simp) hrec]
          exact hm
        · rw [f.unrecorded _ (by simp) hrec]
          exact hm
    · intro hleaf
      rw [LoadMaterialFromXml_of_entry (fuel + 1) env s N node m hm,
        MakeMaterialFromXml_leaf fuel env s (UnifyName env N) node false 0 (some m) 0 none hleaf]
      have ht := loadMaterialBody_leaf_tables env s (UnifyName env N) node false 0 m
      refine ⟨_, rfl, ?_, ht.1, ht.2⟩
      unfold FindMaterial at hm ⊢
      rw [ht.1]
      exact hm
  · intro hm r t h
    rw [LoadMaterialFromXml_of_no_entry fuel env s N node hm] at h
    refine ⟨?_, ?_⟩
    · rw [MakeMaterialFromXml_result _ _ _ _ _ _ _ _ _ _ _ _ h]
      rfl
    · intro hU hP hi hflags hrec
      cases fuel with
      | zero => simp [MakeMaterialFromXml] at h
      | succ k =>
        rw [MakeMaterialFromXml] at h
        have hid : UnifyName env (UnifyName env N) = UnifyName env N := hU.idem N
        have := makeMaterialBody_registers_either _ _
          (fun name node prio par t r t2 hi hb2 => by
            have f := (frames_all env hU hP k).2.2 t name node true prio none 0 (some par) r t2 hi hb2
            simp only [true_or, if_true] at f
            exact ⟨f, ((grows_all k).2.2 env t name node true prio none 0 (some par) r t2 hb2).initialized hi⟩)
          (fun name t r t2 hi hl2 =>
            ⟨((frames_all env hU hP k).1 t name true false 0 r t2 hl2).2 hi,
              ((grows_all k).1 env t name true false 0 r t2 hl2).2.1⟩)
          env s (UnifyName env N) node 0 r t hi hflags (by rw [hid]; exact hrec) h
        rw [hid] at this
        exact this

/-- The amended C16 at the loaded manager of the examples, where `a` is object 1 and has a
record: the reload with a descriptor that refers to `a` returns object 1, and a look-up of `a`
still gives object 1. -/
theorem hot_reload_merges_into_live_object_witness :
    FindMaterial demoEnv loadedState "a" = some 1 ∧
    (LoadMaterialFromXml 5 demoEnv loadedState "a"
      (.mk "Material" [] [.mk "SubMaterials" [] [.mk "MaterialRef" [("Name", "a")] []]])).map
      (fun r => (r.1, FindMaterial demoEnv r.2 "a")) = .ok (some 1, some 1) ∧
    ∀ r t, LoadMaterialFromXml 5 demoEnv loadedState "a"
        (.mk "Material" [] [.mk "SubMaterials" [] [.mk "MaterialRef" [("Name", "a")] []]]) =
          .ok (r, t) →
      r = some 1 ∧
      (UnifyLaws demoEnv → demoEnv.MTL_FLAG_PURE_CHILD ≠ 0 → loadedState.m_bInitialized = true →
        (mapFind loadedState.m_pendingMaterialLoads (UnifyName demoEnv "a") ≠ none ∨
          mapFind t.m_pendingMaterialLoads (UnifyName demoEnv "a") = none) →
        FindMaterial demoEnv t "a" = some 1) :=
  ⟨by decide!, by decide!,
    ((hot_reload_merges_into_live_object 5 demoEnv loadedState "a"
      (.mk "Material" [] [.mk "SubMaterials" [] [.mk "MaterialRef" [("Name", "a")] []]])).1 1
      (by decide!)).1⟩

/-! ## Steps on one material object -/

theorem mat_updMat_ne (s : CMatMan) {x m : MatId} (f : CMatInfo → CMatInfo) (h : m ≠ x) :
    (s.updMat x f).mat m = s.mat m := by
  unfold CMatMan.updMat CMatMan.mat
  exact listSet_getD_ne _ _ _ (Ne.symm h)

theorem mat_updMat_self (s : CMatMan) {x : MatId} (f : CMatInfo → CMatInfo)
    (h : x < s.materials.length) : (s.updMat x f).mat x = f (s.mat x) := by
  unfold CMatMan.updMat
  show (listSet s.materials x (f (s.mat x))).getD x {} = f (s.mat x)
  exact listSet_getD_self _ _ _ h

theorem updMat_out_of_range (s : CMatMan) {x : MatId} (f : CMatInfo → CMatInfo)
    (h : s.materials.length ≤ x) : s.updMat x f = s := by
  unfold CMatMan.updMat
  rw [listSet_of_length_le _ _ h]

theorem Touches.touches_refl (x : MatId) (s : CMatMan) : Touches x s s :=
  ⟨SameRegistry.same_refl s, fun _ _ => rfl, rfl, rfl, rfl⟩

theorem Touches.touches_trans {x : MatId} {s t u : CMatMan} (h1 : Touches x s t)
    (h2 : Touches x t u) : Touches x s u :=
  ⟨h1.same.same_trans h2.same, fun m hm => (h2.others m hm).trans (h1.others m hm),
    h2.name.trans h1.name, h2.flags.trans h1.flags, h2.subMtls.trans h1.subMtls⟩

theorem touches_updMat (s : CMatMan) (x : MatId) (f : CMatInfo → CMatInfo)
    (hn : ∀ c, (f c).m_sMaterialName = c.m_sMaterialName)
    (hf : ∀ c, (f c).m_Flags = c.m_Flags)
    (hs : ∀ c, (f c).m_subMtls = c.m_subMtls) : Touches x s (s.updMat x f) := by
  by_cases h : x < s.materials.length
  · refine ⟨sameRegistry_updMat s x f, fun m hm => mat_updMat_ne s f hm, ?_, ?_, ?_⟩
    · rw [mat_updMat_self s f h]
      exact hn _
    · rw [mat_updMat_self s f h]
      exact hf _
    · rw [mat_updMat_self s f h]
      exact hs _
  · rw [updMat_out_of_range s f (Nat.le_of_not_lt h)]
    exact Touches.touches_refl x s

theorem touches_AssignShaderItem (s : CMatMan) (x : MatId) (si : SShaderItem) :
    Touches x s (s.AssignShaderItem x si) :=
  touches_updMat s x _ (fun _ => rfl) (fun _ => rfl) (fun _ => rfl)

theorem touches_SetLayer (s : CMatMan) (x : MatId) (slot : Nat) (layer : CMaterialLayer) :
    Touches x s (s.SetLayer x slot layer) :=
  touches_updMat s x _ (fun _ => rfl) (fun _ => rfl) (fun _ => rfl)

theorem touches_SetLayerCount (s : CMatMan) (x : MatId) (n : Nat) :
    Touches x s (s.SetLayerCount x n) :=
  touches_updMat s x _ (fun _ => rfl) (fun _ => rfl) (fun _ => rfl)

theorem touches_SetSurfaceType (env : Env) (s : CMatMan) (x : MatId) (n : String) :
    Touches x s (CMatMan.SetSurfaceType env s x n) :=
  touches_updMat s x _ (fun _ => rfl) (fun _ => rfl) (fun _ => rfl)

theorem touches_SetShaderName (s : CMatMan) (x : MatId) (n : String) :
    Touches x s (s.SetShaderName x n) :=
  touches_updMat s x _ (fun _ => rfl) (fun _ => rfl) (fun _ => rfl)

theorem touches_SetSketchMode (s : CMatMan) (x : MatId) (n : Int) :
    Touches x s (s.SetSketchMode x n) :=
  touches_updMat s x _ (fun _ => rfl) (fun _ => rfl) (fun _ => rfl)

theorem touches_SetMaterialLinkName (s : CMatMan) (x : MatId) (n : String) :
    Touches x s (s.SetMaterialLinkName x n) :=
  touches_updMat s x _ (fun _ => rfl) (fun _ => rfl) (fun _ => rfl)

theorem touches_setMtlLayerNoDrawFlags (s : CMatMan) (x : MatId) (n : Nat) :
    Touches x s (setMtlLayerNoDrawFlags s x n) :=
  touches_updMat s x _ (fun _ => rfl) (fun _ => rfl) (fun _ => rfl)

theorem touches_LoadMaterialShader (env : Env) (s : CMatMan) (pMtl : MatId) (sShader : String)
    (gm : Nat) (sr : SInputShaderResources) (pn : Option XmlNode) :
    Touches pMtl s (LoadMaterialShader env s pMtl sShader gm sr pn).2.2 := by
  unfold LoadMaterialShader
  dsimp only
  split
  · exact Touches.touches_refl _ s
  · exact touches_AssignShaderItem s _ _

theorem touches_LoadMaterialLayerSlot (env : Env) (s : CMatMan) (nSlot : Nat) (pMtl : MatId)
    (name : String) (sr : SInputShaderResources) (pn : Option XmlNode) (fl : Nat) :
    Touches pMtl s (LoadMaterialLayerSlot env s nSlot pMtl name sr pn fl).2 := by
  unfold LoadMaterialLayerSlot
  split
  · exact Touches.touches_refl _ s
  · dsimp only
    split
    · exact Touches.touches_refl _ s
    · split
      · exact Touches.touches_refl _ s
      · split
        · exact Touches.touches_refl _ s
        · split
          · exact Touches.touches_refl _ s
          · exact touches_SetLayer s _ _ _

theorem touches_loadLayerNodes (env : Env) (pMtl : MatId) (sr : SInputShaderResources)
    (nodes : List XmlNode) (l fl : Nat) (s : CMatMan) :
    Touches pMtl s (loadLayerNodes env pMtl sr nodes l fl s).2 := by
  induction nodes generalizing l fl s with
  | nil => exact Touches.touches_refl _ s
  | cons x xs ih =>
    unfold loadLayerNodes
    exact (touches_LoadMaterialLayerSlot _ _ _ _ _ _ _ _).touches_trans (ih _ _ _)

theorem touches_loadMaterialLayers (env : Env) (s : CMatMan) (pMtl : MatId) (node : XmlNode)
    (sr : SInputShaderResources) : Touches pMtl s (loadMaterialLayers env s pMtl node sr) := by
  unfold loadMaterialLayers
  split
  · split
    · exact Touches.touches_refl _ s
    · dsimp only
      split
      · exact Touches.touches_refl _ s
      · exact (touches_SetLayerCount s _ _).touches_trans
          ((touches_loadLayerNodes _ _ _ _ _ _ _).touches_trans
            (touches_setMtlLayerNoDrawFlags _ _ _))
  · exact Touches.touches_refl _ s

theorem touches_loadMaterialLinkName (s : CMatMan) (pMtl : MatId) (node : XmlNode) :
    Touches pMtl s (loadMaterialLinkName s pMtl node) := by
  unfold loadMaterialLinkName
  split
  · exact touches_SetMaterialLinkName s _ _
  · exact Touches.touches_refl _ s

theorem loadMaterialBody_shape (env : Env) (s : CMatMan) (x : MatId) (sMtlName : String)
    (node : XmlNode) (mtlFlags0 sortPrio : Nat) :
    Touches x s (loadMaterialBody env s x sMtlName node mtlFlags0 sortPrio) ∨
    ∃ a, Touches x s a ∧
      Touches x
        (a.SetFlags x
          ((if stricmpEq (node.getAttr "Shader") "nodraw" = true then
              (shaderGenMaskFromXml env node (node.getAttr "Shader") mtlFlags0).2 |||
                env.MTL_FLAG_NODRAW
            else (shaderGenMaskFromXml env node (node.getAttr "Shader") mtlFlags0).2) |||
            a.GetFlags x))
        (loadMaterialBody env s x sMtlName node mtlFlags0 sortPrio) := by
  unfold loadMaterialBody
  dsimp only
  split
  · exact Or.inl ((touches_loadMaterialLinkName _ _ _).touches_trans
      (touches_loadMaterialLayers _ _ _ _ _))
  · refine Or.inr ⟨CMatMan.SetSurfaceType env s x (node.getAttr "SurfaceType"),
      touches_SetSurfaceType env s x _, ?_⟩
    generalize (if stricmpEq (node.getAttr "Shader") "nodraw" = true then
        (shaderGenMaskFromXml env node (node.getAttr "Shader") mtlFlags0).2 ||| env.MTL_FLAG_NODRAW
      else (shaderGenMaskFromXml env node (node.getAttr "Shader") mtlFlags0).2) = mtlFlags
    split
    · exact (touches_loadMaterialLinkName _ _ _).touches_trans
        (touches_loadMaterialLayers _ _ _ _ _)
    · exact (touches_loadMaterialLinkName _ _ _).touches_trans
        ((touches_LoadMaterialShader _ _ _ _ _ _ _).touches_trans
          ((touches_SetShaderName _ _ _).touches_trans
            (touches_loadMaterialLayers _ _ _ _ _)))

theorem loadAfterInit_ends
    (build : CMatMan → String → XmlNode → Except Fault (Option MatId × CMatMan))
    (env : Env) (s1 : CMatMan) (N : String) (mk nr : Bool) (r : Option MatId) (s3 : CMatMan)
    (h : loadAfterInit build env s1 N mk nr = .ok (r, s3)) :
    (preloadShortCut env s1 = true ∧ r = s1.m_pDefaultMtl ∧ s3 = s1) ∨
    (preloadShortCut env s1 = false ∧
      ∃ e, mapFind s1.m_pendingMaterialLoads (UnifyName env N) = some (some e) ∧
        (s1.event e).m_flag = true ∧ s3 = s1 ∧
        r = (match mapFind s1.m_mtlNameMap (UnifyName env N) with
          | some m => some m
          | none => if mk then s1.m_pDefaultMtl else none)) ∨
    (preloadShortCut env s1 = false ∧
      mapFind s1.m_pendingMaterialLoads (UnifyName env N) = none ∧
      loadAsOwner build env (ownerState s1 (UnifyName env N)) (ownerHandle s1) (UnifyName env N)
        mk nr = .ok (r, s3)) := by
  by_cases hp : preloadShortCut env s1 = true
  · left
    unfold loadAfterInit at h
    rw [if_pos hp] at h
    simp only [Except.ok.injEq, Prod.mk.injEq] at h
    exact ⟨hp, h.1.symm, h.2.symm⟩
  · have hp2 : preloadShortCut env s1 = false := by
      cases hq : preloadShortCut env s1 with
      | true => exact absurd hq hp
      | false => rfl
    right
    cases hrec : mapFind s1.m_pendingMaterialLoads (UnifyName env N) with
    | none =>
      right
      rw [loadAfterInit_owner build env s1 N mk nr hp2 hrec] at h
      exact ⟨hp2, rfl, h⟩
    | some g =>
      left
      cases g with
      | none =>
        unfold loadAfterInit at h
        rw [if_neg hp] at h
        unfold CheckMaterialCache at h
        rw [hrec] at h
        simp at h
      | some e =>
        by_cases hf : (s1.event e).m_flag = true
        · rw [loadAfterInit_waiter build env s1 N mk nr e hp2 hrec hf] at h
          simp only [Except.ok.injEq, Prod.mk.injEq] at h
          exact ⟨hp2, e, rfl, hf, h.2.symm, h.1.symm⟩
        · unfold loadAfterInit at h
          rw [if_neg hp] at h
          unfold CheckMaterialCache at h
          rw [hrec] at h
          simp [hf] at h

/-! ## Properties kept by every step -/

theorem closed_loadSubMaterials (P : CMatMan → Prop)
    (build : String → XmlNode → Nat → MatId → CMatMan → Except Fault (Option MatId × CMatMan))
    (load : String → CMatMan → Except Fault (Option MatId × CMatMan))
    (hb : ∀ name node prio par t r t2, P t → build name node prio par t = .ok (r, t2) → P t2)
    (hl : ∀ name t r t2, P t → load name t = .ok (r, t2) → P t2)
    (pMtl nSub : Nat) (hs : ∀ u, P u → ∀ i c, P (u.SetSubMtl pMtl i c))
    (nodes : List XmlNode) (i : Nat) (s s2 : CMatMan) (h0 : P s)
    (h : loadSubMaterials build load pMtl nSub nodes i s = .ok s2) : P s2 := by
  induction nodes generalizing i s with
  | nil =>
    simp only [loadSubMaterials, Except.ok.injEq] at h
    rw [← h]
    exact h0
  | cons x xs ih =>
    unfold loadSubMaterials at h
    split at h
    · split at h
      · exact absurd h (by simp)
      · rename_i c s1 hc
        exact ih _ _ (hs _ (hb _ _ _ _ _ _ _ h0 hc) _ _) h
      · rename_i s1 hc
        exact ih _ _ (hs _ (hb _ _ _ _ _ _ _ h0 hc) _ _) h
    · split at h
      · split at h
        · exact absurd h (by simp)
        · rename_i c s1 hc
          exact ih _ _ (hs _ (hl _ _ _ _ h0 hc) _ _) h
        · rename_i s1 hc
          exact ih _ _ (hl _ _ _ _ h0 hc) h
      · exact ih _ _ h0 h

theorem closed_makeMaterialBody (env : Env) (Cond : Bool → Option MatId → Prop)
    (P : CMatMan → Prop) (hC : StepClosed env Cond P)
    (build : String → XmlNode → Nat → MatId → CMatMan → Except Fault (Option MatId × CMatMan))
    (load : String → CMatMan → Except Fault (Option MatId × CMatMan))
    (hb : ∀ name node prio par t r t2, P t → build name node prio par t = .ok (r, t2) → P t2)
    (hl : ∀ name t r t2, P t → load name t = .ok (r, t2) → P t2)
    (s : CMatMan) (sMtlName : String) (node : XmlNode) (b : Bool) (prio : Nat)
    (ex : Option MatId) (r : Option MatId) (s2 : CMatMan) (hc : Cond b ex) (h0 : P s)
    (h : makeMaterialBody build load env s sMtlName node b prio ex = .ok (r, s2)) : P s2 := by
  unfold makeMaterialBody at h
  dsimp only at h
  split at h
  · exact absurd h (by simp)
  · rename_i t ht
    simp only [Except.ok.injEq, Prod.mk.injEq] at h
    rw [← h.2]
    have p1 := hC.body s sMtlName node b prio ex hc h0
    have hsl := hC.slots s sMtlName (mtlFlagsFromXml env node b) b ex hc h0
    have p2 : P t := by
      unfold loadSubMaterialsNode at ht
      split at ht
      · simp only [Except.ok.injEq] at ht
        rw [← ht]
        exact p1
      · exact closed_loadSubMaterials P build load hb hl _ _ (fun u hu => (hsl u hu).2) _ _ _ _
          ((hsl _ p1).1 _) ht
    refine hC.core _ _ ?_ ?_ p2
    · exact (NotifyCreateMaterial_sameTables _ _).1
    · exact (NotifyCreateMaterial_sameTables _ _).2.2

theorem closed_loadAsOwner (env : Env) (Cond : Bool → Option MatId → Prop)
    (P : CMatMan → Prop) (hC : StepClosed env Cond P)
    (build : CMatMan → String → XmlNode → Except Fault (Option MatId × CMatMan))
    (hb : ∀ t name node r t2, P t → build t name node = .ok (r, t2) →
      P t2 ∧ r = some t.materials.length)
    (s2 : CMatMan) (e : EventId) (name : String) (mk nr : Bool) (r : Option MatId)
    (s3 : CMatMan) (h0 : P s2)
    (h : loadAsOwner build env s2 ⟨some e, true⟩ name mk nr = .ok (r, s3)) : P s3 := by
  have hfin : ∀ (u : CMatMan) (hd : UniqueManualEvent) (p : Option MatId), P u →
      P (finishLoad u hd p mk nr).2 := by
    intro u hd p hu
    exact hC.core _ _ (finishLoad_map _ _ _ _ _) (finishLoad_materials _ _ _ _ _) hu
  rcases loadAsOwner_ends build env s2 e name mk nr r s3 h with
    ⟨_, he⟩ | ⟨_, he⟩ | ⟨node, m, t, _, _, hbt, he⟩ | ⟨node, t, _, _, hbt, he⟩
  · have h2 := congrArg Prod.snd he
    dsimp only at h2
    rw [h2]
    refine hfin _ _ _ ?_
    exact hC.core _ _ (evictPendingLoad_map _ _ _) (evictPendingLoad_materials _ _ _) h0
  · have h2 := congrArg Prod.snd he
    dsimp only at h2
    rw [h2]
    exact hfin _ _ _ (hC.placeholder _ _ h0)
  · have h2 := congrArg Prod.snd he
    dsimp only at h2
    rw [h2]
    obtain ⟨pt, hm⟩ := hb _ _ _ _ _ h0 hbt
    refine hfin _ _ _ ?_
    split
    · injection hm with hm2
      rw [hm2]
      exact hC.sketch s2 h0 t _ pt
    · exact pt
  · have h2 := congrArg Prod.snd he
    dsimp only at h2
    rw [h2]
    exact hfin _ _ _ (hb _ _ _ _ _ h0 hbt).1

theorem closed_loadAfterInit (env : Env) (Cond : Bool → Option MatId → Prop)
    (P : CMatMan → Prop) (hC : StepClosed env Cond P)
    (build : CMatMan → String → XmlNode → Except Fault (Option MatId × CMatMan))
    (hb : ∀ t name node r t2, P t → build t name node = .ok (r, t2) →
      P t2 ∧ r = some t.materials.length)
    (s1 : CMatMan) (N : String) (mk nr : Bool) (r : Option MatId) (s3 : CMatMan) (h0 : P s1)
    (h : loadAfterInit build env s1 N mk nr = .ok (r, s3)) : P s3 := by
  rcases loadAfterInit_ends build env s1 N mk nr r s3 h with
    ⟨_, _, hs⟩ | ⟨_, e, _, _, hs, _⟩ | ⟨_, _, ho⟩
  · rw [hs]
    exact h0
  · rw [hs]
    exact h0
  · unfold ownerHandle at ho
    exact closed_loadAsOwner env Cond P hC build hb _ _ _ mk nr r s3
      (hC.core _ _ (ownerState_map _ _) (ownerState_materials _ _) h0) ho

theorem closed_initDefaultsBody (env : Env) (Cond : Bool → Option MatId → Prop)
    (P : CMatMan → Prop) (hC : StepClosed env Cond P)
    (load : CMatMan → Except Fault (Option MatId × CMatMan))
    (hl : ∀ t r t2, P t → load t = .ok (r, t2) → P t2) (s s2 : CMatMan) (h0 : P s)
    (h : initDefaultsBody load env s = .ok s2) : P s2 := by
  unfold initDefaultsBody at h
  dsimp only at h
  have a1 : ∀ t : CMatMan, t = (if s.m_bLoadSurfaceTypesInInit = true then
      ({ s with m_bInitialized := true, surfaceTypesLoaded := true } : CMatMan)
      else { s with m_bInitialized := true }) → P t := by
    intro t ht
    rw [ht]
    split <;> exact hC.core s _ rfl rfl h0
  generalize (if s.m_bLoadSurfaceTypesInInit = true then
      ({ s with m_bInitialized := true, surfaceTypesLoaded := true } : CMatMan)
      else { s with m_bInitialized := true }) = t1 at h a1
  have p1 := a1 t1 rfl
  have a2 : ∀ t : CMatMan, t = (if t1.m_pDefaultMtl.isNone = true then
      { (makeDefaultMaterial env t1 "Default" "Illum").2 with
        m_pDefaultMtl := some (makeDefaultMaterial env t1 "Default" "Illum").1 }
      else t1) → P t := by
    intro t ht
    rw [ht]
    split
    · exact hC.core (makeDefaultMaterial env t1 "Default" "Illum").2 _ rfl rfl
        (hC.defaultMat t1 "Default" "Illum" p1)
    · exact p1
  generalize (if t1.m_pDefaultMtl.isNone = true then
      { (makeDefaultMaterial env t1 "Default" "Illum").2 with
        m_pDefaultMtl := some (makeDefaultMaterial env t1 "Default" "Illum").1 }
      else t1) = t2 at h a2
  have p2 := a2 t2 rfl
  have a3 : ∀ t : CMatMan, t = (if t2.m_pDefaultTerrainLayersMtl.isNone = true then
      { (makeDefaultMaterial env t2 "DefaultTerrainLayer" "Terrain.Layer").2 with
        m_pDefaultTerrainLayersMtl :=
          some (makeDefaultMaterial env t2 "DefaultTerrainLayer" "Terrain.Layer").1 }
      else t2) → P t := by
    intro t ht
    rw [ht]
    split
    · exact hC.core (makeDefaultMaterial env t2 "DefaultTerrainLayer" "Terrain.Layer").2 _ rfl rfl
        (hC.defaultMat t2 "DefaultTerrainLayer" "Terrain.Layer" p2)
    · exact p2
  generalize (if t2.m_pDefaultTerrainLayersMtl.isNone = true then
      { (makeDefaultMaterial env t2 "DefaultTerrainLayer" "Terrain.Layer").2 with
        m_pDefaultTerrainLayersMtl :=
          some (makeDefaultMaterial env t2 "DefaultTerrainLayer" "Terrain.Layer").1 }
      else t2) = t3 at h a3
  have p3 := a3 t3 rfl
  split at h
  · exact absurd h (by simp)
  · rename_i t4 h4
    have p4 : P t4 := by
      split at h4
      · split at h4
        · exact absurd h4 (by simp)
        · rename_i m t hlt
          simp only [Except.ok.injEq] at h4
          rw [← h4]
          exact hC.core t _ rfl rfl (hl _ _ _ p3 hlt)
      · simp only [Except.ok.injEq] at h4
        rw [← h4]
        exact p3
    have a5 : ∀ t : CMatMan, t = (if t4.m_pNoDrawMtl.isNone = true then installNoDrawMaterial env t4
        else t4) → P t := by
      intro t ht
      rw [ht]
      split
      · exact hC.noDraw t4 p4
      · exact p4
    generalize (if t4.m_pNoDrawMtl.isNone = true then installNoDrawMaterial env t4
        else t4) = t5 at h a5
    have p5 := a5 t5 rfl
    simp only [Except.ok.injEq] at h
    rw [← h]
    split
    · exact hC.core (makeDefaultMaterial env t5 "DefaultHelper" "Helper").2 _ rfl rfl
        (hC.defaultMat t5 "DefaultHelper" "Helper" p5)
    · exact p5

/-- A property that every step keeps is kept by every load, every initialisation of the
defaults and every build for which it is asked. -/
theorem closed_all (env : Env) (Cond : Bool → Option MatId → Prop) (P : CMatMan → Prop)
    (hC : StepClosed env Cond P) (hc1 : Cond true none) (hc2 : Cond false none) (n : Nat) :
    (∀ s N mk nr lf r t, P s → LoadMaterialInternal n env s N mk nr lf = .ok (r, t) → P t) ∧
    (∀ s t, P s → InitDefaults n env s = .ok t → P t) ∧
    (∀ s name node b prio ex lf par r t, Cond b ex → P s →
      MakeMaterialFromXml n env s name node b prio ex lf par = .ok (r, t) → P t) := by
  induction n with
  | zero =>
    refine ⟨?_, ?_, ?_⟩
    · intro s N mk nr lf r t _ h
      simp [LoadMaterialInternal] at h
    · intro s t _ h
      simp [InitDefaults] at h
    · intro s name node b prio ex lf par r t _ _ h
      simp [MakeMaterialFromXml] at h
  | succ n ih =>
    obtain ⟨ihL, ihI, ihM⟩ := ih
    refine ⟨?_, ?_, ?_⟩
    · intro s N mk nr lf r t h0 h
      rw [LoadMaterialInternal_succ] at h
      split at h
      · exact absurd h (by simp)
      · rename_i s1 h1
        have p1 : P s1 := by
          unfold ensureDefaults at h1
          split at h1
          · simp only [Except.ok.injEq] at h1
            rw [← h1]
            exact h0
          · exact ihI s s1 h0 h1
        exact closed_loadAfterInit env Cond P hC _
          (fun t name node r t2 pt hb =>
            ⟨ihM t name node false 0 none lf none r t2 hc2 pt hb,
              MakeMaterialFromXml_result _ _ _ _ _ _ _ _ _ _ _ _ hb⟩)
          s1 N mk nr r t p1 h
    · intro s t h0 h
      rw [InitDefaults] at h
      split at h
      · simp only [Except.ok.injEq] at h
        rw [← h]
        exact h0
      · exact closed_initDefaultsBody env Cond P hC _
          (fun t r t2 pt hl => ihL t _ false false 0 r t2 pt hl) s t h0 h
    · intro s name node b prio ex lf par r t hc h0 h
      rw [MakeMaterialFromXml] at h
      exact closed_makeMaterialBody env Cond P hC _ _
        (fun name node prio par t r t2 pt hb =>
          ihM t name node true prio none lf (some par) r t2 hc1 pt hb)
        (fun name t r t2 pt hl => ihL t name true false lf r t2 pt hl)
        s name node b prio ex r t hc h0 h

/-! ## C11: registered materials and the pure-child flag -/

theorem lor_land_zero (a b p : Nat) : (a ||| b) &&& p = 0 ↔ a &&& p = 0 ∧ b &&& p = 0 := by
  rw [Nat.and_distrib_right]
  constructor
  · intro h
    constructor
    · apply Nat.eq_of_testBit_eq
      intro i
      have := congrArg (fun n => n.testBit i) h
      simp only [Nat.testBit_or, Nat.zero_testBit, Bool.or_eq_false_iff] at this
      rw [this.1, Nat.zero_testBit]
    · apply Nat.eq_of_testBit_eq
      intro i
      have := congrArg (fun n => n.testBit i) h
      simp only [Nat.testBit_or, Nat.zero_testBit, Bool.or_eq_false_iff] at this
      rw [this.2, Nat.zero_testBit]
  · intro h
    rw [h.1, h.2]
    rfl

theorem land_land_zero (a m p : Nat) (h : m &&& p = 0) : (a &&& m) &&& p = 0 := by
  rw [Nat.and_assoc, h, Nat.and_zero]

theorem mapFind_mapAssign_some {α : Type} (m : List (String × α)) (k k2 : String) (v w : α)
    (h : mapFind (mapAssign m k v) k2 = some w) : (k2 = k ∧ w = v) ∨ mapFind m k2 = some w := by
  by_cases hk : k = k2
  · subst hk
    rw [mapFind_mapAssign_self] at h
    injection h with h
    exact Or.inl ⟨rfl, h.symm⟩
  · rw [mapFind_mapAssign_ne _ _ hk] at h
    exact Or.inr h

theorem mapFind_mapErase_some {α : Type} (m : List (String × α)) (k k2 : String) (w : α)
    (h : mapFind (mapErase m k) k2 = some w) : mapFind m k2 = some w := by
  by_cases hk : k = k2
  · subst hk
    rw [mapFind_mapErase_self] at h
    cases h
  · rw [mapFind_mapErase_ne _ hk] at h
    exact h

theorem mat_newMat_old (s : CMatMan) (c : CMatInfo) {m : MatId} (h : m < s.materials.length) :
    (s.newMat c).2.mat m = s.mat m := by
  unfold CMatMan.newMat CMatMan.mat
  simp only [List.getD_eq_getElem?_getD]
  rw [List.getElem?_append_left h]

theorem mat_newMat_new (s : CMatMan) (c : CMatInfo) :
    (s.newMat c).2.mat s.materials.length = c := by
  unfold CMatMan.newMat CMatMan.mat
  simp [List.getD_eq_getElem?_getD]

theorem newMat_length (s : CMatMan) (c : CMatInfo) :
    (s.newMat c).2.materials.length = s.materials.length + 1 := by
  simp [CMatMan.newMat]

theorem flags_updMat (s : CMatMan) (x : MatId) (f : CMatInfo → CMatInfo)
    (hf : ∀ c, (f c).m_Flags = c.m_Flags) (m : MatId) :
    ((s.updMat x f).mat m).m_Flags = (s.mat m).m_Flags := by
  by_cases hm : m = x
  · subst hm
    by_cases h : m < s.materials.length
    · rw [mat_updMat_self s f h]
      exact hf _
    · rw [updMat_out_of_range s f (Nat.le_of_not_lt h)]
  · rw [mat_updMat_ne s f hm]

theorem updMat_length (s : CMatMan) (x : MatId) (f : CMatInfo → CMatInfo) :
    (s.updMat x f).materials.length = s.materials.length := by
  unfold CMatMan.updMat
  exact listSet_length _ _ _

theorem npc_of (env : Env) {s t : CMatMan} (h : NoPureChildRegistered env s)
    (hlen : s.materials.length ≤ t.materials.length)
    (hfl : ∀ m, m < s.materials.length → (s.mat m).m_Flags &&& env.MTL_FLAG_PURE_CHILD = 0 →
      (t.mat m).m_Flags &&& env.MTL_FLAG_PURE_CHILD = 0)
    (hmap : ∀ k m, mapFind t.m_mtlNameMap k = some m →
      mapFind s.m_mtlNameMap k = some m ∨
        (m < t.materials.length ∧ (t.mat m).m_Flags &&& env.MTL_FLAG_PURE_CHILD = 0)) :
    NoPureChildRegistered env t := by
  intro k m hk
  rcases hmap k m hk with h1 | h1
  · obtain ⟨a, b⟩ := h k m h1
    exact ⟨Nat.lt_of_lt_of_le a hlen, hfl m a b⟩
  · exact h1

theorem npc_core (env : Env) (u v : CMatMan) (hm : v.m_mtlNameMap = u.m_mtlNameMap)
    (hs : v.materials = u.materials) (h : NoPureChildRegistered env u) :
    NoPureChildRegistered env v := by
  intro k m hk
  rw [hm] at hk
  have := h k m hk
  unfold CMatMan.mat
  rw [hs]
  exact this

theorem npc_updMat (env : Env) (s : CMatMan) (x : MatId) (f : CMatInfo → CMatInfo)
    (hf : ∀ c, (f c).m_Flags = c.m_Flags) (h : NoPureChildRegistered env s) :
    NoPureChildRegistered env (s.updMat x f) := by
  refine npc_of env h (Nat.le_of_eq (updMat_length s x f).symm) ?_ ?_
  · intro m _ hm
    rw [flags_updMat s x f hf m]
    exact hm
  · intro k m hk
    exact Or.inl hk

theorem npc_touches (env : Env) {x : MatId} {s t : CMatMan} (ht : Touches x s t)
    (h : NoPureChildRegistered env s) : NoPureChildRegistered env t := by
  refine npc_of env h (Nat.le_of_eq ht.same.2.symm) ?_ ?_
  · intro m _ hm
    by_cases hx : m = x
    · subst hx
      rw [ht.flags]
      exact hm
    · rw [ht.others m hx]
      exact hm
  · intro k m hk
    rw [ht.same.map_eq] at hk
    exact Or.inl hk

theorem npc_SetFlags (env : Env) (s : CMatMan) (x : MatId) (F : Nat)
    (hF : (s.mat x).m_Flags &&& env.MTL_FLAG_PURE_CHILD = 0 → F &&& env.MTL_FLAG_PURE_CHILD = 0)
    (h : NoPureChildRegistered env s) :
    NoPureChildRegistered env (s.SetFlags x (F ||| s.GetFlags x)) := by
  refine npc_of env h (Nat.le_of_eq (updMat_length s x _).symm) ?_ ?_
  · intro m hm hn
    by_cases hx : m = x
    · subst hx
      unfold CMatMan.SetFlags
      rw [mat_updMat_self s _ hm]
      show (F ||| s.GetFlags m) &&& env.MTL_FLAG_PURE_CHILD = 0
      rw [lor_land_zero]
      exact ⟨hF hn, hn⟩
    · unfold CMatMan.SetFlags
      rw [mat_updMat_ne s _ hx]
      exact hn
  · intro k m hk
    exact Or.inl hk

theorem CreateMaterial_mat_old (env : Env) (s : CMatMan) (n : String) (f : Nat) {m : MatId}
    (h : m < s.materials.length) : (CreateMaterial env s n f).2.mat m = s.mat m := by
  unfold CMatMan.mat
  rw [CreateMaterial_materials]
  simp only [List.getD_eq_getElem?_getD]
  rw [List.getElem?_append_left h]

theorem CreateMaterial_mat_new (env : Env) (s : CMatMan) (n : String) (f : Nat) :
    (CreateMaterial env s n f).2.mat s.materials.length =
      { m_sMaterialName := n, m_Flags := f ||| 0 } := by
  unfold CMatMan.mat
  rw [CreateMaterial_materials]
  simp [List.getD_eq_getElem?_getD]

theorem CreateMaterial_length (env : Env) (s : CMatMan) (n : String) (f : Nat) :
    (CreateMaterial env s n f).2.materials.length = s.materials.length + 1 := by
  rw [CreateMaterial_materials]
  simp

theorem npc_CreateMaterial (env : Env) (s : CMatMan) (n : String) (f : Nat)
    (h : NoPureChildRegistered env s) : NoPureChildRegistered env (CreateMaterial env s n f).2 := by
  refine npc_of env h (by rw [CreateMaterial_length]; exact Nat.le_succ _) ?_ ?_
  · intro m hm hn
    rw [CreateMaterial_mat_old env s n f hm]
    exact hn
  · intro k m hk
    rw [CreateMaterial_map] at hk
    split at hk
    · rename_i hf
      rcases mapFind_mapAssign_some _ _ _ _ _ hk with ⟨_, hv⟩ | hk2
      · right
        rw [hv, CreateMaterial_length, CreateMaterial_mat_new]
        refine ⟨Nat.lt_succ_self _, ?_⟩
        show (f ||| 0) &&& env.MTL_FLAG_PURE_CHILD = 0
        rw [Nat.or_zero]
        exact hf
      · exact Or.inl hk2
    · exact Or.inl hk

theorem makeDefaultMaterial_mat_old (env : Env) (s : CMatMan) (name shader : String) {m : MatId}
    (h : m < s.materials.length) : (makeDefaultMaterial env s name shader).2.mat m = s.mat m := by
  unfold makeDefaultMaterial
  dsimp only
  unfold CMatMan.AssignShaderItem CMatMan.SetName
  have hne : m ≠ (s.newMat {}).1 := Nat.ne_of_lt h
  rw [mat_updMat_ne _ _ hne, mat_updMat_ne _ _ hne, mat_newMat_old s _ h]

theorem makeDefaultMaterial_length (env : Env) (s : CMatMan) (name shader : String) :
    (makeDefaultMaterial env s name shader).2.materials.length = s.materials.length + 1 := by
  unfold makeDefaultMaterial
  dsimp only
  unfold CMatMan.AssignShaderItem CMatMan.SetName
  rw [updMat_length, updMat_length, newMat_length]

theorem npc_makeDefaultMaterial (env : Env) (s : CMatMan) (name shader : String)
    (h : NoPureChildRegistered env s) :
    NoPureChildRegistered env (makeDefaultMaterial env s name shader).2 := by
  refine npc_of env h (by rw [makeDefaultMaterial_length]; exact Nat.le_succ _) ?_ ?_
  · intro m hm hn
    rw [makeDefaultMaterial_mat_old env s name shader hm]
    exact hn
  · intro k m hk
    rw [makeDefaultMaterial_map] at hk
    exact Or.inl hk

theorem newNoDrawMaterial_mat_old (env : Env) (s : CMatMan) {m : MatId}
    (h : m < s.materials.length) : (newNoDrawMaterial env s).2.mat m = s.mat m := by
  unfold newNoDrawMaterial
  dsimp only
  unfold CMatMan.AssignShaderItem CMatMan.SetName CMatMan.SetFlags
  have hne : m ≠ (s.newMat {}).1 := Nat.ne_of_lt h
  rw [mat_updMat_ne _ _ hne, mat_updMat_ne _ _ hne, mat_updMat_ne _ _ hne, mat_newMat_old s _ h]

theorem newNoDrawMaterial_length (env : Env) (s : CMatMan) :
    (newNoDrawMaterial env s).2.materials.length = s.materials.length + 1 := by
  unfold newNoDrawMaterial
  dsimp only
  unfold CMatMan.AssignShaderItem CMatMan.SetName CMatMan.SetFlags
  rw [updMat_length, updMat_length, updMat_length, newMat_length]

theorem newNoDrawMaterial_fst (env : Env) (s : CMatMan) :
    (newNoDrawMaterial env s).1 = s.materials.length := rfl

theorem newNoDrawMaterial_mat_new (env : Env) (s : CMatMan) :
    (newNoDrawMaterial env s).2.mat s.materials.length =
      { m_sMaterialName := "nodraw", m_Flags := env.MTL_FLAG_NODRAW,
        m_shaderItem := { m_pShader := env.EF_LoadShader "nodraw" 0 0 } } := by
  unfold newNoDrawMaterial
  dsimp only
  unfold CMatMan.AssignShaderItem CMatMan.SetName CMatMan.SetFlags
  have h1 : (s.newMat {}).1 < (s.newMat {}).2.materials.length := by
    rw [newMat_length]
    exact Nat.lt_succ_self _
  have e1 : (s.newMat {}).1 = s.materials.length := rfl
  rw [← e1, mat_updMat_self _ _ (by rw [updMat_length, updMat_length]; exact h1),
    mat_updMat_self _ _ (by rw [updMat_length]; exact h1), mat_updMat_self _ _ h1, e1,
    mat_newMat_new]

theorem installNoDrawMaterial_materials (env : Env) (s : CMatMan) :
    (installNoDrawMaterial env s).materials = (newNoDrawMaterial env s).2.materials := rfl

theorem installNoDrawMaterial_map (env : Env) (s : CMatMan) :
    (installNoDrawMaterial env s).m_mtlNameMap =
      mapAssign s.m_mtlNameMap (UnifyName env "nodraw") s.materials.length := by
  have hn : (newNoDrawMaterial env s).2.GetName (newNoDrawMaterial env s).1 = "nodraw" := by
    unfold CMatMan.GetName
    rw [newNoDrawMaterial_fst, newNoDrawMaterial_mat_new]
  unfold installNoDrawMaterial
  dsimp only
  rw [hn, newNoDrawMaterial_map]
  rfl

theorem npc_installNoDrawMaterial (env : Env) (hL : FlagLaws env) (s : CMatMan)
    (h : NoPureChildRegistered env s) : NoPureChildRegistered env (installNoDrawMaterial env s) := by
  have hmat : ∀ m, (installNoDrawMaterial env s).mat m = (newNoDrawMaterial env s).2.mat m :=
    fun m => mat_congr (installNoDrawMaterial_materials env s) m
  refine npc_of env h ?_ ?_ ?_
  · rw [installNoDrawMaterial_materials, newNoDrawMaterial_length]
    exact Nat.le_succ _
  · intro m hm hn
    rw [hmat, newNoDrawMaterial_mat_old env s hm]
    exact hn
  · intro k m hk
    rw [installNoDrawMaterial_map] at hk
    rcases mapFind_mapAssign_some _ _ _ _ _ hk with ⟨_, hv⟩ | hk2
    · right
      rw [hv, hmat, installNoDrawMaterial_materials, newNoDrawMaterial_length,
        newNoDrawMaterial_mat_new]
      exact ⟨Nat.lt_succ_self _, hL.nodraw⟩
    · exact Or.inl hk2

theorem shaderGenMaskFromXml_flags (env : Env) (hL : FlagLaws env) (node : XmlNode)
    (shaderName : String) (f : Nat) (hf : f &&& env.MTL_FLAG_PURE_CHILD = 0) :
    (shaderGenMaskFromXml env node shaderName f).2 &&& env.MTL_FLAG_PURE_CHILD = 0 := by
  unfold shaderGenMaskFromXml
  dsimp only
  rw [lor_land_zero]
  refine ⟨?_, hL.gen⟩
  split
  · show (f ||| env.MTL_64BIT_SHADERGENMASK) &&& env.MTL_FLAG_PURE_CHILD = 0
    rw [lor_land_zero]
    exact ⟨hf, hL.gen⟩
  · exact hf

theorem npc_loadMaterialBody (env : Env) (hL : FlagLaws env) (s : CMatMan) (x : MatId)
    (name : String) (node : XmlNode) (f prio : Nat)
    (hf : (s.mat x).m_Flags &&& env.MTL_FLAG_PURE_CHILD = 0 → f &&& env.MTL_FLAG_PURE_CHILD = 0)
    (h : NoPureChildRegistered env s) :
    NoPureChildRegistered env (loadMaterialBody env s x name node f prio) := by
  rcases loadMaterialBody_shape env s x name node f prio with ht | ⟨a, h1, h2⟩
  · exact npc_touches env ht h
  · refine npc_touches env h2 (npc_SetFlags env a x _ ?_ (npc_touches env h1 h))
    intro hx
    rw [h1.flags] at hx
    have hg := shaderGenMaskFromXml_flags env hL node (node.getAttr "Shader") f (hf hx)
    split
    · rw [lor_land_zero]
      exact ⟨hg, hL.nodraw⟩
    · exact hg

theorem mtlFlagsFromXml_unforced (env : Env) (hL : FlagLaws env) (node : XmlNode) :
    mtlFlagsFromXml env node false &&& env.MTL_FLAG_PURE_CHILD = 0 := by
  unfold mtlFlagsFromXml
  simp only [Bool.false_eq_true, if_false]
  exact land_land_zero _ _ _ hL.save

theorem npc_body (env : Env) (hL : FlagLaws env) (u : CMatMan) (name : String) (node : XmlNode)
    (b : Bool) (prio : Nat) (ex : Option MatId) (hc : ex = none ∨ b = false)
    (h : NoPureChildRegistered env u) :
    NoPureChildRegistered env
      (loadMaterialBody env (obtainMaterial env u name (mtlFlagsFromXml env node b) ex).2
        (obtainMaterial env u name (mtlFlagsFromXml env node b) ex).1 name node
        (mtlFlagsFromXml env node b) prio) := by
  cases ex with
  | none =>
    have ho : obtainMaterial env u name (mtlFlagsFromXml env node b) none =
        CreateMaterial env u name (mtlFlagsFromXml env node b) := rfl
    rw [ho]
    refine npc_loadMaterialBody env hL _ _ _ _ _ _ ?_ (npc_CreateMaterial env u _ _ h)
    intro hx
    rw [CreateMaterial_fst, CreateMaterial_mat_new] at hx
    have hx2 : (mtlFlagsFromXml env node b ||| 0) &&& env.MTL_FLAG_PURE_CHILD = 0 := hx
    rw [Nat.or_zero] at hx2
    exact hx2
  | some m =>
    have hb : b = false := by
      rcases hc with hc | hc
      · cases hc
      · exact hc
    subst hb
    have ho : obtainMaterial env u name (mtlFlagsFromXml env node false) (some m) =
        (m, u.SetFlags m (mtlFlagsFromXml env node false ||| u.GetFlags m)) := rfl
    rw [ho]
    exact npc_loadMaterialBody env hL _ _ _ _ _ _ (fun _ => mtlFlagsFromXml_unforced env hL node)
      (npc_SetFlags env u m _ (fun _ => mtlFlagsFromXml_unforced env hL node) h)

theorem npc_closed (env : Env) (hL : FlagLaws env) :
    StepClosed env (fun b ex => ex = none ∨ b = false) (NoPureChildRegistered env) where
  core := npc_core env
  placeholder := fun u _ h =>
    npc_touches env (touches_AssignShaderItem _ _ _) (npc_CreateMaterial env u _ 0 h)
  sketch := fun _ _ u i h => npc_touches env (touches_SetSketchMode u _ i) h
  defaultMat := fun u name shader h => npc_makeDefaultMaterial env u name shader h
  noDraw := fun u h => npc_installNoDrawMaterial env hL u h
  body := fun u name node b prio ex hc h => npc_body env hL u name node b prio ex hc h
  slots := fun _ _ _ _ _ _ _ u h =>
    ⟨fun _ => npc_updMat env u _ _ (fun _ => rfl) h, fun _ _ => npc_updMat env u _ _ (fun _ => rfl) h⟩

theorem RenameMaterial_materials (env : Env) (s : CMatMan) (m : MatId) (B : String) :
    (RenameMaterial env s m B).materials = (s.SetName m B).materials := by
  unfold RenameMaterial
  by_cases h : s.GetName m ≠ "" <;> simp [h, CMatMan.SetName, CMatMan.updMat, CMatMan.mat]

theorem npc_RenameMaterial (env : Env) (s : CMatMan) (m : MatId) (B : String)
    (hm : m < s.materials.length) (hf : (s.mat m).m_Flags &&& env.MTL_FLAG_PURE_CHILD = 0)
    (h : NoPureChildRegistered env s) : NoPureChildRegistered env (RenameMaterial env s m B) := by
  have hmat : ∀ k, ((RenameMaterial env s m B).mat k).m_Flags = (s.mat k).m_Flags := by
    intro k
    rw [mat_congr (RenameMaterial_materials env s m B) k]
    exact flags_updMat s m (fun c => { c with m_sMaterialName := B }) (fun _ => rfl) k
  have hlen : (RenameMaterial env s m B).materials.length = s.materials.length := by
    rw [RenameMaterial_materials]
    exact updMat_length s m _
  refine npc_of env h (Nat.le_of_eq hlen.symm) ?_ ?_
  · intro k _ hk
    rw [hmat]
    exact hk
  · intro k v hk
    rw [RenameMaterial_map] at hk
    rcases mapFind_mapAssign_some _ _ _ _ _ hk with ⟨_, hv⟩ | hk2
    · right
      rw [hv, hlen, hmat]
      exact ⟨hm, hf⟩
    · left
      split at hk2
      · exact mapFind_mapErase_some _ _ _ _ hk2
      · exact hk2

theorem npc_Unregister (env : Env) (s : CMatMan) (m : MatId) (d : Bool)
    (h : NoPureChildRegistered env s) : NoPureChildRegistered env (Unregister env s m d).2 := by
  refine npc_of env h (Nat.le_of_eq (by rw [Unregister_materials])) ?_ ?_
  · intro k _ hk
    rw [mat_congr (Unregister_materials env s m d) k]
    exact hk
  · intro k v hk
    left
    rw [Unregister_map] at hk
    split at hk
    · exact mapFind_mapErase_some _ _ _ _ hk
    · exact hk

theorem forced_leaf_build_keeps_tables (n : Nat) (env : Env) (s : CMatMan) (name : String)
    (node : XmlNode) (prio lf : Nat) (par : Option MatId)
    (hP : env.MTL_FLAG_PURE_CHILD ≠ 0) (hleaf : node.findChild "SubMaterials" = none) :
    ∃ t, MakeMaterialFromXml (n + 1) env s name node true prio none lf par =
        .ok (some s.materials.length, t) ∧
      t.m_mtlNameMap = s.m_mtlNameMap ∧
      t.m_pendingMaterialLoads = s.m_pendingMaterialLoads := by
  rw [MakeMaterialFromXml_leaf n env s name node true prio none lf par hleaf]
  have ho : obtainMaterial env s name (mtlFlagsFromXml env node true) none =
      CreateMaterial env s name (mtlFlagsFromXml env node true) := rfl
  rw [ho]
  have hn := NotifyCreateMaterial_sameTables
    (loadMaterialBody env (CreateMaterial env s name (mtlFlagsFromXml env node true)).2
      (CreateMaterial env s name (mtlFlagsFromXml env node true)).1 name node
      (mtlFlagsFromXml env node true) prio)
    (CreateMaterial env s name (mtlFlagsFromXml env node true)).1
  have sr := sameRegistry_loadMaterialBody env
    (CreateMaterial env s name (mtlFlagsFromXml env node true)).2
    (CreateMaterial env s name (mtlFlagsFromXml env node true)).1 name node
    (mtlFlagsFromXml env node true) prio
  refine ⟨_, rfl, ?_, ?_⟩
  · rw [hn.1, sr.map_eq, CreateMaterial_map, if_neg (mtlFlagsFromXml_forced env node hP)]
  · rw [hn.2.1, sr.pending_eq, CreateMaterial_pending]

/-- C11 as stated fails in both parts.  `RenameMaterial` registers whatever it is given: a
pure-child material (object 1, flags `0x80`) that is renamed to `y` is found under `y`, and
the pending-load table gets a record under `y`.  And the pending-load table is keyed by the
names that were asked for, not by materials: a descriptor with an inline sub-material `q` and a
reference to `q` leaves a pure-child material named `q` (object 2) and, from the load of the
reference, a record under `q`. -/
theorem pure_child_in_tables :
    ((CreateMaterial demoEnv demoState "x" 0x80).2.mat 1).m_Flags &&& demoEnv.MTL_FLAG_PURE_CHILD
      ≠ 0 ∧
    FindMaterial demoEnv (CreateMaterial demoEnv demoState "x" 0x80).2 "x" = none ∧
    FindMaterial demoEnv
      (RenameMaterial demoEnv (CreateMaterial demoEnv demoState "x" 0x80).2 1 "y") "y" = some 1 ∧
    ((RenameMaterial demoEnv (CreateMaterial demoEnv demoState "x" 0x80).2 1 "y").mat 1).m_Flags
      &&& demoEnv.MTL_FLAG_PURE_CHILD ≠ 0 ∧
    mapFind (RenameMaterial demoEnv (CreateMaterial demoEnv demoState "x" 0x80).2 1
      "y").m_pendingMaterialLoads (UnifyName demoEnv "y") = some none ∧
    (LoadMaterialFromXml 5 demoEnv demoState "m"
      (.mk "Material" []
        [.mk "SubMaterials" []
          [.mk "Material" [("Name", "q")] [], .mk "MaterialRef" [("Name", "q")] []]])).map
      (fun r => (r.2.GetName 2, (r.2.mat 2).m_Flags &&& demoEnv.MTL_FLAG_PURE_CHILD,
        mapFind r.2.m_pendingMaterialLoads (UnifyName demoEnv (r.2.GetName 2)))) =
      .ok ("q", 0x80, some (some 0)) := by
  decide!

/-- C11, amended: in every state that a manager reaches from its construction through
`CreateMaterial`, `Unregister`, `LoadMaterialInternal`, `InitDefaults`, `LoadMaterialFromXml`,
the builder (for a new material, or for an existing one without forcing a pure child) and
`RenameMaterial` of a material without the pure-child flag, every value of the name map is an
allocated object without the pure-child flag.  The builder makes a pure-child material without
touching the two tables: a forced build of a descriptor without a `SubMaterials` node returns
a new object and leaves the name map and the pending-load table as they are.  Assumed of the
flag constants, which are not in the sources: the saved flags, the 64-bit marker and the
no-draw flag do not contain the pure-child bit, and the pure-child bit is not empty. -/
theorem registered_materials_are_not_pure_children (env : Env) (hL : FlagLaws env) :
    (∀ s, Reachable env s → NoPureChildRegistered env s) ∧
    (env.MTL_FLAG_PURE_CHILD ≠ 0 → ∀ n s name node prio lf par,
      node.findChild "SubMaterials" = none →
      ∃ t, MakeMaterialFromXml (n + 1) env s name node true prio none lf par =
          .ok (some s.materials.length, t) ∧
        t.m_mtlNameMap = s.m_mtlNameMap ∧
        t.m_pendingMaterialLoads = s.m_pendingMaterialLoads) := by
  constructor
  · intro s h
    induction h with
    | start =>
      intro k m hk
      simp [CMatMan.new, mapFind] at hk
    | create s name flags _ ih => exact npc_CreateMaterial env s name flags ih
    | unregister s m notify _ ih => exact npc_Unregister env s m notify ih
    | rename s m newName _ hm hf ih => exact npc_RenameMaterial env s m newName hm hf ih
    | load s fuel name mk nr lf r t _ hl ih =>
      exact (closed_all env _ _ (npc_closed env hL) (Or.inl rfl) (Or.inl rfl) fuel).1
        s name mk nr lf r t ih hl
    | init s fuel t _ hl ih =>
      exact (closed_all env _ _ (npc_closed env hL) (Or.inl rfl) (Or.inl rfl) fuel).2.1 s t ih hl
    | loadXml s fuel name node r t _ hl ih =>
      unfold LoadMaterialFromXml at hl
      dsimp only at hl
      split at hl
      · exact (closed_all env _ _ (npc_closed env hL) (Or.inl rfl) (Or.inl rfl) fuel).2.2
          s _ node false 0 _ 0 none r t (Or.inr rfl) ih hl
      · exact (closed_all env _ _ (npc_closed env hL) (Or.inl rfl) (Or.inl rfl) fuel).2.2
          s _ node false 0 none 0 none r t (Or.inl rfl) ih hl
    | build s fuel name node force prio ex lf par r t _ hc hl ih =>
      exact (closed_all env _ _ (npc_closed env hL) (Or.inl rfl) (Or.inl rfl) fuel).2.2
        s name node force prio ex lf par r t hc ih hl
  · intro hP n s name node prio lf par hleaf
    exact forced_leaf_build_keeps_tables n env s name node prio lf par hP hleaf

/-- The amended C11 on the manager of the examples after the first load of `a.mtl` followed by
a renaming of the loaded material (object 4) to `b`: the inline sub-material `x` (object 5)
carries the pure-child flag and is no value of the name map. -/
theorem registered_materials_are_not_pure_children_witness :
    NoPureChildRegistered demoEnv (RenameMaterial demoEnv demoLoaded 4 "b") ∧
    ((RenameMaterial demoEnv demoLoaded 4 "b").mat 5).m_Flags &&& demoEnv.MTL_FLAG_PURE_CHILD
      ≠ 0 ∧
    (RenameMaterial demoEnv demoLoaded 4 "b").m_mtlNameMap = [("b", 4), ("q", 6), ("nodraw", 2)] :=
  ⟨(registered_materials_are_not_pure_children demoEnv
      ⟨by decide!, by decide!, by decide!⟩).1 _
      (Reachable.rename demoLoaded 4 "b"
        (Reachable.load CMatMan.new 4 "a.mtl" false false 0 (some 4) demoLoaded Reachable.start
          (by decide!))
        (by decide!) (by decide!)),
    by decide!, by decide!⟩

/-! ## C15: records are signaled when a load returns -/

theorem flag_lt_length (s : CMatMan) (e : EventId) (h : (s.event e).m_flag = true) :
    e < s.events.length := by
  by_contra hn
  unfold CMatMan.event at h
  rw [List.getD_eq_default _ _ (Nat.le_of_not_lt hn)] at h
  cases h

theorem event_of_events_le {s t : CMatMan} (h : s.events <+: t.events) {e : EventId}
    (he : e < s.events.length) : t.event e = s.event e := by
  rw [event_of_initial_events h he]
  rfl

theorem signaled_mono {s t : CMatMan} (h : s.events <+: t.events) {r : Option EventId}
    (hs : Signaled s r) : Signaled t r := by
  obtain ⟨e, hr, hf⟩ := hs
  refine ⟨e, hr, ?_⟩
  rw [event_of_events_le h (flag_lt_length s e hf)]
  exact hf

theorem Settles.of_same {s t : CMatMan}
    (hp : t.m_pendingMaterialLoads = s.m_pendingMaterialLoads) (he : t.events = s.events)
    (hn : t.m_pNoDrawMtl = s.m_pNoDrawMtl) (hi : t.m_bInitialized = s.m_bInitialized) :
    Settles s t := by
  refine ⟨by rw [he], ?_, ?_, ?_, fun _ => hn⟩
  · intro k r h
    rw [hp]
    exact h
  · intro X hX k r h
    rw [hp] at h
    rcases hX k r h with h1 | h1
    · exact Or.inl h1
    · exact Or.inr (signaled_mono (by rw [he]) h1)
  · intro h
    rw [hi]
    exact h

theorem Settles.settles_refl (s : CMatMan) : Settles s s :=
  Settles.of_same rfl rfl rfl rfl

theorem Settles.settles_trans {s t u : CMatMan} (h1 : Settles s t) (h2 : Settles t u) :
    Settles s u :=
  ⟨h1.events.trans h2.events, fun k r h => h2.persist k r (h1.persist k r h),
    fun X hX => h2.set X (h1.set X hX), fun h => h2.initialized (h1.initialized h),
    fun h => (h2.noDraw (h1.initialized h)).trans (h1.noDraw h)⟩

theorem SameRegistry.settles {s t : CMatMan} (h : SameRegistry s t) : Settles s t := by
  refine Settles.of_same h.pending_eq h.events_eq ?_ h.initialized_eq
  rw [h.1]

theorem CreateMaterial_noDrawMtl (env : Env) (s : CMatMan) (n : String) (f : Nat) :
    (CreateMaterial env s n f).2.m_pNoDrawMtl = s.m_pNoDrawMtl := by
  unfold CreateMaterial
  dsimp only
  split <;> split <;> rfl

theorem CreateMaterial_settles (env : Env) (s : CMatMan) (n : String) (f : Nat) :
    Settles s (CreateMaterial env s n f).2 :=
  Settles.of_same (CreateMaterial_pending env s n f) (CreateMaterial_events env s n f)
    (CreateMaterial_noDrawMtl env s n f) (CreateMaterial_initialized env s n f)

theorem NotifyCreateMaterial_settles (s : CMatMan) (m : MatId) :
    Settles s (NotifyCreateMaterial s m) := by
  unfold NotifyCreateMaterial
  split
  · exact Settles.of_same rfl rfl rfl rfl
  · exact Settles.settles_refl s

theorem obtainMaterial_settles (env : Env) (s : CMatMan) (n : String) (f : Nat)
    (ex : Option MatId) : Settles s (obtainMaterial env s n f ex).2 := by
  unfold obtainMaterial
  split
  · exact CreateMaterial_settles env s n f
  · exact (sameRegistry_SetFlags s _ _).settles

theorem loadSubMaterials_settles
    (build : String → XmlNode → Nat → MatId → CMatMan → Except Fault (Option MatId × CMatMan))
    (load : String → CMatMan → Except Fault (Option MatId × CMatMan))
    (hb : ∀ name node prio par t r t2, build name node prio par t = .ok (r, t2) → Settles t t2)
    (hl : ∀ name t r t2, load name t = .ok (r, t2) → Settles t t2)
    (pMtl nSub : Nat) (nodes : List XmlNode) (i : Nat) (s s2 : CMatMan)
    (h : loadSubMaterials build load pMtl nSub nodes i s = .ok s2) : Settles s s2 := by
  induction nodes generalizing i s with
  | nil =>
    simp only [loadSubMaterials, Except.ok.injEq] at h
    rw [← h]
    exact Settles.settles_refl s
  | cons x xs ih =>
    unfold loadSubMaterials at h
    split at h
    · split at h
      · exact absurd h (by simp)
      · rename_i c s1 hc
        exact ((hb _ _ _ _ _ _ _ hc).settles_trans
          (sameRegistry_SetSubMtl _ _ _ _).settles).settles_trans (ih _ _ h)
      · rename_i s1 hc
        exact ((hb _ _ _ _ _ _ _ hc).settles_trans
          (sameRegistry_SetSubMtl _ _ _ _).settles).settles_trans (ih _ _ h)
    · split at h
      · split at h
        · exact absurd h (by simp)
        · rename_i c s1 hc
          exact ((hl _ _ _ _ hc).settles_trans
            (sameRegistry_SetSubMtl _ _ _ _).settles).settles_trans (ih _ _ h)
        · rename_i s1 hc
          exact (hl _ _ _ _ hc).settles_trans (ih _ _ h)
      · exact ih _ _ h

theorem makeMaterialBody_settles
    (build : String → XmlNode → Nat → MatId → CMatMan → Except Fault (Option MatId × CMatMan))
    (load : String → CMatMan → Except Fault (Option MatId × CMatMan))
    (hb : ∀ name node prio par t r t2, build name node prio par t = .ok (r, t2) → Settles t t2)
    (hl : ∀ name t r t2, load name t = .ok (r, t2) → Settles t t2)
    (env : Env) (s : CMatMan) (sMtlName : String) (node : XmlNode) (b : Bool) (prio : Nat)
    (ex : Option MatId) (r : Option MatId) (s2 : CMatMan)
    (h : makeMaterialBody build load env s sMtlName node b prio ex = .ok (r, s2)) :
    Settles s s2 := by
  unfold makeMaterialBody at h
  dsimp only at h
  split at h
  · exact absurd h (by simp)
  · rename_i t ht
    simp only [Except.ok.injEq, Prod.mk.injEq] at h
    rw [← h.2]
    have g1 := obtainMaterial_settles env s sMtlName (mtlFlagsFromXml env node b) ex
    have g2 := (sameRegistry_loadMaterialBody env
      (obtainMaterial env s sMtlName (mtlFlagsFromXml env node b) ex).2
      (obtainMaterial env s sMtlName (mtlFlagsFromXml env node b) ex).1 sMtlName node
      (mtlFlagsFromXml env node b) prio).settles
    have g3 : Settles (loadMaterialBody env
        (obtainMaterial env s sMtlName (mtlFlagsFromXml env node b) ex).2
        (obtainMaterial env s sMtlName (mtlFlagsFromXml env node b) ex).1 sMtlName node
        (mtlFlagsFromXml env node b) prio) t := by
      unfold loadSubMaterialsNode at ht
      split at ht
      · simp only [Except.ok.injEq] at ht
        rw [← ht]
        exact Settles.settles_refl _
      · exact (sameRegistry_SetSubMtlCount _ _ _).settles.settles_trans
          (loadSubMaterials_settles build load hb hl _ _ _ _ _ _ ht)
    exact ((g1.settles_trans g2).settles_trans g3).settles_trans (NotifyCreateMaterial_settles _ _)

theorem Settles.of_tables {s t : CMatMan} (he : s.events <+: t.events)
    (hp : t.m_pendingMaterialLoads = s.m_pendingMaterialLoads)
    (hn : t.m_pNoDrawMtl = s.m_pNoDrawMtl) (hi : t.m_bInitialized = s.m_bInitialized) :
    Settles s t := by
  refine ⟨he, ?_, ?_, ?_, fun _ => hn⟩
  · intro k r h
    rw [hp]
    exact h
  · intro X hX k r h
    rw [hp] at h
    rcases hX k r h with h1 | h1
    · exact Or.inl h1
    · exact Or.inr (signaled_mono he h1)
  · intro h
    rw [hi]
    exact h

theorem Set_noDrawMtl (u : UniqueManualEvent) (s : CMatMan) :
    (u.Set s).2.m_pNoDrawMtl = s.m_pNoDrawMtl := by
  rcases Set_snd_cases u s with h | ⟨e, _, h⟩ <;> rw [h]
  rfl

theorem evictPendingLoad_noDrawMtl (s : CMatMan) (u : UniqueManualEvent) (name : String) :
    (evictPendingLoad s u name).2.m_pNoDrawMtl = s.m_pNoDrawMtl :=
  Set_noDrawMtl u s

theorem finishLoad_noDrawMtl (s : CMatMan) (u : UniqueManualEvent) (p : Option MatId)
    (mk nr : Bool) : (finishLoad s u p mk nr).2.m_pNoDrawMtl = s.m_pNoDrawMtl := by
  simp only [finishLoad, UniqueManualEvent.destroy, Set_noDrawMtl]
  split
  · split <;> rfl
  · rfl

theorem createPlaceholder_settles (env : Env) (s : CMatMan) (filename : String) :
    Settles s (createPlaceholder env s filename).2 :=
  (CreateMaterial_settles env s _ 0).settles_trans
    (createPlaceholder_sameRegistry env s filename).settles

theorem signaled_setEvent {s t : CMatMan} {e : EventId} (h : t.events = (s.setEvent e).events)
    {r : Option EventId} (hs : Signaled s r) : Signaled t r := by
  obtain ⟨e2, hr, hf⟩ := hs
  refine ⟨e2, hr, ?_⟩
  rw [event_congr h e2]
  by_cases he : e = e2
  · subst he
    rw [setEvent_event_self s e (flag_lt_length s e hf)]
  · rw [setEvent_event_ne s he]
    exact hf

theorem recordsSet_ownerState {X : List String} {s1 : CMatMan} (k : String)
    (h : RecordsSet X s1) : RecordsSet (k :: X) (ownerState s1 k) := by
  intro k2 r hr
  rw [ownerState_pending] at hr
  by_cases hk : k = k2
  · left
    rw [hk]
    exact List.mem_cons_self _ _
  · rw [mapFind_cons_ne _ _ hk] at hr
    rcases h k2 r hr with h1 | h1
    · exact Or.inl (List.mem_cons_of_mem _ h1)
    · exact Or.inr (signaled_mono (by rw [ownerState_events]; exact List.prefix_append _ _) h1)

/-- The end of an owner's load that still has control of its event: the event is set, so the
record of the name is signaled. -/
theorem finish_control_settles {s1 U : CMatMan} (k : String) (p : Option MatId) (mk nr : Bool)
    (hrec : mapFind s1.m_pendingMaterialLoads k = none)
    (hU : Settles (ownerState s1 k) U) :
    Settles s1 (finishLoad U ⟨some s1.events.length, true⟩ p mk nr).2 := by
  have hev : (finishLoad U ⟨some s1.events.length, true⟩ p mk nr).2.events =
      (U.setEvent s1.events.length).events := finishLoad_events_of_control U _ p mk nr
  have hpre : s1.events <+: U.events :=
    List.IsPrefix.trans (by rw [ownerState_events]; exact List.prefix_append _ _) hU.events
  have hlt : s1.events.length < U.events.length := by
    have := List.IsPrefix.length_le hU.events
    rw [ownerState_events] at this
    simp at this
    omega
  refine ⟨?_, ?_, ?_, ?_, ?_⟩
  · rw [hev]
    exact prefix_setEvent hpre (Nat.le_refl _)
  · intro k2 r hr
    rw [finishLoad_pending]
    refine hU.persist k2 r ?_
    rw [ownerState_pending]
    by_cases hk : k = k2
    · rw [← hk, hrec] at hr
      cases hr
    · rw [mapFind_cons_ne _ _ hk]
      exact hr
  · intro X hX k2 r hr
    rw [finishLoad_pending] at hr
    by_cases hk : k2 = k
    · right
      have h2 : mapFind U.m_pendingMaterialLoads k = some (some s1.events.length) :=
        hU.persist k _ (by rw [ownerState_pending, mapFind_cons_self])
      rw [hk, h2] at hr
      injection hr with hr
      refine ⟨s1.events.length, hr.symm, ?_⟩
      rw [event_congr hev, setEvent_event_self U _ hlt]
    · rcases hU.set (k :: X) (recordsSet_ownerState k hX) k2 r hr with h1 | h1
      · rcases List.mem_cons.mp h1 with h2 | h2
        · exact absurd h2 hk
        · exact Or.inl h2
      · exact Or.inr (signaled_setEvent hev h1)
  · intro hi
    rw [finishLoad_initialized]
    exact hU.initialized (by rw [ownerState_initialized]; exact hi)
  · intro hi
    rw [finishLoad_noDrawMtl, hU.noDraw (by rw [ownerState_initialized]; exact hi)]
    rfl

theorem loadAsOwner_settles
    (build : CMatMan → String → XmlNode → Except Fault (Option MatId × CMatMan))
    (hb : ∀ t name node r t2, build t name node = .ok (r, t2) → Settles t t2)
    (env : Env) (s1 : CMatMan) (k : String) (mk nr : Bool) (r : Option MatId) (s3 : CMatMan)
    (hrec : mapFind s1.m_pendingMaterialLoads k = none)
    (h : loadAsOwner build env (ownerState s1 k) (ownerHandle s1) k mk nr = .ok (r, s3)) :
    Settles s1 s3 := by
  unfold ownerHandle at h
  rcases loadAsOwner_ends build env _ _ k mk nr r s3 h with
    ⟨_, he⟩ | ⟨_, he⟩ | ⟨node, m, t, _, _, hbt, he⟩ | ⟨node, t, _, _, hbt, he⟩
  · have h2 := congrArg Prod.snd he
    dsimp only at h2
    rw [h2]
    refine Settles.of_tables ?_ ?_ ?_ ?_
    · rw [finishLoad_events_of_no_control, evictPendingLoad_events, Set_snd_of_control]
      exact prefix_setEvent (by rw [ownerState_events]; exact List.prefix_append _ _)
        (Nat.le_refl _)
    · rw [finishLoad_pending, evictPendingLoad_pending, ownerState_pending, mapErase_cons_self,
        mapErase_of_find_none _ _ hrec]
    · rw [finishLoad_noDrawMtl, evictPendingLoad_noDrawMtl]
      rfl
    · rw [finishLoad_initialized, evictPendingLoad_initialized]
      rfl
  · have h2 := congrArg Prod.snd he
    dsimp only at h2
    rw [h2]
    exact finish_control_settles k _ mk nr hrec (createPlaceholder_settles env _ _)
  · have h2 := congrArg Prod.snd he
    dsimp only at h2
    rw [h2]
    refine finish_control_settles k _ mk nr hrec ?_
    refine (hb _ _ _ _ _ hbt).settles_trans ?_
    split
    · exact (sameRegistry_SetSketchMode _ _ _).settles
    · exact Settles.settles_refl _
  · have h2 := congrArg Prod.snd he
    dsimp only at h2
    rw [h2]
    exact finish_control_settles k _ mk nr hrec (hb _ _ _ _ _ hbt)

theorem loadAfterInit_settles
    (build : CMatMan → String → XmlNode → Except Fault (Option MatId × CMatMan))
    (hb : ∀ t name node r t2, build t name node = .ok (r, t2) → Settles t t2)
    (env : Env) (s1 : CMatMan) (N : String) (mk nr : Bool) (r : Option MatId) (s3 : CMatMan)
    (h : loadAfterInit build env s1 N mk nr = .ok (r, s3)) : Settles s1 s3 := by
  rcases loadAfterInit_ends build env s1 N mk nr r s3 h with
    ⟨_, _, hs⟩ | ⟨_, e, _, _, hs, _⟩ | ⟨_, hrec, ho⟩
  · rw [hs]
    exact Settles.settles_refl s1
  · rw [hs]
    exact Settles.settles_refl s1
  · exact loadAsOwner_settles build hb env s1 _ mk nr r s3 hrec ho

theorem initDefaultsBody_ends (load : CMatMan → Except Fault (Option MatId × CMatMan))
    (env : Env) (s t : CMatMan) (h : initDefaultsBody load env s = .ok t) :
    ∃ t4, t = initDefaultsTail env t4 ∧
      (((initDefaultsHead env s).m_pDefaultLayersMtl.isNone = false ∧
          t4 = initDefaultsHead env s) ∨
        ((initDefaultsHead env s).m_pDefaultLayersMtl.isNone = true ∧ ∃ m t2,
          load (initDefaultsHead env s) = .ok (m, t2) ∧
          t4 = { t2 with m_pDefaultLayersMtl := m })) := by
  unfold initDefaultsBody at h
  dsimp only at h
  have hh : initDefaultsHead env s = initDefaultsHead env s := rfl
  conv at hh => lhs; unfold initDefaultsHead; dsimp only
  rw [hh] at h
  generalize initDefaultsHead env s = t3 at h
  split at h
  · exact absurd h (by simp)
  · rename_i t4 h4
    simp only [Except.ok.injEq] at h
    refine ⟨t4, ?_, ?_⟩
    · rw [← h]
      rfl
    · split at h4
      · rename_i hn
        split at h4
        · exact absurd h4 (by simp)
        · rename_i m t2 hlt
          simp only [Except.ok.injEq] at h4
          exact Or.inr ⟨hn, m, t2, hlt, h4.symm⟩
      · rename_i hn
        simp only [Except.ok.injEq] at h4
        refine Or.inl ⟨?_, h4.symm⟩
        cases hq : t3.m_pDefaultLayersMtl.isNone with
        | true => exact absurd hq hn
        | false => rfl

theorem makeDefaultMaterial_events (env : Env) (s : CMatMan) (name shader : String) :
    (makeDefaultMaterial env s name shader).2.events = s.events := rfl

theorem makeDefaultMaterial_noDrawMtl (env : Env) (s : CMatMan) (name shader : String) :
    (makeDefaultMaterial env s name shader).2.m_pNoDrawMtl = s.m_pNoDrawMtl := rfl

theorem makeDefaultMaterial_initialized (env : Env) (s : CMatMan) (name shader : String) :
    (makeDefaultMaterial env s name shader).2.m_bInitialized = s.m_bInitialized := rfl

theorem initDefaultsHead_tables (env : Env) (s : CMatMan) :
    (initDefaultsHead env s).m_pendingMaterialLoads = s.m_pendingMaterialLoads ∧
    (initDefaultsHead env s).events = s.events ∧
    (initDefaultsHead env s).m_mtlNameMap = s.m_mtlNameMap ∧
    (initDefaultsHead env s).m_pNoDrawMtl = s.m_pNoDrawMtl ∧
    (initDefaultsHead env s).m_bInitialized = true := by
  unfold initDefaultsHead
  dsimp only
  split <;> split <;> split <;> exact ⟨rfl, rfl, rfl, rfl, rfl⟩

theorem mapFind_mapEmplace_some {α : Type} (m : List (String × α)) (k k2 : String) (v w : α)
    (h : mapFind (mapEmplace m k v) k2 = some w) :
    mapFind m k2 = some w ∨ (k2 = k ∧ w = v ∧ mapFind m k = none) := by
  cases hk : mapFind m k with
  | some x =>
    left
    unfold mapEmplace at h
    rw [hk] at h
    exact h
  | none =>
    rw [mapEmplace_of_find_none m k v hk] at h
    by_cases he : k = k2
    · subst he
      rw [mapFind_cons_self] at h
      injection h with h
      exact Or.inr ⟨rfl, h.symm, rfl⟩
    · rw [mapFind_cons_ne _ _ he] at h
      exact Or.inl h

theorem newNoDrawMaterial_events (env : Env) (s : CMatMan) :
    (newNoDrawMaterial env s).2.events = s.events := rfl

theorem installNoDrawMaterial_pending (env : Env) (s : CMatMan) :
    (installNoDrawMaterial env s).m_pendingMaterialLoads =
      mapEmplace s.m_pendingMaterialLoads (UnifyName env "nodraw") (some s.events.length) := by
  have hn : (newNoDrawMaterial env s).2.GetName (newNoDrawMaterial env s).1 = "nodraw" := by
    unfold CMatMan.GetName
    rw [newNoDrawMaterial_fst, newNoDrawMaterial_mat_new]
  unfold installNoDrawMaterial
  dsimp only
  rw [hn, newNoDrawMaterial_pending, newNoDrawMaterial_events]

theorem installNoDrawMaterial_events (env : Env) (s : CMatMan) :
    (installNoDrawMaterial env s).events = s.events ++ [⟨true, 1⟩] := by
  unfold installNoDrawMaterial
  dsimp only
  rw [newNoDrawMaterial_events]
  simp only [CMatMan.setEvent, CMatMan.event]
  rw [listSet_append_right _ _ _ (Nat.le_refl _)]
  simp [listSet, List.getD]

theorem installNoDrawMaterial_noDrawMtl (env : Env) (s : CMatMan) :
    (installNoDrawMaterial env s).m_pNoDrawMtl = some s.materials.length := rfl

theorem installNoDrawMaterial_event_new (env : Env) (s : CMatMan) :
    ((installNoDrawMaterial env s).event s.events.length).m_flag = true := by
  unfold CMatMan.event
  rw [installNoDrawMaterial_events]
  simp [List.getD]

theorem installNoDrawMaterial_settlesInit (env : Env) (s : CMatMan) :
    SettlesInit s (installNoDrawMaterial env s) := by
  have hev : s.events <+: (installNoDrawMaterial env s).events := by
    rw [installNoDrawMaterial_events]
    exact List.prefix_append _ _
  refine ⟨hev, ?_, ?_⟩
  · intro k r h
    rw [installNoDrawMaterial_pending]
    exact mapFind_mapEmplace_of_some _ _ _ _ _ h
  · intro X hX k r h
    rw [installNoDrawMaterial_pending] at h
    rcases mapFind_mapEmplace_some _ _ _ _ _ h with h1 | ⟨_, h1, _⟩
    · rcases hX k r h1 with h2 | h2
      · exact Or.inl h2
      · exact Or.inr (signaled_mono hev h2)
    · exact Or.inr ⟨s.events.length, h1, installNoDrawMaterial_event_new env s⟩

theorem Settles.toSettlesInit {s t : CMatMan} (h : Settles s t) : SettlesInit s t :=
  ⟨h.events, h.persist, h.set⟩

theorem SettlesInit.settlesInit_trans {s t u : CMatMan} (h1 : SettlesInit s t)
    (h2 : SettlesInit t u) : SettlesInit s u :=
  ⟨h1.events.trans h2.events, fun k r h => h2.persist k r (h1.persist k r h),
    fun X hX => h2.set X (h1.set X hX)⟩

theorem initDefaultsTail_settlesInit (env : Env) (s : CMatMan) :
    SettlesInit s (initDefaultsTail env s) := by
  unfold initDefaultsTail
  dsimp only
  have h5 : SettlesInit s (if s.m_pNoDrawMtl.isNone = true then installNoDrawMaterial env s
      else s) := by
    split
    · exact installNoDrawMaterial_settlesInit env s
    · exact (Settles.settles_refl s).toSettlesInit
  generalize (if s.m_pNoDrawMtl.isNone = true then installNoDrawMaterial env s else s) = t5 at h5
  split
  · refine h5.settlesInit_trans (Settles.toSettlesInit ?_)
    exact Settles.of_same (makeDefaultMaterial_pending env t5 "DefaultHelper" "Helper") rfl rfl rfl
  · exact h5

theorem initDefaultsBody_settlesInit (load : CMatMan → Except Fault (Option MatId × CMatMan))
    (hl : ∀ t r t2, load t = .ok (r, t2) → Settles t t2) (env : Env) (s s2 : CMatMan)
    (h : initDefaultsBody load env s = .ok s2) : SettlesInit s s2 := by
  obtain ⟨t4, ht, hc⟩ := initDefaultsBody_ends load env s s2 h
  obtain ⟨hp, he, _, hn, hi⟩ := initDefaultsHead_tables env s
  have h3 : SettlesInit s (initDefaultsHead env s) := by
    refine ⟨by rw [he], ?_, ?_⟩
    · intro k r hr
      rw [hp]
      exact hr
    · intro X hX k r hr
      rw [hp] at hr
      rcases hX k r hr with h1 | h1
      · exact Or.inl h1
      · exact Or.inr (signaled_mono (by rw [he]) h1)
  have h4 : SettlesInit (initDefaultsHead env s) t4 := by
    rcases hc with ⟨_, e4⟩ | ⟨_, m, t2, hlt, e4⟩
    · rw [e4]
      exact (Settles.settles_refl _).toSettlesInit
    · rw [e4]
      refine Settles.toSettlesInit ((hl _ _ _ hlt).settles_trans ?_)
      exact Settles.of_same rfl rfl rfl rfl
  rw [ht]
  exact (h3.settlesInit_trans h4).settlesInit_trans (initDefaultsTail_settlesInit env t4)

/-- Every load and every build leaves the pending-load table settled: records stay, events
stay, and every record that the call adds is signaled when the call returns. -/
theorem settles_all (n : Nat) :
    (∀ env s N mk nr lf r t, LoadMaterialInternal n env s N mk nr lf = .ok (r, t) →
      Settles s t) ∧
    (∀ env s t, InitDefaults n env s = .ok t → SettlesInit s t) ∧
    (∀ env s name node b prio ex lf par r t,
      MakeMaterialFromXml n env s name node b prio ex lf par = .ok (r, t) → Settles s t) := by
  induction n with
  | zero =>
    refine ⟨?_, ?_, ?_⟩
    · intro env s N mk nr lf r t h
      simp [LoadMaterialInternal] at h
    · intro env s t h
      simp [InitDefaults] at h
    · intro env s name node b prio ex lf par r t h
      simp [MakeMaterialFromXml] at h
  | succ n ih =>
    obtain ⟨ihL, ihI, ihM⟩ := ih
    refine ⟨?_, ?_, ?_⟩
    · intro env s N mk nr lf r t h
      rw [LoadMaterialInternal_succ] at h
      split at h
      · exact absurd h (by simp)
      · rename_i s1 h1
        have g := loadAfterInit_settles _
          (fun t name node r t2 hb => ihM env t name node false 0 none lf none r t2 hb)
          env s1 N mk nr r t h
        unfold ensureDefaults at h1
        split at h1
        · simp only [Except.ok.injEq] at h1
          rw [h1]
          exact g
        · rename_i hi
          have g0 := ihI env s s1 h1
          exact ⟨g0.events.trans g.events, fun k r hr => g.persist k r (g0.persist k r hr),
            fun X hX => g.set X (g0.set X hX), fun h2 => absurd h2 hi, fun h2 => absurd h2 hi⟩
    · intro env s t h
      rw [InitDefaults] at h
      split at h
      · simp only [Except.ok.injEq] at h
        rw [← h]
        exact (Settles.settles_refl s).toSettlesInit
      · exact initDefaultsBody_settlesInit _
          (fun t r t2 hl => ihL env t _ false false 0 r t2 hl) env s t h
    · intro env s name node b prio ex lf par r t h
      rw [MakeMaterialFromXml] at h
      exact makeMaterialBody_settles _ _
        (fun name node prio par t r t2 hb => ihM env t name node true prio none lf (some par) r t2 hb)
        (fun name t r t2 hl => ihL env t name true false lf r t2 hl)
        env s name node b prio ex r t h

theorem initDefaultsTail_of_none (env : Env) (s : CMatMan) (h : s.m_pNoDrawMtl = none) :
    (initDefaultsTail env s).m_pNoDrawMtl = some s.materials.length ∧
    (initDefaultsTail env s).m_mtlNameMap = (installNoDrawMaterial env s).m_mtlNameMap ∧
    (initDefaultsTail env s).m_pendingMaterialLoads =
      (installNoDrawMaterial env s).m_pendingMaterialLoads ∧
    (initDefaultsTail env s).events = (installNoDrawMaterial env s).events ∧
    (initDefaultsTail env s).m_bInitialized = s.m_bInitialized := by
  have e5 : (if s.m_pNoDrawMtl.isNone = true then installNoDrawMaterial env s else s) =
      installNoDrawMaterial env s := by
    rw [h]
    rfl
  have hnd := installNoDrawMaterial_noDrawMtl env s
  have hin : (installNoDrawMaterial env s).m_bInitialized = s.m_bInitialized := by
    have h0 : (newNoDrawMaterial env s).2.m_bInitialized = s.m_bInitialized := rfl
    rw [← h0]
    rfl
  unfold initDefaultsTail
  dsimp only
  rw [e5]
  generalize installNoDrawMaterial env s = t5 at hnd hin
  split
  · exact ⟨hnd, makeDefaultMaterial_map env t5 "DefaultHelper" "Helper",
      makeDefaultMaterial_pending env t5 "DefaultHelper" "Helper", rfl, hin⟩
  · exact ⟨hnd, rfl, rfl, rfl, hin⟩

theorem initDefaultsHead_length (env : Env) (s : CMatMan) :
    s.materials.length ≤ (initDefaultsHead env s).materials.length := by
  unfold initDefaultsHead
  dsimp only
  have a1 : ∀ u : CMatMan, u.materials.length ≤
      (if u.m_pDefaultMtl.isNone = true then
        ({ (makeDefaultMaterial env u "Default" "Illum").2 with
          m_pDefaultMtl := some (makeDefaultMaterial env u "Default" "Illum").1 } : CMatMan)
      else u).materials.length := by
    intro u
    split
    · show u.materials.length ≤ (makeDefaultMaterial env u "Default" "Illum").2.materials.length
      rw [makeDefaultMaterial_length]
      exact Nat.le_succ _
    · exact Nat.le_refl _
  have a2 : ∀ u : CMatMan, u.materials.length ≤
      (if u.m_pDefaultTerrainLayersMtl.isNone = true then
        ({ (makeDefaultMaterial env u "DefaultTerrainLayer" "Terrain.Layer").2 with
          m_pDefaultTerrainLayersMtl :=
            some (makeDefaultMaterial env u "DefaultTerrainLayer" "Terrain.Layer").1 } : CMatMan)
      else u).materials.length := by
    intro u
    split
    · show u.materials.length ≤
        (makeDefaultMaterial env u "DefaultTerrainLayer" "Terrain.Layer").2.materials.length
      rw [makeDefaultMaterial_length]
      exact Nat.le_succ _
    · exact Nat.le_refl _
  refine Nat.le_trans ?_ (a2 _)
  refine Nat.le_trans ?_ (a1 _)
  split <;> exact Nat.le_refl _

/-- C15 as stated fails in two situations.  With `e_StatObjPreload` at 2, a load of `nodraw`
after the initialisation of the defaults returns the default material (object 0), not the
no-draw material (object 2).  And when the name `nodraw` got a record with a null event before
the defaults were initialised (a material without a record was renamed to `nodraw`),
`InitDefaults` keeps that record, and a load of `nodraw` then calls through the null event. -/
theorem nodraw_load_is_not_always_sentinel :
    ((InitDefaults 2 preloadEnv CMatMan.new).map
      (fun t => (t.m_pNoDrawMtl, FindMaterial preloadEnv t "nodraw",
        (LoadMaterialInternal 1 preloadEnv t "nodraw" false false 0).map (fun r => r.1))) =
      Except.ok (some 2, some 2, Except.ok (some 0))) ∧
    ((InitDefaults 2 demoEnv
      (RenameMaterial demoEnv (CreateMaterial demoEnv CMatMan.new "x" 0).2 0 "nodraw")).map
      (fun t => (t.m_pNoDrawMtl, FindMaterial demoEnv t "nodraw",
        mapFind t.m_pendingMaterialLoads (UnifyName demoEnv "nodraw"),
        (LoadMaterialInternal 1 demoEnv t "nodraw" false false 0).map (fun r => r.1))) =
      Except.ok (some 3, some 3, some none, Except.error Fault.nullEvent)) := by
  constructor <;> decide!

/-- C15, amended: when `InitDefaults` returns on a manager that was not initialised, had no
no-draw material and in which every pending-load record was signaled, the no-draw material is
a new object that is registered under the unified name of `nodraw`, and that name has a record
whose event is set.  Unless the early return for `e_StatObjPreload = 2` applies, every load of
`nodraw` on that state returns the no-draw material and leaves the state as it is: the caller
is no owner, and there is no look at the file system and no build. -/
theorem nodraw_is_resolved_after_init (n : Nat) (env : Env) (s t : CMatMan)
    (hi : s.m_bInitialized = false) (hnd : s.m_pNoDrawMtl = none) (hrec : RecordsSet [] s)
    (h : InitDefaults n env s = .ok t) :
    ∃ nd e, t.m_pNoDrawMtl = some nd ∧ s.materials.length ≤ nd ∧
      FindMaterial env t "nodraw" = some nd ∧
      mapFind t.m_pendingMaterialLoads (UnifyName env "nodraw") = some (some e) ∧
      (t.event e).m_flag = true ∧
      (preloadShortCut env t = false → ∀ fuel mk nr lf,
        LoadMaterialInternal (fuel + 1) env t "nodraw" mk nr lf = .ok (some nd, t)) := by
  cases n with
  | zero => simp [InitDefaults] at h
  | succ n =>
    rw [InitDefaults] at h
    rw [if_neg (by rw [hi]; simp)] at h
    obtain ⟨t4, ht, hc⟩ := initDefaultsBody_ends _ env s t h
    obtain ⟨hp, he, _, hn, hi3⟩ := initDefaultsHead_tables env s
    have hlen3 := initDefaultsHead_length env s
    have r3 : RecordsSet [] (initDefaultsHead env s) := by
      intro k r hr
      rw [hp] at hr
      rcases hrec k r hr with h1 | h1
      · exact Or.inl h1
      · exact Or.inr (signaled_mono (by rw [he]) h1)
    have f4 : t4.m_pNoDrawMtl = none ∧ RecordsSet [] t4 ∧ t4.m_bInitialized = true ∧
        s.materials.length ≤ t4.materials.length := by
      rcases hc with ⟨_, e4⟩ | ⟨_, m, t2, hlt, e4⟩
      · rw [e4]
        exact ⟨by rw [hn, hnd], r3, hi3, hlen3⟩
      · have g := (settles_all n).1 env _ _ false false 0 m t2 hlt
        have gl := ((grows_all n).1 env _ _ false false 0 m t2 hlt).2.2.1
        rw [e4]
        refine ⟨?_, ?_, g.initialized hi3, Nat.le_trans hlen3 gl⟩
        · show t2.m_pNoDrawMtl = none
          rw [g.noDraw hi3, hn, hnd]
        · exact (Settles.of_same (s := t2) rfl rfl rfl rfl).set [] (g.set [] r3)
    obtain ⟨n4, r4, i4, l4⟩ := f4
    obtain ⟨a1, a2, a3, a4, a5⟩ := initDefaultsTail_of_none env t4 n4
    have hmapt : FindMaterial env t "nodraw" = some t4.materials.length := by
      unfold FindMaterial
      rw [ht, a2, installNoDrawMaterial_map, mapFind_mapAssign_self]
    have hev : t4.events <+: t.events := by
      rw [ht, a4, installNoDrawMaterial_events]
      exact List.prefix_append _ _
    have hrecord : ∃ e, mapFind t.m_pendingMaterialLoads (UnifyName env "nodraw") =
        some (some e) ∧ (t.event e).m_flag = true := by
      cases h4 : mapFind t4.m_pendingMaterialLoads (UnifyName env "nodraw") with
      | none =>
        refine ⟨t4.events.length, ?_, ?_⟩
        · rw [ht, a3, installNoDrawMaterial_pending, mapFind_mapEmplace_self _ _ _ h4]
        · rw [event_congr (show t.events = (installNoDrawMaterial env t4).events by rw [ht, a4])]
          exact installNoDrawMaterial_event_new env t4
      | some r =>
        rcases r4 _ r h4 with h1 | ⟨e, hr, hf⟩
        · cases h1
        · refine ⟨e, ?_, ?_⟩
          · rw [ht, a3, installNoDrawMaterial_pending,
              mapFind_mapEmplace_of_some _ _ _ _ _ h4, hr]
          · rw [event_of_events_le hev (flag_lt_length t4 e hf)]
            exact hf
    obtain ⟨e, hre, hfe⟩ := hrecord
    refine ⟨t4.materials.length, e, by rw [ht, a1], l4, hmapt, hre, hfe, ?_⟩
    intro hpl fuel mk nr lf
    have hit : t.m_bInitialized = true := by
      rw [ht, a5]
      exact i4
    rw [LoadMaterialInternal_succ, ensureDefaults_of_initialized _ _ _ hit]
    dsimp only
    rw [loadAfterInit_waiter _ env t "nodraw" mk nr e hpl hre hfe]
    unfold FindMaterial at hmapt
    rw [hmapt]

/-- The amended C15 on a new manager: after the initialisation of the defaults the no-draw
material is object 2, and a load of `nodraw` returns it and leaves the state as it is. -/
theorem nodraw_is_resolved_after_init_witness :
    ∃ t, InitDefaults 2 demoEnv CMatMan.new = .ok t ∧
      ∃ nd e, t.m_pNoDrawMtl = some nd ∧ CMatMan.new.materials.length ≤ nd ∧
        FindMaterial demoEnv t "nodraw" = some nd ∧
        mapFind t.m_pendingMaterialLoads (UnifyName demoEnv "nodraw") = some (some e) ∧
        (t.event e).m_flag = true ∧
        (preloadShortCut demoEnv t = false → ∀ fuel mk nr lf,
          LoadMaterialInternal (fuel + 1) demoEnv t "nodraw" mk nr lf = .ok (some nd, t)) := by
  cases h : InitDefaults 2 demoEnv CMatMan.new with
  | error e =>
    have h2 : (InitDefaults 2 demoEnv CMatMan.new).toBool = true := by decide!
    rw [h] at h2
    cases h2
  | ok t =>
    exact ⟨t, rfl, nodraw_is_resolved_after_init 2 demoEnv CMatMan.new t (by decide!)
      (by decide!) (fun k r hr => by simp [CMatMan.new, mapFind] at hr) h⟩

/-! ## C17: the sub-materials part of the writer -/

theorem setAttr_fresh (tag key value : String) :
    (XmlNode.mk tag [] []).setAttr key value = .mk tag [(key, value)] [] := by
  simp [XmlNode.setAttr, mapFind, XmlNode.attrs, XmlNode.tag, XmlNode.children]

theorem saveHead_ok (env : Env) (s : CMatMan) (node : XmlNode) (m : MatId)
    (h : s.GetFlags m &&& env.MTL_FLAG_MULTI_SUBMTL ≠ 0 ∨
      (s.GetShaderItemAt env m 0).m_pShader ≠ none) :
    ∃ head, saveHead env s node m = .ok head := by
  unfold saveHead
  dsimp only
  by_cases h1 : s.GetFlags m &&& env.MTL_FLAG_MULTI_SUBMTL = 0
  · rw [if_pos h1]
    rcases h with h | h
    · exact absurd h1 h
    · cases h2 : (s.GetShaderItemAt env m 0).m_pShader with
      | none => exact absurd h2 h
      | some sh => exact ⟨_, rfl⟩
  · rw [if_neg h1]
    exact ⟨_, rfl⟩

theorem saveSubMaterials_ok (save : XmlNode → MatId → Except Fault (Bool × XmlNode)) (env : Env)
    (s : CMatMan) (slots : List (Option MatId))
    (h : ∀ c, some c ∈ slots → s.GetFlags c &&& env.MTL_FLAG_PURE_CHILD ≠ 0 →
      ∀ nd, ∃ d, save nd c = .ok (true, d)) :
    ∃ kids, saveSubMaterials save env s slots = .ok kids := by
  induction slots with
  | nil => exact ⟨[], rfl⟩
  | cons x rest ih =>
    obtain ⟨ds, hds⟩ := ih (fun c hc => h c (List.mem_cons_of_mem _ hc))
    cases x with
    | none =>
      unfold saveSubMaterials
      rw [hds]
      exact ⟨_, rfl⟩
    | some c =>
      unfold saveSubMaterials
      by_cases hp : s.GetFlags c &&& env.MTL_FLAG_PURE_CHILD ≠ 0
      · rw [if_pos hp]
        obtain ⟨d, hd⟩ := h c (List.mem_cons_self _ _) hp
          ((XmlNode.mk "Material" [] []).setAttr "Name" (s.GetName c))
        rw [hd, hds]
        exact ⟨_, rfl⟩
      · rw [if_neg hp, hds]
        exact ⟨_, rfl⟩

theorem SaveMaterial_ok (env : Env) (s : CMatMan) (n : Nat) :
    ∀ m, Savable env s n m → ∀ node, ∃ out, SaveMaterial n env s node m = .ok (true, out) := by
  induction n with
  | zero => intro m h; exact absurd h (by simp [Savable])
  | succ n ih =>
    intro m h node
    obtain ⟨h1, h2⟩ := h
    obtain ⟨head, hh⟩ := saveHead_ok env s node m h1
    obtain ⟨kids, hk⟩ := saveSubMaterials_ok (fun nd c => SaveMaterial n env s nd c) env s
      (s.mat m).m_subMtls (fun c hc hp nd => ih c (h2 c hc hp) nd)
    unfold SaveMaterial
    rw [hh]
    dsimp only
    rw [hk]
    by_cases h0 : 0 < s.GetSubMtlCount m
    · rw [if_pos h0]
      exact ⟨_, rfl⟩
    · rw [if_neg h0]
      exact ⟨_, rfl⟩

/-- The children that the loop over the slots makes: one for each slot, in the order of the
slots. -/
theorem saveSubMaterials_slots (save : XmlNode → MatId → Except Fault (Bool × XmlNode))
    (env : Env) (s : CMatMan) :
    ∀ (slots : List (Option MatId)) (kids : List XmlNode),
      saveSubMaterials save env s slots = .ok kids →
      kids.length = slots.length ∧
      ∀ i, i < slots.length →
        (∀ c, slots.getD i none = some c → s.GetFlags c &&& env.MTL_FLAG_PURE_CHILD ≠ 0 →
          ∃ b kid, save (.mk "Material" [("Name", s.GetName c)] []) c = .ok (b, kid) ∧
            kids[i]? = some kid) ∧
        (∀ c, slots.getD i none = some c → s.GetFlags c &&& env.MTL_FLAG_PURE_CHILD = 0 →
          kids[i]? = some (.mk "MaterialRef" [("Name", s.GetName c)] [])) ∧
        (slots.getD i none = none → kids[i]? = some (.mk "MaterialRef" [] [])) := by
  intro slots
  induction slots with
  | nil =>
    intro kids h
    unfold saveSubMaterials at h
    cases h
    exact ⟨rfl, fun i hi => absurd hi (Nat.not_lt_zero _)⟩
  | cons x rest ih =>
    intro kids h
    cases hr : saveSubMaterials save env s rest with
    | error e =>
      cases x with
      | none => unfold saveSubMaterials at h; rw [hr] at h; cases h
      | some c =>
        unfold saveSubMaterials at h
        rw [hr] at h
        split_ifs at h
        · split at h
          · cases h
          · cases h
    | ok ds =>
      obtain ⟨hl, hi⟩ := ih ds hr
      cases x with
      | none =>
        unfold saveSubMaterials at h
        rw [hr] at h
        cases h
        refine ⟨by simp [hl], fun i hlt => ?_⟩
        cases i with
        | zero =>
          refine ⟨fun c hc => ?_, fun c hc => ?_, fun _ => by simp⟩
          · simp at hc
          · simp at hc
        | succ i =>
          have := hi i (by simpa using hlt)
          simpa using this
      | some c =>
        unfold saveSubMaterials at h
        rw [hr] at h
        by_cases hp : s.GetFlags c &&& env.MTL_FLAG_PURE_CHILD ≠ 0
        · rw [if_pos hp] at h
          cases hd : save ((XmlNode.mk "Material" [] []).setAttr "Name" (s.GetName c)) c with
          | error e => rw [hd] at h; cases h
          | ok d =>
            rw [hd] at h
            cases h
            refine ⟨by simp [hl], fun i hlt => ?_⟩
            cases i with
            | zero =>
              refine ⟨fun c2 hc _ => ?_, fun c2 hc h0 => ?_, fun hn => ?_⟩
              · have hcc : c = c2 := by simpa using hc
                subst hcc
                rw [setAttr_fresh] at hd
                exact ⟨d.1, d.2, hd, by simp⟩
              · have hcc : c = c2 := by simpa using hc
                subst hcc
                exact absurd h0 hp
              · simp at hn
            | succ i =>
              have := hi i (by simpa using hlt)
              simpa using this
        · rw [if_neg hp] at h
          cases h
          refine ⟨by simp [hl], fun i hlt => ?_⟩
          cases i with
          | zero =>
            refine ⟨fun c2 hc h0 => ?_, fun c2 hc h0 => ?_, fun hn => ?_⟩
            · have hcc : c = c2 := by simpa using hc
              subst hcc
              exact absurd h0 hp
            · rw [setAttr_fresh]
              have hcc : c = c2 := by simpa using hc
              subst hcc
              simp
            · simp at hn
          | succ i =>
            have := hi i (by simpa using hlt)
            simpa using this


/-- C17: a material with at least one sub-material slot, that is a multi-sub-material or has a
shader, and whose pure-child sub-materials are such in turn, is saved with success, and the
node gets, after the children of the first part and before the public parameters and the
layers, one `SubMaterials` child without attributes that has exactly one child for each slot,
in the order of the slots: for a slot with a pure-child material the result of saving that
material into a `Material` node that carries its name, for a slot with any other material a
`MaterialRef` node with the name of that material as its only content, and for an empty slot a
`MaterialRef` node without content. -/
theorem save_emits_one_child_per_slot (n : Nat) (env : Env) (s : CMatMan) (node : XmlNode)
    (m : MatId) (hs : Savable env s (n + 1) m) (hc : 0 < s.GetSubMtlCount m) :
    ∃ head kids out,
      saveHead env s node m = .ok head ∧
      SaveMaterial (n + 1) env s node m = .ok (true, out) ∧
      out.tag = head.tag ∧ out.attrs = head.attrs ∧
      out.children = head.children ++ [.mk "SubMaterials" [] kids] ++ saveTailNodes env s m ∧
      kids.length = s.GetSubMtlCount m ∧
      ∀ i, i < s.GetSubMtlCount m →
        (∀ c, s.GetSubMtl m i = some c → s.GetFlags c &&& env.MTL_FLAG_PURE_CHILD ≠ 0 →
          ∃ kid, SaveMaterial n env s (.mk "Material" [("Name", s.GetName c)] []) c =
              .ok (true, kid) ∧ kids[i]? = some kid) ∧
        (∀ c, s.GetSubMtl m i = some c → s.GetFlags c &&& env.MTL_FLAG_PURE_CHILD = 0 →
          kids[i]? = some (.mk "MaterialRef" [("Name", s.GetName c)] [])) ∧
        (s.GetSubMtl m i = none → kids[i]? = some (.mk "MaterialRef" [] [])) := by
  obtain ⟨h1, h2⟩ := hs
  obtain ⟨head, hh⟩ := saveHead_ok env s node m h1
  obtain ⟨kids, hk⟩ := saveSubMaterials_ok (fun nd c => SaveMaterial n env s nd c) env s
    (s.mat m).m_subMtls (fun c hc hp nd => SaveMaterial_ok env s n c (h2 c hc hp) nd)
  obtain ⟨hl, hi⟩ := saveSubMaterials_slots _ env s _ kids hk
  refine ⟨head, kids, XmlNode.mk head.tag head.attrs
    (head.children ++ [XmlNode.mk "SubMaterials" [] kids] ++ saveTailNodes env s m),
    hh, ?_, rfl, rfl, rfl, hl, fun i hlt => ?_⟩
  · unfold SaveMaterial
    rw [hh]
    dsimp only
    rw [hk, if_pos hc]
    rfl
  · obtain ⟨a, b, c⟩ := hi i hlt
    refine ⟨fun c hc hp => ?_, b, c⟩
    obtain ⟨b2, kid, e1, e2⟩ := a c hc hp
    have hmem : some c ∈ (s.mat m).m_subMtls := by
      have hlt2 : i < (s.mat m).m_subMtls.length := hlt
      have hc2 : (s.mat m).m_subMtls.getD i none = some c := hc
      rw [List.getD_eq_getElem _ _ hlt2] at hc2
      exact List.mem_iff_getElem.mpr ⟨i, hlt2, hc2⟩
    obtain ⟨o, ho⟩ := SaveMaterial_ok env s n c (h2 c hmem hp)
      (.mk "Material" [("Name", s.GetName c)] [])
    refine ⟨kid, ?_, e2⟩
    have e3 : SaveMaterial n env s (.mk "Material" [("Name", s.GetName c)] []) c
        = .ok (b2, kid) := e1
    rw [ho] at e3
    rw [ho]
    injection e3 with e4
    injection e4 with e5 e6
    rw [e6]

/-- The C17 theorem on the state after the load of `a.mtl`: the multi-sub-material 4 has the
pure child `x` in slot 0 and the shared material `q` in slot 1. -/
theorem save_emits_one_child_per_slot_witness :
    ∃ head kids out,
      saveHead demoEnv demoLoaded (.mk "Material" [] []) 4 = .ok head ∧
      SaveMaterial (2 + 1) demoEnv demoLoaded (.mk "Material" [] []) 4 = .ok (true, out) ∧
      out.tag = head.tag ∧ out.attrs = head.attrs ∧
      out.children =
        head.children ++ [.mk "SubMaterials" [] kids] ++ saveTailNodes demoEnv demoLoaded 4 ∧
      kids.length = demoLoaded.GetSubMtlCount 4 ∧
      ∀ i, i < demoLoaded.GetSubMtlCount 4 →
        (∀ c, demoLoaded.GetSubMtl 4 i = some c →
          demoLoaded.GetFlags c &&& demoEnv.MTL_FLAG_PURE_CHILD ≠ 0 →
          ∃ kid, SaveMaterial 2 demoEnv demoLoaded
            (.mk "Material" [("Name", demoLoaded.GetName c)] []) c = .ok (true, kid) ∧
            kids[i]? = some kid) ∧
        (∀ c, demoLoaded.GetSubMtl 4 i = some c →
          demoLoaded.GetFlags c &&& demoEnv.MTL_FLAG_PURE_CHILD = 0 →
          kids[i]? = some (.mk "MaterialRef" [("Name", demoLoaded.GetName c)] [])) ∧
        (demoLoaded.GetSubMtl 4 i = none → kids[i]? = some (.mk "MaterialRef" [] [])) :=
  save_emits_one_child_per_slot 2 demoEnv demoLoaded (.mk "Material" [] []) 4
    (by
      refine ⟨Or.inl (by decide!), fun c hc hp => ?_⟩
      have h5 : c = 5 ∨ c = 6 := by
        have : (demoLoaded.mat 4).m_subMtls = [some 5, some 6] := by decide!
        rw [this] at hc
        simpa using hc
      rcases h5 with h5 | h5
      · subst h5
        exact ⟨Or.inr (by decide!), fun c2 hc2 _ => by
          have : (demoLoaded.mat 5).m_subMtls = [] := by decide!
          rw [this] at hc2
          simp at hc2⟩
      · subst h5
        exact absurd (by decide! : demoLoaded.GetFlags 6 &&& demoEnv.MTL_FLAG_PURE_CHILD = 0) hp)
    (by decide!)

/-! ## C18: the layers part of the writer -/

theorem layerShader_some (layer : Option CMaterialLayer) (sh : IShader)
    (h : layerShader layer = some sh) : ∃ l, layer = some l := by
  cases layer with
  | none => simp [layerShader] at h
  | some l => exact ⟨l, rfl⟩

theorem saveLayerNode_of_none (env : Env) (layer : Option CMaterialLayer)
    (h : layerShader layer = none) : saveLayerNode env layer = .mk "Layer" [] [] := by
  unfold saveLayerNode
  rw [h]

theorem saveLayerNode_tag (env : Env) (layer : Option CMaterialLayer) :
    (saveLayerNode env layer).tag = "Layer" := by
  unfold saveLayerNode
  split
  · dsimp only
    split <;> rfl
  · rfl

theorem saveLayerNode_attrs (env : Env) (layer : Option CMaterialLayer) (sh : IShader)
    (h : layerShader layer = some sh) :
    (saveLayerNode env layer).attrs =
      [("Name", sh.name), ("NoDraw", intText (sh.flags &&& env.MTL_LAYER_USAGE_NODRAW)),
       ("FadeOut", intText (sh.flags &&& env.MTL_LAYER_USAGE_FADEOUT))] := by
  obtain ⟨l, hl⟩ := layerShader_some layer sh h
  subst hl
  unfold saveLayerNode
  rw [h]
  dsimp only
  split <;>
    simp [XmlNode.setAttr, XmlNode.addChild, mapFind, XmlNode.attrs, XmlNode.tag,
      XmlNode.children]

theorem saveMaterialLayers_none_iff (env : Env) (s : CMatMan) (m : MatId) :
    saveMaterialLayers env s m = none ↔
      ∀ l, l < env.MTL_LAYER_MAX_SLOTS → layerShader (s.GetLayer m l) = none := by
  unfold saveMaterialLayers
  constructor
  · intro h l hl
    split_ifs at h with h1
    cases h2 : layerShader (s.GetLayer m l) with
    | none => rfl
    | some sh =>
      exfalso
      apply h1
      rw [List.any_eq_true]
      exact ⟨l, List.mem_range.mpr hl, by rw [h2]; rfl⟩
  · intro h
    rw [if_neg]
    intro h1
    rw [List.any_eq_true] at h1
    obtain ⟨l, hl, h2⟩ := h1
    rw [h l (List.mem_range.mp hl)] at h2
    cases h2

/-- The counterexample to C18: the material built from a descriptor whose first layer node has
no public parameters has an empty slot 0 and the layer `Frozen` in slot 1; its saved
`MaterialLayers` node has three children, and the empty slots 0 and 2 contribute the first and
the last of them. -/
theorem empty_layer_slot_is_written :
    (LoadMaterialFromXml 4 demoEnv CMatMan.new "lay" layDesc).map
      (fun r => (r.1, layerShader (r.2.GetLayer 0 0), layerShader (r.2.GetLayer 0 2),
        saveMaterialLayers demoEnv r.2 0)) =
    .ok (some 0, none, none, some (.mk "MaterialLayers" []
      [.mk "Layer" [] [],
       .mk "Layer" [("Name", "Frozen"), ("NoDraw", "0"), ("FadeOut", "0")] [],
       .mk "Layer" [] []])) := by
  decide!

/-- The amended C18: the writer makes no `MaterialLayers` node exactly when no layer slot below
`MTL_LAYER_MAX_SLOTS` holds a shader with a non-empty name.  Otherwise the node has one `Layer`
child for each of these slots, in the order of the slots: the child of a slot that is empty or
holds a shader without a name has no attributes and no children, and the child of a slot with
a named shader carries the name of the shader and the attributes `NoDraw` and `FadeOut`.  In
the saved node the `MaterialLayers` node comes last, after the children of the first part, the
sub-materials and the public parameters. -/
theorem layer_data_only_for_named_slots (env : Env) (s : CMatMan) (m : MatId) :
    (saveMaterialLayers env s m = none ↔
      ∀ l, l < env.MTL_LAYER_MAX_SLOTS → layerShader (s.GetLayer m l) = none) ∧
    (∀ node, saveMaterialLayers env s m = some node →
      node.tag = "MaterialLayers" ∧ node.attrs = [] ∧
      node.children.length = env.MTL_LAYER_MAX_SLOTS ∧
      ∀ l, l < env.MTL_LAYER_MAX_SLOTS →
        ∃ kid, node.children[l]? = some kid ∧ kid.tag = "Layer" ∧
          (layerShader (s.GetLayer m l) = none → kid = .mk "Layer" [] []) ∧
          (∀ sh, layerShader (s.GetLayer m l) = some sh →
            kid.attrs =
              [("Name", sh.name),
               ("NoDraw", intText (sh.flags &&& env.MTL_LAYER_USAGE_NODRAW)),
               ("FadeOut", intText (sh.flags &&& env.MTL_LAYER_USAGE_FADEOUT))])) ∧
    (∀ n node b out, SaveMaterial n env s node m = .ok (b, out) →
      ∃ head subs publics, saveHead env s node m = .ok head ∧
        (∀ c, c ∈ subs → c.tag = "SubMaterials") ∧
        (∀ c, c ∈ publics → c = env.SetXmlFromShaderParams
          (inputResourcesOf (s.GetShaderItemAt env m 0).m_pShaderResources)
          (.mk "PublicParams" [] [])) ∧
        out.children =
          head.children ++ subs ++ publics ++ (saveMaterialLayers env s m).toList) := by
  refine ⟨saveMaterialLayers_none_iff env s m, fun node h => ?_, fun n node b out h => ?_⟩
  · unfold saveMaterialLayers at h
    split_ifs at h with h1
    injection h with h2
    subst h2
    refine ⟨rfl, rfl, by simp [XmlNode.children], fun l hl => ?_⟩
    refine ⟨saveLayerNode env (s.GetLayer m l), ?_, saveLayerNode_tag env _,
      saveLayerNode_of_none env _, saveLayerNode_attrs env _⟩
    simp [XmlNode.children, hl]
  · cases n with
    | zero => unfold SaveMaterial at h; cases h
    | succ n =>
      unfold SaveMaterial at h
      cases hh : saveHead env s node m with
      | error e => rw [hh] at h; cases h
      | ok head =>
        rw [hh] at h
        dsimp only at h
        have htail : ∃ publics, saveTailNodes env s m =
            publics ++ (saveMaterialLayers env s m).toList ∧
            ∀ c, c ∈ publics → c = env.SetXmlFromShaderParams
              (inputResourcesOf (s.GetShaderItemAt env m 0).m_pShaderResources)
              (.mk "PublicParams" [] []) := by
          unfold saveTailNodes
          refine ⟨_, by cases saveMaterialLayers env s m <;> rfl, fun c hc => ?_⟩
          split_ifs at hc with h6
          · exact List.mem_singleton.mp hc
          · cases hc
        obtain ⟨publics, htail, hpub⟩ := htail
        by_cases h0 : 0 < s.GetSubMtlCount m
        · rw [if_pos h0] at h
          cases hk : saveSubMaterials (fun nd c => SaveMaterial n env s nd c) env s
              (s.mat m).m_subMtls with
          | error e => rw [hk] at h; cases h
          | ok kids =>
            rw [hk] at h
            injection h with h3
            injection h3 with h4 h5
            subst h5
            refine ⟨head, [XmlNode.mk "SubMaterials" [] kids], publics, rfl, ?_, hpub, ?_⟩
            · intro c hc
              rw [List.mem_singleton] at hc
              rw [hc]
              rfl
            · rw [htail]
              simp [XmlNode.children, XmlNode.addChild]
        · rw [if_neg h0] at h
          injection h with h3
          injection h3 with h4 h5
          subst h5
          refine ⟨head, [], publics, rfl, ?_, hpub, ?_⟩
          · intro c hc
            cases hc
          · rw [htail]
            simp [XmlNode.children]

/-- The amended C18 on the material built from `layDesc`, whose saved `MaterialLayers` node has
an empty `Layer` child for slot 0, the layer `Frozen` for slot 1 and an empty child for
slot 2. -/
theorem layer_data_only_for_named_slots_witness :
    saveMaterialLayers demoEnv demoLayered 0 = some (.mk "MaterialLayers" []
      [.mk "Layer" [] [],
       .mk "Layer" [("Name", "Frozen"), ("NoDraw", "0"), ("FadeOut", "0")] [],
       .mk "Layer" [] []]) ∧
    ((saveMaterialLayers demoEnv demoLayered 0 = none ↔
      ∀ l, l < demoEnv.MTL_LAYER_MAX_SLOTS → layerShader (demoLayered.GetLayer 0 l) = none) ∧
    (∀ node, saveMaterialLayers demoEnv demoLayered 0 = some node →
      node.tag = "MaterialLayers" ∧ node.attrs = [] ∧
      node.children.length = demoEnv.MTL_LAYER_MAX_SLOTS ∧
      ∀ l, l < demoEnv.MTL_LAYER_MAX_SLOTS →
        ∃ kid, node.children[l]? = some kid ∧ kid.tag = "Layer" ∧
          (layerShader (demoLayered.GetLayer 0 l) = none → kid = .mk "Layer" [] []) ∧
          (∀ sh, layerShader (demoLayered.GetLayer 0 l) = some sh →
            kid.attrs =
              [("Name", sh.name),
               ("NoDraw", intText (sh.flags &&& demoEnv.MTL_LAYER_USAGE_NODRAW)),
               ("FadeOut", intText (sh.flags &&& demoEnv.MTL_LAYER_USAGE_FADEOUT))])) ∧
    (∀ n node b out, SaveMaterial n demoEnv demoLayered node 0 = .ok (b, out) →
      ∃ head subs publics, saveHead demoEnv demoLayered node 0 = .ok head ∧
        (∀ c, c ∈ subs → c.tag = "SubMaterials") ∧
        (∀ c, c ∈ publics → c = demoEnv.SetXmlFromShaderParams
          (inputResourcesOf (demoLayered.GetShaderItemAt demoEnv 0 0).m_pShaderResources)
          (.mk "PublicParams" [] [])) ∧
        out.children =
          head.children ++ subs ++ publics ++
            (saveMaterialLayers demoEnv demoLayered 0).toList)) :=
  ⟨by decide!, layer_data_only_for_named_slots demoEnv demoLayered 0⟩

/-! ## C20: the sub-material slots that the builder fills -/

theorem Keeps.keeps_refl (x : Option MatId) (s : CMatMan) : Keeps x s s :=
  ⟨Nat.le_refl _, fun _ _ _ => rfl⟩

theorem Keeps.keeps_trans {x : Option MatId} {s t u : CMatMan} (h1 : Keeps x s t)
    (h2 : Keeps x t u) : Keeps x s u :=
  ⟨Nat.le_trans h1.length h2.length, fun m hm hx =>
    (h2.objects m (Nat.lt_of_lt_of_le hm h1.length) hx).trans (h1.objects m hm hx)⟩

theorem Keeps.keeps_weaken {s t : CMatMan} (x : Option MatId) (h : Keeps none s t) : Keeps x s t :=
  ⟨h.length, fun m hm _ => h.objects m hm (by simp)⟩

theorem keeps_of_materials {x : Option MatId} {s u v : CMatMan} (hs : v.materials = u.materials)
    (h : Keeps x s u) : Keeps x s v :=
  ⟨by rw [hs]; exact h.length, fun m hm hx => by rw [mat_congr hs m]; exact h.objects m hm hx⟩

theorem keeps_touches {x : Option MatId} {y : MatId} {s u v : CMatMan} (ht : Touches y u v)
    (hy : s.materials.length ≤ y ∨ x = some y) (h : Keeps x s u) : Keeps x s v := by
  refine ⟨by rw [ht.same.2]; exact h.length, fun m hm hx => ?_⟩
  have hne : m ≠ y := by
    intro e
    subst e
    rcases hy with hy | hy
    · exact absurd hm (Nat.not_lt.mpr hy)
    · exact hx hy
  rw [ht.others m hne]
  exact h.objects m hm hx

theorem keeps_updMat {x : Option MatId} (y : MatId) (f : CMatInfo → CMatInfo) {s u : CMatMan}
    (hy : s.materials.length ≤ y ∨ x = some y) (h : Keeps x s u) : Keeps x s (u.updMat y f) := by
  refine ⟨by rw [updMat_length]; exact h.length, fun m hm hx => ?_⟩
  have hne : m ≠ y := by
    intro e
    subst e
    rcases hy with hy | hy
    · exact absurd hm (Nat.not_lt.mpr hy)
    · exact hx hy
  rw [mat_updMat_ne u f hne]
  exact h.objects m hm hx

theorem keeps_CreateMaterial {x : Option MatId} (env : Env) (name : String) (f : Nat)
    {s u : CMatMan} (h : Keeps x s u) : Keeps x s (CreateMaterial env u name f).2 :=
  ⟨by rw [CreateMaterial_length]; exact Nat.le_succ_of_le h.length, fun m hm hx => by
    rw [CreateMaterial_mat_old env u name f (Nat.lt_of_lt_of_le hm h.length)]
    exact h.objects m hm hx⟩

theorem keeps_loadMaterialBody {x : Option MatId} (env : Env) (y : MatId) (name : String)
    (node : XmlNode) (f prio : Nat) {s u : CMatMan}
    (hy : s.materials.length ≤ y ∨ x = some y) (h : Keeps x s u) :
    Keeps x s (loadMaterialBody env u y name node f prio) := by
  rcases loadMaterialBody_shape env u y name node f prio with ht | ⟨a, h1, h2⟩
  · exact keeps_touches ht hy h
  · exact keeps_touches h2 hy (keeps_updMat y _ hy (keeps_touches h1 hy h))

/-- Loads, the initialisation of the defaults and builds of new materials keep the material
objects that exist as they are. -/
theorem keeps_closed (env : Env) (s : CMatMan) :
    StepClosed env (fun _ ex => ex = none) (fun u => Keeps none s u) where
  core := fun _ _ _ hs h => keeps_of_materials hs h
  placeholder := fun u f h =>
    keeps_touches (touches_AssignShaderItem _ _ _)
      (Or.inl (by rw [CreateMaterial_fst]; exact h.length)) (keeps_CreateMaterial env _ 0 h)
  sketch := fun v hv u i h => keeps_touches (touches_SetSketchMode u _ i) (Or.inl hv.length) h
  defaultMat := fun u name shader h =>
    ⟨by rw [makeDefaultMaterial_length]; exact Nat.le_succ_of_le h.length, fun m hm hx => by
      rw [makeDefaultMaterial_mat_old env u name shader (Nat.lt_of_lt_of_le hm h.length)]
      exact h.objects m hm hx⟩
  noDraw := fun u h =>
    ⟨by rw [installNoDrawMaterial_materials, newNoDrawMaterial_length]
        exact Nat.le_succ_of_le h.length, fun m hm hx => by
      rw [mat_congr (installNoDrawMaterial_materials env u) m,
        newNoDrawMaterial_mat_old env u (Nat.lt_of_lt_of_le hm h.length)]
      exact h.objects m hm hx⟩
  body := fun u name node b prio ex hc h => by
    subst hc
    exact keeps_loadMaterialBody env _ name node _ prio
      (Or.inl (by
        show s.materials.length ≤ (CreateMaterial env u name (mtlFlagsFromXml env node b)).1
        rw [CreateMaterial_fst]
        exact h.length))
      (keeps_CreateMaterial env name _ h)
  slots := fun v name flags _ ex hc hv u h => by
    subst hc
    have hy : s.materials.length ≤ (obtainMaterial env v name flags none).1 ∨
        (none : Option MatId) = some (obtainMaterial env v name flags none).1 :=
      Or.inl (by
        show s.materials.length ≤ (CreateMaterial env v name flags).1
        rw [CreateMaterial_fst]
        exact hv.length)
    exact ⟨fun _ => keeps_updMat _ _ hy h, fun _ _ => keeps_updMat _ _ hy h⟩

theorem keeps_all (env : Env) (n : Nat) :
    (∀ s N mk nr lf r t, LoadMaterialInternal n env s N mk nr lf = .ok (r, t) →
      Keeps none s t) ∧
    (∀ s name node b prio lf par r t,
      MakeMaterialFromXml n env s name node b prio none lf par = .ok (r, t) → Keeps none s t) :=
  ⟨fun s N mk nr lf r t h =>
      (closed_all env _ _ (keeps_closed env s) rfl rfl n).1 s N mk nr lf r t
        (Keeps.keeps_refl none s) h,
    fun s name node b prio lf par r t h =>
      (closed_all env _ _ (keeps_closed env s) rfl rfl n).2.2 s name node b prio none lf par r t
        rfl (Keeps.keeps_refl none s) h⟩

theorem loadSubMaterials_cons
    (build : String → XmlNode → Nat → MatId → CMatMan → Except Fault (Option MatId × CMatMan))
    (load : String → CMatMan → Except Fault (Option MatId × CMatMan))
    (x k : Nat) (c : XmlNode) (rest : List XmlNode) (i : Nat) (u : CMatMan) :
    loadSubMaterials build load x k (c :: rest) i u =
      match loadSubMaterial build load x k c i u with
      | .error e => .error e
      | .ok u1 => loadSubMaterials build load x k rest (i + 1) u1 := by
  rw [loadSubMaterials]
  unfold loadSubMaterial
  by_cases ht : c.isTag "Material" = true
  · rw [if_pos ht, if_pos ht]
    cases build (c.getAttr "Name") c ((k - i - 1) % 65536) x u with
    | error e => rfl
    | ok p =>
      obtain ⟨r, s1⟩ := p
      cases r <;> rfl
  · rw [if_neg ht, if_neg ht]
    by_cases hn : c.getAttr "Name" ≠ ""
    · rw [if_pos hn, if_pos hn]
      cases load (c.getAttr "Name") u with
      | error e => rfl
      | ok p =>
        obtain ⟨r, s1⟩ := p
        cases r <;> rfl
    · rw [if_neg hn, if_neg hn]

theorem GetSubMtl_SetSubMtl_ne (s : CMatMan) (x : MatId) {i j : Nat} (c : Option MatId)
    (h : i ≠ j) : (s.SetSubMtl x i c).GetSubMtl x j = s.GetSubMtl x j := by
  unfold CMatMan.GetSubMtl CMatMan.SetSubMtl
  by_cases hx : x < s.materials.length
  · rw [mat_updMat_self s _ hx]
    exact listSet_getD_ne _ _ _ h
  · rw [updMat_out_of_range s _ (Nat.le_of_not_lt hx)]

theorem GetSubMtl_SetSubMtl_self (s : CMatMan) (x : MatId) {i : Nat} (c : Option MatId)
    (hx : x < s.materials.length) (hi : i < (s.mat x).m_subMtls.length) :
    (s.SetSubMtl x i c).GetSubMtl x i = c := by
  unfold CMatMan.GetSubMtl CMatMan.SetSubMtl
  rw [mat_updMat_self s _ hx]
  exact listSet_getD_self _ _ _ hi

theorem SetSubMtl_count (s : CMatMan) (x : MatId) (i : Nat) (c : Option MatId) :
    ((s.SetSubMtl x i c).mat x).m_subMtls.length = (s.mat x).m_subMtls.length := by
  unfold CMatMan.SetSubMtl
  by_cases hx : x < s.materials.length
  · rw [mat_updMat_self s _ hx]
    exact listSet_length _ _ _
  · rw [updMat_out_of_range s _ (Nat.le_of_not_lt hx)]

theorem keeps_SetSubMtl (s : CMatMan) (x : MatId) (i : Nat) (c : Option MatId) :
    Keeps (some x) s (s.SetSubMtl x i c) :=
  keeps_updMat x _ (Or.inr rfl) (Keeps.keeps_refl (some x) s)

/-- What one turn of the loop does: it keeps every object but the material `x`, changes no
slot of `x` but slot `i`, and slot `i` gets the material that the build of an inline child or
the load of a referenced child returns. -/
theorem loadSubMaterial_spec
    (build : String → XmlNode → Nat → MatId → CMatMan → Except Fault (Option MatId × CMatMan))
    (load : String → CMatMan → Except Fault (Option MatId × CMatMan))
    (x k : Nat) (R : CMatMan → CMatMan → Prop) (hrefl : ∀ u, R u u)
    (hb : ∀ name node prio par u r u2, build name node prio par u = .ok (r, u2) →
      R u u2 ∧ Keeps none u u2)
    (hl : ∀ name u r u2, load name u = .ok (r, u2) → R u u2 ∧ Keeps none u u2)
    (hs : ∀ u i c, R u (u.SetSubMtl x i c))
    (htrans : ∀ a b c, R a b → R b c → R a c)
    (child : XmlNode) (i : Nat) (u u1 : CMatMan) (hx : x < u.materials.length)
    (hi : i < (u.mat x).m_subMtls.length)
    (h : loadSubMaterial build load x k child i u = .ok u1) :
    R u u1 ∧ Keeps (some x) u u1 ∧
    (u1.mat x).m_subMtls.length = (u.mat x).m_subMtls.length ∧
    (∀ j, j ≠ i → u1.GetSubMtl x j = u.GetSubMtl x j) ∧
    (child.isTag "Material" = true →
      ∃ r si2, build (child.getAttr "Name") child ((k - i - 1) % 65536) x u = .ok (r, si2) ∧
        R si2 u1 ∧ Keeps (some x) si2 u1 ∧
        u1.GetSubMtl x i = (match r with | some c => some c | none => si2.m_pDefaultMtl)) ∧
    (child.isTag "Material" = false → child.getAttr "Name" ≠ "" →
      ∃ r si2, load (child.getAttr "Name") u = .ok (r, si2) ∧
        R si2 u1 ∧ Keeps (some x) si2 u1 ∧
        u1.GetSubMtl x i = (match r with | some c => some c | none => u.GetSubMtl x i)) ∧
    (child.isTag "Material" = false → child.getAttr "Name" = "" → u1 = u) := by
  have kept : ∀ (s1 : CMatMan) (c : Option MatId), R u s1 → Keeps none u s1 →
      R u (s1.SetSubMtl x i c) ∧ Keeps (some x) u (s1.SetSubMtl x i c) ∧
      ((s1.SetSubMtl x i c).mat x).m_subMtls.length = (u.mat x).m_subMtls.length ∧
      (∀ j, j ≠ i → (s1.SetSubMtl x i c).GetSubMtl x j = u.GetSubMtl x j) ∧
      R s1 (s1.SetSubMtl x i c) ∧ Keeps (some x) s1 (s1.SetSubMtl x i c) ∧
      (s1.SetSubMtl x i c).GetSubMtl x i = c := by
    intro s1 c r1 k1
    have e : s1.mat x = u.mat x := k1.objects x hx (by simp)
    refine ⟨htrans _ _ _ r1 (hs s1 i c),
      (Keeps.keeps_weaken (some x) k1).keeps_trans (keeps_SetSubMtl s1 x i c), ?_, ?_, hs s1 i c,
      keeps_SetSubMtl s1 x i c, ?_⟩
    · rw [SetSubMtl_count, e]
    · intro j hj
      rw [GetSubMtl_SetSubMtl_ne s1 x c (Ne.symm hj)]
      unfold CMatMan.GetSubMtl
      rw [e]
    · exact GetSubMtl_SetSubMtl_self s1 x c (Nat.lt_of_lt_of_le hx k1.length) (by rw [e]; exact hi)
  unfold loadSubMaterial at h
  by_cases ht : child.isTag "Material" = true
  · rw [if_pos ht] at h
    cases hbd : build (child.getAttr "Name") child ((k - i - 1) % 65536) x u with
    | error e => rw [hbd] at h; cases h
    | ok p =>
      obtain ⟨r, s1⟩ := p
      obtain ⟨r1, k1⟩ := hb _ _ _ _ _ _ _ hbd
      rw [hbd] at h
      cases r with
      | some c =>
        simp only [Except.ok.injEq] at h
        subst h
        obtain ⟨a1, a2, a3, a4, a5, a6, a7⟩ := kept s1 (some c) r1 k1
        exact ⟨a1, a2, a3, a4, fun _ => ⟨some c, s1, rfl, a5, a6, a7⟩,
          fun hf => absurd ht (by rw [hf]; simp), fun hf => absurd ht (by rw [hf]; simp)⟩
      | none =>
        simp only [Except.ok.injEq] at h
        subst h
        obtain ⟨a1, a2, a3, a4, a5, a6, a7⟩ := kept s1 s1.m_pDefaultMtl r1 k1
        exact ⟨a1, a2, a3, a4, fun _ => ⟨none, s1, rfl, a5, a6, a7⟩,
          fun hf => absurd ht (by rw [hf]; simp), fun hf => absurd ht (by rw [hf]; simp)⟩
  · rw [if_neg ht] at h
    by_cases hn : child.getAttr "Name" ≠ ""
    · rw [if_pos hn] at h
      cases hld : load (child.getAttr "Name") u with
      | error e => rw [hld] at h; cases h
      | ok p =>
        obtain ⟨r, s1⟩ := p
        obtain ⟨r1, k1⟩ := hl _ _ _ _ hld
        rw [hld] at h
        cases r with
        | some c =>
          simp only [Except.ok.injEq] at h
          subst h
          obtain ⟨a1, a2, a3, a4, a5, a6, a7⟩ := kept s1 (some c) r1 k1
          exact ⟨a1, a2, a3, a4, fun hf => absurd hf ht,
            fun _ _ => ⟨some c, s1, rfl, a5, a6, a7⟩, fun _ he => absurd he hn⟩
        | none =>
          simp only [Except.ok.injEq] at h
          subst h
          have e : s1.mat x = u.mat x := k1.objects x hx (by simp)
          refine ⟨r1, Keeps.keeps_weaken (some x) k1, by rw [e], fun j _ => ?_, fun hf => absurd hf ht,
            fun _ _ => ⟨none, s1, rfl, hrefl s1, Keeps.keeps_refl _ s1, ?_⟩,
            fun _ he => absurd he hn⟩
          · unfold CMatMan.GetSubMtl
            rw [e]
          · show s1.GetSubMtl x i = u.GetSubMtl x i
            unfold CMatMan.GetSubMtl
            rw [e]
    · rw [if_neg hn] at h
      simp only [Except.ok.injEq] at h
      subst h
      exact ⟨hrefl u, Keeps.keeps_refl _ u, rfl, fun _ _ => rfl, fun hf => absurd hf ht,
        fun _ he => absurd he hn, fun _ _ => rfl⟩

/-- The loop over the children of the `SubMaterials` node, child by child: child `j` is handled
in the state that the loop over the children before it leaves, its turn changes slot `i + j`
only, and no later turn changes that slot again. -/
theorem loadSubMaterials_children
    (build : String → XmlNode → Nat → MatId → CMatMan → Except Fault (Option MatId × CMatMan))
    (load : String → CMatMan → Except Fault (Option MatId × CMatMan))
    (x k : Nat) (R : CMatMan → CMatMan → Prop) (hrefl : ∀ u, R u u)
    (hb : ∀ name node prio par u r u2, build name node prio par u = .ok (r, u2) →
      R u u2 ∧ Keeps none u u2)
    (hl : ∀ name u r u2, load name u = .ok (r, u2) → R u u2 ∧ Keeps none u u2)
    (hs : ∀ u i c, R u (u.SetSubMtl x i c))
    (htrans : ∀ a b c, R a b → R b c → R a c)
    (children : List XmlNode) :
    ∀ (i : Nat) (u t : CMatMan), x < u.materials.length →
      i + children.length ≤ (u.mat x).m_subMtls.length →
      loadSubMaterials build load x k children i u = .ok t →
      R u t ∧ Keeps (some x) u t ∧
      (t.mat x).m_subMtls.length = (u.mat x).m_subMtls.length ∧
      (∀ j, j < i → t.GetSubMtl x j = u.GetSubMtl x j) ∧
      ∀ j child, children[j]? = some child →
        ∃ si u1, loadSubMaterials build load x k (children.take j) i u = .ok si ∧
          R u si ∧ Keeps (some x) u si ∧
          (si.mat x).m_subMtls.length = (u.mat x).m_subMtls.length ∧
          si.GetSubMtl x (i + j) = u.GetSubMtl x (i + j) ∧
          loadSubMaterial build load x k child (i + j) si = .ok u1 ∧
          R u1 t ∧ Keeps (some x) u1 t ∧ t.GetSubMtl x (i + j) = u1.GetSubMtl x (i + j) := by
  induction children with
  | nil =>
    intro i u t _ _ h
    simp only [loadSubMaterials, Except.ok.injEq] at h
    subst h
    exact ⟨hrefl u, Keeps.keeps_refl _ u, rfl, fun _ _ => rfl, fun j child hj => by simp at hj⟩
  | cons c rest ih =>
    intro i u t hx hlen h
    rw [loadSubMaterials_cons] at h
    cases hstep : loadSubMaterial build load x k c i u with
    | error e => rw [hstep] at h; cases h
    | ok u1 =>
      rw [hstep] at h
      have hlen2 : i + (rest.length + 1) ≤ (u.mat x).m_subMtls.length := hlen
      obtain ⟨r1, k1, l1, o1, _⟩ := loadSubMaterial_spec build load x k R hrefl hb hl hs htrans
        c i u u1 hx (by omega) hstep
      have hx1 : x < u1.materials.length := Nat.lt_of_lt_of_le hx k1.length
      obtain ⟨r2, k2, l2, o2, c2⟩ := ih (i + 1) u1 t hx1 (by rw [l1]; omega) h
      refine ⟨htrans _ _ _ r1 r2, k1.keeps_trans k2, l2.trans l1, fun j hj => ?_,
        fun j child hj => ?_⟩
      · rw [o2 j (by omega), o1 j (by omega)]
      · cases j with
        | zero =>
          have hc : c = child := by simpa using hj
          subst hc
          exact ⟨u, u1, by simp [loadSubMaterials], hrefl u, Keeps.keeps_refl _ u, rfl, rfl,
            hstep, r2, k2, o2 i (by omega)⟩
        | succ j =>
          have hj2 : rest[j]? = some child := by simpa using hj
          obtain ⟨si, u2, a1, a2, a3, a4, a5, a6, a7, a8, a9⟩ := c2 j child hj2
          have e : i + 1 + j = i + (j + 1) := by omega
          rw [e] at a5 a6 a9
          refine ⟨si, u2, ?_, htrans _ _ _ r1 a2, k1.keeps_trans a3, a4.trans l1, ?_, a6, a7, a8,
            a9⟩
          · rw [List.take_succ_cons, loadSubMaterials_cons, hstep]
            exact a1
          · rw [a5]
            exact o1 _ (by omega)

theorem listResize_length {α : Type} (l : List (Option α)) (n : Nat) :
    (listResize l n).length = n := by
  unfold listResize
  simp
  omega

theorem listResize_getD {α : Type} (l : List (Option α)) (n i : Nat) (h : i < n) :
    (listResize l n).getD i none = l.getD i none := by
  unfold listResize
  simp only [List.getD_eq_getElem?_getD]
  rw [List.getElem?_take_of_lt h]
  by_cases hi : i < l.length
  · rw [List.getElem?_append_left hi]
  · rw [List.getElem?_append_right (Nat.le_of_not_lt hi), List.getElem?_eq_none (Nat.le_of_not_lt hi)]
    rw [List.getElem?_replicate]
    split <;> rfl

theorem lor_land_ne_zero (a b p : Nat) (h : b &&& p ≠ 0) : (a ||| b) &&& p ≠ 0 := by
  intro h0
  exact h ((lor_land_zero a b p).mp h0).2

theorem touches_flags_ne {x : MatId} {s t : CMatMan} (env : Env) (ht : Touches x s t)
    (h : (s.mat x).m_Flags &&& env.MTL_FLAG_PURE_CHILD ≠ 0) :
    (t.mat x).m_Flags &&& env.MTL_FLAG_PURE_CHILD ≠ 0 := by
  rw [ht.flags]
  exact h

theorem loadMaterialBody_subMtls (env : Env) (s : CMatMan) (x : MatId) (name : String)
    (node : XmlNode) (f prio : Nat) :
    ((loadMaterialBody env s x name node f prio).mat x).m_subMtls = (s.mat x).m_subMtls ∧
    (loadMaterialBody env s x name node f prio).materials.length = s.materials.length := by
  have hset : ∀ (a : CMatMan) (F : Nat), ((a.SetFlags x F).mat x).m_subMtls = (a.mat x).m_subMtls := by
    intro a F
    unfold CMatMan.SetFlags
    by_cases hx : x < a.materials.length
    · rw [mat_updMat_self a _ hx]
    · rw [updMat_out_of_range a _ (Nat.le_of_not_lt hx)]
  rcases loadMaterialBody_shape env s x name node f prio with ht | ⟨a, h1, h2⟩
  · exact ⟨ht.subMtls, ht.same.2⟩
  · refine ⟨by rw [h2.subMtls, hset, h1.subMtls], ?_⟩
    rw [h2.same.2]
    unfold CMatMan.SetFlags
    rw [updMat_length, h1.same.2]

theorem loadMaterialBody_pure_child (env : Env) (s : CMatMan) (x : MatId) (name : String)
    (node : XmlNode) (f prio : Nat) (hx : x < s.materials.length)
    (h : (s.mat x).m_Flags &&& env.MTL_FLAG_PURE_CHILD ≠ 0) :
    ((loadMaterialBody env s x name node f prio).mat x).m_Flags &&& env.MTL_FLAG_PURE_CHILD ≠ 0 := by
  rcases loadMaterialBody_shape env s x name node f prio with ht | ⟨a, h1, h2⟩
  · exact touches_flags_ne env ht h
  · refine touches_flags_ne env h2 ?_
    have hxa : x < a.materials.length := by rw [h1.same.2]; exact hx
    unfold CMatMan.SetFlags
    rw [mat_updMat_self a _ hxa]
    exact lor_land_ne_zero _ _ _ (touches_flags_ne env h1 h)

/-- A build that is forced to make a pure child returns a new object, and that object carries
the pure-child flag when the build returns. -/
theorem forced_build_pure_child (n : Nat) (env : Env) (s : CMatMan) (name : String)
    (node : XmlNode) (prio lf : Nat) (par r : Option MatId) (t : CMatMan)
    (hP : env.MTL_FLAG_PURE_CHILD ≠ 0)
    (h : MakeMaterialFromXml n env s name node true prio none lf par = .ok (r, t)) :
    r = some s.materials.length ∧ s.materials.length < t.materials.length ∧
      (t.mat s.materials.length).m_Flags &&& env.MTL_FLAG_PURE_CHILD ≠ 0 := by
  have hr := MakeMaterialFromXml_result n env s name node true prio none lf par r t h
  refine ⟨hr, ?_⟩
  cases n with
  | zero => simp [MakeMaterialFromXml] at h
  | succ n =>
    rw [MakeMaterialFromXml] at h
    unfold makeMaterialBody at h
    dsimp only at h
    have ho : obtainMaterial env s name (mtlFlagsFromXml env node true) none =
        CreateMaterial env s name (mtlFlagsFromXml env node true) := rfl
    rw [ho] at h
    rw [CreateMaterial_fst] at h
    have hflag : ((CreateMaterial env s name (mtlFlagsFromXml env node true)).2.mat
        s.materials.length).m_Flags &&& env.MTL_FLAG_PURE_CHILD ≠ 0 := by
      rw [CreateMaterial_mat_new]
      show (mtlFlagsFromXml env node true ||| 0) &&& env.MTL_FLAG_PURE_CHILD ≠ 0
      rw [Nat.or_zero]
      unfold mtlFlagsFromXml
      simp only [if_true]
      apply lor_land_ne_zero
      rw [Nat.and_self]
      exact hP
    have hlen : s.materials.length <
        (CreateMaterial env s name (mtlFlagsFromXml env node true)).2.materials.length := by
      rw [CreateMaterial_length]
      exact Nat.lt_succ_self _
    have h1 := loadMaterialBody_pure_child env _ s.materials.length name node
      (mtlFlagsFromXml env node true) prio hlen hflag
    have h1len := (loadMaterialBody_subMtls env
      (CreateMaterial env s name (mtlFlagsFromXml env node true)).2 s.materials.length name node
      (mtlFlagsFromXml env node true) prio).2
    generalize loadMaterialBody env (CreateMaterial env s name (mtlFlagsFromXml env node true)).2
      s.materials.length name node (mtlFlagsFromXml env node true) prio = s1 at h h1 h1len
    have hlen1 : s.materials.length < s1.materials.length := by rw [h1len]; exact hlen
    have key : ∀ s2, loadSubMaterialsNode
        (fun name child prio parent t =>
          MakeMaterialFromXml n env t name child true prio none lf (some parent))
        (fun name t => LoadMaterialInternal n env t name true false lf)
        s1 s.materials.length node = .ok s2 →
        s.materials.length < s2.materials.length ∧
          (s2.mat s.materials.length).m_Flags &&& env.MTL_FLAG_PURE_CHILD ≠ 0 := by
      intro s2 h2
      unfold loadSubMaterialsNode at h2
      split at h2
      · simp only [Except.ok.injEq] at h2
        rw [← h2]
        exact ⟨hlen1, h1⟩
      · refine closed_loadSubMaterials
          (fun u => s.materials.length < u.materials.length ∧
            (u.mat s.materials.length).m_Flags &&& env.MTL_FLAG_PURE_CHILD ≠ 0)
          _ _ ?_ ?_ s.materials.length _ ?_ _ 0 _ s2 ?_ h2
        · intro name node prio par u r u2 hu hb
          have k := (keeps_all env n).2 u name node true prio lf (some par) r u2 hb
          exact ⟨Nat.lt_of_lt_of_le hu.1 k.length, by
            rw [k.objects _ hu.1 (by simp)]; exact hu.2⟩
        · intro name u r u2 hu hl
          have k := (keeps_all env n).1 u name true false lf r u2 hl
          exact ⟨Nat.lt_of_lt_of_le hu.1 k.length, by
            rw [k.objects _ hu.1 (by simp)]; exact hu.2⟩
        · intro u hu i c
          unfold CMatMan.SetSubMtl
          exact ⟨by rw [updMat_length]; exact hu.1, by
            rw [flags_updMat u s.materials.length
              (fun d => { d with m_subMtls := listSet d.m_subMtls i c }) (fun _ => rfl)]
            exact hu.2⟩
        · unfold CMatMan.SetSubMtlCount
          rename_i subs _
          exact ⟨by rw [updMat_length]; exact hlen1, by
            rw [flags_updMat s1 s.materials.length
              (fun d => { d with m_subMtls := listResize d.m_subMtls subs.children.length })
              (fun _ => rfl)]
            exact h1⟩
    split at h
    · exact absurd h (by simp)
    · rename_i s2 h2
      simp only [Except.ok.injEq, Prod.mk.injEq] at h
      obtain ⟨a, b⟩ := key s2 h2
      rw [← h.2, mat_congr (NotifyCreateMaterial_sameTables s2 _).2.2,
        (NotifyCreateMaterial_sameTables s2 _).2.2]
      exact ⟨a, b⟩

/-- A load that takes the owner path, finds the descriptor file and whose build returns,
returns a new object, registered under the name, and leaves the record of the name in the
pending-load table. -/
theorem owner_load_registers (n : Nat) (env : Env) (s s1 : CMatMan) (N : String)
    (mk nr : Bool) (lf : Nat) (node : XmlNode) (r : Option MatId) (s2 : CMatMan)
    (hU : UnifyLaws env) (hP : env.MTL_FLAG_PURE_CHILD ≠ 0)
    (hflags : mtlFlagsFromXml env node false &&& env.MTL_FLAG_PURE_CHILD = 0)
    (h0 : ensureDefaults n env s = .ok s1)
    (hp : preloadShortCut env s1 = false)
    (hrec : mapFind s1.m_pendingMaterialLoads (UnifyName env N) = none)
    (hf : fileFound env (materialFileName (UnifyName env N)))
    (hxml : env.LoadXmlFromFile (materialFileName (UnifyName env N)) = some node)
    (hret : LoadMaterialInternal (n + 1) env s N mk nr lf = .ok (r, s2)) :
    r = some s1.materials.length ∧ FindMaterial env s2 N = some s1.materials.length ∧
      mapFind s2.m_pendingMaterialLoads (UnifyName env N) ≠ none := by
  rw [LoadMaterialInternal_succ, h0] at hret
  dsimp only at hret
  rw [loadAfterInit_owner _ env s1 N mk nr hp hrec,
    loadAsOwner_build _ env _ _ _ mk nr node hf hxml] at hret
  have hi1 := ensureDefaults_initialized n env s s1 h0
  have key : ∀ r3 s3,
      MakeMaterialFromXml n env (ownerState s1 (UnifyName env N)) (UnifyName env N) node false 0
        none lf none = .ok (r3, s3) →
      r3 = some s1.materials.length ∧
        mapFind s3.m_mtlNameMap (UnifyName env N) = some s1.materials.length ∧
        mapFind s3.m_pendingMaterialLoads (UnifyName env N) ≠ none := by
    intro r3 s3 hb
    have hfr := (frames_all env hU hP n).2.2 _ _ _ _ _ _ _ _ _ _
      (by rw [ownerState_initialized]; exact hi1) hb
    have hrec3 : mapFind s3.m_pendingMaterialLoads (UnifyName env N) ≠ none := by
      rw [hfr.records (UnifyName env N) (some s1.events.length)
        (by rw [ownerState_pending, mapFind_cons_self])]
      simp
    cases n with
    | zero => simp [MakeMaterialFromXml] at hb
    | succ k =>
      rw [MakeMaterialFromXml] at hb
      have hid : UnifyName env (UnifyName env N) = UnifyName env N := hU.idem N
      have := makeMaterialBody_registers _ _
        (fun name node prio par t r t2 hi hb2 => by
          have f := (frames_all env hU hP k).2.2 t name node true prio none lf (some par) r t2 hi hb2
          simp only [true_or, if_true] at f
          exact ⟨f, ((grows_all k).2.2 env t name node true prio none lf (some par) r t2 hb2).initialized hi⟩)
        (fun name t r t2 hi hl2 =>
          ⟨((frames_all env hU hP k).1 t name true false lf r t2 hl2).2 hi,
            ((grows_all k).1 env t name true false lf r t2 hl2).2.1⟩)
        env (ownerState s1 (UnifyName env N)) (UnifyName env N) node 0 r3 s3
        (by rw [ownerState_initialized]; exact hi1) hflags
        (by rw [hid, ownerState_pending, mapFind_cons_self]; simp) hb
      rw [hid, ownerState_materials] at this
      exact ⟨this.1, this.2, hrec3⟩
  unfold FindMaterial
  split at hret
  · exact absurd hret (by simp)
  · rename_i m t hb
    obtain ⟨e1, e2, e3⟩ := key _ _ hb
    simp only [Except.ok.injEq] at hret
    have h1 := congrArg Prod.fst hret
    have h2 := congrArg Prod.snd hret
    dsimp only at h1 h2
    rw [finishLoad_fst] at h1
    simp only [Option.isNone_some, Bool.false_and, Bool.false_eq_true, if_false] at h1
    refine ⟨by rw [← h1]; exact e1, ?_, ?_⟩
    · rw [← h2, finishLoad_map]
      split
      · rw [(sameRegistry_SetSketchMode _ _ _).map_eq]
        exact e2
      · exact e2
    · rw [← h2, finishLoad_pending]
      split
      · rw [(sameRegistry_SetSketchMode _ _ _).pending_eq]
        exact e3
      · exact e3
  · rename_i t hb
    obtain ⟨e1, _⟩ := key _ _ hb
    exact absurd e1 (by simp)

/-- A load of a name that has a signaled record and an entry returns the entry and leaves the
state as it is once the defaults are there. -/
theorem cached_load_returns_entry (n : Nat) (env : Env) (s s1 : CMatMan) (N : String)
    (mk nr : Bool) (lf : Nat) (e : EventId) (c : MatId) (r : Option MatId) (s2 : CMatMan)
    (h0 : ensureDefaults n env s = .ok s1)
    (hp : preloadShortCut env s1 = false)
    (hrec : mapFind s1.m_pendingMaterialLoads (UnifyName env N) = some (some e))
    (hset : (s1.event e).m_flag = true)
    (hent : mapFind s1.m_mtlNameMap (UnifyName env N) = some c)
    (hret : LoadMaterialInternal (n + 1) env s N mk nr lf = .ok (r, s2)) :
    r = some c ∧ FindMaterial env s2 N = some c ∧
      mapFind s2.m_pendingMaterialLoads (UnifyName env N) ≠ none := by
  rw [LoadMaterialInternal_succ, h0] at hret
  dsimp only at hret
  rw [loadAfterInit_waiter _ env s1 N mk nr e hp hrec hset, hent] at hret
  simp only [Except.ok.injEq, Prod.mk.injEq] at hret
  obtain ⟨a, b⟩ := hret
  subst b
  exact ⟨a.symm, hent, by rw [hrec]; simp⟩

theorem obtainMaterial_fst (env : Env) (s : CMatMan) (name : String) (f : Nat)
    (ex : Option MatId) : (obtainMaterial env s name f ex).1 = ex.getD s.materials.length := by
  cases ex <;> rfl

theorem obtainMaterial_subMtls (env : Env) (s : CMatMan) (name : String) (f : Nat)
    (ex : Option MatId) :
    ((obtainMaterial env s name f ex).2.mat (ex.getD s.materials.length)).m_subMtls =
      (s.mat (ex.getD s.materials.length)).m_subMtls := by
  cases ex with
  | none =>
    show ((CreateMaterial env s name f).2.mat s.materials.length).m_subMtls =
      (s.mat s.materials.length).m_subMtls
    rw [CreateMaterial_mat_new]
    unfold CMatMan.mat
    rw [List.getD_eq_default _ _ (Nat.le_refl _)]
  | some m =>
    show ((s.SetFlags m (f ||| s.GetFlags m)).mat m).m_subMtls = (s.mat m).m_subMtls
    unfold CMatMan.SetFlags
    by_cases hx : m < s.materials.length
    · rw [mat_updMat_self s _ hx]
    · rw [updMat_out_of_range s _ (Nat.le_of_not_lt hx)]

theorem obtainMaterial_length (env : Env) (s : CMatMan) (name : String) (f : Nat)
    (ex : Option MatId) (hex : ∀ m, ex = some m → m < s.materials.length) :
    ex.getD s.materials.length < (obtainMaterial env s name f ex).2.materials.length := by
  cases ex with
  | none =>
    show s.materials.length < (CreateMaterial env s name f).2.materials.length
    rw [CreateMaterial_length]
    exact Nat.lt_succ_self _
  | some m =>
    show m < (s.SetFlags m (f ||| s.GetFlags m)).materials.length
    unfold CMatMan.SetFlags
    rw [updMat_length]
    exact hex m rfl

/-- The relation between the states of the sub-materials loop that the slot theorem uses: a
name map without pure children stays so, and an initialised manager stays initialised and
keeps the entries of the names that have a record. -/
theorem slot_relation_steps (n : Nat) (env : Env) (lf : Nat) (x : MatId)
    (hU : UnifyLaws env) (hL : FlagLaws env) (hP : env.MTL_FLAG_PURE_CHILD ≠ 0) :
    (∀ name node prio par u r u2,
      MakeMaterialFromXml n env u name node true prio none lf (some par) = .ok (r, u2) →
      ((NoPureChildRegistered env u → NoPureChildRegistered env u2) ∧
        (u.m_bInitialized = true → u2.m_bInitialized = true ∧ Frames none u u2)) ∧
      Keeps none u u2) ∧
    (∀ name u r u2, LoadMaterialInternal n env u name true false lf = .ok (r, u2) →
      ((NoPureChildRegistered env u → NoPureChildRegistered env u2) ∧
        (u.m_bInitialized = true → u2.m_bInitialized = true ∧ Frames none u u2)) ∧
      Keeps none u u2) ∧
    (∀ (u : CMatMan) (i : Nat) (c : Option MatId),
      (NoPureChildRegistered env u → NoPureChildRegistered env (u.SetSubMtl x i c)) ∧
        (u.m_bInitialized = true →
          (u.SetSubMtl x i c).m_bInitialized = true ∧ Frames none u (u.SetSubMtl x i c))) := by
  refine ⟨fun name node prio par u r u2 h => ?_, fun name u r u2 h => ?_, fun u i c => ?_⟩
  · refine ⟨⟨fun hn => (closed_all env _ _ (npc_closed env hL) (Or.inl rfl) (Or.inl rfl) n).2.2
        u name node true prio none lf (some par) r u2 (Or.inl rfl) hn h, fun hi => ?_⟩,
      (keeps_all env n).2 u name node true prio lf (some par) r u2 h⟩
    have f := (frames_all env hU hP n).2.2 u name node true prio none lf (some par) r u2 hi h
    simp only [true_or, if_true] at f
    exact ⟨((grows_all n).2.2 env u name node true prio none lf (some par) r u2 h).initialized hi,
      f⟩
  · exact ⟨⟨fun hn => (closed_all env _ _ (npc_closed env hL) (Or.inl rfl) (Or.inl rfl) n).1
        u name true false lf r u2 hn h, fun hi =>
        ⟨((grows_all n).1 env u name true false lf r u2 h).2.1,
          ((frames_all env hU hP n).1 u name true false lf r u2 h).2 hi⟩⟩,
      (keeps_all env n).1 u name true false lf r u2 h⟩
  · exact ⟨fun hn => npc_updMat env u x _ (fun _ => rfl) hn, fun hi =>
      ⟨by rw [(sameRegistry_SetSubMtl u x i c).initialized_eq]; exact hi,
        (sameRegistry_SetSubMtl u x i c).frames none⟩⟩

theorem loadSubMaterials_returns
    (build : String → XmlNode → Nat → MatId → CMatMan → Except Fault (Option MatId × CMatMan))
    (load : String → CMatMan → Except Fault (Option MatId × CMatMan))
    (x k : Nat) (children : List XmlNode)
    (h : ∀ c, c ∈ children →
      (c.isTag "Material" = true → ∀ name prio par u, ∃ r u2,
        build name c prio par u = .ok (r, u2)) ∧
      (c.isTag "Material" = false → c.getAttr "Name" = "")) :
    ∀ i u, ∃ t, loadSubMaterials build load x k children i u = .ok t := by
  induction children with
  | nil => intro i u; exact ⟨u, rfl⟩
  | cons c rest ih =>
    intro i u
    have ih2 := ih (fun d hd => h d (List.mem_cons_of_mem _ hd))
    obtain ⟨h1, h2⟩ := h c (List.mem_cons_self _ _)
    rw [loadSubMaterials]
    by_cases ht : c.isTag "Material" = true
    · rw [if_pos ht]
      obtain ⟨r, u2, hb⟩ := h1 ht (c.getAttr "Name") ((k - i - 1) % 65536) x u
      rw [hb]
      cases r with
      | some m => exact ih2 _ _
      | none => exact ih2 _ _
    · rw [if_neg ht]
      have hn : c.getAttr "Name" = "" := h2 (by simpa using ht)
      rw [if_neg (by rw [hn]; simp)]
      exact ih2 _ _

/-- A build from a descriptor that has inline children and references without a name only
returns a material when the fuel covers the nesting. -/
theorem inline_build_returns (env : Env) (n : Nat) :
    ∀ node, InlineOnly n node → ∀ s name force prio ex lf par,
      ∃ t, MakeMaterialFromXml n env s name node force prio ex lf par =
        .ok (some (ex.getD s.materials.length), t) := by
  induction n with
  | zero => intro node h; exact absurd h (by simp [InlineOnly])
  | succ n ih =>
    intro node h s name force prio ex lf par
    have key : ∃ r t, MakeMaterialFromXml (n + 1) env s name node force prio ex lf par =
        .ok (r, t) := by
      rw [MakeMaterialFromXml]
      unfold makeMaterialBody
      dsimp only
      unfold loadSubMaterialsNode
      cases hsub : node.findChild "SubMaterials" with
      | none => exact ⟨_, _, rfl⟩
      | some subs =>
        dsimp only
        obtain ⟨t, ht⟩ := loadSubMaterials_returns
          (fun name child prio parent t =>
            MakeMaterialFromXml n env t name child true prio none lf (some parent))
          (fun name t => LoadMaterialInternal n env t name true false lf)
          (obtainMaterial env s name (mtlFlagsFromXml env node force) ex).1
          subs.children.length subs.children
          (fun c hc => ⟨fun htag name prio par u => by
              obtain ⟨t, ht⟩ := ih c ((h subs hsub c hc).1 htag) u name true prio none lf (some par)
              exact ⟨_, t, ht⟩,
            (h subs hsub c hc).2⟩)
          0 ((loadMaterialBody env (obtainMaterial env s name (mtlFlagsFromXml env node force) ex).2
            (obtainMaterial env s name (mtlFlagsFromXml env node force) ex).1 name node
            (mtlFlagsFromXml env node force) prio).SetSubMtlCount
              (obtainMaterial env s name (mtlFlagsFromXml env node force) ex).1
              subs.children.length)
        rw [ht]
        exact ⟨_, _, rfl⟩
    obtain ⟨r, t, hrt⟩ := key
    have hr := MakeMaterialFromXml_result (n + 1) env s name node force prio ex lf par r t hrt
    rw [hr] at hrt
    exact ⟨t, hrt⟩

theorem new_material_slot_empty (s : CMatMan) (i : Nat) :
    s.GetSubMtl s.materials.length i = none := by
  unfold CMatMan.GetSubMtl CMatMan.mat
  rw [List.getD_eq_default _ _ (Nat.le_refl _)]
  rfl

/-- The counterexample to C20: the material `a` of the examples (object 4) holds its pure child
`x` (object 5) in slot 0; a build into that material from a descriptor whose only sub-material
child is a reference without a name leaves one slot, and slot 0 still holds object 5. -/
theorem empty_reference_keeps_old_slot :
    demoLoaded.GetSubMtl 4 0 = some 5 ∧
    (MakeMaterialFromXml 3 demoEnv demoLoaded "a" reloadDesc false 0 (some 4) 0 none).map
      (fun r => (r.1, r.2.GetSubMtlCount 4, r.2.GetSubMtl 4 0)) = .ok (some 4, 1, some 5) := by
  constructor <;> decide!

/-- The amended C20: a build from a descriptor with a `SubMaterials` node returns a material
when the descriptor has inline children and references without a name only and the fuel covers
the nesting; and whenever the build returns, the
material has as many slots as the node has children, and for each child `i`, handled in the
state that the children before it leave: an inline child (tag `Material`) is built as a forced
pure child, the new object fills slot `i`, carries the pure-child flag and is no value of the
name map; a reference with a name is loaded with `bMakeIfNotFound` and without
`bNonremovable`, and a material that the load returns fills slot `i`; when that load builds the
material from its file as the owner, or finds it registered, the object is the one that
`FindMaterial` gives for the name after the load and after the build; a reference without a
name, or a load that returns null, leaves slot `i` as it was before the build, which is empty
for a new material.  Assumed of the parts that are not in the sources: the laws of
`UnifyMaterialName` and of the flag constants. -/
theorem build_fills_one_slot_per_child (n : Nat) (env : Env) (s : CMatMan) (name : String)
    (node subs : XmlNode) (force : Bool) (prio : Nat) (ex : Option MatId) (lf : Nat)
    (par : Option MatId)
    (hU : UnifyLaws env) (hL : FlagLaws env) (hP : env.MTL_FLAG_PURE_CHILD ≠ 0)
    (hN : NoPureChildRegistered env s) (hc : ex = none ∨ force = false)
    (hex : ∀ m, ex = some m → m < s.materials.length)
    (hsub : node.findChild "SubMaterials" = some subs) :
    (InlineOnly (n + 1) node →
      ∃ t, MakeMaterialFromXml (n + 1) env s name node force prio ex lf par =
        .ok (some (ex.getD s.materials.length), t)) ∧
    ∀ r t, MakeMaterialFromXml (n + 1) env s name node force prio ex lf par = .ok (r, t) →
    r = some (ex.getD s.materials.length) ∧
    t.GetSubMtlCount (ex.getD s.materials.length) = subs.children.length ∧
    ∀ i child, subs.children[i]? = some child →
      ∃ si, stateBeforeChild n env s name node force prio ex lf subs i = .ok si ∧
        (child.isTag "Material" = true →
          ∃ si2, MakeMaterialFromXml n env si (child.getAttr "Name") child true
              ((subs.children.length - i - 1) % 65536) none lf
              (some (ex.getD s.materials.length)) = .ok (some si.materials.length, si2) ∧
            t.GetSubMtl (ex.getD s.materials.length) i = some si.materials.length ∧
            t.GetFlags si.materials.length &&& env.MTL_FLAG_PURE_CHILD ≠ 0 ∧
            ∀ key, mapFind t.m_mtlNameMap key ≠ some si.materials.length) ∧
        (child.isTag "Material" = false → child.getAttr "Name" ≠ "" →
          ∃ rr si2,
            LoadMaterialInternal n env si (child.getAttr "Name") true false lf = .ok (rr, si2) ∧
            (∀ c, rr = some c → t.GetSubMtl (ex.getD s.materials.length) i = some c) ∧
            (rr = none → t.GetSubMtl (ex.getD s.materials.length) i =
              s.GetSubMtl (ex.getD s.materials.length) i) ∧
            (∀ m s1, n = m + 1 → ensureDefaults m env si = .ok s1 →
              preloadShortCut env s1 = false →
              ((∃ doc, mapFind s1.m_pendingMaterialLoads (UnifyName env (child.getAttr "Name"))
                    = none ∧
                  fileFound env (materialFileName (UnifyName env (child.getAttr "Name"))) ∧
                  env.LoadXmlFromFile (materialFileName (UnifyName env (child.getAttr "Name")))
                    = some doc) ∨
                (∃ e c, mapFind s1.m_pendingMaterialLoads (UnifyName env (child.getAttr "Name"))
                    = some (some e) ∧ (s1.event e).m_flag = true ∧
                  mapFind s1.m_mtlNameMap (UnifyName env (child.getAttr "Name")) = some c)) →
              rr ≠ none ∧ FindMaterial env si2 (child.getAttr "Name") = rr ∧
                FindMaterial env t (child.getAttr "Name") = rr)) ∧
        (child.isTag "Material" = false → child.getAttr "Name" = "" →
          t.GetSubMtl (ex.getD s.materials.length) i =
            s.GetSubMtl (ex.getD s.materials.length) i) ∧
        (ex = none → s.GetSubMtl (ex.getD s.materials.length) i = none) := by
  refine ⟨fun hio => inline_build_returns env (n + 1) node hio s name force prio ex lf par,
    fun r t h => ?_⟩
  have hr := MakeMaterialFromXml_result (n + 1) env s name node force prio ex lf par r t h
  refine ⟨hr, ?_⟩
  rw [MakeMaterialFromXml] at h
  unfold makeMaterialBody at h
  dsimp only at h
  unfold loadSubMaterialsNode at h
  rw [hsub] at h
  dsimp only at h
  unfold stateBeforeChild
  dsimp only
  have hnpc1 := npc_body env hL s name node force prio ex hc hN
  have hsub1 := (loadMaterialBody_subMtls env
    (obtainMaterial env s name (mtlFlagsFromXml env node force) ex).2
    (obtainMaterial env s name (mtlFlagsFromXml env node force) ex).1 name node
    (mtlFlagsFromXml env node force) prio)
  rw [obtainMaterial_fst] at h hnpc1 hsub1
  rw [obtainMaterial_fst]
  rw [obtainMaterial_subMtls] at hsub1
  have hlen1 : ex.getD s.materials.length <
      (loadMaterialBody env (obtainMaterial env s name (mtlFlagsFromXml env node force) ex).2
        (ex.getD s.materials.length) name node (mtlFlagsFromXml env node force)
        prio).materials.length := by
    rw [hsub1.2]
    exact obtainMaterial_length env s name _ ex hex
  generalize loadMaterialBody env (obtainMaterial env s name (mtlFlagsFromXml env node force) ex).2
    (ex.getD s.materials.length) name node (mtlFlagsFromXml env node force) prio = s1
    at h hnpc1 hsub1 hlen1 ⊢
  have hold : ∀ i, s.GetSubMtl (ex.getD s.materials.length) i = none ∨ ex ≠ none := by
    intro i
    cases ex with
    | none => exact Or.inl (new_material_slot_empty s i)
    | some m => right; simp
  generalize ex.getD s.materials.length = x at h hnpc1 hsub1 hlen1 hold ⊢
  obtain ⟨hsubs, _⟩ := hsub1
  cases hloop : loadSubMaterials
      (fun name child prio parent t =>
        MakeMaterialFromXml n env t name child true prio none lf (some parent))
      (fun name t => LoadMaterialInternal n env t name true false lf)
      x subs.children.length subs.children 0 (s1.SetSubMtlCount x subs.children.length) with
  | error e => rw [hloop] at h; cases h
  | ok s2 =>
    rw [hloop] at h
    simp only [Except.ok.injEq, Prod.mk.injEq] at h
    obtain ⟨_, ht⟩ := h
    have htm : t.materials = s2.materials := by
      rw [← ht]; exact (NotifyCreateMaterial_sameTables s2 x).2.2
    have htmap : t.m_mtlNameMap = s2.m_mtlNameMap := by
      rw [← ht]; exact (NotifyCreateMaterial_sameTables s2 x).1
    have hx0 : x < (s1.SetSubMtlCount x subs.children.length).materials.length := by
      unfold CMatMan.SetSubMtlCount
      rw [updMat_length]
      exact hlen1
    have hs0 : ((s1.SetSubMtlCount x subs.children.length).mat x).m_subMtls =
        listResize (s.mat x).m_subMtls subs.children.length := by
      unfold CMatMan.SetSubMtlCount
      rw [mat_updMat_self s1 _ hlen1, hsubs]
    have hnpc0 : NoPureChildRegistered env (s1.SetSubMtlCount x subs.children.length) :=
      npc_updMat env s1 x _ (fun _ => rfl) hnpc1
    obtain ⟨hB, hLd, hS⟩ := slot_relation_steps n env lf x hU hL hP
    have hrefl : ∀ u : CMatMan, (NoPureChildRegistered env u → NoPureChildRegistered env u) ∧
        (u.m_bInitialized = true → u.m_bInitialized = true ∧ Frames none u u) :=
      fun u => ⟨id, fun hi => ⟨hi, Frames.of_same_tables none rfl rfl⟩⟩
    have htrans : ∀ a b c : CMatMan,
        ((NoPureChildRegistered env a → NoPureChildRegistered env b) ∧
          (a.m_bInitialized = true → b.m_bInitialized = true ∧ Frames none a b)) →
        ((NoPureChildRegistered env b → NoPureChildRegistered env c) ∧
          (b.m_bInitialized = true → c.m_bInitialized = true ∧ Frames none b c)) →
        ((NoPureChildRegistered env a → NoPureChildRegistered env c) ∧
          (a.m_bInitialized = true → c.m_bInitialized = true ∧ Frames none a c)) :=
      fun a b c h1 h2 => ⟨fun hn => h2.1 (h1.1 hn), fun hi =>
        ⟨(h2.2 (h1.2 hi).1).1, (h1.2 hi).2.frames_trans (h2.2 (h1.2 hi).1).2⟩⟩
    obtain ⟨_, _, lT, _, cT⟩ := loadSubMaterials_children _ _ x subs.children.length
      (fun a b : CMatMan => (NoPureChildRegistered env a → NoPureChildRegistered env b) ∧
        (a.m_bInitialized = true → b.m_bInitialized = true ∧ Frames none a b))
      hrefl
      (fun name node prio par u r u2 hb => hB name node prio par u r u2 hb)
      (fun name u r u2 hl => hLd name u r u2 hl)
      hS htrans subs.children 0 _ s2 hx0
      (by rw [hs0, listResize_length]; omega) hloop
    refine ⟨?_, fun i child hi => ?_⟩
    · unfold CMatMan.GetSubMtlCount
      rw [mat_congr htm, lT, hs0, listResize_length]
    · obtain ⟨si, u1, a1, a2, a3, a4, a5, a6, a7, a8, a9⟩ := cT i child hi
      simp only [Nat.zero_add] at a5 a6 a9
      have hik : i < subs.children.length := by
        by_contra hcon
        rw [List.getElem?_eq_none (Nat.le_of_not_lt hcon)] at hi
        cases hi
      have hxsi : x < si.materials.length := Nat.lt_of_lt_of_le hx0 a3.length
      have hisi : i < (si.mat x).m_subMtls.length := by
        rw [a4, hs0, listResize_length]; exact hik
      obtain ⟨_, _, _, _, b1, b2, b3⟩ := loadSubMaterial_spec _ _ x subs.children.length
        (fun a b : CMatMan => (NoPureChildRegistered env a → NoPureChildRegistered env b) ∧
          (a.m_bInitialized = true → b.m_bInitialized = true ∧ Frames none a b))
        hrefl
        (fun name node prio par u r u2 hb => hB name node prio par u r u2 hb)
        (fun name u r u2 hl => hLd name u r u2 hl)
        hS htrans child i si u1 hxsi hisi a6
      have hts : t.GetSubMtl x i = u1.GetSubMtl x i := by
        rw [← a9]
        unfold CMatMan.GetSubMtl
        rw [mat_congr htm]
      have hs0i : (s1.SetSubMtlCount x subs.children.length).GetSubMtl x i =
          s.GetSubMtl x i := by
        unfold CMatMan.GetSubMtl
        rw [hs0]
        exact listResize_getD _ _ _ hik
      have hnsi : NoPureChildRegistered env si := a2.1 hnpc0
      refine ⟨si, a1, fun htag => ?_, fun htag hname => ?_, fun htag hname => ?_, fun hex0 => ?_⟩
      · obtain ⟨r1, si2, hb1, rr1, kk1, sl1⟩ := b1 htag
        obtain ⟨e1, e2, e3⟩ := forced_build_pure_child n env si _ child _ lf (some x) r1 si2 hP hb1
        subst e1
        have hne : some x ≠ some si.materials.length := by
          intro hh
          injection hh with hh
          rw [hh] at hxsi
          exact absurd hxsi (Nat.lt_irrefl _)
        have hobj : s2.mat si.materials.length = si2.mat si.materials.length :=
          (kk1.keeps_trans a8).objects _ e2 hne
        have hflag : t.GetFlags si.materials.length &&& env.MTL_FLAG_PURE_CHILD ≠ 0 := by
          unfold CMatMan.GetFlags
          rw [mat_congr htm, hobj]
          exact e3
        refine ⟨si2, hb1, by rw [hts]; exact sl1, hflag, fun key hk => ?_⟩
        have hn2 : NoPureChildRegistered env s2 :=
          a7.1 (rr1.1 ((hB _ _ _ _ _ _ _ hb1).1.1 hnsi))
        rw [htmap] at hk
        have := (hn2 key _ hk).2
        unfold CMatMan.GetFlags at hflag
        rw [mat_congr htm] at hflag
        exact hflag this
      · obtain ⟨rr, si2, hl1, rr1, kk1, sl1⟩ := b2 htag hname
        refine ⟨rr, si2, hl1, fun c hc => ?_, fun hnone => ?_, fun m s1b hm h0 hp hcase => ?_⟩
        · subst hc
          rw [hts]
          exact sl1
        · subst hnone
          rw [hts, sl1, a5]
          exact hs0i
        · subst hm
          have hinit : si2.m_bInitialized = true :=
            ((grows_all (m + 1)).1 env si _ true false lf rr si2 hl1).2.1
          have hfr : Frames none si2 s2 :=
            (rr1.2 hinit).2.frames_trans (a7.2 (rr1.2 hinit).1).2
          have hfin : ∀ c, rr = some c → FindMaterial env si2 (child.getAttr "Name") = some c →
              mapFind si2.m_pendingMaterialLoads (UnifyName env (child.getAttr "Name")) ≠ none →
              rr ≠ none ∧ FindMaterial env si2 (child.getAttr "Name") = rr ∧
                FindMaterial env t (child.getAttr "Name") = rr := by
            intro c hc hfind hrecd
            refine ⟨by rw [hc]; simp, by rw [hc]; exact hfind, ?_⟩
            unfold FindMaterial
            rw [htmap, hfr.recorded _ (by simp) hrecd, hc]
            exact hfind
          rcases hcase with ⟨doc, hrec, hf, hxml⟩ | ⟨e, c, hrec, hset, hent⟩
          · obtain ⟨e1, e2, e3⟩ := owner_load_registers m env si s1b _ true false lf doc rr si2
              hU hP (mtlFlagsFromXml_unforced env hL doc) h0 hp hrec hf hxml hl1
            exact hfin _ e1 e2 e3
          · obtain ⟨e1, e2, e3⟩ := cached_load_returns_entry m env si s1b _ true false lf e c rr
              si2 h0 hp hrec hset hent hl1
            exact hfin _ e1 e2 e3
      · have := b3 htag hname
        rw [hts, this, a5]
        exact hs0i
      · rcases hold i with h1 | h1
        · exact h1
        · exact absurd hex0 h1

theorem npc_demoLoaded : NoPureChildRegistered demoEnv demoLoaded :=
  (closed_all demoEnv _ _ (npc_closed demoEnv ⟨by decide!, by decide!, by decide!⟩)
    (Or.inl rfl) (Or.inl rfl) 4).1 CMatMan.new "a.mtl" false false 0 (some 4) demoLoaded
    (fun k m hk => by cases hk) (by decide!)

/-- The amended C20 on the manager of the examples after the load of `a.mtl`: the build of a
new material `b` from the document of `a` returns object 7 with two slots. -/
theorem build_fills_one_slot_per_child_witness :
    ∃ r t,
      MakeMaterialFromXml (2 + 1) demoEnv demoLoaded "b" demoDocument false 0 none 0 none =
        .ok (r, t) ∧
      (t.GetSubMtl 7 0 = some 8 ∧ t.GetSubMtl 7 1 = some 6) ∧
      r = some ((none : Option MatId).getD demoLoaded.materials.length) ∧
      t.GetSubMtlCount ((none : Option MatId).getD demoLoaded.materials.length) =
        (XmlNode.mk "SubMaterials" []
          [.mk "Material" [("Name", "x"), ("Shader", "Illum")] [],
           .mk "MaterialRef" [("Name", "q")] []]).children.length ∧
      ∀ i child, (XmlNode.mk "SubMaterials" []
          [.mk "Material" [("Name", "x"), ("Shader", "Illum")] [],
           .mk "MaterialRef" [("Name", "q")] []]).children[i]? = some child →
        ∃ si, stateBeforeChild 2 demoEnv demoLoaded "b" demoDocument false 0 none 0
            (XmlNode.mk "SubMaterials" []
              [.mk "Material" [("Name", "x"), ("Shader", "Illum")] [],
               .mk "MaterialRef" [("Name", "q")] []]) i = .ok si ∧
          (child.isTag "Material" = true →
            ∃ si2, MakeMaterialFromXml 2 demoEnv si (child.getAttr "Name") child true
                (((XmlNode.mk "SubMaterials" []
                  [.mk "Material" [("Name", "x"), ("Shader", "Illum")] [],
                   .mk "MaterialRef" [("Name", "q")] []]).children.length - i - 1) % 65536)
                none 0 (some ((none : Option MatId).getD demoLoaded.materials.length)) =
                  .ok (some si.materials.length, si2) ∧
              t.GetSubMtl ((none : Option MatId).getD demoLoaded.materials.length) i =
                some si.materials.length ∧
              t.GetFlags si.materials.length &&& demoEnv.MTL_FLAG_PURE_CHILD ≠ 0 ∧
              ∀ key, mapFind t.m_mtlNameMap key ≠ some si.materials.length) ∧
          (child.isTag "Material" = false → child.getAttr "Name" ≠ "" →
            ∃ rr si2,
              LoadMaterialInternal 2 demoEnv si (child.getAttr "Name") true false 0 =
                .ok (rr, si2) ∧
              (∀ c, rr = some c →
                t.GetSubMtl ((none : Option MatId).getD demoLoaded.materials.length) i = some c) ∧
              (rr = none →
                t.GetSubMtl ((none : Option MatId).getD demoLoaded.materials.length) i =
                  demoLoaded.GetSubMtl ((none : Option MatId).getD demoLoaded.materials.length) i) ∧
              (∀ m s1, 2 = m + 1 → ensureDefaults m demoEnv si = .ok s1 →
                preloadShortCut demoEnv s1 = false →
                ((∃ doc,
                    mapFind s1.m_pendingMaterialLoads (UnifyName demoEnv (child.getAttr "Name"))
                      = none ∧
                    fileFound demoEnv
                      (materialFileName (UnifyName demoEnv (child.getAttr "Name"))) ∧
                    demoEnv.LoadXmlFromFile
                      (materialFileName (UnifyName demoEnv (child.getAttr "Name"))) = some doc) ∨
                  (∃ e c,
                    mapFind s1.m_pendingMaterialLoads (UnifyName demoEnv (child.getAttr "Name"))
                      = some (some e) ∧ (s1.event e).m_flag = true ∧
                    mapFind s1.m_mtlNameMap (UnifyName demoEnv (child.getAttr "Name"))
                      = some c)) →
                rr ≠ none ∧ FindMaterial demoEnv si2 (child.getAttr "Name") = rr ∧
                  FindMaterial demoEnv t (child.getAttr "Name") = rr)) ∧
          (child.isTag "Material" = false → child.getAttr "Name" = "" →
            t.GetSubMtl ((none : Option MatId).getD demoLoaded.materials.length) i =
              demoLoaded.GetSubMtl ((none : Option MatId).getD demoLoaded.materials.length) i) ∧
          ((none : Option MatId) = none →
            demoLoaded.GetSubMtl ((none : Option MatId).getD demoLoaded.materials.length) i =
              none) := by
  have hr : (MakeMaterialFromXml (2 + 1) demoEnv demoLoaded "b" demoDocument false 0 none 0
      none).map (fun r => (r.1, r.2.GetSubMtl 7 0, r.2.GetSubMtl 7 1)) =
      .ok (some 7, some 8, some 6) := by decide!
  cases h : MakeMaterialFromXml (2 + 1) demoEnv demoLoaded "b" demoDocument false 0 none 0
      none with
  | error e =>
    rw [h] at hr
    exact absurd hr (by simp [Except.map])
  | ok p =>
    rw [h] at hr
    simp only [Except.map, Except.ok.injEq, Prod.mk.injEq] at hr
    exact ⟨p.1, p.2, rfl, ⟨hr.2.1, hr.2.2⟩,
      (build_fills_one_slot_per_child 2 demoEnv demoLoaded "b" demoDocument
        (XmlNode.mk "SubMaterials" []
          [.mk "Material" [("Name", "x"), ("Shader", "Illum")] [],
           .mk "MaterialRef" [("Name", "q")] []])
        false 0 none 0 none demoEnv_laws ⟨by decide!, by decide!, by decide!⟩
        (by decide!) npc_demoLoaded (Or.inl rfl) (fun m hm => by cases hm) (by decide!)).2
        p.1 p.2 h⟩

/-! ## C19: what the builder leaves in the material, and what the writer makes of it -/

theorem proj_updMat {α : Type} (π : CMatInfo → α) (s : CMatMan) (x : MatId)
    (f : CMatInfo → CMatInfo) (h : ∀ c, π (f c) = π c) (m : MatId) :
    π ((s.updMat x f).mat m) = π (s.mat m) := by
  by_cases hm : m = x
  · subst hm
    by_cases hx : m < s.materials.length
    · rw [mat_updMat_self s f hx]
      exact h _
    · rw [updMat_out_of_range s f (Nat.le_of_not_lt hx)]
  · rw [mat_updMat_ne s f hm]

theorem proj_SetFlags {α : Type} (π : CMatInfo → α)
    (h : ∀ (c : CMatInfo) v, π { c with m_Flags := v } = π c)
    (s : CMatMan) (x : MatId) (v : Nat) (m : MatId) :
    π ((s.SetFlags x v).mat m) = π (s.mat m) :=
  proj_updMat π s x (fun c => { c with m_Flags := v }) (fun c => h c v) m

theorem proj_SetSurfaceType {α : Type} (π : CMatInfo → α)
    (h : ∀ (c : CMatInfo) v, π { c with m_pSurfaceType := v } = π c)
    (env : Env) (s : CMatMan) (x : MatId) (v : String) (m : MatId) :
    π ((CMatMan.SetSurfaceType env s x v).mat m) = π (s.mat m) :=
  proj_updMat π s x (fun c => { c with m_pSurfaceType := env.GetSurfaceTypeByName v })
    (fun c => h c _) m

theorem proj_AssignShaderItem {α : Type} (π : CMatInfo → α)
    (h : ∀ (c : CMatInfo) v, π { c with m_shaderItem := v } = π c)
    (s : CMatMan) (x : MatId) (v : SShaderItem) (m : MatId) :
    π ((s.AssignShaderItem x v).mat m) = π (s.mat m) :=
  proj_updMat π s x (fun c => { c with m_shaderItem := v }) (fun c => h c v) m

theorem proj_SetShaderName {α : Type} (π : CMatInfo → α)
    (h : ∀ (c : CMatInfo) v, π { c with m_sShaderName := v } = π c)
    (s : CMatMan) (x : MatId) (v : String) (m : MatId) :
    π ((s.SetShaderName x v).mat m) = π (s.mat m) :=
  proj_updMat π s x (fun c => { c with m_sShaderName := v }) (fun c => h c v) m

theorem proj_SetMaterialLinkName {α : Type} (π : CMatInfo → α)
    (h : ∀ (c : CMatInfo) v, π { c with m_sMaterialLinkName := v } = π c)
    (s : CMatMan) (x : MatId) (v : String) (m : MatId) :
    π ((s.SetMaterialLinkName x v).mat m) = π (s.mat m) :=
  proj_updMat π s x (fun c => { c with m_sMaterialLinkName := v }) (fun c => h c v) m

theorem proj_SetLayer {α : Type} (π : CMatInfo → α)
    (h : ∀ (c : CMatInfo) v, π { c with m_pMaterialLayers := v } = π c)
    (s : CMatMan) (x : MatId) (slot : Nat) (layer : CMaterialLayer) (m : MatId) :
    π ((s.SetLayer x slot layer).mat m) = π (s.mat m) :=
  proj_updMat π s x
    (fun c => { c with m_pMaterialLayers := listSet c.m_pMaterialLayers slot (some layer) })
    (fun c => h c _) m

theorem proj_SetLayerCount {α : Type} (π : CMatInfo → α)
    (h : ∀ (c : CMatInfo) v, π { c with m_pMaterialLayers := v } = π c)
    (s : CMatMan) (x : MatId) (n : Nat) (m : MatId) :
    π ((s.SetLayerCount x n).mat m) = π (s.mat m) :=
  proj_updMat π s x (fun c => { c with m_pMaterialLayers := listResize c.m_pMaterialLayers n })
    (fun c => h c _) m

theorem proj_setMtlLayerNoDrawFlags {α : Type} (π : CMatInfo → α)
    (h : ∀ (c : CMatInfo) (g : IRenderShaderResources → IRenderShaderResources),
      π { c with m_shaderItem := { c.m_shaderItem with
        m_pShaderResources := c.m_shaderItem.m_pShaderResources.map g } } = π c)
    (s : CMatMan) (x : MatId) (n : Nat) (m : MatId) :
    π ((setMtlLayerNoDrawFlags s x n).mat m) = π (s.mat m) :=
  proj_updMat π s x
    (fun c => { c with m_shaderItem := { c.m_shaderItem with
      m_pShaderResources := c.m_shaderItem.m_pShaderResources.map
        (fun r => { r with mtlLayerNoDrawFlags := n }) } })
    (fun c => h c _) m

theorem LoadMaterialLayerSlot_proj {α : Type} (π : CMatInfo → α)
    (hl : ∀ (c : CMatInfo) v, π { c with m_pMaterialLayers := v } = π c)
    (env : Env) (s : CMatMan) (nSlot : Nat) (pMtl : MatId) (sh : String)
    (base : SInputShaderResources) (pub : Option XmlNode) (fl : Nat) (m : MatId) :
    π ((LoadMaterialLayerSlot env s nSlot pMtl sh base pub fl).2.mat m) = π (s.mat m) := by
  unfold LoadMaterialLayerSlot
  split
  · rfl
  · split
    · rfl
    · split
      · rfl
      · dsimp only
        split
        · rfl
        · split
          · rfl
          · exact proj_SetLayer π hl s pMtl _ _ m

theorem loadLayerNodes_proj {α : Type} (π : CMatInfo → α)
    (hl : ∀ (c : CMatInfo) v, π { c with m_pMaterialLayers := v } = π c)
    (env : Env) (pMtl : MatId) (sr : SInputShaderResources) (nodes : List XmlNode) :
    ∀ (l fl : Nat) (s : CMatMan) (m : MatId),
      π ((loadLayerNodes env pMtl sr nodes l fl s).2.mat m) = π (s.mat m) := by
  induction nodes with
  | nil => intro l fl s m; rfl
  | cons c rest ih =>
    intro l fl s m
    rw [loadLayerNodes, ih]
    exact LoadMaterialLayerSlot_proj π hl env s l pMtl _ sr _ _ m

theorem loadMaterialLayers_proj {α : Type} (π : CMatInfo → α)
    (hl : ∀ (c : CMatInfo) v, π { c with m_pMaterialLayers := v } = π c)
    (hr : ∀ (c : CMatInfo) (g : IRenderShaderResources → IRenderShaderResources),
      π { c with m_shaderItem := { c.m_shaderItem with
        m_pShaderResources := c.m_shaderItem.m_pShaderResources.map g } } = π c)
    (env : Env) (s : CMatMan) (pMtl : MatId) (node : XmlNode) (sr : SInputShaderResources)
    (m : MatId) : π ((loadMaterialLayers env s pMtl node sr).mat m) = π (s.mat m) := by
  unfold loadMaterialLayers
  split
  · split
    · rfl
    · dsimp only
      split
      · rfl
      · rw [proj_setMtlLayerNoDrawFlags π hr, loadLayerNodes_proj π hl]
        exact proj_SetLayerCount π hl s pMtl _ m
  · rfl

theorem loadMaterialLinkName_proj {α : Type} (π : CMatInfo → α)
    (hn : ∀ (c : CMatInfo) v, π { c with m_sMaterialLinkName := v } = π c)
    (s : CMatMan) (pMtl : MatId) (node : XmlNode) (m : MatId) :
    π ((loadMaterialLinkName s pMtl node).mat m) = π (s.mat m) := by
  unfold loadMaterialLinkName
  split
  · exact proj_SetMaterialLinkName π hn s pMtl _ m
  · rfl

theorem LoadMaterialShader_proj {α : Type} (π : CMatInfo → α)
    (h : ∀ (c : CMatInfo) v, π { c with m_shaderItem := v } = π c)
    (env : Env) (s : CMatMan) (x : MatId) (sh : String) (gm : Nat) (sr : SInputShaderResources)
    (pub : Option XmlNode) (m : MatId) :
    π ((LoadMaterialShader env s x sh gm sr pub).2.2.mat m) = π (s.mat m) := by
  unfold LoadMaterialShader
  dsimp only
  split
  · rfl
  · exact proj_AssignShaderItem π h s x _ m

theorem loadMaterialLayers_length (env : Env) (s : CMatMan) (pMtl : MatId) (node : XmlNode)
    (sr : SInputShaderResources) :
    (loadMaterialLayers env s pMtl node sr).materials.length = s.materials.length :=
  (touches_loadMaterialLayers env s pMtl node sr).same.2

/-- The flags that the builder leaves in a material (lines 435-490): the flags of the
descriptor; for a material that is no multi-sub-material the marker of the 64-bit generation
mask is added, and the no-draw flag for the shader `nodraw`. -/
theorem loadMaterialBody_flags (env : Env) (s : CMatMan) (x : MatId) (name : String)
    (node : XmlNode) (f prio : Nat) (hx : x < s.materials.length) :
    ((loadMaterialBody env s x name node f prio).mat x).m_Flags =
      if f &&& env.MTL_FLAG_MULTI_SUBMTL ≠ 0 then (s.mat x).m_Flags
      else
        (if stricmpEq (node.getAttr "Shader") "nodraw" = true then
          (shaderGenMaskFromXml env node (node.getAttr "Shader") f).2 ||| env.MTL_FLAG_NODRAW
        else (shaderGenMaskFromXml env node (node.getAttr "Shader") f).2) |||
          (s.mat x).m_Flags := by
  have e1 : ∀ (a : CMatMan) (F : Nat), x < a.materials.length →
      ((a.SetFlags x F).mat x).m_Flags = F := by
    intro a F ha
    unfold CMatMan.SetFlags
    rw [mat_updMat_self a _ ha]
  have e2 : ((CMatMan.SetSurfaceType env s x (node.getAttr "SurfaceType")).mat x).m_Flags =
      (s.mat x).m_Flags :=
    proj_SetSurfaceType (fun c => c.m_Flags) (fun _ _ => rfl) env s x _ x
  have e3 : x < (CMatMan.SetSurfaceType env s x (node.getAttr "SurfaceType")).materials.length := by
    unfold CMatMan.SetSurfaceType
    rw [updMat_length]
    exact hx
  unfold loadMaterialBody
  dsimp only
  by_cases hm : f &&& env.MTL_FLAG_MULTI_SUBMTL ≠ 0
  · rw [if_pos hm, if_pos hm]
    rw [loadMaterialLayers_proj (fun c => c.m_Flags) (fun _ _ => rfl) (fun _ _ => rfl),
      loadMaterialLinkName_proj (fun c => c.m_Flags) (fun _ _ => rfl)]
  · rw [if_neg hm, if_neg hm]
    generalize (if stricmpEq (node.getAttr "Shader") "nodraw" = true then
        (shaderGenMaskFromXml env node (node.getAttr "Shader") f).2 ||| env.MTL_FLAG_NODRAW
      else (shaderGenMaskFromXml env node (node.getAttr "Shader") f).2) = mtlFlags
    split
    · rw [loadMaterialLayers_proj (fun c => c.m_Flags) (fun _ _ => rfl) (fun _ _ => rfl),
        loadMaterialLinkName_proj (fun c => c.m_Flags) (fun _ _ => rfl), e1 _ _ e3]
      unfold CMatMan.GetFlags
      rw [e2]
    · rw [loadMaterialLayers_proj (fun c => c.m_Flags) (fun _ _ => rfl) (fun _ _ => rfl),
        proj_SetShaderName (fun c => c.m_Flags) (fun _ _ => rfl),
        LoadMaterialShader_proj (fun c => c.m_Flags) (fun _ _ => rfl),
        loadMaterialLinkName_proj (fun c => c.m_Flags) (fun _ _ => rfl), e1 _ _ e3]
      unfold CMatMan.GetFlags
      rw [e2]

theorem GetLayer_SetLayer_self (s : CMatMan) (x : MatId) (l : Nat) (layer : CMaterialLayer)
    (hx : x < s.materials.length) (hl : l < (s.mat x).m_pMaterialLayers.length) :
    (s.SetLayer x l layer).GetLayer x l = some layer := by
  unfold CMatMan.GetLayer CMatMan.SetLayer
  rw [mat_updMat_self s _ hx]
  exact listSet_getD_self _ _ _ hl

theorem GetLayer_SetLayer_ne (s : CMatMan) (x : MatId) {l j : Nat} (layer : CMaterialLayer)
    (h : l ≠ j) : (s.SetLayer x l layer).GetLayer x j = s.GetLayer x j := by
  unfold CMatMan.GetLayer CMatMan.SetLayer
  by_cases hx : x < s.materials.length
  · rw [mat_updMat_self s _ hx]
    exact listSet_getD_ne _ _ _ h
  · rw [updMat_out_of_range s _ (Nat.le_of_not_lt hx)]

theorem SetLayer_count (s : CMatMan) (x : MatId) (l : Nat) (layer : CMaterialLayer) :
    ((s.SetLayer x l layer).mat x).m_pMaterialLayers.length =
      (s.mat x).m_pMaterialLayers.length := by
  unfold CMatMan.SetLayer
  by_cases hx : x < s.materials.length
  · rw [mat_updMat_self s _ hx]
    exact listSet_length _ _ _
  · rw [updMat_out_of_range s _ (Nat.le_of_not_lt hx)]

/-- What `LoadMaterialLayerSlot` does to the layer slots: the slot it is called for, when it
is empty, gets the layer made for the layer node, and every other slot stays. -/
theorem LoadMaterialLayerSlot_slots (env : Env) (s : CMatMan) (l : Nat) (x : MatId)
    (sh : String) (sr : SInputShaderResources) (pub : Option XmlNode) (fl : Nat)
    (hx : x < s.materials.length) (hl : l < (s.mat x).m_pMaterialLayers.length)
    (he : s.GetLayer x l = none) :
    (LoadMaterialLayerSlot env s l x sh sr pub fl).2.GetLayer x l =
      layerFor env (s.GetShaderItem x) sh pub fl ∧
    (∀ j, j ≠ l → (LoadMaterialLayerSlot env s l x sh sr pub fl).2.GetLayer x j =
      s.GetLayer x j) ∧
    ((LoadMaterialLayerSlot env s l x sh sr pub fl).2.mat x).m_pMaterialLayers.length =
      (s.mat x).m_pMaterialLayers.length := by
  unfold LoadMaterialLayerSlot layerFor
  cases pub with
  | none => exact ⟨he, fun _ _ => rfl, rfl⟩
  | some publics =>
    dsimp only
    rw [he]
    simp only [Option.isSome_none, Bool.false_eq_true, if_false]
    by_cases hn : stricmpEq sh "nodraw" = true
    · rw [if_pos hn, if_pos hn]
      exact ⟨he, fun _ _ => rfl, rfl⟩
    · rw [if_neg hn, if_neg hn]
      cases h1 : env.EF_LoadShader sh 0 0 with
      | none => exact ⟨he, fun _ _ => rfl, rfl⟩
      | some pNew =>
        dsimp only
        generalize (s.GetShaderItem x).m_pShaderResources = res
        generalize (s.GetShaderItem x).m_pShader = base
        cases base with
        | none =>
          dsimp only
          cases h2 : env.EF_LoadShader sh 0 (layerGenMask (0 % 2 ^ 32) none pNew.generationParams) with
          | none => exact ⟨he, fun _ _ => rfl, rfl⟩
          | some pShader =>
            dsimp only
            refine ⟨?_, fun j hj => GetLayer_SetLayer_ne s x _ (Ne.symm hj),
              SetLayer_count s x l _⟩
            rw [GetLayer_SetLayer_self s x l _ hx hl]
            rfl
        | some b =>
          dsimp only
          cases h2 : env.EF_LoadShader sh 0
              (layerGenMask (b.generationMask % 2 ^ 32) b.generationParams
                pNew.generationParams) with
          | none => exact ⟨he, fun _ _ => rfl, rfl⟩
          | some pShader =>
            dsimp only
            refine ⟨?_, fun j hj => GetLayer_SetLayer_ne s x _ (Ne.symm hj),
              SetLayer_count s x l _⟩
            rw [GetLayer_SetLayer_self s x l _ hx hl]
            rfl

theorem LoadMaterialLayerSlot_length (env : Env) (s : CMatMan) (l : Nat) (x : MatId)
    (sh : String) (sr : SInputShaderResources) (pub : Option XmlNode) (fl : Nat) :
    (LoadMaterialLayerSlot env s l x sh sr pub fl).2.materials.length = s.materials.length :=
  (touches_LoadMaterialLayerSlot env s l x sh sr pub fl).same.2

/-- The loop over the layer nodes, slot by slot: the slots before the first one stay, and the
slot of each layer node, when it was empty, gets the layer made for that node. -/
theorem loadLayerNodes_slots (env : Env) (x : MatId) (sr : SInputShaderResources)
    (nodes : List XmlNode) :
    ∀ (l fl : Nat) (s : CMatMan), x < s.materials.length →
      l + nodes.length ≤ (s.mat x).m_pMaterialLayers.length →
      (∀ j, l ≤ j → s.GetLayer x j = none) →
      ((loadLayerNodes env x sr nodes l fl s).2.mat x).m_pMaterialLayers.length =
        (s.mat x).m_pMaterialLayers.length ∧
      (∀ j, j < l → (loadLayerNodes env x sr nodes l fl s).2.GetLayer x j = s.GetLayer x j) ∧
      (∀ j, l + nodes.length ≤ j → (loadLayerNodes env x sr nodes l fl s).2.GetLayer x j = none) ∧
      ∀ j child, nodes[j]? = some child →
        (loadLayerNodes env x sr nodes l fl s).2.GetLayer x (l + j) =
          layerFor env (s.GetShaderItem x) (child.getAttr "Name")
            (child.findChild "PublicParams") (layerNodeFlags env child).1 := by
  induction nodes with
  | nil =>
    intro l fl s _ _ he
    exact ⟨rfl, fun _ _ => rfl, fun j hj => he j (by simpa using hj), fun j child hj => by
      simp at hj⟩
  | cons c rest ih =>
    intro l fl s hx hlen he
    have hlen2 : l + (rest.length + 1) ≤ (s.mat x).m_pMaterialLayers.length := hlen
    rw [loadLayerNodes]
    obtain ⟨a1, a2, a3⟩ := LoadMaterialLayerSlot_slots env s l x (c.getAttr "Name") sr
      (c.findChild "PublicParams") (layerNodeFlags env c).1 hx (by omega) (he l (Nat.le_refl _))
    generalize hu : (LoadMaterialLayerSlot env s l x (c.getAttr "Name") sr
      (c.findChild "PublicParams") (layerNodeFlags env c).1).2 = u at a1 a2 a3
    have hxu : x < u.materials.length := by
      rw [← hu, LoadMaterialLayerSlot_length]; exact hx
    have hsi : u.GetShaderItem x = s.GetShaderItem x := by
      rw [← hu]
      exact LoadMaterialLayerSlot_proj (fun c => c.m_shaderItem) (fun _ _ => rfl) env s l x _ sr
        _ _ x
    obtain ⟨b1, b2, b3, b4⟩ := ih (l + 1)
      (if (layerNodeFlags env c).2 = true then (fl ||| env.MTL_LAYER_FROZEN) % 256 else fl) u hxu
      (by rw [a3]; omega) (fun j hj => by rw [a2 j (by omega)]; exact he j (by omega))
    refine ⟨b1.trans a3, fun j hj => ?_, fun j hj => ?_, fun j child hj => ?_⟩
    · exact (b2 j (by omega)).trans (a2 j (by omega))
    · exact b3 j (by simp at hj; omega)
    · cases j with
      | zero =>
        have hc : c = child := by simpa using hj
        subst hc
        exact (b2 l (by omega)).trans a1
      | succ j =>
        have hj2 : rest[j]? = some child := by simpa using hj
        have e : l + (j + 1) = l + 1 + j := by omega
        have := b4 j child hj2
        rw [hsi] at this
        rw [e]
        exact this

theorem layerFor_sound (env : Env) (base : SShaderItem) (N : String) (pub : Option XmlNode)
    (fl : Nat) (layer : CMaterialLayer) (h : layerFor env base N pub fl = some layer) :
    pub ≠ none ∧ stricmpEq N "nodraw" = false ∧ layer.m_nFlags = fl ∧
      ∃ mask sh, env.EF_LoadShader N 0 mask = some sh ∧
        layer.m_pShaderItem.m_pShader = some sh := by
  unfold layerFor at h
  cases pub with
  | none => cases h
  | some publics =>
    dsimp only at h
    by_cases hn : stricmpEq N "nodraw" = true
    · rw [if_pos hn] at h
      cases h
    · rw [if_neg hn] at h
      split at h
      · cases h
      · split at h
        · cases h
        · rename_i pShader h2
          injection h with h
          subst h
          exact ⟨by simp, by simpa using hn, rfl, _, pShader, h2, rfl⟩

theorem layerFor_complete (env : Env) (base : SShaderItem) (N : String) (publics : XmlNode)
    (fl : Nat) (hn : stricmpEq N "nodraw" = false)
    (hr : ∀ mask, ∃ sh, env.EF_LoadShader N 0 mask = some sh) :
    ∃ layer, layerFor env base N (some publics) fl = some layer := by
  unfold layerFor
  dsimp only
  rw [hn]
  simp only [Bool.false_eq_true, if_false]
  obtain ⟨p0, h0⟩ := hr 0
  rw [h0]
  dsimp only
  obtain ⟨p1, h1⟩ := hr (layerGenMask
    ((match base.m_pShader with
      | some sh => sh.generationMask
      | none => 0) % 2 ^ 32)
    (match base.m_pShader with
      | some sh => sh.generationParams
      | none => none)
    p0.generationParams)
  rw [h1]
  exact ⟨_, rfl⟩

/-- The layers that the layers part of the builder leaves in a material that had none: the
layers made for the layer nodes of the descriptor, slot by slot, below the number of slots. -/
theorem loadMaterialLayers_slots (env : Env) (s : CMatMan) (x : MatId) (node : XmlNode)
    (sr : SInputShaderResources) (hx : x < s.materials.length)
    (h0 : (s.mat x).m_pMaterialLayers = []) :
    (∀ l, (loadMaterialLayers env s x node sr).GetLayer x l ≠ none →
      ∃ L child, node.findChild "MaterialLayers" = some L ∧ l < env.MTL_LAYER_MAX_SLOTS ∧
        L.children[l]? = some child) ∧
    (∀ L l child, node.findChild "MaterialLayers" = some L → L.children[l]? = some child →
      l < env.MTL_LAYER_MAX_SLOTS →
      (s.GetShaderItem x).m_pShader ≠ none → (s.GetShaderItem x).m_pShaderResources ≠ none →
      (loadMaterialLayers env s x node sr).GetLayer x l =
        layerFor env (s.GetShaderItem x) (child.getAttr "Name")
          (child.findChild "PublicParams") (layerNodeFlags env child).1) ∧
    (∀ l, (loadMaterialLayers env s x node sr).GetLayer x l ≠ none →
      (s.GetShaderItem x).m_pShader ≠ none ∧ (s.GetShaderItem x).m_pShaderResources ≠ none) := by
  have hnone : ∀ l, s.GetLayer x l = none := by
    intro l
    unfold CMatMan.GetLayer
    rw [h0]
    rfl
  unfold loadMaterialLayers
  by_cases hc : ((s.GetShaderItem x).m_pShader.isSome &&
      (s.GetShaderItem x).m_pShaderResources.isSome) = true
  · rw [if_pos hc]
    have hc2 : (s.GetShaderItem x).m_pShader ≠ none ∧
        (s.GetShaderItem x).m_pShaderResources ≠ none := by
      rw [Bool.and_eq_true] at hc
      exact ⟨by intro e; rw [e] at hc; simp at hc, by intro e; rw [e] at hc; simp at hc⟩
    cases hL : node.findChild "MaterialLayers" with
    | none =>
      dsimp only
      exact ⟨fun l hl => absurd (hnone l) hl, fun L l child hh => (by cases hh),
        fun l hl => absurd (hnone l) hl⟩
    | some L =>
      dsimp only
      by_cases hn : min env.MTL_LAYER_MAX_SLOTS L.children.length = 0
      · rw [if_pos hn]
        refine ⟨fun l hl => absurd (hnone l) hl, fun L2 l child hh hch hl => ?_,
          fun l hl => absurd (hnone l) hl⟩
        injection hh with hh
        subst hh
        have : l < L.children.length := by
          by_contra hcon
          rw [List.getElem?_eq_none (Nat.le_of_not_lt hcon)] at hch
          cases hch
        omega
      · rw [if_neg hn]
        have hx1 : x < (s.SetLayerCount x
            (min env.MTL_LAYER_MAX_SLOTS L.children.length)).materials.length := by
          unfold CMatMan.SetLayerCount
          rw [updMat_length]
          exact hx
        have hl1 : ((s.SetLayerCount x
            (min env.MTL_LAYER_MAX_SLOTS L.children.length)).mat x).m_pMaterialLayers =
            List.replicate (min env.MTL_LAYER_MAX_SLOTS L.children.length) none := by
          unfold CMatMan.SetLayerCount
          rw [mat_updMat_self s _ hx, h0]
          simp [listResize]
        have he1 : ∀ j, (s.SetLayerCount x
            (min env.MTL_LAYER_MAX_SLOTS L.children.length)).GetLayer x j = none := by
          intro j
          unfold CMatMan.GetLayer
          rw [hl1]
          simp only [List.getD_eq_getElem?_getD]
          rw [List.getElem?_replicate]
          split <;> rfl
        have hsi : (s.SetLayerCount x
            (min env.MTL_LAYER_MAX_SLOTS L.children.length)).GetShaderItem x =
            s.GetShaderItem x :=
          proj_SetLayerCount (fun c => c.m_shaderItem) (fun _ _ => rfl) s x _ x
        obtain ⟨_, _, b3, b4⟩ := loadLayerNodes_slots env x sr
          (L.children.take (min env.MTL_LAYER_MAX_SLOTS L.children.length)) 0 0 _ hx1
          (by rw [hl1]; simp) (fun j _ => he1 j)
        have hget : ∀ (u : CMatMan) (F : Nat) (l : Nat),
            (setMtlLayerNoDrawFlags u x F).GetLayer x l = u.GetLayer x l := by
          intro u F l
          unfold CMatMan.GetLayer
          rw [proj_setMtlLayerNoDrawFlags (fun c => c.m_pMaterialLayers) (fun _ _ => rfl)]
        refine ⟨fun l hl => ?_, fun L2 l child hh hch hl _ _ => ?_, fun _ _ => hc2⟩
        · rw [hget] at hl
          have hlt : l < min env.MTL_LAYER_MAX_SLOTS L.children.length := by
            by_contra hcon
            exact hl (b3 l (by simp; omega))
          have hlt2 : l < L.children.length := by omega
          exact ⟨L, L.children[l], rfl, by omega, List.getElem?_eq_getElem hlt2⟩
        · injection hh with hh
          subst hh
          have hlt2 : l < L.children.length := by
            by_contra hcon
            rw [List.getElem?_eq_none (Nat.le_of_not_lt hcon)] at hch
            cases hch
          rw [hget]
          have := b4 l child (by
            rw [List.getElem?_take_of_lt (by omega)]
            exact hch)
          rw [Nat.zero_add, hsi] at this
          exact this
  · rw [if_neg hc]
    refine ⟨fun l hl => absurd (hnone l) hl, fun L l child _ _ _ h1 h2 => ?_,
      fun l hl => absurd (hnone l) hl⟩
    exfalso
    apply hc
    rw [Bool.and_eq_true]
    exact ⟨Option.isSome_iff_ne_none.mpr h1, Option.isSome_iff_ne_none.mpr h2⟩

theorem lengths_of_body_steps (env : Env) (s : CMatMan) (x : MatId) (node : XmlNode)
    (hx : x < s.materials.length) :
    (∀ v, x < (CMatMan.SetSurfaceType env s x v).materials.length) ∧
    (∀ (a : CMatMan) v, x < a.materials.length → x < (a.SetFlags x v).materials.length) ∧
    (∀ (a : CMatMan), x < a.materials.length →
      x < (loadMaterialLinkName a x node).materials.length) ∧
    (∀ (a : CMatMan) sh gm sr pub, x < a.materials.length →
      x < (LoadMaterialShader env a x sh gm sr pub).2.2.materials.length) ∧
    (∀ (a : CMatMan) v, x < a.materials.length → x < (a.SetShaderName x v).materials.length) := by
  refine ⟨fun v => ?_, fun a v ha => ?_, fun a ha => ?_, fun a sh gm sr pub ha => ?_,
    fun a v ha => ?_⟩
  · rw [(touches_SetSurfaceType env s x v).same.2]; exact hx
  · unfold CMatMan.SetFlags; rw [updMat_length]; exact ha
  · rw [(touches_loadMaterialLinkName a x node).same.2]; exact ha
  · rw [(touches_LoadMaterialShader env a x sh gm sr pub).same.2]; exact ha
  · rw [(touches_SetShaderName a x v).same.2]; exact ha

/-- The body of the builder ends with the layers part, entered with the layers that the
material had before. -/
theorem loadMaterialBody_pre (env : Env) (s : CMatMan) (x : MatId) (name : String)
    (node : XmlNode) (f prio : Nat) (hx : x < s.materials.length) :
    ∃ sPre srX, loadMaterialBody env s x name node f prio =
        loadMaterialLayers env sPre x node srX ∧
      x < sPre.materials.length ∧
      (sPre.mat x).m_pMaterialLayers = (s.mat x).m_pMaterialLayers := by
  obtain ⟨l1, l2, l3, l4, l5⟩ := lengths_of_body_steps env s x node hx
  unfold loadMaterialBody
  dsimp only
  by_cases hm : f &&& env.MTL_FLAG_MULTI_SUBMTL ≠ 0
  · rw [if_pos hm]
    exact ⟨_, _, rfl, l3 _ hx,
      loadMaterialLinkName_proj (fun c => c.m_pMaterialLayers) (fun _ _ => rfl) s x node x⟩
  · rw [if_neg hm]
    generalize (if stricmpEq (node.getAttr "Shader") "nodraw" = true then
        (shaderGenMaskFromXml env node (node.getAttr "Shader") f).2 ||| env.MTL_FLAG_NODRAW
      else (shaderGenMaskFromXml env node (node.getAttr "Shader") f).2) = mtlFlags
    by_cases hm2 : mtlFlags &&& env.MTL_FLAG_MULTI_SUBMTL ≠ 0
    · rw [if_pos hm2]
      refine ⟨_, _, rfl, l3 _ (l2 _ _ (l1 _)), ?_⟩
      rw [loadMaterialLinkName_proj (fun c => c.m_pMaterialLayers) (fun _ _ => rfl),
        proj_SetFlags (fun c => c.m_pMaterialLayers) (fun _ _ => rfl),
        proj_SetSurfaceType (fun c => c.m_pMaterialLayers) (fun _ _ => rfl)]
    · rw [if_neg hm2]
      refine ⟨_, _, rfl, l5 _ _ (l4 _ _ _ _ _ (l3 _ (l2 _ _ (l1 _)))), ?_⟩
      rw [proj_SetShaderName (fun c => c.m_pMaterialLayers) (fun _ _ => rfl),
        LoadMaterialShader_proj (fun c => c.m_pMaterialLayers) (fun _ _ => rfl),
        loadMaterialLinkName_proj (fun c => c.m_pMaterialLayers) (fun _ _ => rfl),
        proj_SetFlags (fun c => c.m_pMaterialLayers) (fun _ _ => rfl),
        proj_SetSurfaceType (fun c => c.m_pMaterialLayers) (fun _ _ => rfl)]

/-- The surface type that the builder leaves in a material that is no multi-sub-material
(lines 482-483): what the registry of surface types gives for the name in the descriptor. -/
theorem loadMaterialBody_surface (env : Env) (s : CMatMan) (x : MatId) (name : String)
    (node : XmlNode) (f prio : Nat) (hx : x < s.materials.length)
    (h1 : f &&& env.MTL_FLAG_MULTI_SUBMTL = 0) :
    ((loadMaterialBody env s x name node f prio).mat x).m_pSurfaceType =
      env.GetSurfaceTypeByName (node.getAttr "SurfaceType") := by
  have e0 : ((CMatMan.SetSurfaceType env s x (node.getAttr "SurfaceType")).mat x).m_pSurfaceType =
      env.GetSurfaceTypeByName (node.getAttr "SurfaceType") := by
    unfold CMatMan.SetSurfaceType
    rw [mat_updMat_self s _ hx]
  unfold loadMaterialBody
  dsimp only
  rw [if_neg (by simpa using h1)]
  generalize (if stricmpEq (node.getAttr "Shader") "nodraw" = true then
      (shaderGenMaskFromXml env node (node.getAttr "Shader") f).2 ||| env.MTL_FLAG_NODRAW
    else (shaderGenMaskFromXml env node (node.getAttr "Shader") f).2) = mtlFlags
  by_cases hm2 : mtlFlags &&& env.MTL_FLAG_MULTI_SUBMTL ≠ 0
  · rw [if_pos hm2]
    rw [loadMaterialLayers_proj (fun c => c.m_pSurfaceType) (fun _ _ => rfl) (fun _ _ => rfl),
      loadMaterialLinkName_proj (fun c => c.m_pSurfaceType) (fun _ _ => rfl),
      proj_SetFlags (fun c => c.m_pSurfaceType) (fun _ _ => rfl)]
    exact e0
  · rw [if_neg hm2]
    rw [loadMaterialLayers_proj (fun c => c.m_pSurfaceType) (fun _ _ => rfl) (fun _ _ => rfl),
      proj_SetShaderName (fun c => c.m_pSurfaceType) (fun _ _ => rfl),
      LoadMaterialShader_proj (fun c => c.m_pSurfaceType) (fun _ _ => rfl),
      loadMaterialLinkName_proj (fun c => c.m_pSurfaceType) (fun _ _ => rfl),
      proj_SetFlags (fun c => c.m_pSurfaceType) (fun _ _ => rfl)]
    exact e0

/-- The shader that the builder leaves in a new material that is no multi-sub-material (lines
529-535): the shader of the item that the renderer loads for the shader name of the descriptor
with the generation mask read from it. -/
theorem loadMaterialBody_shader (env : Env) (s : CMatMan) (x : MatId) (name : String)
    (node : XmlNode) (f prio : Nat) (hx : x < s.materials.length)
    (hsh : (s.mat x).m_shaderItem.m_pShader = none)
    (h1 : f &&& env.MTL_FLAG_MULTI_SUBMTL = 0)
    (h2 : (if stricmpEq (node.getAttr "Shader") "nodraw" = true then
        (shaderGenMaskFromXml env node (node.getAttr "Shader") f).2 ||| env.MTL_FLAG_NODRAW
      else (shaderGenMaskFromXml env node (node.getAttr "Shader") f).2) &&&
        env.MTL_FLAG_MULTI_SUBMTL = 0) :
    ∃ sr, ((loadMaterialBody env s x name node f prio).mat x).m_shaderItem.m_pShader =
      (env.EF_LoadShaderItem (node.getAttr "Shader") false 0 sr
        (shaderGenMaskFromXml env node (node.getAttr "Shader") f).1).m_pShader := by
  obtain ⟨l1, l2, l3, l4, l5⟩ := lengths_of_body_steps env s x node hx
  unfold loadMaterialBody
  dsimp only
  rw [if_neg (by simpa using h1), if_neg (by simpa using h2)]
  rw [loadMaterialLayers_proj (fun c => c.m_shaderItem.m_pShader) (fun _ _ => rfl)
      (fun _ _ => rfl),
    proj_SetShaderName (fun c => c.m_shaderItem.m_pShader) (fun _ _ => rfl)]
  have key : ∀ (a : CMatMan) sh gm sr pub, x < a.materials.length →
      (a.mat x).m_shaderItem.m_pShader = none →
      ∃ sr2, ((LoadMaterialShader env a x sh gm sr pub).2.2.mat x).m_shaderItem.m_pShader =
        (env.EF_LoadShaderItem sh false 0 sr2 gm).m_pShader := by
    intro a sh gm sr pub ha hnone
    have hdef : ∃ sr2, LoadMaterialShader env a x sh gm sr pub =
        (match (env.EF_LoadShaderItem sh false 0 sr2 gm).m_pShader with
          | none => (false, sr2, a)
          | some _ => (true, sr2, a.AssignShaderItem x (env.EF_LoadShaderItem sh false 0 sr2 gm))) :=
      ⟨_, rfl⟩
    obtain ⟨sr2, hd⟩ := hdef
    refine ⟨sr2, ?_⟩
    rw [hd]
    cases hitem : (env.EF_LoadShaderItem sh false 0 sr2 gm).m_pShader with
    | none => exact hnone
    | some v =>
      dsimp only
      unfold CMatMan.AssignShaderItem
      rw [mat_updMat_self a _ ha]
      exact hitem
  refine key _ _ _ _ _ (l3 _ (l2 _ _ (l1 _))) ?_
  rw [loadMaterialLinkName_proj (fun c => c.m_shaderItem.m_pShader) (fun _ _ => rfl),
    proj_SetFlags (fun c => c.m_shaderItem.m_pShader) (fun _ _ => rfl),
    proj_SetSurfaceType (fun c => c.m_shaderItem.m_pShader) (fun _ _ => rfl)]
  exact hsh

theorem loadMaterialBody_name (env : Env) (s : CMatMan) (x : MatId) (name : String)
    (node : XmlNode) (f prio : Nat) :
    ((loadMaterialBody env s x name node f prio).mat x).m_sMaterialName =
      (s.mat x).m_sMaterialName := by
  rcases loadMaterialBody_shape env s x name node f prio with ht | ⟨a, h1, h2⟩
  · exact ht.name
  · rw [h2.name, proj_SetFlags (fun c => c.m_sMaterialName) (fun _ _ => rfl), h1.name]

/-- The layers that the builder leaves in a new material: a slot holds a layer only below the
number of slots and where the descriptor has a layer node, and for a material that got a
shader and shader resources the layer of a slot is the one made for its layer node. -/
theorem loadMaterialBody_layers (env : Env) (s : CMatMan) (x : MatId) (name : String)
    (node : XmlNode) (f prio : Nat) (hx : x < s.materials.length)
    (h0 : (s.mat x).m_pMaterialLayers = []) :
    ∃ base : SShaderItem,
      base.m_pShader =
        ((loadMaterialBody env s x name node f prio).mat x).m_shaderItem.m_pShader ∧
      base.m_pShaderResources.isSome =
        ((loadMaterialBody env s x name node f prio).mat x).m_shaderItem.m_pShaderResources.isSome ∧
      (∀ l, (loadMaterialBody env s x name node f prio).GetLayer x l ≠ none →
        base.m_pShader ≠ none ∧ base.m_pShaderResources ≠ none ∧
        ∃ L child, node.findChild "MaterialLayers" = some L ∧ l < env.MTL_LAYER_MAX_SLOTS ∧
          L.children[l]? = some child) ∧
      (∀ L l child, node.findChild "MaterialLayers" = some L → L.children[l]? = some child →
        l < env.MTL_LAYER_MAX_SLOTS →
        base.m_pShader ≠ none → base.m_pShaderResources ≠ none →
        (loadMaterialBody env s x name node f prio).GetLayer x l =
          layerFor env base (child.getAttr "Name") (child.findChild "PublicParams")
            (layerNodeFlags env child).1) := by
  obtain ⟨sPre, srX, e, hxp, hl⟩ := loadMaterialBody_pre env s x name node f prio hx
  rw [e]
  obtain ⟨a1, a2, a3⟩ := loadMaterialLayers_slots env sPre x node srX hxp (hl.trans h0)
  refine ⟨sPre.GetShaderItem x, ?_, ?_, fun l hne => ?_, fun L l child hL hc hlt h1 h2 => ?_⟩
  · exact (loadMaterialLayers_proj (fun c => c.m_shaderItem.m_pShader) (fun _ _ => rfl)
      (fun _ _ => rfl) env sPre x node srX x).symm
  · exact (loadMaterialLayers_proj (fun c => c.m_shaderItem.m_pShaderResources.isSome)
      (fun _ _ => rfl)
      (fun c g => by
        show (Option.map g c.m_shaderItem.m_pShaderResources).isSome =
          c.m_shaderItem.m_pShaderResources.isSome
        cases c.m_shaderItem.m_pShaderResources <;> rfl)
      env sPre x node srX x).symm
  · exact ⟨(a3 l hne).1, (a3 l hne).2, a1 l hne⟩
  · exact a2 L l child hL hc hlt h1 h2

theorem shaderGenMaskFromXml_snd (env : Env) (node : XmlNode) (sh : String) (f : Nat) :
    (shaderGenMaskFromXml env node sh f).2 = f ||| env.MTL_64BIT_SHADERGENMASK := by
  unfold shaderGenMaskFromXml
  dsimp only
  split
  · rw [Nat.or_assoc, Nat.or_self]
  · rfl

/-- A build of a new material leaves in its object what the body of the builder put there;
only the sub-material slots are filled afterwards. -/
theorem build_object (n : Nat) (env : Env) (s : CMatMan) (name : String) (node : XmlNode)
    (force : Bool) (prio lf : Nat) (par r : Option MatId) (t : CMatMan)
    (h : MakeMaterialFromXml (n + 1) env s name node force prio none lf par = .ok (r, t)) :
    r = some s.materials.length ∧ s.materials.length < t.materials.length ∧
      { t.mat s.materials.length with m_subMtls := [] } =
        { (loadMaterialBody env (CreateMaterial env s name (mtlFlagsFromXml env node force)).2
            s.materials.length name node (mtlFlagsFromXml env node force) prio).mat
            s.materials.length with m_subMtls := [] } := by
  have hr := MakeMaterialFromXml_result (n + 1) env s name node force prio none lf par r t h
  refine ⟨hr, ?_⟩
  rw [MakeMaterialFromXml] at h
  unfold makeMaterialBody at h
  dsimp only at h
  have ho : obtainMaterial env s name (mtlFlagsFromXml env node force) none =
      CreateMaterial env s name (mtlFlagsFromXml env node force) := rfl
  rw [ho, CreateMaterial_fst] at h
  have hlen1 := (loadMaterialBody_subMtls env
    (CreateMaterial env s name (mtlFlagsFromXml env node force)).2 s.materials.length name node
    (mtlFlagsFromXml env node force) prio).2
  rw [CreateMaterial_length] at hlen1
  generalize loadMaterialBody env (CreateMaterial env s name (mtlFlagsFromXml env node force)).2
    s.materials.length name node (mtlFlagsFromXml env node force) prio = s1 at h hlen1 ⊢
  have hx1 : s.materials.length < s1.materials.length := by omega
  have key : ∀ s2, loadSubMaterialsNode
      (fun name child prio parent t =>
        MakeMaterialFromXml n env t name child true prio none lf (some parent))
      (fun name t => LoadMaterialInternal n env t name true false lf)
      s1 s.materials.length node = .ok s2 →
      s.materials.length < s2.materials.length ∧
        { s2.mat s.materials.length with m_subMtls := [] } =
          { s1.mat s.materials.length with m_subMtls := [] } := by
    intro s2 h2
    unfold loadSubMaterialsNode at h2
    split at h2
    · simp only [Except.ok.injEq] at h2
      rw [← h2]
      exact ⟨hx1, rfl⟩
    · rename_i subs _
      refine closed_loadSubMaterials
        (fun u => s.materials.length < u.materials.length ∧
          { u.mat s.materials.length with m_subMtls := [] } =
            { s1.mat s.materials.length with m_subMtls := [] })
        _ _ ?_ ?_ s.materials.length _ ?_ _ 0 _ s2 ?_ h2
      · intro name node prio par u r u2 hu hb
        have k := (keeps_all env n).2 u name node true prio lf (some par) r u2 hb
        exact ⟨Nat.lt_of_lt_of_le hu.1 k.length, by
          rw [k.objects _ hu.1 (by simp)]; exact hu.2⟩
      · intro name u r u2 hu hl
        have k := (keeps_all env n).1 u name true false lf r u2 hl
        exact ⟨Nat.lt_of_lt_of_le hu.1 k.length, by
          rw [k.objects _ hu.1 (by simp)]; exact hu.2⟩
      · intro u hu i c
        unfold CMatMan.SetSubMtl
        refine ⟨by rw [updMat_length]; exact hu.1, ?_⟩
        rw [mat_updMat_self u _ hu.1]
        exact hu.2
      · unfold CMatMan.SetSubMtlCount
        refine ⟨by rw [updMat_length]; exact hx1, ?_⟩
        rw [mat_updMat_self s1 _ hx1]
  split at h
  · exact absurd h (by simp)
  · rename_i s2 h2
    simp only [Except.ok.injEq, Prod.mk.injEq] at h
    obtain ⟨a, b⟩ := key s2 h2
    rw [← h.2, mat_congr (NotifyCreateMaterial_sameTables s2 _).2.2,
      (NotifyCreateMaterial_sameTables s2 _).2.2]
    exact ⟨a, b⟩

/-- The name of a material that a build made is the name that the build was called with. -/
theorem build_object_name (n : Nat) (env : Env) (s : CMatMan) (name : String) (node : XmlNode)
    (force : Bool) (prio lf : Nat) (par r : Option MatId) (t : CMatMan)
    (h : MakeMaterialFromXml (n + 1) env s name node force prio none lf par = .ok (r, t)) :
    t.GetName s.materials.length = name := by
  obtain ⟨_, _, e⟩ := build_object n env s name node force prio lf par r t h
  have e2 := congrArg (fun c => c.m_sMaterialName) e
  dsimp only at e2
  unfold CMatMan.GetName
  rw [e2, loadMaterialBody_name, CreateMaterial_mat_new]

theorem mapFind_cons_eq {α : Type} (a : String) (b : α) (rest : List (String × α)) (k : String) :
    mapFind ((a, b) :: rest) k = if a = k then some b else mapFind rest k := rfl

theorem mapFind_map_set (l : List (String × String)) (key value k : String) :
    mapFind (l.map (fun kv => if kv.1 = key then (kv.1, value) else kv)) k =
      if k = key then (mapFind l k).map (fun _ => value) else mapFind l k := by
  induction l with
  | nil => simp [mapFind]
  | cons a rest ih =>
    obtain ⟨a1, a2⟩ := a
    by_cases h1 : a1 = key
    · have e : List.map (fun kv : String × String => if kv.1 = key then (kv.1, value) else kv)
          ((a1, a2) :: rest) = (a1, value) ::
          List.map (fun kv : String × String => if kv.1 = key then (kv.1, value) else kv) rest := by
        rw [List.map_cons]
        simp only [h1, if_true]
      rw [e, mapFind_cons_eq, mapFind_cons_eq, ih]
      subst h1
      by_cases h2 : a1 = k
      · subst h2
        simp
      · rw [if_neg h2, if_neg h2]
    · have e : List.map (fun kv : String × String => if kv.1 = key then (kv.1, value) else kv)
          ((a1, a2) :: rest) = (a1, a2) ::
          List.map (fun kv : String × String => if kv.1 = key then (kv.1, value) else kv) rest := by
        rw [List.map_cons]
        simp only [h1, if_false]
      rw [e, mapFind_cons_eq, mapFind_cons_eq, ih]
      by_cases h2 : a1 = k
      · subst h2
        rw [if_pos rfl, if_pos rfl, if_neg h1]
      · rw [if_neg h2, if_neg h2]

theorem mapFind_append_single (l : List (String × String)) (key value k : String) :
    mapFind (l ++ [(key, value)]) k =
      match mapFind l k with
      | some v => some v
      | none => if key = k then some value else none := by
  induction l with
  | nil => simp [mapFind]
  | cons a rest ih =>
    obtain ⟨a1, a2⟩ := a
    rw [List.cons_append, mapFind_cons_eq, mapFind_cons_eq]
    by_cases h2 : a1 = k
    · rw [if_pos h2, if_pos h2]
    · rw [if_neg h2, if_neg h2]
      exact ih
theorem getAttr_setAttr_self (n : XmlNode) (key value : String) :
    (n.setAttr key value).getAttr key = value := by
  unfold XmlNode.setAttr XmlNode.getAttr
  show (mapFind (if (mapFind n.attrs key).isSome = true then _ else _) key).getD "" = value
  cases h : mapFind n.attrs key with
  | none =>
    simp only [Option.isSome_none, Bool.false_eq_true, if_false]
    rw [mapFind_append_single, h]
    simp
  | some v =>
    simp only [Option.isSome_some, if_true]
    rw [mapFind_map_set, h]
    simp

theorem getAttr_setAttr_ne (n : XmlNode) (key value k : String) (hk : k ≠ key) :
    (n.setAttr key value).getAttr k = n.getAttr k := by
  unfold XmlNode.setAttr XmlNode.getAttr
  show (mapFind (if (mapFind n.attrs key).isSome = true then _ else _) k).getD "" = _
  cases h : mapFind n.attrs key with
  | none =>
    simp only [Option.isSome_none, Bool.false_eq_true, if_false]
    rw [mapFind_append_single]
    cases mapFind n.attrs k with
    | none => simp [Ne.symm hk]
    | some v => rfl
  | some v =>
    simp only [Option.isSome_some, if_true]
    rw [mapFind_map_set, if_neg hk]

theorem tag_setAttr (n : XmlNode) (key value : String) : (n.setAttr key value).tag = n.tag := rfl

theorem children_setAttr (n : XmlNode) (key value : String) :
    (n.setAttr key value).children = n.children := rfl

theorem getAttr_addChild (n c : XmlNode) (k : String) : (n.addChild c).getAttr k = n.getAttr k :=
  rfl

/-- The first part of the writer under the laws of the helpers: the tag and the name stay, the
flags are written, and for a material that is no multi-sub-material the name and the
generation mask of its shader and the name of its surface type. -/
theorem saveHead_attrs (env : Env) (hW : WriterLaws env) (s : CMatMan) (node head : XmlNode)
    (m : MatId) (h : saveHead env s node m = .ok head) :
    head.tag = node.tag ∧ head.getAttr "Name" = node.getAttr "Name" ∧
    head.getAttr "MtlFlags" = intText (s.GetFlags m) ∧
    (s.GetFlags m &&& env.MTL_FLAG_MULTI_SUBMTL = 0 →
      ∃ sh, (s.GetShaderItemAt env m 0).m_pShader = some sh ∧
        head.getAttr "Shader" = sh.name ∧
        head.getAttr "GenMask" = uint64Text sh.generationMask ∧
        head.getAttr "SurfaceType" = (s.GetSurfaceType m).getD "") := by
  unfold saveHead at h
  dsimp only at h
  have hlink : ∀ (n2 : XmlNode),
      (if s.GetMaterialLinkName m ≠ "" then
        n2.addChild ((XmlNode.mk "MaterialLinkName" [] []).setAttr "name"
          (s.GetMaterialLinkName m))
      else n2).tag = n2.tag ∧
      ∀ k, (if s.GetMaterialLinkName m ≠ "" then
        n2.addChild ((XmlNode.mk "MaterialLinkName" [] []).setAttr "name"
          (s.GetMaterialLinkName m))
      else n2).getAttr k = n2.getAttr k := by
    intro n2
    split
    · exact ⟨rfl, fun _ => rfl⟩
    · exact ⟨rfl, fun _ => rfl⟩
  by_cases hm : s.GetFlags m &&& env.MTL_FLAG_MULTI_SUBMTL = 0
  · rw [if_pos hm] at h
    cases hsh : (s.GetShaderItemAt env m 0).m_pShader with
    | none => rw [hsh] at h; cases h
    | some sh =>
      rw [hsh] at h
      simp only [Except.ok.injEq] at h
      subst h
      obtain ⟨v1, v2⟩ := hW.vertexDeform
        (inputResourcesOf (s.GetShaderItemAt env m 0).m_pShaderResources)
        (if s.GetMaterialLinkName m ≠ "" then
          (env.SetXmlFromTextures (inputResourcesOf (s.GetShaderItemAt env m 0).m_pShaderResources)
            (env.SetXmlFromLighting
              (inputResourcesOf (s.GetShaderItemAt env m 0).m_pShaderResources)
              ((((node.setAttr "MtlFlags" (intText (s.GetFlags m))).setAttr "Shader" sh.name).setAttr
                "GenMask" (uint64Text sh.generationMask)).setAttr "SurfaceType"
                  ((s.GetSurfaceType m).getD "")))).addChild
            ((XmlNode.mk "MaterialLinkName" [] []).setAttr "name" (s.GetMaterialLinkName m))
        else
          env.SetXmlFromTextures (inputResourcesOf (s.GetShaderItemAt env m 0).m_pShaderResources)
            (env.SetXmlFromLighting
              (inputResourcesOf (s.GetShaderItemAt env m 0).m_pShaderResources)
              ((((node.setAttr "MtlFlags" (intText (s.GetFlags m))).setAttr "Shader" sh.name).setAttr
                "GenMask" (uint64Text sh.generationMask)).setAttr "SurfaceType"
                  ((s.GetSurfaceType m).getD ""))))
      obtain ⟨k1, k2⟩ := hlink
        (env.SetXmlFromTextures (inputResourcesOf (s.GetShaderItemAt env m 0).m_pShaderResources)
          (env.SetXmlFromLighting
            (inputResourcesOf (s.GetShaderItemAt env m 0).m_pShaderResources)
            ((((node.setAttr "MtlFlags" (intText (s.GetFlags m))).setAttr "Shader" sh.name).setAttr
              "GenMask" (uint64Text sh.generationMask)).setAttr "SurfaceType"
                ((s.GetSurfaceType m).getD ""))))
      obtain ⟨t1, t2⟩ := hW.textures
        (inputResourcesOf (s.GetShaderItemAt env m 0).m_pShaderResources)
        (env.SetXmlFromLighting
          (inputResourcesOf (s.GetShaderItemAt env m 0).m_pShaderResources)
          ((((node.setAttr "MtlFlags" (intText (s.GetFlags m))).setAttr "Shader" sh.name).setAttr
            "GenMask" (uint64Text sh.generationMask)).setAttr "SurfaceType"
              ((s.GetSurfaceType m).getD "")))
      obtain ⟨g1, g2⟩ := hW.lighting
        (inputResourcesOf (s.GetShaderItemAt env m 0).m_pShaderResources)
        ((((node.setAttr "MtlFlags" (intText (s.GetFlags m))).setAttr "Shader" sh.name).setAttr
          "GenMask" (uint64Text sh.generationMask)).setAttr "SurfaceType"
            ((s.GetSurfaceType m).getD ""))
      have hall : ∀ k, k ∈ ["Name", "MtlFlags", "Shader", "GenMask", "SurfaceType"] →
          (env.SetXmlFromVertexDeform
            (inputResourcesOf (s.GetShaderItemAt env m 0).m_pShaderResources)
            (if s.GetMaterialLinkName m ≠ "" then
              (env.SetXmlFromTextures
                (inputResourcesOf (s.GetShaderItemAt env m 0).m_pShaderResources)
                (env.SetXmlFromLighting
                  (inputResourcesOf (s.GetShaderItemAt env m 0).m_pShaderResources)
                  ((((node.setAttr "MtlFlags" (intText (s.GetFlags m))).setAttr "Shader"
                    sh.name).setAttr "GenMask" (uint64Text sh.generationMask)).setAttr
                      "SurfaceType" ((s.GetSurfaceType m).getD "")))).addChild
                ((XmlNode.mk "MaterialLinkName" [] []).setAttr "name" (s.GetMaterialLinkName m))
            else
              env.SetXmlFromTextures
                (inputResourcesOf (s.GetShaderItemAt env m 0).m_pShaderResources)
                (env.SetXmlFromLighting
                  (inputResourcesOf (s.GetShaderItemAt env m 0).m_pShaderResources)
                  ((((node.setAttr "MtlFlags" (intText (s.GetFlags m))).setAttr "Shader"
                    sh.name).setAttr "GenMask" (uint64Text sh.generationMask)).setAttr
                      "SurfaceType" ((s.GetSurfaceType m).getD ""))))).getAttr k =
          ((((node.setAttr "MtlFlags" (intText (s.GetFlags m))).setAttr "Shader" sh.name).setAttr
            "GenMask" (uint64Text sh.generationMask)).setAttr "SurfaceType"
              ((s.GetSurfaceType m).getD "")).getAttr k := by
        intro k hk
        rw [v2 k hk, k2 k, t2 k hk, g2 k hk]
      refine ⟨by rw [v1, k1, t1, g1]; rfl, ?_, ?_, fun _ => ⟨sh, rfl, ?_, ?_, ?_⟩⟩
      · rw [hall "Name" (by simp), getAttr_setAttr_ne _ _ _ _ (by decide),
          getAttr_setAttr_ne _ _ _ _ (by decide), getAttr_setAttr_ne _ _ _ _ (by decide),
          getAttr_setAttr_ne _ _ _ _ (by decide)]
      · rw [hall "MtlFlags" (by simp), getAttr_setAttr_ne _ _ _ _ (by decide),
          getAttr_setAttr_ne _ _ _ _ (by decide), getAttr_setAttr_ne _ _ _ _ (by decide),
          getAttr_setAttr_self]
      · rw [hall "Shader" (by simp), getAttr_setAttr_ne _ _ _ _ (by decide),
          getAttr_setAttr_ne _ _ _ _ (by decide), getAttr_setAttr_self]
      · rw [hall "GenMask" (by simp), getAttr_setAttr_ne _ _ _ _ (by decide),
          getAttr_setAttr_self]
      · rw [hall "SurfaceType" (by simp), getAttr_setAttr_self]
  · rw [if_neg hm] at h
    simp only [Except.ok.injEq] at h
    subst h
    obtain ⟨v1, v2⟩ := hW.vertexDeform
      (inputResourcesOf (s.GetShaderItemAt env m 0).m_pShaderResources)
      (if s.GetMaterialLinkName m ≠ "" then
        (node.setAttr "MtlFlags" (intText (s.GetFlags m))).addChild
          ((XmlNode.mk "MaterialLinkName" [] []).setAttr "name" (s.GetMaterialLinkName m))
      else node.setAttr "MtlFlags" (intText (s.GetFlags m)))
    obtain ⟨k1, k2⟩ := hlink (node.setAttr "MtlFlags" (intText (s.GetFlags m)))
    refine ⟨by rw [v1, k1]; rfl, ?_, ?_, fun h0 => absurd h0 hm⟩
    · rw [v2 "Name" (by simp), k2, getAttr_setAttr_ne _ _ _ _ (by decide)]
    · rw [v2 "MtlFlags" (by simp), k2, getAttr_setAttr_self]

/-- The shape of the node that `SaveMaterial` returns: the tag and the attributes of the first
part, and after its children the `SubMaterials` node, when there are slots, and the nodes of
the last part. -/
theorem SaveMaterial_shape (n : Nat) (env : Env) (s : CMatMan) (node : XmlNode) (m : MatId)
    (b : Bool) (out : XmlNode) (h : SaveMaterial (n + 1) env s node m = .ok (b, out)) :
    ∃ head, saveHead env s node m = .ok head ∧ out.tag = head.tag ∧ out.attrs = head.attrs ∧
      ((s.GetSubMtlCount m = 0 ∧ out.children = head.children ++ saveTailNodes env s m) ∨
        (0 < s.GetSubMtlCount m ∧ ∃ kids,
          saveSubMaterials (fun nd c => SaveMaterial n env s nd c) env s (s.mat m).m_subMtls =
            .ok kids ∧
          out.children =
            head.children ++ [XmlNode.mk "SubMaterials" [] kids] ++ saveTailNodes env s m)) := by
  unfold SaveMaterial at h
  cases hh : saveHead env s node m with
  | error e => rw [hh] at h; cases h
  | ok head =>
    rw [hh] at h
    dsimp only at h
    refine ⟨head, rfl, ?_⟩
    by_cases h0 : 0 < s.GetSubMtlCount m
    · rw [if_pos h0] at h
      cases hk : saveSubMaterials (fun nd c => SaveMaterial n env s nd c) env s
          (s.mat m).m_subMtls with
      | error e => rw [hk] at h; cases h
      | ok kids =>
        rw [hk] at h
        simp only [Except.ok.injEq, Prod.mk.injEq] at h
        obtain ⟨_, h5⟩ := h
        subst h5
        exact ⟨rfl, rfl, Or.inr ⟨h0, kids, rfl, by simp [XmlNode.children, XmlNode.addChild]⟩⟩
    · rw [if_neg h0] at h
      simp only [Except.ok.injEq, Prod.mk.injEq] at h
      obtain ⟨_, h5⟩ := h
      subst h5
      exact ⟨rfl, rfl, Or.inl ⟨by omega, rfl⟩⟩

/-- The slots of a new material when its build returns: one for each child of the
`SubMaterials` node; the slot of an inline child holds the new object that the forced build of
the child made, the slot of a reference with a name holds what the load of the name returned,
and the slot of a reference without a name is empty. -/
theorem build_slots_fresh (n : Nat) (env : Env) (s : CMatMan) (name : String)
    (node subs : XmlNode) (force : Bool) (prio lf : Nat) (par r : Option MatId) (t : CMatMan)
    (hsub : node.findChild "SubMaterials" = some subs)
    (h : MakeMaterialFromXml (n + 1) env s name node force prio none lf par = .ok (r, t)) :
    (t.mat s.materials.length).m_subMtls.length = subs.children.length ∧
    ∀ i child, subs.children[i]? = some child →
      ∃ si, stateBeforeChild n env s name node force prio none lf subs i = .ok si ∧
        s.materials.length < si.materials.length ∧
        (child.isTag "Material" = true →
          ∃ si2, MakeMaterialFromXml n env si (child.getAttr "Name") child true
              ((subs.children.length - i - 1) % 65536) none lf (some s.materials.length) =
                .ok (some si.materials.length, si2) ∧
            t.GetSubMtl s.materials.length i = some si.materials.length ∧
            si.materials.length < si2.materials.length ∧
            t.mat si.materials.length = si2.mat si.materials.length) ∧
        (child.isTag "Material" = false → child.getAttr "Name" ≠ "" →
          ∃ rr si2,
            LoadMaterialInternal n env si (child.getAttr "Name") true false lf = .ok (rr, si2) ∧
            t.GetSubMtl s.materials.length i = rr) ∧
        (child.isTag "Material" = false → child.getAttr "Name" = "" →
          t.GetSubMtl s.materials.length i = none) := by
  rw [MakeMaterialFromXml] at h
  unfold makeMaterialBody at h
  dsimp only at h
  unfold loadSubMaterialsNode at h
  rw [hsub] at h
  dsimp only at h
  unfold stateBeforeChild
  dsimp only
  have hsub1 := (loadMaterialBody_subMtls env
    (obtainMaterial env s name (mtlFlagsFromXml env node force) none).2
    (obtainMaterial env s name (mtlFlagsFromXml env node force) none).1 name node
    (mtlFlagsFromXml env node force) prio)
  have e1 : (obtainMaterial env s name (mtlFlagsFromXml env node force) none).1 =
      s.materials.length := rfl
  rw [e1] at h hsub1 ⊢
  have hs0 := obtainMaterial_subMtls env s name (mtlFlagsFromXml env node force) none
  have hl0 := obtainMaterial_length env s name (mtlFlagsFromXml env node force) none
    (fun m hm => by cases hm)
  have hs0b : ((obtainMaterial env s name (mtlFlagsFromXml env node force) none).2.mat
      s.materials.length).m_subMtls = [] := by
    have : (s.mat s.materials.length).m_subMtls = [] := by
      unfold CMatMan.mat
      rw [List.getD_eq_default _ _ (Nat.le_refl _)]
    exact hs0.trans this
  have hlen1 : s.materials.length <
      (loadMaterialBody env (obtainMaterial env s name (mtlFlagsFromXml env node force) none).2
        s.materials.length name node (mtlFlagsFromXml env node force) prio).materials.length := by
    rw [hsub1.2]
    exact hl0
  rw [hs0b] at hsub1
  generalize loadMaterialBody env (obtainMaterial env s name (mtlFlagsFromXml env node force) none).2
    s.materials.length name node (mtlFlagsFromXml env node force) prio = s1
    at h hsub1 hlen1 ⊢
  obtain ⟨hsubs, _⟩ := hsub1
  cases hloop : loadSubMaterials
      (fun name child prio parent t =>
        MakeMaterialFromXml n env t name child true prio none lf (some parent))
      (fun name t => LoadMaterialInternal n env t name true false lf)
      s.materials.length subs.children.length subs.children 0
      (s1.SetSubMtlCount s.materials.length subs.children.length) with
  | error e => rw [hloop] at h; cases h
  | ok s2 =>
    rw [hloop] at h
    simp only [Except.ok.injEq, Prod.mk.injEq] at h
    obtain ⟨_, ht⟩ := h
    have htm : t.materials = s2.materials := by
      rw [← ht]; exact (NotifyCreateMaterial_sameTables s2 _).2.2
    have hx0 : s.materials.length <
        (s1.SetSubMtlCount s.materials.length subs.children.length).materials.length := by
      unfold CMatMan.SetSubMtlCount
      rw [updMat_length]
      exact hlen1
    have hs0 : ((s1.SetSubMtlCount s.materials.length subs.children.length).mat
        s.materials.length).m_subMtls = listResize [] subs.children.length := by
      unfold CMatMan.SetSubMtlCount
      rw [mat_updMat_self s1 _ hlen1, hsubs]
    have hB : ∀ name node prio par u r u2,
        MakeMaterialFromXml n env u name node true prio none lf (some par) = .ok (r, u2) →
        True ∧ Keeps none u u2 :=
      fun name node prio par u r u2 hb =>
        ⟨trivial, (keeps_all env n).2 u name node true prio lf (some par) r u2 hb⟩
    have hLd : ∀ name u r u2, LoadMaterialInternal n env u name true false lf = .ok (r, u2) →
        True ∧ Keeps none u u2 :=
      fun name u r u2 hl => ⟨trivial, (keeps_all env n).1 u name true false lf r u2 hl⟩
    obtain ⟨_, _, lT, _, cT⟩ := loadSubMaterials_children _ _ s.materials.length
      subs.children.length (fun _ _ : CMatMan => True) (fun _ => trivial) hB hLd
      (fun _ _ _ => trivial) (fun _ _ _ _ _ => trivial) subs.children 0 _ s2 hx0
      (by rw [hs0, listResize_length]; omega) hloop
    refine ⟨?_, fun i child hi => ?_⟩
    · rw [mat_congr htm, lT, hs0, listResize_length]
    · obtain ⟨si, u1, a1, _, a3, a4, a5, a6, _, a8, a9⟩ := cT i child hi
      simp only [Nat.zero_add] at a5 a6 a9
      have hik : i < subs.children.length := by
        by_contra hcon
        rw [List.getElem?_eq_none (Nat.le_of_not_lt hcon)] at hi
        cases hi
      have hxsi : s.materials.length < si.materials.length := Nat.lt_of_lt_of_le hx0 a3.length
      have hisi : i < (si.mat s.materials.length).m_subMtls.length := by
        rw [a4, hs0, listResize_length]; exact hik
      obtain ⟨_, _, _, _, b1, b2, b3⟩ := loadSubMaterial_spec _ _ s.materials.length
        subs.children.length (fun _ _ : CMatMan => True) (fun _ => trivial) hB hLd
        (fun _ _ _ => trivial) (fun _ _ _ _ _ => trivial) child i si u1 hxsi hisi a6
      have hts : t.GetSubMtl s.materials.length i = u1.GetSubMtl s.materials.length i := by
        rw [← a9]
        unfold CMatMan.GetSubMtl
        rw [mat_congr htm]
      have hs0i : (s1.SetSubMtlCount s.materials.length subs.children.length).GetSubMtl
          s.materials.length i = none := by
        unfold CMatMan.GetSubMtl
        rw [hs0, listResize_getD _ _ _ hik]
        rfl
      refine ⟨si, a1, hxsi, fun htag => ?_, fun htag hname => ?_, fun htag hname => ?_⟩
      · obtain ⟨r1, si2, hb1, _, kk1, sl1⟩ := b1 htag
        obtain ⟨e1, e2⟩ := MakeMaterialFromXml_result n env si _ child true _ none lf
          (some s.materials.length) r1 si2 hb1, (keeps_all env n).2 si _ child true _ lf
          (some s.materials.length) r1 si2 hb1
        have e1b : r1 = some si.materials.length := e1
        subst e1b
        have hlt2 : si.materials.length < si2.materials.length := by
          cases n with
          | zero => simp [MakeMaterialFromXml] at hb1
          | succ n2 =>
            exact (build_object n2 env si _ child true _ lf (some s.materials.length) _ si2
              hb1).2.1
        have hne : some s.materials.length ≠ some si.materials.length := by
          intro hh
          injection hh with hh
          rw [hh] at hxsi
          exact absurd hxsi (Nat.lt_irrefl _)
        refine ⟨si2, hb1, by rw [hts]; exact sl1, hlt2, ?_⟩
        rw [mat_congr htm]
        exact (kk1.keeps_trans a8).objects _ hlt2 hne
      · obtain ⟨rr, si2, hl1, _, _, sl1⟩ := b2 htag hname
        refine ⟨rr, si2, hl1, ?_⟩
        rw [hts, sl1]
        cases rr with
        | some c => rfl
        | none =>
          dsimp only
          rw [a5]
          exact hs0i
      · have := b3 htag hname
        rw [hts, this, a5]
        exact hs0i

theorem lor_absorb (a b : Nat) : (a ||| b) ||| (a ||| 0) = a ||| b := by
  apply Nat.eq_of_testBit_eq
  intro i
  simp only [Nat.testBit_or, Nat.zero_testBit, Bool.or_false]
  cases a.testBit i <;> cases b.testBit i <;> rfl

theorem lor_absorb3 (a b c : Nat) : ((a ||| b) ||| c) ||| (a ||| 0) = a ||| b ||| c := by
  apply Nat.eq_of_testBit_eq
  intro i
  simp only [Nat.testBit_or, Nat.zero_testBit, Bool.or_false]
  cases a.testBit i <;> cases b.testBit i <;> cases c.testBit i <;> rfl

theorem layerShader_eq (layer : CMaterialLayer) (sh : IShader)
    (h : layerShader (some layer) = some sh) :
    layer.m_pShaderItem.m_pShader = some sh ∧ sh.name ≠ "" := by
  unfold layerShader at h
  dsimp only at h
  cases hs : layer.m_pShaderItem.m_pShader with
  | none => rw [hs] at h; cases h
  | some v =>
    rw [hs] at h
    dsimp only at h
    by_cases hn : v.name ≠ ""
    · rw [if_pos hn] at h
      injection h with h
      subst h
      exact ⟨rfl, hn⟩
    · rw [if_neg hn] at h
      cases h

theorem getAttr_of_attrs {a b : XmlNode} (h : a.attrs = b.attrs) (k : String) :
    a.getAttr k = b.getAttr k := by
  unfold XmlNode.getAttr
  rw [h]

theorem GetShaderItemAt_own (env : Env) (s : CMatMan) (m : MatId) (i : Nat)
    (h : s.GetFlags m &&& env.MTL_FLAG_MULTI_SUBMTL = 0) :
    s.GetShaderItemAt env m i = (s.mat m).m_shaderItem := by
  unfold CMatMan.GetShaderItemAt
  have : (s.mat m).m_Flags &&& env.MTL_FLAG_MULTI_SUBMTL = 0 := h
  simp [this]

/-- The flags of a new material when its build returns: the flags of the descriptor that the
save mask lets through; for a material that is no multi-sub-material the marker of the 64-bit
generation mask is added, and the no-draw flag for the shader `nodraw`. -/
theorem build_flags (n : Nat) (env : Env) (s : CMatMan) (name : String) (node : XmlNode)
    (prio lf : Nat) (par r : Option MatId) (t : CMatMan)
    (h : MakeMaterialFromXml (n + 1) env s name node false prio none lf par = .ok (r, t)) :
    (mtlFlagsFromXml env node false &&& env.MTL_FLAG_MULTI_SUBMTL ≠ 0 →
      t.GetFlags s.materials.length = mtlFlagsFromXml env node false) ∧
    (mtlFlagsFromXml env node false &&& env.MTL_FLAG_MULTI_SUBMTL = 0 →
      t.GetFlags s.materials.length =
        mtlFlagsFromXml env node false ||| env.MTL_64BIT_SHADERGENMASK |||
          (if stricmpEq (node.getAttr "Shader") "nodraw" = true then env.MTL_FLAG_NODRAW
            else 0)) := by
  obtain ⟨_, _, e⟩ := build_object n env s name node false prio lf par r t h
  have e2 := congrArg (fun c => c.m_Flags) e
  dsimp only at e2
  have hx0 : s.materials.length <
      (CreateMaterial env s name (mtlFlagsFromXml env node false)).2.materials.length := by
    rw [CreateMaterial_length]; exact Nat.lt_succ_self _
  rw [loadMaterialBody_flags env _ _ name node _ prio hx0, CreateMaterial_mat_new] at e2
  unfold CMatMan.GetFlags
  refine ⟨fun hm => ?_, fun hm => ?_⟩
  · rw [e2, if_pos hm]
    exact Nat.or_zero _
  · rw [e2, if_neg (by simpa using hm), shaderGenMaskFromXml_snd]
    split
    · exact lor_absorb3 _ _ _
    · rw [lor_absorb, Nat.or_zero]

/-- The shader and the surface type of a new material that is no multi-sub-material when its
build returns: the shader of the item that the renderer loaded for the shader name of the
descriptor, and the surface type that the registry gives for the name in the descriptor. -/
theorem build_shader (n : Nat) (env : Env) (s : CMatMan) (name : String) (node : XmlNode)
    (prio lf : Nat) (par r : Option MatId) (t : CMatMan)
    (h : MakeMaterialFromXml (n + 1) env s name node false prio none lf par = .ok (r, t))
    (hnm : t.GetFlags s.materials.length &&& env.MTL_FLAG_MULTI_SUBMTL = 0) :
    (∃ sr, (t.mat s.materials.length).m_shaderItem.m_pShader =
      (env.EF_LoadShaderItem (node.getAttr "Shader") false 0 sr
        (shaderGenMaskFromXml env node (node.getAttr "Shader")
          (mtlFlagsFromXml env node false)).1).m_pShader) ∧
    (t.mat s.materials.length).m_pSurfaceType =
      env.GetSurfaceTypeByName (node.getAttr "SurfaceType") := by
  obtain ⟨_, _, e⟩ := build_object n env s name node false prio lf par r t h
  have e2 := congrArg (fun c => c.m_Flags) e
  have e3 := congrArg (fun c => c.m_shaderItem.m_pShader) e
  have e4 := congrArg (fun c => c.m_pSurfaceType) e
  dsimp only at e2 e3 e4
  have hx0 : s.materials.length <
      (CreateMaterial env s name (mtlFlagsFromXml env node false)).2.materials.length := by
    rw [CreateMaterial_length]; exact Nat.lt_succ_self _
  rw [loadMaterialBody_flags env _ _ name node _ prio hx0, CreateMaterial_mat_new] at e2
  have hnm2 : (t.mat s.materials.length).m_Flags &&& env.MTL_FLAG_MULTI_SUBMTL = 0 := hnm
  rw [e2] at hnm2
  have h1 : mtlFlagsFromXml env node false &&& env.MTL_FLAG_MULTI_SUBMTL = 0 := by
    by_contra hcon
    rw [if_pos hcon] at hnm2
    have : (mtlFlagsFromXml env node false ||| 0) &&& env.MTL_FLAG_MULTI_SUBMTL = 0 := hnm2
    rw [Nat.or_zero] at this
    exact hcon this
  rw [if_neg (by simpa using h1)] at hnm2
  have h2 := ((lor_land_zero _ _ _).mp hnm2).1
  obtain ⟨sr, hsr⟩ := loadMaterialBody_shader env
    (CreateMaterial env s name (mtlFlagsFromXml env node false)).2 s.materials.length name node
    (mtlFlagsFromXml env node false) prio hx0 (by rw [CreateMaterial_mat_new]) h1 h2
  exact ⟨⟨sr, e3.trans hsr⟩,
    e4.trans (loadMaterialBody_surface env _ _ name node _ prio hx0 h1)⟩

/-- The layers of a new material when its build returns: a slot holds a layer only where the
descriptor has a layer node below the number of slots, and the shader of the layer is one that
the renderer loaded for the name in that node; and for a material with a shader and shader
resources the slot of a layer node holds a layer when the node has public parameters, does not
name the shader `nodraw`, and the renderer finds the shader. -/
theorem build_layers (n : Nat) (env : Env) (s : CMatMan) (name : String) (node : XmlNode)
    (prio lf : Nat) (par r : Option MatId) (t : CMatMan)
    (h : MakeMaterialFromXml (n + 1) env s name node false prio none lf par = .ok (r, t)) :
    (∀ l layer, t.GetLayer s.materials.length l = some layer →
      ∃ L child mask sh, node.findChild "MaterialLayers" = some L ∧
        l < env.MTL_LAYER_MAX_SLOTS ∧ L.children[l]? = some child ∧
        env.EF_LoadShader (child.getAttr "Name") 0 mask = some sh ∧
        layer.m_pShaderItem.m_pShader = some sh ∧
        layer.m_nFlags = (layerNodeFlags env child).1) ∧
    (∀ L l child publics, node.findChild "MaterialLayers" = some L →
      L.children[l]? = some child → l < env.MTL_LAYER_MAX_SLOTS →
      child.findChild "PublicParams" = some publics →
      stricmpEq (child.getAttr "Name") "nodraw" = false →
      (∀ mask, ∃ sh, env.EF_LoadShader (child.getAttr "Name") 0 mask = some sh) →
      (t.mat s.materials.length).m_shaderItem.m_pShader ≠ none →
      (t.mat s.materials.length).m_shaderItem.m_pShaderResources ≠ none →
      ∃ layer, t.GetLayer s.materials.length l = some layer) := by
  obtain ⟨_, _, e⟩ := build_object n env s name node false prio lf par r t h
  have e3 := congrArg (fun c => c.m_shaderItem.m_pShader) e
  have e4 := congrArg (fun c => c.m_shaderItem.m_pShaderResources.isSome) e
  have e5 := congrArg (fun c => c.m_pMaterialLayers) e
  dsimp only at e3 e4 e5
  have hx0 : s.materials.length <
      (CreateMaterial env s name (mtlFlagsFromXml env node false)).2.materials.length := by
    rw [CreateMaterial_length]; exact Nat.lt_succ_self _
  obtain ⟨base, b1, b2, b3, b4⟩ := loadMaterialBody_layers env
    (CreateMaterial env s name (mtlFlagsFromXml env node false)).2 s.materials.length name node
    (mtlFlagsFromXml env node false) prio hx0 (by rw [CreateMaterial_mat_new])
  have hget : ∀ l, t.GetLayer s.materials.length l =
      (loadMaterialBody env (CreateMaterial env s name (mtlFlagsFromXml env node false)).2
        s.materials.length name node (mtlFlagsFromXml env node false) prio).GetLayer
        s.materials.length l := by
    intro l
    unfold CMatMan.GetLayer
    rw [e5]
  refine ⟨fun l layer hl => ?_, fun L l child publics hL hc hlt hpub hnd hr h1 h2 => ?_⟩
  · rw [hget] at hl
    obtain ⟨c1, c2, L, child, hL, hlt, hc⟩ := b3 l (by rw [hl]; simp)
    have := b4 L l child hL hc hlt c1 c2
    rw [hl] at this
    obtain ⟨_, _, d3, mask, sh, d4, d5⟩ := layerFor_sound env base _ _ _ layer this.symm
    exact ⟨L, child, mask, sh, hL, hlt, hc, d4, d5, d3⟩
  · have c1 : base.m_pShader ≠ none := by rw [b1, ← e3]; exact h1
    have c2 : base.m_pShaderResources ≠ none := by
      intro hcon
      have : base.m_pShaderResources.isSome = false := by rw [hcon]; rfl
      rw [b2, ← e4] at this
      cases hres : (t.mat s.materials.length).m_shaderItem.m_pShaderResources with
      | none => exact h2 hres
      | some v => rw [hres] at this; cases this
    obtain ⟨layer, hlayer⟩ := layerFor_complete env base (child.getAttr "Name") publics
      (layerNodeFlags env child).1 hnd hr
    refine ⟨layer, ?_⟩
    rw [hget, b4 L l child hL hc hlt c1 c2, hpub]
    exact hlayer

theorem saved_node_keeps (k : Nat) (env : Env) (hW : WriterLaws env) (t : CMatMan)
    (nd kid : XmlNode) (c : MatId) (b : Bool)
    (h : SaveMaterial k env t nd c = .ok (b, kid)) :
    kid.tag = nd.tag ∧ kid.getAttr "Name" = nd.getAttr "Name" ∧
      kid.getAttr "MtlFlags" = intText (t.GetFlags c) := by
  cases k with
  | zero => simp [SaveMaterial] at h
  | succ k =>
    obtain ⟨head, hh, e1, e2, _⟩ := SaveMaterial_shape k env t nd c b kid h
    obtain ⟨a1, a2, a3, _⟩ := saveHead_attrs env hW t nd head c hh
    exact ⟨e1.trans a1, (getAttr_of_attrs e2 "Name").trans a2,
      (getAttr_of_attrs e2 "MtlFlags").trans a3⟩

/-- The counterexample to C19: the descriptor `roundTripDesc` carries the flags `0`; the
material built from it is saved with the flags `524288`, the marker of the 64-bit generation
mask. -/
theorem round_trip_changes_flags :
    roundTripDesc.getAttr "MtlFlags" = "0" ∧
    MakeMaterialFromXml 3 demoEnv demoLoaded "rt" roundTripDesc false 0 none 0 none =
      .ok (some 7, demoRoundTrip) ∧
    (SaveMaterial 3 demoEnv demoRoundTrip (.mk "Material" [] []) 7).map
      (fun r => r.2.getAttr "MtlFlags") = .ok "524288" := by
  refine ⟨by decide!, by decide!, by decide!⟩

/-- The amended C19: a new material is built from a descriptor and saved into an empty
`Material` node, the save returning for a material that has the shaders it names.  The saved
node carries the flags of the built material: the flags of the descriptor that the save mask
lets through, and for a material that is no multi-sub-material in addition the marker of the
64-bit generation mask and, for the shader `nodraw`, the no-draw flag.  For a material that is
no multi-sub-material the attributes `Shader` and `GenMask` are the name and the generation
mask of the shader that the renderer loaded for the shader name of the descriptor, and
`SurfaceType` is the name of the surface type that the registry gives for the name in the
descriptor.  For a descriptor with sub-material children the saved node has one `SubMaterials`
node with one child for each of them in their order: for an inline child a `Material` node
with the same name, for any other child a `MaterialRef` node that carries the name of the
material in the slot, which is the result of the load of the name in the descriptor, and
nothing for an empty slot.  Every slot with a named layer shader is the slot of a layer node
of the descriptor, its shader is one that the renderer loaded for the name in that node, and
the saved `MaterialLayers` node, the last child, has at that position a `Layer` node with the
name of that shader; a layer node with public parameters whose shader the renderer finds gives
a layer in its slot. -/
theorem round_trip_keeps_what_was_built (n k : Nat) (env : Env) (s : CMatMan) (name : String)
    (D : XmlNode) (prio lf : Nat) (par r : Option MatId) (t : CMatMan)
    (hW : WriterLaws env) (hP : env.MTL_FLAG_PURE_CHILD ≠ 0)
    (hb : MakeMaterialFromXml (n + 1) env s name D false prio none lf par = .ok (r, t))
    (hsv : Savable env t (k + 1) s.materials.length) :
    r = some s.materials.length ∧
    ∃ out, SaveMaterial (k + 1) env t (.mk "Material" [] []) s.materials.length =
        .ok (true, out) ∧
      out.tag = "Material" ∧
      out.getAttr "MtlFlags" = intText (t.GetFlags s.materials.length) ∧
      (mtlFlagsFromXml env D false &&& env.MTL_FLAG_MULTI_SUBMTL ≠ 0 →
        t.GetFlags s.materials.length = mtlFlagsFromXml env D false) ∧
      (mtlFlagsFromXml env D false &&& env.MTL_FLAG_MULTI_SUBMTL = 0 →
        t.GetFlags s.materials.length =
          mtlFlagsFromXml env D false ||| env.MTL_64BIT_SHADERGENMASK |||
            (if stricmpEq (D.getAttr "Shader") "nodraw" = true then env.MTL_FLAG_NODRAW
              else 0)) ∧
      (t.GetFlags s.materials.length &&& env.MTL_FLAG_MULTI_SUBMTL = 0 →
        ∃ sr sh,
          (env.EF_LoadShaderItem (D.getAttr "Shader") false 0 sr
            (shaderGenMaskFromXml env D (D.getAttr "Shader")
              (mtlFlagsFromXml env D false)).1).m_pShader = some sh ∧
          out.getAttr "Shader" = sh.name ∧
          out.getAttr "GenMask" = uint64Text sh.generationMask ∧
          out.getAttr "SurfaceType" =
            (env.GetSurfaceTypeByName (D.getAttr "SurfaceType")).getD "") ∧
      (∀ subs, D.findChild "SubMaterials" = some subs → 0 < subs.children.length →
        ∃ head kids, saveHead env t (.mk "Material" [] []) s.materials.length = .ok head ∧
          out.children = head.children ++ [XmlNode.mk "SubMaterials" [] kids] ++
            saveTailNodes env t s.materials.length ∧
          kids.length = subs.children.length ∧
          ∀ i child, subs.children[i]? = some child →
            ∃ kid, kids[i]? = some kid ∧
              (child.isTag "Material" = true →
                kid.tag = "Material" ∧ kid.getAttr "Name" = child.getAttr "Name") ∧
              (child.isTag "Material" = false →
                (∃ si, stateBeforeChild n env s name D false prio none lf subs i = .ok si ∧
                  (child.getAttr "Name" ≠ "" → ∃ rr si2,
                    LoadMaterialInternal n env si (child.getAttr "Name") true false lf =
                      .ok (rr, si2) ∧ t.GetSubMtl s.materials.length i = rr) ∧
                  (child.getAttr "Name" = "" → t.GetSubMtl s.materials.length i = none)) ∧
                (t.GetSubMtl s.materials.length i = none → kid = .mk "MaterialRef" [] []) ∧
                (∀ c, t.GetSubMtl s.materials.length i = some c →
                  t.GetFlags c &&& env.MTL_FLAG_PURE_CHILD = 0 →
                  kid = .mk "MaterialRef" [("Name", t.GetName c)] []))) ∧
      (∀ l sh, layerShader (t.GetLayer s.materials.length l) = some sh →
        ∃ L child mask node kid pre, D.findChild "MaterialLayers" = some L ∧
          l < env.MTL_LAYER_MAX_SLOTS ∧ L.children[l]? = some child ∧
          env.EF_LoadShader (child.getAttr "Name") 0 mask = some sh ∧
          saveMaterialLayers env t s.materials.length = some node ∧
          out.children = pre ++ [node] ∧
          node.children[l]? = some kid ∧ kid.tag = "Layer" ∧ kid.getAttr "Name" = sh.name) ∧
      (∀ L l child publics, D.findChild "MaterialLayers" = some L →
        L.children[l]? = some child → l < env.MTL_LAYER_MAX_SLOTS →
        child.findChild "PublicParams" = some publics →
        stricmpEq (child.getAttr "Name") "nodraw" = false →
        (∀ mask, ∃ sh, env.EF_LoadShader (child.getAttr "Name") 0 mask = some sh) →
        (t.mat s.materials.length).m_shaderItem.m_pShader ≠ none →
        (t.mat s.materials.length).m_shaderItem.m_pShaderResources ≠ none →
        ∃ layer mask sh, t.GetLayer s.materials.length l = some layer ∧
          layer.m_pShaderItem.m_pShader = some sh ∧
          env.EF_LoadShader (child.getAttr "Name") 0 mask = some sh) := by
  have hr := MakeMaterialFromXml_result (n + 1) env s name D false prio none lf par r t hb
  refine ⟨hr, ?_⟩
  obtain ⟨out, hout⟩ := SaveMaterial_ok env t (k + 1) s.materials.length hsv
    (.mk "Material" [] [])
  obtain ⟨head, hh, e1, e2, hch⟩ := SaveMaterial_shape k env t _ _ true out hout
  obtain ⟨a1, _, a3, a4⟩ := saveHead_attrs env hW t _ head _ hh
  obtain ⟨f1, f2⟩ := build_flags n env s name D prio lf par r t hb
  obtain ⟨l1, l2⟩ := build_layers n env s name D prio lf par r t hb
  have htail : ∃ pre2, saveTailNodes env t s.materials.length =
      pre2 ++ (saveMaterialLayers env t s.materials.length).toList := by
    unfold saveTailNodes
    exact ⟨_, by cases saveMaterialLayers env t s.materials.length <;> rfl⟩
  refine ⟨out, hout, e1.trans a1, (getAttr_of_attrs e2 "MtlFlags").trans a3, f1, f2,
    fun hnm => ?_, fun subs hsub hpos => ?_, fun l sh hl => ?_,
    fun L l child publics hL hc hlt hpub hnd hrn h1 h2 => ?_⟩
  · obtain ⟨sh, b1, b2, b3, b4⟩ := a4 hnm
    obtain ⟨⟨sr, c1⟩, c2⟩ := build_shader n env s name D prio lf par r t hb hnm
    rw [GetShaderItemAt_own env t _ 0 hnm] at b1
    refine ⟨sr, sh, c1.symm.trans b1, (getAttr_of_attrs e2 "Shader").trans b2,
      (getAttr_of_attrs e2 "GenMask").trans b3, ?_⟩
    rw [getAttr_of_attrs e2 "SurfaceType", b4]
    unfold CMatMan.GetSurfaceType
    rw [c2]
  · obtain ⟨g1, g2⟩ := build_slots_fresh n env s name D subs false prio lf par r t hsub hb
    have hcount : 0 < t.GetSubMtlCount s.materials.length := by
      unfold CMatMan.GetSubMtlCount
      rw [g1]
      exact hpos
    rcases hch with ⟨h0, _⟩ | ⟨_, kids, hk, hkc⟩
    · rw [h0] at hcount
      exact absurd hcount (Nat.lt_irrefl _)
    · obtain ⟨kl, ki⟩ := saveSubMaterials_slots _ env t _ kids hk
      refine ⟨head, kids, hh, hkc, kl.trans g1, fun i child hi => ?_⟩
      have hik : i < subs.children.length := by
        by_contra hcon
        rw [List.getElem?_eq_none (Nat.le_of_not_lt hcon)] at hi
        cases hi
      obtain ⟨k1, k2, k3⟩ := ki i (by rw [g1]; exact hik)
      obtain ⟨si, q1, q2, q3, q4, q5⟩ := g2 i child hi
      have hkid : ∃ kid, kids[i]? = some kid := by
        have : i < kids.length := by rw [kl, g1]; exact hik
        exact ⟨kids[i], List.getElem?_eq_getElem this⟩
      by_cases htag : child.isTag "Material" = true
      · obtain ⟨si2, p1, p2, p3, p4⟩ := q3 htag
        have hflag : t.GetFlags si.materials.length &&& env.MTL_FLAG_PURE_CHILD ≠ 0 := by
          unfold CMatMan.GetFlags
          rw [p4]
          exact (forced_build_pure_child n env si _ child _ lf (some s.materials.length) _ si2
            hP p1).2.2
        obtain ⟨b, kid, s1, s2⟩ := k1 _ p2 hflag
        obtain ⟨t1, t2, _⟩ := saved_node_keeps k env hW t _ kid _ b s1
        have hname : t.GetName si.materials.length = child.getAttr "Name" := by
          unfold CMatMan.GetName
          rw [p4]
          cases n with
          | zero => simp [MakeMaterialFromXml] at p1
          | succ n2 =>
            exact build_object_name n2 env si _ child true _ lf (some s.materials.length) _ si2 p1
        refine ⟨kid, s2, fun _ => ⟨t1, ?_⟩, fun hf => absurd htag (by rw [hf]; simp)⟩
        rw [t2, ← hname]
        rfl
      · have htf : child.isTag "Material" = false := by
          cases hq : child.isTag "Material" with
          | true => exact absurd hq htag
          | false => rfl
        obtain ⟨kid, hkid⟩ := hkid
        refine ⟨kid, hkid, fun ht => absurd ht htag, fun _ =>
          ⟨⟨si, q1, fun hn => q4 htf hn, fun hn => q5 htf hn⟩, fun hnone => ?_,
            fun c hc hpc => ?_⟩⟩
        · have := k3 hnone
          rw [hkid] at this
          injection this
        · have := k2 c hc hpc
          rw [hkid] at this
          injection this
  · obtain ⟨layer, hlayer⟩ := layerShader_some _ sh hl
    obtain ⟨L, child, mask, sh2, m1, m2, m3, m4, m5, _⟩ := l1 l layer hlayer
    rw [hlayer] at hl
    obtain ⟨n1, _⟩ := layerShader_eq layer sh hl
    have hsh : sh2 = sh := by
      rw [m5] at n1
      injection n1
    subst hsh
    rw [← hlayer] at hl
    have hnode : saveMaterialLayers env t s.materials.length ≠ none := by
      intro hcon
      have := (saveMaterialLayers_none_iff env t s.materials.length).mp hcon l m2
      rw [this] at hl
      cases hl
    cases hnd : saveMaterialLayers env t s.materials.length with
    | none => exact absurd hnd hnode
    | some node =>
      obtain ⟨pre2, hpre2⟩ := htail
      rw [hnd] at hpre2
      have hnd2 := hnd
      unfold saveMaterialLayers at hnd2
      split at hnd2
      · injection hnd2 with hnd2
        have hkid : node.children[l]? =
            some (saveLayerNode env (t.GetLayer s.materials.length l)) := by
          rw [← hnd2]
          simp [XmlNode.children, m2]
        have hattr := saveLayerNode_attrs env _ sh2 hl
        have hname : (saveLayerNode env (t.GetLayer s.materials.length l)).getAttr "Name" =
            sh2.name := by
          unfold XmlNode.getAttr
          rw [hattr, mapFind_cons_eq, if_pos rfl]
          rfl
        have hchildren : ∃ pre, out.children = pre ++ [node] := by
          rcases hch with ⟨_, hc0⟩ | ⟨_, kids, _, hc1⟩
          · exact ⟨head.children ++ pre2, by rw [hc0, hpre2]; simp⟩
          · exact ⟨head.children ++ [XmlNode.mk "SubMaterials" [] kids] ++ pre2, by
              rw [hc1, hpre2]; simp⟩
        obtain ⟨pre, hpre⟩ := hchildren
        exact ⟨L, child, mask, node, _, pre, m1, m2, m3, m4, rfl, hpre, hkid,
          saveLayerNode_tag env _, hname⟩
      · cases hnd2
  · obtain ⟨layer, hlayer⟩ := l2 L l child publics hL hc hlt hpub hnd hrn h1 h2
    obtain ⟨L2, child2, mask, sh, m1, _, m3, m4, m5, _⟩ := l1 l layer hlayer
    rw [hL] at m1
    injection m1 with m1
    subst m1
    rw [hc] at m3
    injection m3 with m3
    subst m3
    exact ⟨layer, mask, sh, hlayer, m5, m4⟩

theorem writerLaws_demoEnv : WriterLaws demoEnv :=
  ⟨fun _ _ => ⟨rfl, fun _ _ => rfl⟩, fun _ _ => ⟨rfl, fun _ _ => rfl⟩,
    fun _ _ => ⟨rfl, fun _ _ => rfl⟩⟩

theorem savable_demoRoundTrip : Savable demoEnv demoRoundTrip (2 + 1) demoLoaded.materials.length := by
  refine ⟨Or.inr (by decide!), fun c hc hp => ?_⟩
  have h5 : c = 8 ∨ c = 6 := by
    have : (demoRoundTrip.mat demoLoaded.materials.length).m_subMtls = [some 8, some 6] := by
      decide!
    rw [this] at hc
    simpa using hc
  rcases h5 with h5 | h5
  · subst h5
    exact ⟨Or.inr (by decide!), fun c2 hc2 _ => by
      have : (demoRoundTrip.mat 8).m_subMtls = [] := by decide!
      rw [this] at hc2
      simp at hc2⟩
  · subst h5
    exact absurd (by decide! : demoRoundTrip.GetFlags 6 &&& demoEnv.MTL_FLAG_PURE_CHILD = 0) hp

/-- The amended C19 on the material `rt` of the examples, built from `roundTripDesc` as
object 7 and saved with the flags `524288`, the shader `Illum`, the surface type `mat_metal`,
the children `x` and `q` and the layers `Frozen` and `Wet`. -/
theorem round_trip_keeps_what_was_built_witness :
    (SaveMaterial 3 demoEnv demoRoundTrip (.mk "Material" [] []) 7).map
      (fun r => (r.2.getAttr "MtlFlags", r.2.getAttr "Shader", r.2.getAttr "SurfaceType")) =
      .ok ("524288", "Illum", "mat_metal") ∧
    (some 7) = some demoLoaded.materials.length ∧
    ∃ out, SaveMaterial (2 + 1) demoEnv demoRoundTrip (.mk "Material" [] []) demoLoaded.materials.length =
        .ok (true, out) ∧
      out.tag = "Material" ∧
      out.getAttr "MtlFlags" = intText (demoRoundTrip.GetFlags demoLoaded.materials.length) ∧
      (mtlFlagsFromXml demoEnv roundTripDesc false &&& demoEnv.MTL_FLAG_MULTI_SUBMTL ≠ 0 →
        demoRoundTrip.GetFlags demoLoaded.materials.length = mtlFlagsFromXml demoEnv roundTripDesc false) ∧
      (mtlFlagsFromXml demoEnv roundTripDesc false &&& demoEnv.MTL_FLAG_MULTI_SUBMTL = 0 →
        demoRoundTrip.GetFlags demoLoaded.materials.length =
          mtlFlagsFromXml demoEnv roundTripDesc false ||| demoEnv.MTL_64BIT_SHADERGENMASK |||
            (if stricmpEq (roundTripDesc.getAttr "Shader") "nodraw" = true then demoEnv.MTL_FLAG_NODRAW
              else 0)) ∧
      (demoRoundTrip.GetFlags demoLoaded.materials.length &&& demoEnv.MTL_FLAG_MULTI_SUBMTL = 0 →
        ∃ sr sh,
          (demoEnv.EF_LoadShaderItem (roundTripDesc.getAttr "Shader") false 0 sr
            (shaderGenMaskFromXml demoEnv roundTripDesc (roundTripDesc.getAttr "Shader")
              (mtlFlagsFromXml demoEnv roundTripDesc false)).1).m_pShader = some sh ∧
          out.getAttr "Shader" = sh.name ∧
          out.getAttr "GenMask" = uint64Text sh.generationMask ∧
          out.getAttr "SurfaceType" =
            (demoEnv.GetSurfaceTypeByName (roundTripDesc.getAttr "SurfaceType")).getD "") ∧
      (∀ subs, roundTripDesc.findChild "SubMaterials" = some subs → 0 < subs.children.length →
        ∃ head kids, saveHead demoEnv demoRoundTrip (.mk "Material" [] []) demoLoaded.materials.length = .ok head ∧
          out.children = head.children ++ [XmlNode.mk "SubMaterials" [] kids] ++
            saveTailNodes demoEnv demoRoundTrip demoLoaded.materials.length ∧
          kids.length = subs.children.length ∧
          ∀ i child, subs.children[i]? = some child →
            ∃ kid, kids[i]? = some kid ∧
              (child.isTag "Material" = true →
                kid.tag = "Material" ∧ kid.getAttr "Name" = child.getAttr "Name") ∧
              (child.isTag "Material" = false →
                (∃ si, stateBeforeChild 2 demoEnv demoLoaded "rt" roundTripDesc false 0 none 0 subs i = .ok si ∧
                  (child.getAttr "Name" ≠ "" → ∃ rr si2,
                    LoadMaterialInternal 2 demoEnv si (child.getAttr "Name") true false 0 =
                      .ok (rr, si2) ∧ demoRoundTrip.GetSubMtl demoLoaded.materials.length i = rr) ∧
                  (child.getAttr "Name" = "" → demoRoundTrip.GetSubMtl demoLoaded.materials.length i = none)) ∧
                (demoRoundTrip.GetSubMtl demoLoaded.materials.length i = none → kid = .mk "MaterialRef" [] []) ∧
                (∀ c, demoRoundTrip.GetSubMtl demoLoaded.materials.length i = some c →
                  demoRoundTrip.GetFlags c &&& demoEnv.MTL_FLAG_PURE_CHILD = 0 →
                  kid = .mk "MaterialRef" [("Name", demoRoundTrip.GetName c)] []))) ∧
      (∀ l sh, layerShader (demoRoundTrip.GetLayer demoLoaded.materials.length l) = some sh →
        ∃ L child mask node kid pre, roundTripDesc.findChild "MaterialLayers" = some L ∧
          l < demoEnv.MTL_LAYER_MAX_SLOTS ∧ L.children[l]? = some child ∧
          demoEnv.EF_LoadShader (child.getAttr "Name") 0 mask = some sh ∧
          saveMaterialLayers demoEnv demoRoundTrip demoLoaded.materials.length = some node ∧
          out.children = pre ++ [node] ∧
          node.children[l]? = some kid ∧ kid.tag = "Layer" ∧ kid.getAttr "Name" = sh.name) ∧
      (∀ L l child publics, roundTripDesc.findChild "MaterialLayers" = some L →
        L.children[l]? = some child → l < demoEnv.MTL_LAYER_MAX_SLOTS →
        child.findChild "PublicParams" = some publics →
        stricmpEq (child.getAttr "Name") "nodraw" = false →
        (∀ mask, ∃ sh, demoEnv.EF_LoadShader (child.getAttr "Name") 0 mask = some sh) →
        (demoRoundTrip.mat demoLoaded.materials.length).m_shaderItem.m_pShader ≠ none →
        (demoRoundTrip.mat demoLoaded.materials.length).m_shaderItem.m_pShaderResources ≠ none →
        ∃ layer mask sh, demoRoundTrip.GetLayer demoLoaded.materials.length l = some layer ∧
          layer.m_pShaderItem.m_pShader = some sh ∧
          demoEnv.EF_LoadShader (child.getAttr "Name") 0 mask = some sh) :=
  ⟨by decide!,
    round_trip_keeps_what_was_built 2 2 demoEnv demoLoaded "rt" roundTripDesc 0 0 none (some 7)
      demoRoundTrip writerLaws_demoEnv (by decide!) (by decide!) savable_demoRoundTrip⟩

/-! ## C28: the result of a build is never null -/

/-- C28: the builder `MakeMaterialFromXml` never returns a null material.  Whenever a build
returns, with any descriptor, name and arguments, its result is a material: the existing one
when one was given and the new object otherwise; a build from a descriptor whose
sub-materials are inline children or references without a name, nested no deeper than the
fuel, does return.  So in the loop over the sub-materials the build of an inline child never
gives null and the slot gets the child itself, not the default material of line 623.  On the
owner path of `LoadMaterialInternal` (the defaults are there, no early return, no record for
the name) a null result comes from a terminal failure only: the file is missing or the document
does not parse. -/
theorem build_result_is_never_absent (n : Nat) (env : Env) :
    (∀ s name node force prio ex lf par r t,
      MakeMaterialFromXml n env s name node force prio ex lf par = .ok (r, t) →
        r = some (ex.getD s.materials.length)) ∧
    (∀ node, InlineOnly n node → ∀ s name force prio ex lf par, ∃ t,
      MakeMaterialFromXml n env s name node force prio ex lf par =
        .ok (some (ex.getD s.materials.length), t)) ∧
    (∀ lf x k child i u u1, child.isTag "Material" = true →
      loadSubMaterial
        (fun name c prio parent t =>
          MakeMaterialFromXml n env t name c true prio none lf (some parent))
        (fun name t => LoadMaterialInternal n env t name true false lf)
        x k child i u = .ok u1 →
      ∃ s1, MakeMaterialFromXml n env u (child.getAttr "Name") child true
          ((k - i - 1) % 65536) none lf (some x) = .ok (some u.materials.length, s1) ∧
        u1 = s1.SetSubMtl x i (some u.materials.length)) ∧
    (∀ s s1 N mk nr lf t, ensureDefaults n env s = .ok s1 → preloadShortCut env s1 = false →
      mapFind s1.m_pendingMaterialLoads (UnifyName env N) = none →
      LoadMaterialInternal (n + 1) env s N mk nr lf = .ok (none, t) →
      terminalFailure env (materialFileName (UnifyName env N))) := by
  refine ⟨fun s name node force prio ex lf par r t h =>
    MakeMaterialFromXml_result n env s name node force prio ex lf par r t h,
    fun node hi s name force prio ex lf par =>
      inline_build_returns env n node hi s name force prio ex lf par, ?_, ?_⟩
  · intro lf x k child i u u1 htag h
    unfold loadSubMaterial at h
    rw [if_pos htag] at h
    dsimp only at h
    cases hb : MakeMaterialFromXml n env u (child.getAttr "Name") child true
        ((k - i - 1) % 65536) none lf (some x) with
    | error e => rw [hb] at h; exact absurd h (by simp)
    | ok p =>
      obtain ⟨r, s1⟩ := p
      have hr := MakeMaterialFromXml_result n env u _ child true _ none lf (some x) r s1 hb
      subst hr
      rw [hb] at h
      simp only [Except.ok.injEq] at h
      exact ⟨s1, rfl, h.symm⟩
  · intro s s1 N mk nr lf t hi hp hrec h
    rw [LoadMaterialInternal_succ, hi] at h
    dsimp only at h
    rw [loadAfterInit_owner _ env s1 N mk nr hp hrec] at h
    rcases loadAsOwner_ends _ env _ _ _ mk nr none t h with h1 | h1 | h1 | h1
    · exact h1.1
    · obtain ⟨_, e⟩ := h1
      unfold finishLoad at e
      simp at e
    · obtain ⟨node, m, t2, _, _, _, e⟩ := h1
      unfold finishLoad at e
      simp at e
    · obtain ⟨node, t2, _, _, hb, _⟩ := h1
      have := MakeMaterialFromXml_result n env _ _ node false 0 none lf none none t2 hb
      simp at this

/-- The C28 theorem on the initialised manager of the examples: the build of a material
without sub-materials returns the new object 1, and the load of `bad.mtl`, whose document does
not parse, is a terminal failure. -/
theorem build_result_is_never_absent_witness :
    (∃ t, MakeMaterialFromXml 1 demoEnv demoState "m" (.mk "Material" [("Shader", "Illum")] [])
      false 0 none 0 none = .ok (some ((none : Option MatId).getD demoState.materials.length), t)) ∧
    terminalFailure demoEnv (materialFileName (UnifyName demoEnv "bad.mtl")) :=
  ⟨(build_result_is_never_absent 1 demoEnv).2.1 (.mk "Material" [("Shader", "Illum")] [])
      (fun subs h => by cases h) demoState "m" false 0 none 0 none,
    (build_result_is_never_absent 0 demoEnv).2.2.2 demoState demoState "bad.mtl" false false 0
      (match LoadMaterialInternal 1 demoEnv demoState "bad.mtl" false false 0 with
        | .ok r => r.2
        | .error _ => CMatMan.new)
      (by decide!) (by decide!) (by decide!) (by decide!)⟩

/-! ## C27: a build into an existing material adds flags only -/

theorem land_lor_self (a b : Nat) : a &&& (b ||| a) = a := by
  apply Nat.eq_of_testBit_eq
  intro i
  rw [Nat.testBit_and, Nat.testBit_or]
  cases a.testBit i <;> cases b.testBit i <;> rfl

theorem testBit_of_land_eq {a t : Nat} (h : a &&& t = a) (i : Nat) (hi : a.testBit i = true) :
    t.testBit i = true := by
  have := congrArg (fun v => v.testBit i) h
  dsimp only at this
  rw [Nat.testBit_and, hi] at this
  simpa using this

theorem land_ne_zero_of_land_eq {a t : Nat} (h : a &&& t = a) (f : Nat) (hf : a &&& f ≠ 0) :
    t &&& f ≠ 0 := by
  intro h0
  apply hf
  rw [← h, Nat.and_assoc, h0]
  exact Nat.and_zero _

/-- The loop over the sub-materials leaves the object of the material that is built as it is,
apart from its slots. -/
theorem loadSubMaterialsNode_object (n : Nat) (env : Env) (lf : Nat) (s1 : CMatMan) (x : MatId)
    (node : XmlNode) (s2 : CMatMan) (hx : x < s1.materials.length)
    (h2 : loadSubMaterialsNode
      (fun name child prio parent t =>
        MakeMaterialFromXml n env t name child true prio none lf (some parent))
      (fun name t => LoadMaterialInternal n env t name true false lf)
      s1 x node = .ok s2) :
    x < s2.materials.length ∧
      { s2.mat x with m_subMtls := [] } = { s1.mat x with m_subMtls := [] } := by
  unfold loadSubMaterialsNode at h2
  split at h2
  · simp only [Except.ok.injEq] at h2
    rw [← h2]
    exact ⟨hx, rfl⟩
  · rename_i subs _
    refine closed_loadSubMaterials
      (fun u => x < u.materials.length ∧
        { u.mat x with m_subMtls := [] } = { s1.mat x with m_subMtls := [] })
      _ _ ?_ ?_ x _ ?_ _ 0 _ s2 ?_ h2
    · intro name node prio par u r u2 hu hb
      have k := (keeps_all env n).2 u name node true prio lf (some par) r u2 hb
      exact ⟨Nat.lt_of_lt_of_le hu.1 k.length, by
        rw [k.objects _ hu.1 (by simp)]; exact hu.2⟩
    · intro name u r u2 hu hl
      have k := (keeps_all env n).1 u name true false lf r u2 hl
      exact ⟨Nat.lt_of_lt_of_le hu.1 k.length, by
        rw [k.objects _ hu.1 (by simp)]; exact hu.2⟩
    · intro u hu i c
      unfold CMatMan.SetSubMtl
      refine ⟨by rw [updMat_length]; exact hu.1, ?_⟩
      rw [mat_updMat_self u _ hu.1]
      exact hu.2
    · unfold CMatMan.SetSubMtlCount
      refine ⟨by rw [updMat_length]; exact hx, ?_⟩
      rw [mat_updMat_self s1 _ hx]

/-- A build into an existing material leaves in its object what the body of the builder put
there; only the sub-material slots are filled afterwards. -/
theorem rebuild_object (n : Nat) (env : Env) (s : CMatMan) (name : String) (node : XmlNode)
    (force : Bool) (prio : Nat) (m : MatId) (lf : Nat) (par r : Option MatId) (t : CMatMan)
    (hm : m < s.materials.length)
    (h : MakeMaterialFromXml (n + 1) env s name node force prio (some m) lf par = .ok (r, t)) :
    r = some m ∧ m < t.materials.length ∧
      { t.mat m with m_subMtls := [] } =
        { (loadMaterialBody env
            (s.SetFlags m (mtlFlagsFromXml env node force ||| s.GetFlags m)) m name node
            (mtlFlagsFromXml env node force) prio).mat m with m_subMtls := [] } := by
  have hr := MakeMaterialFromXml_result (n + 1) env s name node force prio (some m) lf par r t h
  refine ⟨hr, ?_⟩
  rw [MakeMaterialFromXml] at h
  unfold makeMaterialBody at h
  dsimp only at h
  have ho : obtainMaterial env s name (mtlFlagsFromXml env node force) (some m) =
      (m, s.SetFlags m (mtlFlagsFromXml env node force ||| s.GetFlags m)) := rfl
  rw [ho] at h
  dsimp only at h
  have hlen1 := (loadMaterialBody_subMtls env
    (s.SetFlags m (mtlFlagsFromXml env node force ||| s.GetFlags m)) m name node
    (mtlFlagsFromXml env node force) prio).2
  have hl0 : (s.SetFlags m (mtlFlagsFromXml env node force ||| s.GetFlags m)).materials.length =
      s.materials.length := updMat_length _ _ _
  rw [hl0] at hlen1
  generalize loadMaterialBody env
    (s.SetFlags m (mtlFlagsFromXml env node force ||| s.GetFlags m)) m name node
    (mtlFlagsFromXml env node force) prio = s1 at h hlen1 ⊢
  have hx1 : m < s1.materials.length := by rw [hlen1]; exact hm
  split at h
  · exact absurd h (by simp)
  · rename_i s2 h2
    simp only [Except.ok.injEq, Prod.mk.injEq] at h
    obtain ⟨a, b⟩ := loadSubMaterialsNode_object n env lf s1 m node s2 hx1 h2
    rw [← h.2, mat_congr (NotifyCreateMaterial_sameTables s2 _).2.2,
      (NotifyCreateMaterial_sameTables s2 _).2.2]
    exact ⟨a, b⟩

/-- The flags of an existing material when a build into it returns: the flags it had, with
flags added. -/
theorem rebuild_flags (n : Nat) (env : Env) (s : CMatMan) (name : String) (node : XmlNode)
    (force : Bool) (prio : Nat) (m : MatId) (lf : Nat) (par r : Option MatId) (t : CMatMan)
    (h : MakeMaterialFromXml n env s name node force prio (some m) lf par = .ok (r, t)) :
    s.GetFlags m &&& t.GetFlags m = s.GetFlags m := by
  cases n with
  | zero => rw [MakeMaterialFromXml] at h; exact absurd h (by simp)
  | succ n =>
    by_cases hm : m < s.materials.length
    · obtain ⟨_, _, e⟩ := rebuild_object n env s name node force prio m lf par r t hm h
      have e2 := congrArg (fun c => c.m_Flags) e
      dsimp only at e2
      have hx0 : m < (s.SetFlags m (mtlFlagsFromXml env node force ||| s.GetFlags m)).materials.length := by
        unfold CMatMan.SetFlags
        rw [updMat_length]; exact hm
      rw [loadMaterialBody_flags env _ _ name node _ prio hx0] at e2
      have hf : ((s.SetFlags m (mtlFlagsFromXml env node force ||| s.GetFlags m)).mat m).m_Flags =
          mtlFlagsFromXml env node force ||| s.GetFlags m := by
        unfold CMatMan.SetFlags
        rw [mat_updMat_self s _ hm]
      rw [hf] at e2
      unfold CMatMan.GetFlags at e2 ⊢
      rw [e2]
      split
      · exact land_lor_self _ _
      · rw [← Nat.or_assoc]
        exact land_lor_self _ _
    · have h0 : s.GetFlags m = 0 := by
        unfold CMatMan.GetFlags CMatMan.mat
        rw [List.getD_eq_default _ _ (Nat.le_of_not_lt hm)]
      rw [h0]
      exact Nat.zero_and _

/-- C27: a build into an existing material never clears a flag.  Whenever
`MakeMaterialFromXml` returns from a call with the existing material `m`, it returns `m`, and
every flag bit that `m` had before the call is set afterwards: the flags before are contained
in the flags after, bit by bit, so a flag such as no-draw or multi-sub-material that `m` had
(a flag that meets the flags before meets the flags after) is still there whatever the
descriptor says.  The same holds for the hot reload `LoadMaterialFromXml` of a name that is
registered to `m`. -/
theorem rebuild_never_clears_a_flag (n : Nat) (env : Env) (s : CMatMan) (node : XmlNode)
    (m : MatId) :
    (∀ name force prio lf par r t,
      MakeMaterialFromXml n env s name node force prio (some m) lf par = .ok (r, t) →
      r = some m ∧ s.GetFlags m &&& t.GetFlags m = s.GetFlags m ∧
        (∀ i, (s.GetFlags m).testBit i = true → (t.GetFlags m).testBit i = true) ∧
        (∀ f, s.GetFlags m &&& f ≠ 0 → t.GetFlags m &&& f ≠ 0)) ∧
    (∀ N r t, FindMaterial env s N = some m →
      LoadMaterialFromXml n env s N node = .ok (r, t) →
      r = some m ∧ s.GetFlags m &&& t.GetFlags m = s.GetFlags m ∧
        (∀ i, (s.GetFlags m).testBit i = true → (t.GetFlags m).testBit i = true) ∧
        (∀ f, s.GetFlags m &&& f ≠ 0 → t.GetFlags m &&& f ≠ 0)) := by
  have key : ∀ name force prio lf par r t,
      MakeMaterialFromXml n env s name node force prio (some m) lf par = .ok (r, t) →
      r = some m ∧ s.GetFlags m &&& t.GetFlags m = s.GetFlags m ∧
        (∀ i, (s.GetFlags m).testBit i = true → (t.GetFlags m).testBit i = true) ∧
        (∀ f, s.GetFlags m &&& f ≠ 0 → t.GetFlags m &&& f ≠ 0) := by
    intro name force prio lf par r t h
    have hf := rebuild_flags n env s name node force prio m lf par r t h
    exact ⟨MakeMaterialFromXml_result n env s name node force prio (some m) lf par r t h, hf,
      fun i hi => testBit_of_land_eq hf i hi, fun f h1 => land_ne_zero_of_land_eq hf f h1⟩
  refine ⟨key, fun N r t hfind h => ?_⟩
  unfold LoadMaterialFromXml at h
  unfold FindMaterial at hfind
  dsimp only at h
  rw [hfind] at h
  exact key _ false 0 0 none r t h

/-- The C27 theorem on a material made with the no-draw and the multi-sub-material flag
(object 1, flags `0x500`): the build into it from a descriptor without flags returns it with
the flags `0x80500`, and every flag it had is still set. -/
theorem rebuild_never_clears_a_flag_witness :
    ∃ t, MakeMaterialFromXml 1 demoEnv (CreateMaterial demoEnv demoState "n" 0x500).2 "n"
        (.mk "Material" [("Shader", "Illum")] []) false 0 (some 1) 0 none = .ok (some 1, t) ∧
      (CreateMaterial demoEnv demoState "n" 0x500).2.GetFlags 1 = 0x500 ∧
      t.GetFlags 1 = 0x80500 ∧
      ∀ f, (CreateMaterial demoEnv demoState "n" 0x500).2.GetFlags 1 &&& f ≠ 0 →
        t.GetFlags 1 &&& f ≠ 0 :=
  ⟨match MakeMaterialFromXml 1 demoEnv (CreateMaterial demoEnv demoState "n" 0x500).2 "n"
        (.mk "Material" [("Shader", "Illum")] []) false 0 (some 1) 0 none with
      | .ok r => r.2
      | .error _ => CMatMan.new,
    by decide!, by decide!, by decide!,
    ((rebuild_never_clears_a_flag 1 demoEnv (CreateMaterial demoEnv demoState "n" 0x500).2
      (.mk "Material" [("Shader", "Illum")] []) 1).1 "n" false 0 0 none (some 1) _
      (by decide!)).2.2.2⟩

/-! ## C21: the flags that the builder hands to `CreateMaterial` -/

/-- The flags that the builder reads from the descriptor: the `MtlFlags` of the descriptor
within the save mask, and the pure-child flag on request. -/
theorem mtlFlagsFromXml_eq (env : Env) (node : XmlNode) (force : Bool) :
    mtlFlagsFromXml env node force =
      (node.getAttrInt "MtlFlags" 0 &&& env.MTL_FLAGS_SAVE_MASK) |||
        (if force = true then env.MTL_FLAG_PURE_CHILD else 0) := by
  unfold mtlFlagsFromXml
  cases force
  · exact (Nat.or_zero _).symm
  · rfl

/-- The flags of a new material when its build returns. -/
theorem new_material_flags (n : Nat) (env : Env) (s : CMatMan) (name : String) (node : XmlNode)
    (force : Bool) (prio lf : Nat) (par r : Option MatId) (t : CMatMan)
    (h : MakeMaterialFromXml (n + 1) env s name node force prio none lf par = .ok (r, t)) :
    t.GetFlags s.materials.length =
      if mtlFlagsFromXml env node force &&& env.MTL_FLAG_MULTI_SUBMTL ≠ 0 then
        mtlFlagsFromXml env node force
      else
        mtlFlagsFromXml env node force ||| env.MTL_64BIT_SHADERGENMASK |||
          (if stricmpEq (node.getAttr "Shader") "nodraw" = true then env.MTL_FLAG_NODRAW
            else 0) := by
  obtain ⟨_, _, e⟩ := build_object n env s name node force prio lf par r t h
  have e2 := congrArg (fun c => c.m_Flags) e
  dsimp only at e2
  have hx0 : s.materials.length <
      (CreateMaterial env s name (mtlFlagsFromXml env node force)).2.materials.length := by
    rw [CreateMaterial_length]; exact Nat.lt_succ_self _
  rw [loadMaterialBody_flags env _ _ name node _ prio hx0, CreateMaterial_mat_new] at e2
  unfold CMatMan.GetFlags
  rw [e2]
  split
  · exact Nat.or_zero _
  · rw [shaderGenMaskFromXml_snd]
    split
    · exact lor_absorb3 _ _ _
    · rw [lor_absorb, Nat.or_zero]

/-- C21: the flags of a new material.  The builder hands to `CreateMaterial` the `MtlFlags`
of the descriptor restricted to `MTL_FLAGS_SAVE_MASK`, with `MTL_FLAG_PURE_CHILD` added when
a pure child is forced: these flags contain the pure-child flag exactly when a pure child is
forced or the restricted flags contain it, every bit of them is a bit of the descriptor
inside the mask or a forced pure-child bit, and they are the flags of the new object as
`CreateMaterial` leaves it.  When the build returns, the flags of the material are these
flags, to which the builder itself adds, for a material that is no multi-sub-material, the
marker of the 64-bit generation mask and, for the shader `nodraw`, the no-draw flag.  So the
bits of the descriptor outside the mask do not reach the material: two descriptors with the
same shader name whose `MtlFlags` agree inside the mask give materials with the same flags. -/
theorem created_flags_are_masked (n : Nat) (env : Env) (s : CMatMan) (name : String)
    (node : XmlNode) (force : Bool) (prio lf : Nat) (par : Option MatId) :
    obtainMaterial env s name (mtlFlagsFromXml env node force) none =
      CreateMaterial env s name
        ((node.getAttrInt "MtlFlags" 0 &&& env.MTL_FLAGS_SAVE_MASK) |||
          (if force = true then env.MTL_FLAG_PURE_CHILD else 0)) ∧
    (((node.getAttrInt "MtlFlags" 0 &&& env.MTL_FLAGS_SAVE_MASK) |||
        (if force = true then env.MTL_FLAG_PURE_CHILD else 0)) &&& env.MTL_FLAG_PURE_CHILD =
          env.MTL_FLAG_PURE_CHILD ↔
      force = true ∨
        (node.getAttrInt "MtlFlags" 0 &&& env.MTL_FLAGS_SAVE_MASK) &&& env.MTL_FLAG_PURE_CHILD =
          env.MTL_FLAG_PURE_CHILD) ∧
    (∀ i, ((node.getAttrInt "MtlFlags" 0 &&& env.MTL_FLAGS_SAVE_MASK) |||
        (if force = true then env.MTL_FLAG_PURE_CHILD else 0)).testBit i = true →
      ((node.getAttrInt "MtlFlags" 0).testBit i = true ∧
        env.MTL_FLAGS_SAVE_MASK.testBit i = true) ∨
      (force = true ∧ env.MTL_FLAG_PURE_CHILD.testBit i = true)) ∧
    (CreateMaterial env s name
        ((node.getAttrInt "MtlFlags" 0 &&& env.MTL_FLAGS_SAVE_MASK) |||
          (if force = true then env.MTL_FLAG_PURE_CHILD else 0))).2.GetFlags s.materials.length =
      (node.getAttrInt "MtlFlags" 0 &&& env.MTL_FLAGS_SAVE_MASK) |||
        (if force = true then env.MTL_FLAG_PURE_CHILD else 0) ∧
    ∀ r t, MakeMaterialFromXml (n + 1) env s name node force prio none lf par = .ok (r, t) →
      r = some s.materials.length ∧
      t.GetFlags s.materials.length =
        (if ((node.getAttrInt "MtlFlags" 0 &&& env.MTL_FLAGS_SAVE_MASK) |||
            (if force = true then env.MTL_FLAG_PURE_CHILD else 0)) &&&
              env.MTL_FLAG_MULTI_SUBMTL ≠ 0 then
          (node.getAttrInt "MtlFlags" 0 &&& env.MTL_FLAGS_SAVE_MASK) |||
            (if force = true then env.MTL_FLAG_PURE_CHILD else 0)
        else
          ((node.getAttrInt "MtlFlags" 0 &&& env.MTL_FLAGS_SAVE_MASK) |||
            (if force = true then env.MTL_FLAG_PURE_CHILD else 0)) |||
            env.MTL_64BIT_SHADERGENMASK |||
            (if stricmpEq (node.getAttr "Shader") "nodraw" = true then env.MTL_FLAG_NODRAW
              else 0)) ∧
      ∀ k s2 name2 node2 prio2 lf2 par2 r2 t2,
        node2.getAttrInt "MtlFlags" 0 &&& env.MTL_FLAGS_SAVE_MASK =
          node.getAttrInt "MtlFlags" 0 &&& env.MTL_FLAGS_SAVE_MASK →
        node2.getAttr "Shader" = node.getAttr "Shader" →
        MakeMaterialFromXml (k + 1) env s2 name2 node2 force prio2 none lf2 par2 =
          .ok (r2, t2) →
        t2.GetFlags s2.materials.length = t.GetFlags s.materials.length := by
  have hF := mtlFlagsFromXml_eq env node force
  refine ⟨by rw [hF]; rfl, ?_, ?_, ?_, ?_⟩
  · cases force
    · simp
    · simp only [if_true, true_or, iff_true]
      exact lor_land_self _ _
  · intro i hi
    rw [Nat.testBit_or, Nat.testBit_and] at hi
    cases force
    · left
      simpa using hi
    · simp only [if_true] at hi
      rcases Bool.or_eq_true _ _ ▸ hi with h1 | h1
      · left
        simpa using h1
      · right
        exact ⟨rfl, h1⟩
  · unfold CMatMan.GetFlags
    rw [CreateMaterial_mat_new]
    exact Nat.or_zero _
  · intro r t h
    have h1 := new_material_flags n env s name node force prio lf par r t h
    rw [hF] at h1
    refine ⟨MakeMaterialFromXml_result _ env s name node force prio none lf par r t h, h1, ?_⟩
    intro k s2 name2 node2 prio2 lf2 par2 r2 t2 hm hs h2
    have h3 := new_material_flags k env s2 name2 node2 force prio2 lf2 par2 r2 t2 h2
    rw [mtlFlagsFromXml_eq env node2 force, hm, hs] at h3
    rw [h1, h3]

/-- The C21 theorem on a descriptor whose `MtlFlags` are the no-draw flag `0x400`, which lies
outside the save mask of the examples: the new material has the marker of the 64-bit
generation mask and no other flag. -/
theorem created_flags_are_masked_witness :
    ∃ t, MakeMaterialFromXml 1 demoEnv demoState "m"
        (.mk "Material" [("MtlFlags", "1024"), ("Shader", "Illum")] []) false 0 none 0 none =
          .ok (some 1, t) ∧
      t.GetFlags demoState.materials.length = 0x80000 :=
  ⟨match MakeMaterialFromXml 1 demoEnv demoState "m"
        (.mk "Material" [("MtlFlags", "1024"), ("Shader", "Illum")] []) false 0 none 0 none with
      | .ok r => r.2
      | .error _ => CMatMan.new,
    by decide!,
    (((created_flags_are_masked 0 demoEnv demoState "m"
      (.mk "Material" [("MtlFlags", "1024"), ("Shader", "Illum")] []) false 0 0 none).2.2.2.2
      (some 1) _ (by decide!)).2.1).trans (by decide!)⟩

/-! ## C22: the layers that are read and the frozen flag -/

theorem mod_lor_mod (a : Nat) : (a % 256 ||| a) % 256 = a % 256 := by
  show (a % 2 ^ 8 ||| a) % 2 ^ 8 = a % 2 ^ 8
  apply Nat.eq_of_testBit_eq
  intro i
  simp only [Nat.testBit_mod_two_pow, Nat.testBit_or]
  cases decide (i < 8) <;> cases a.testBit i <;> rfl

theorem take_min_length {α : Type} (a : Nat) (l : List α) :
    l.take (min a l.length) = l.take a := by
  rcases Nat.le_total a l.length with h | h
  · rw [Nat.min_eq_left h]
  · rw [Nat.min_eq_right h, List.take_of_length_le h, List.take_of_length_le (Nat.le_refl _)]

/-- The material layer flags that the loop over the layer nodes collects: the frozen flag when
some node has `NoDraw` set and names the layer `frozenlayerwip`. -/
theorem loadLayerNodes_fst (env : Env) (x : MatId) (sr : SInputShaderResources)
    (nodes : List XmlNode) :
    ∀ (l fl : Nat) (s : CMatMan), fl = 0 ∨ fl = env.MTL_LAYER_FROZEN % 256 →
      (loadLayerNodes env x sr nodes l fl s).1 =
        if nodes.any (fun c =>
            c.getAttrBool "NoDraw" false && stricmpEq (c.getAttr "Name") "frozenlayerwip") = true
        then env.MTL_LAYER_FROZEN % 256 else fl := by
  induction nodes with
  | nil => intro l fl s _; rfl
  | cons c rest ih =>
    intro l fl s hfl
    rw [loadLayerNodes]
    have e : (layerNodeFlags env c).2 =
        (c.getAttrBool "NoDraw" false && stricmpEq (c.getAttr "Name") "frozenlayerwip") := rfl
    rw [List.any_cons]
    cases hc : (c.getAttrBool "NoDraw" false && stricmpEq (c.getAttr "Name") "frozenlayerwip") with
    | false =>
      rw [e, hc]
      simp only [Bool.false_eq_true, if_false, Bool.false_or]
      exact ih _ _ _ hfl
    | true =>
      rw [e, hc]
      simp only [if_true, Bool.true_or]
      have h2 : (fl ||| env.MTL_LAYER_FROZEN) % 256 = env.MTL_LAYER_FROZEN % 256 := by
        rcases hfl with h | h
        · rw [h, Nat.zero_or]
        · rw [h]; exact mod_lor_mod _
      rw [ih _ _ _ (Or.inr h2), h2]
      split <;> rfl

theorem LoadMaterialLayerSlot_count (env : Env) (s : CMatMan) (nSlot : Nat) (x : MatId)
    (sh : String) (base : SInputShaderResources) (pub : Option XmlNode) (fl : Nat) :
    ((LoadMaterialLayerSlot env s nSlot x sh base pub fl).2.mat x).m_pMaterialLayers.length =
      (s.mat x).m_pMaterialLayers.length := by
  unfold LoadMaterialLayerSlot
  split
  · rfl
  · split
    · rfl
    · split
      · rfl
      · dsimp only
        split
        · rfl
        · split
          · rfl
          · exact SetLayer_count s x _ _

theorem loadLayerNodes_count (env : Env) (x : MatId) (sr : SInputShaderResources)
    (nodes : List XmlNode) :
    ∀ (l fl : Nat) (s : CMatMan),
      ((loadLayerNodes env x sr nodes l fl s).2.mat x).m_pMaterialLayers.length =
        (s.mat x).m_pMaterialLayers.length := by
  induction nodes with
  | nil => intro l fl s; rfl
  | cons c rest ih =>
    intro l fl s
    rw [loadLayerNodes, ih]
    exact LoadMaterialLayerSlot_count env s l x _ sr _ _

/-- The material layers part of the builder reads the children of the `MaterialLayers` node
below `MTL_LAYER_MAX_SLOTS` and no others. -/
theorem loadMaterialLayers_eq (env : Env) (s : CMatMan) (x : MatId) (node : XmlNode)
    (sr : SInputShaderResources) (L : XmlNode) (hL : node.findChild "MaterialLayers" = some L) :
    loadMaterialLayers env s x node sr =
      if (s.GetShaderItem x).m_pShader.isSome && (s.GetShaderItem x).m_pShaderResources.isSome then
        if (L.children.take env.MTL_LAYER_MAX_SLOTS).length = 0 then s
        else
          setMtlLayerNoDrawFlags
            (loadLayerNodes env x sr (L.children.take env.MTL_LAYER_MAX_SLOTS) 0 0
              (s.SetLayerCount x (L.children.take env.MTL_LAYER_MAX_SLOTS).length)).2 x
            (loadLayerNodes env x sr (L.children.take env.MTL_LAYER_MAX_SLOTS) 0 0
              (s.SetLayerCount x (L.children.take env.MTL_LAYER_MAX_SLOTS).length)).1
      else s := by
  unfold loadMaterialLayers
  rw [hL]
  dsimp only
  rw [take_min_length, List.length_take]

/-- The object of a material with a shader and shader resources after the material layers
part of the builder, for a `MaterialLayers` node of which at least one child is read. -/
theorem loadMaterialLayers_side_flag (env : Env) (s : CMatMan) (x : MatId) (node : XmlNode)
    (sr : SInputShaderResources) (L : XmlNode) (hx : x < s.materials.length)
    (hL : node.findChild "MaterialLayers" = some L)
    (h1 : (s.GetShaderItem x).m_pShader.isSome = true)
    (h2 : (s.GetShaderItem x).m_pShaderResources.isSome = true)
    (hc : 0 < min env.MTL_LAYER_MAX_SLOTS L.children.length) :
    ((loadMaterialLayers env s x node sr).mat x).m_pMaterialLayers.length =
      min env.MTL_LAYER_MAX_SLOTS L.children.length ∧
    ((loadMaterialLayers env s x node sr).mat x).m_shaderItem.m_pShaderResources =
      (s.mat x).m_shaderItem.m_pShaderResources.map (fun r =>
        { r with mtlLayerNoDrawFlags :=
          if (L.children.take env.MTL_LAYER_MAX_SLOTS).any (fun c =>
              c.getAttrBool "NoDraw" false &&
                stricmpEq (c.getAttr "Name") "frozenlayerwip") = true
          then env.MTL_LAYER_FROZEN % 256 else 0 }) := by
  rw [loadMaterialLayers_eq env s x node sr L hL, h1, h2]
  simp only [Bool.and_self, if_true]
  have hlen : (L.children.take env.MTL_LAYER_MAX_SLOTS).length =
      min env.MTL_LAYER_MAX_SLOTS L.children.length := List.length_take _ _
  rw [if_neg (by rw [hlen]; exact Nat.ne_of_gt hc)]
  rw [loadLayerNodes_fst env x sr _ 0 0 _ (Or.inl rfl)]
  generalize (if (L.children.take env.MTL_LAYER_MAX_SLOTS).any (fun c =>
      c.getAttrBool "NoDraw" false && stricmpEq (c.getAttr "Name") "frozenlayerwip") = true
    then env.MTL_LAYER_FROZEN % 256 else 0) = fz
  have hx2 : x < (loadLayerNodes env x sr (L.children.take env.MTL_LAYER_MAX_SLOTS) 0 0
      (s.SetLayerCount x (L.children.take env.MTL_LAYER_MAX_SLOTS).length)).2.materials.length := by
    rw [(sameRegistry_loadLayerNodes env x sr _ 0 0 _).2]
    unfold CMatMan.SetLayerCount
    rw [updMat_length]
    exact hx
  unfold setMtlLayerNoDrawFlags
  rw [mat_updMat_self _ _ hx2]
  dsimp only
  refine ⟨?_, ?_⟩
  · rw [loadLayerNodes_count]
    unfold CMatMan.SetLayerCount
    rw [mat_updMat_self s _ hx]
    dsimp only
    rw [listResize_length, hlen]
  · rw [loadLayerNodes_proj (fun c => c.m_shaderItem.m_pShaderResources) (fun _ _ => rfl),
      proj_SetLayerCount (fun c => c.m_shaderItem.m_pShaderResources) (fun _ _ => rfl)]

/-- A build leaves in the object of its material what the body of the builder put there, for
a new material and for an existing one; only the sub-material slots are filled afterwards. -/
theorem built_object (n : Nat) (env : Env) (s : CMatMan) (name : String) (node : XmlNode)
    (force : Bool) (prio : Nat) (ex : Option MatId) (lf : Nat) (par r : Option MatId)
    (t : CMatMan) (hex : ∀ m, ex = some m → m < s.materials.length)
    (h : MakeMaterialFromXml (n + 1) env s name node force prio ex lf par = .ok (r, t)) :
    (obtainMaterial env s name (mtlFlagsFromXml env node force) ex).1 =
      ex.getD s.materials.length ∧
    ex.getD s.materials.length <
      (obtainMaterial env s name (mtlFlagsFromXml env node force) ex).2.materials.length ∧
    { t.mat (ex.getD s.materials.length) with m_subMtls := [] } =
      { (loadMaterialBody env (obtainMaterial env s name (mtlFlagsFromXml env node force) ex).2
          (ex.getD s.materials.length) name node (mtlFlagsFromXml env node force) prio).mat
          (ex.getD s.materials.length) with m_subMtls := [] } := by
  cases ex with
  | none =>
    refine ⟨CreateMaterial_fst env s name _, ?_,
      (build_object n env s name node force prio lf par r t h).2.2⟩
    show s.materials.length < (CreateMaterial env s name _).2.materials.length
    rw [CreateMaterial_length]
    exact Nat.lt_succ_self _
  | some m =>
    refine ⟨rfl, ?_,
      (rebuild_object n env s name node force prio m lf par r t (hex m rfl) h).2.2⟩
    show m < (s.SetFlags m _).materials.length
    unfold CMatMan.SetFlags
    rw [updMat_length]
    exact hex m rfl

/-- The counterexample to C22: on the initialised manager of the examples the build of a
material whose only layer node names the layer `frozenlayerwip`, without the attribute
`NoDraw`, returns object 1 with a shader and the layer in slot 0, and the side flag on its
shader resources is 0: the frozen bit (1 in the examples) is not set. -/
theorem frozen_layer_without_nodraw :
    (MakeMaterialFromXml 1 demoEnv demoState "m"
      (.mk "Material" [("Shader", "Illum")]
        [.mk "MaterialLayers" []
          [.mk "Layer" [("Name", "frozenlayerwip")] [.mk "PublicParams" [] []]]])
      false 0 none 0 none).map
        (fun r => (r.1, (r.2.mat 1).m_shaderItem.m_pShader.isSome, (r.2.GetLayer 1 0).isSome,
          (r.2.mat 1).m_shaderItem.m_pShaderResources.map (fun x => x.mtlLayerNoDrawFlags))) =
      .ok (some 1, true, true, some 0) ∧
    stricmpEq "frozenlayerwip" "frozenlayerwip" = true ∧ demoEnv.MTL_LAYER_FROZEN = 1 := by
  decide!

/-- The amended C22: the material layers part of the builder reads the children of the
`MaterialLayers` node below `MTL_LAYER_MAX_SLOTS` and no others (two descriptors whose
`MaterialLayers` nodes agree on these children give the same result; when none is read the
part changes nothing), and when a build
returns a material with a shader and shader resources from a descriptor with a
`MaterialLayers` node of which at least one child is read, the material has
`min(MTL_LAYER_MAX_SLOTS, child count)` layer slots and the side flag on its shader resources
is the frozen flag (as a `uint8`) when one of the children that are read has `NoDraw` set and
names the layer `frozenlayerwip`, whatever the case of the letters, and is 0 when none
does. -/
theorem frozen_flag_needs_nodraw (n : Nat) (env : Env) (s : CMatMan) (name : String)
    (node : XmlNode) (force : Bool) (prio : Nat) (ex : Option MatId) (lf : Nat)
    (par r : Option MatId) (t : CMatMan) (L : XmlNode) (res : IRenderShaderResources)
    (hex : ∀ m, ex = some m → m < s.materials.length)
    (h : MakeMaterialFromXml (n + 1) env s name node force prio ex lf par = .ok (r, t))
    (hL : node.findChild "MaterialLayers" = some L)
    (hsh : (t.mat (ex.getD s.materials.length)).m_shaderItem.m_pShader ≠ none)
    (hres : (t.mat (ex.getD s.materials.length)).m_shaderItem.m_pShaderResources = some res) :
    (∀ node2 L2 u y sr, node2.findChild "MaterialLayers" = some L2 →
      L2.children.take env.MTL_LAYER_MAX_SLOTS = L.children.take env.MTL_LAYER_MAX_SLOTS →
      loadMaterialLayers env u y node2 sr = loadMaterialLayers env u y node sr) ∧
    (min env.MTL_LAYER_MAX_SLOTS L.children.length = 0 →
      ∀ u y sr, loadMaterialLayers env u y node sr = u) ∧
    (0 < min env.MTL_LAYER_MAX_SLOTS L.children.length →
      (t.mat (ex.getD s.materials.length)).m_pMaterialLayers.length =
        min env.MTL_LAYER_MAX_SLOTS L.children.length ∧
      res.mtlLayerNoDrawFlags =
        if (L.children.take env.MTL_LAYER_MAX_SLOTS).any (fun c =>
            c.getAttrBool "NoDraw" false &&
              stricmpEq (c.getAttr "Name") "frozenlayerwip") = true
        then env.MTL_LAYER_FROZEN % 256 else 0) := by
  refine ⟨fun node2 L2 u y sr hL2 htake => ?_, fun h0 u y sr => ?_, fun hc => ?_⟩
  · rw [loadMaterialLayers_eq env u y node2 sr L2 hL2, loadMaterialLayers_eq env u y node sr L hL,
      htake]
  · rw [loadMaterialLayers_eq env u y node sr L hL, List.length_take, if_pos h0]
    split <;> rfl
  · obtain ⟨ho, hx, e⟩ := built_object n env s name node force prio ex lf par r t hex h
    generalize (obtainMaterial env s name (mtlFlagsFromXml env node force) ex).2 = s0 at hx e
    generalize ex.getD s.materials.length = x at hx e hsh hres ⊢
    obtain ⟨sPre, srX, eb, hxp, _⟩ :=
      loadMaterialBody_pre env s0 x name node (mtlFlagsFromXml env node force) prio hx
    rw [eb] at e
    have e1 := congrArg (fun c => c.m_pMaterialLayers) e
    have e2 := congrArg (fun c => c.m_shaderItem) e
    dsimp only at e1 e2
    have p1 := loadMaterialLayers_proj (fun c => c.m_shaderItem.m_pShader) (fun _ _ => rfl)
      (fun _ _ => rfl) env sPre x node srX x
    have p2 := loadMaterialLayers_proj (fun c => c.m_shaderItem.m_pShaderResources.isSome)
      (fun _ _ => rfl)
      (fun c g => by
        show (Option.map g c.m_shaderItem.m_pShaderResources).isSome =
          c.m_shaderItem.m_pShaderResources.isSome
        cases c.m_shaderItem.m_pShaderResources <;> rfl)
      env sPre x node srX x
    rw [← e2] at p1 p2
    have b1 : (sPre.GetShaderItem x).m_pShader.isSome = true := by
      show (sPre.mat x).m_shaderItem.m_pShader.isSome = true
      rw [← p1]
      cases hq : (t.mat x).m_shaderItem.m_pShader with
      | none => exact absurd hq hsh
      | some _ => rfl
    have b2 : (sPre.GetShaderItem x).m_pShaderResources.isSome = true := by
      show (sPre.mat x).m_shaderItem.m_pShaderResources.isSome = true
      rw [← p2, hres]
      rfl
    obtain ⟨c1, c2⟩ := loadMaterialLayers_side_flag env sPre x node srX L hxp hL b1 b2 hc
    rw [← e1] at c1
    rw [← e2, hres] at c2
    refine ⟨c1, ?_⟩
    cases hq : (sPre.mat x).m_shaderItem.m_pShaderResources with
    | none => rw [hq] at c2; exact absurd c2 (by simp)
    | some r0 =>
      rw [hq] at c2
      simp only [Option.map_some', Option.some.injEq] at c2
      rw [c2]

/-- The amended C22 on the initialised manager of the examples: the build of a material whose
only layer node has `NoDraw` set and names the layer `FrozenLayerWIP` gives one layer slot and
the side flag 1, the frozen flag of the examples. -/
theorem frozen_flag_needs_nodraw_witness :
    MakeMaterialFromXml 1 demoEnv demoState "m" frozenDesc false 0 none 0 none =
      .ok (some 1, demoFrozen) ∧
    (demoFrozen.mat 1).m_pMaterialLayers.length = 1 ∧
    (((demoFrozen.mat 1).m_shaderItem.m_pShaderResources).getD {}).mtlLayerNoDrawFlags = 1 :=
  ⟨by decide!,
    (((frozen_flag_needs_nodraw 0 demoEnv demoState "m" frozenDesc false 0 none 0 none (some 1)
      demoFrozen
      (.mk "MaterialLayers" []
        [.mk "Layer" [("Name", "FrozenLayerWIP"), ("NoDraw", "1")] [.mk "PublicParams" [] []]])
      (((demoFrozen.mat 1).m_shaderItem.m_pShaderResources).getD {})
      (fun m hm => by cases hm) (by decide!) (by decide!) (by decide!) (by decide!)).2.2
      (by decide!)).1).trans (by decide!),
    (((frozen_flag_needs_nodraw 0 demoEnv demoState "m" frozenDesc false 0 none 0 none (some 1)
      demoFrozen
      (.mk "MaterialLayers" []
        [.mk "Layer" [("Name", "FrozenLayerWIP"), ("NoDraw", "1")] [.mk "PublicParams" [] []]])
      (((demoFrozen.mat 1).m_shaderItem.m_pShaderResources).getD {})
      (fun m hm => by cases hm) (by decide!) (by decide!) (by decide!) (by decide!)).2.2
      (by decide!)).2).trans (by decide!)⟩

/-! ## C23: the generation mask of a layer shader -/

theorem mod_lor (x y : Nat) : (x % 2 ^ 32 ||| y) % 2 ^ 32 = (x ||| y) % 2 ^ 32 := by
  apply Nat.eq_of_testBit_eq
  intro i
  simp only [Nat.testBit_mod_two_pow, Nat.testBit_or]
  cases decide (i < 32) <;> cases x.testBit i <;> cases y.testBit i <;> rfl

/-- The test of lines 736-740 on a layer bit is the test of the specification. -/
theorem layerBit_test (M : Nat) (baseBits : List SShaderGenBit) (l : SShaderGenBit) :
    baseBits.any (fun pBaseBit =>
        decide (M &&& pBaseBit.m_Mask ≠ 0) &&
        decide (l.m_ParamName ≠ "") && decide (pBaseBit.m_ParamName ≠ "") &&
        decide (l.m_ParamName = pBaseBit.m_ParamName)) =
      (decide (l.m_ParamName ≠ "") &&
        baseBits.any (fun b =>
          decide (M &&& b.m_Mask ≠ 0) && decide (b.m_ParamName = l.m_ParamName))) := by
  rw [Bool.eq_iff_iff]
  simp only [List.any_eq_true, Bool.and_eq_true, decide_eq_true_eq]
  constructor
  · rintro ⟨b, hb, ⟨⟨h1, h2⟩, _⟩, h4⟩
    exact ⟨h2, b, hb, h1, h4.symm⟩
  · rintro ⟨h2, b, hb, h1, h4⟩
    exact ⟨b, hb, ⟨⟨h1, h2⟩, by rw [h4]; exact h2⟩, h4.symm⟩

/-- The loop of lines 727-748 from a mask collected so far. -/
theorem layerGenMask_fold (M : Nat) (baseBits : List SShaderGenBit)
    (layerBits : List SShaderGenBit) :
    ∀ acc, acc % 2 ^ 32 = acc →
      layerBits.foldl (fun nMaskGenLayer pLayerBit =>
        if baseBits.any (fun pBaseBit =>
            decide (M &&& pBaseBit.m_Mask ≠ 0) &&
            decide (pLayerBit.m_ParamName ≠ "") && decide (pBaseBit.m_ParamName ≠ "") &&
            decide (pLayerBit.m_ParamName = pBaseBit.m_ParamName))
        then (nMaskGenLayer ||| pLayerBit.m_Mask) % 2 ^ 32
        else nMaskGenLayer) acc =
      (acc ||| layerGenMaskSpec M (some baseBits) (some layerBits)) % 2 ^ 32 := by
  induction layerBits with
  | nil =>
    intro acc h
    show acc = (acc ||| 0) % 2 ^ 32
    rw [Nat.or_zero, h]
  | cons l rest ih =>
    intro acc h
    rw [List.foldl_cons, layerBit_test]
    unfold layerGenMaskSpec at ih ⊢
    dsimp only at ih ⊢
    rw [List.filter_cons]
    cases hp : (decide (l.m_ParamName ≠ "") &&
        baseBits.any (fun b =>
          decide (M &&& b.m_Mask ≠ 0) && decide (b.m_ParamName = l.m_ParamName))) with
    | false =>
      simp only [Bool.false_eq_true, if_false]
      exact ih acc h
    | true =>
      simp only [if_true, List.map_cons, List.foldr_cons]
      rw [ih _ (Nat.mod_mod _ _), mod_lor, Nat.or_assoc]

/-- The generation mask that the code computes is the mask of the specification within 32
bits. -/
theorem layerGenMask_eq_spec (M : Nat) (B L : Option (List SShaderGenBit)) :
    layerGenMask M B L = layerGenMaskSpec M B L % 2 ^ 32 := by
  cases B with
  | none => cases L <;> rfl
  | some baseBits =>
    cases L with
    | none => rfl
    | some layerBits =>
      unfold layerGenMask
      dsimp only
      rw [layerGenMask_fold M baseBits layerBits 0 rfl, Nat.zero_or]

/-- The counterexample to C23: the base shader of the material of `genState` has the
generation bit `2 ^ 32` for the parameter `A`, active in its generation mask `2 ^ 32`, and the
layer shader has the bit 1 for `A`, so the union of the specification is 1; the layer that
`LoadMaterialLayerSlot` puts into slot 0 holds the shader loaded with the mask 0. -/
theorem layer_mask_drops_high_bits :
    ((LoadMaterialLayerSlot genEnv genState 0 0 "Layer" {} (some (.mk "PublicParams" [] []))
      0).2.GetLayer 0 0).map
        (fun l => l.m_pShaderItem.m_pShader.map (fun sh => sh.generationMask)) =
      some (some 0) ∧
    layerGenMaskSpec (2 ^ 32) (some [⟨2 ^ 32, "A"⟩]) (some [⟨1, "A"⟩]) = 1 := by
  decide!

/-- The amended C23: `LoadMaterialLayerSlot` reads the generation mask `M` of the base shader
as a `uint32` and collects the mask of the layer in a `uint32`.  For a layer node with public
parameters, an empty slot, a shader name other than `nodraw` and a layer shader that the
renderer finds, the second load of the layer shader is made with the mask of the
specification for the low 32 bits of `M`, kept to its low 32 bits: the union of the masks of
the layer bits whose parameter name is not empty and is the name of a base bit that is active
in the low 32 bits of `M`.  The call returns true exactly when this load gives a shader, and
then that shader goes into the slot.  The mask is zero when either shader has no generation
parameters. -/
theorem layer_mask_matches_by_name (env : Env) (s : CMatMan) (nSlot : Nat) (pMtl : MatId)
    (szShaderName : String) (sr : SInputShaderResources) (publics : XmlNode) (fl : Nat)
    (base pNewShader : IShader)
    (hempty : s.GetLayer pMtl nSlot = none)
    (hnd : stricmpEq szShaderName "nodraw" = false)
    (hbase : (s.GetShaderItem pMtl).m_pShader = some base)
    (hnew : env.EF_LoadShader szShaderName 0 0 = some pNewShader) :
    (LoadMaterialLayerSlot env s nSlot pMtl szShaderName sr (some publics) fl).1 =
      (env.EF_LoadShader szShaderName 0
        (layerGenMaskSpec (base.generationMask % 2 ^ 32) base.generationParams
          pNewShader.generationParams % 2 ^ 32)).isSome ∧
    (∀ pShader, env.EF_LoadShader szShaderName 0
        (layerGenMaskSpec (base.generationMask % 2 ^ 32) base.generationParams
          pNewShader.generationParams % 2 ^ 32) = some pShader →
      ∃ res, (LoadMaterialLayerSlot env s nSlot pMtl szShaderName sr (some publics) fl).2 =
        s.SetLayer pMtl nSlot { m_nFlags := fl, m_pShaderItem := ⟨some pShader, res⟩ }) ∧
    (∀ M B L, layerGenMask (M % 2 ^ 32) B L = layerGenMaskSpec (M % 2 ^ 32) B L % 2 ^ 32) ∧
    (∀ M B L, B = none ∨ L = none → layerGenMaskSpec M B L = 0 ∧ layerGenMask M B L = 0) := by
  have e : LoadMaterialLayerSlot env s nSlot pMtl szShaderName sr (some publics) fl =
      match env.EF_LoadShader szShaderName 0
          (layerGenMask (base.generationMask % 2 ^ 32) base.generationParams
            pNewShader.generationParams) with
      | none => (false, s)
      | some pShader =>
        (true, s.SetLayer pMtl nSlot
          { m_nFlags := fl,
            m_pShaderItem := ⟨some pShader,
              (s.GetShaderItem pMtl).m_pShaderResources.map (fun r =>
                { r with input := { r.input with
                  m_ShaderParams := publics.attrs.map (fun kv => ⟨kv.1, kv.2⟩) } })⟩ }) := by
    unfold LoadMaterialLayerSlot
    dsimp only
    rw [hempty, hnd, hbase, hnew]
    rfl
  rw [e, layerGenMask_eq_spec]
  refine ⟨?_, ?_, fun M B L => layerGenMask_eq_spec _ B L, ?_⟩
  · cases env.EF_LoadShader szShaderName 0
      (layerGenMaskSpec (base.generationMask % 2 ^ 32) base.generationParams
        pNewShader.generationParams % 2 ^ 32) <;> rfl
  · intro pShader hp
    rw [hp]
    exact ⟨_, rfl⟩
  · intro M B L h
    rcases h with h | h
    · subst h
      exact ⟨by cases L <;> rfl, by cases L <;> rfl⟩
    · subst h
      exact ⟨by cases B <;> rfl, by cases B <;> rfl⟩

/-- The amended C23 on the material of `genState` with the base bit 1 for `A` active: the
layer shader is loaded with the mask 1. -/
theorem layer_mask_matches_by_name_witness :
    (LoadMaterialLayerSlot genEnv
      (genState.AssignShaderItem 0 ⟨some ⟨"Base", 0, 5, some [⟨4, "A"⟩]⟩, some {}⟩) 0 0 "Layer"
      {} (some (.mk "PublicParams" [] [])) 0).1 = true ∧
    genEnv.EF_LoadShader "Layer" 0
      (layerGenMaskSpec (5 % 2 ^ 32) (some [⟨4, "A"⟩]) (some [⟨1, "A"⟩]) % 2 ^ 32) =
        some ⟨"Layer", 0, 1, some [⟨1, "A"⟩]⟩ :=
  ⟨((layer_mask_matches_by_name genEnv
      (genState.AssignShaderItem 0 ⟨some ⟨"Base", 0, 5, some [⟨4, "A"⟩]⟩, some {}⟩) 0 0 "Layer"
      {} (.mk "PublicParams" [] []) 0 ⟨"Base", 0, 5, some [⟨4, "A"⟩]⟩
      ⟨"Layer", 0, 0, some [⟨1, "A"⟩]⟩ (by decide!) (by decide!) (by decide!)
      (by decide!)).1).trans (by decide!),
    by decide!⟩

/-! ## C26: `InitDefaults` is not entered again from the loads it starts -/

theorem loadAsOwner_congr
    (build1 build2 : CMatMan → String → XmlNode → Except Fault (Option MatId × CMatMan))
    (env : Env) (s2 : CMatMan) (u : UniqueManualEvent) (name : String) (mk nr : Bool)
    (h : ∀ node, build1 s2 name node = build2 s2 name node) :
    loadAsOwner build1 env s2 u name mk nr = loadAsOwner build2 env s2 u name mk nr := by
  unfold loadAsOwner assetStatusSwitch
  dsimp only
  cases env.Exists (materialFileName name) with
  | true =>
    simp only [if_true]
    cases env.LoadXmlFromFile (materialFileName name) with
    | none => rfl
    | some node => simp only [h]
  | false =>
    simp only [Bool.false_eq_true, if_false]
    cases env.GetAssetStatus (materialFileName name) with
    | AssetStatus_Compiled =>
      dsimp only
      cases env.ExistsAfterStatus (materialFileName name) with
      | true =>
        simp only [if_true]
        cases env.LoadXmlFromFile (materialFileName name) with
        | none => rfl
        | some node => simp only [h]
      | false => rfl
    | _ => rfl

theorem loadAfterInit_congr
    (build1 build2 : CMatMan → String → XmlNode → Except Fault (Option MatId × CMatMan))
    (env : Env) (s1 : CMatMan) (N : String) (mk nr : Bool)
    (h : ∀ s2 name node, s2.m_bInitialized = s1.m_bInitialized →
      build1 s2 name node = build2 s2 name node) :
    loadAfterInit build1 env s1 N mk nr = loadAfterInit build2 env s1 N mk nr := by
  unfold loadAfterInit
  split
  · rfl
  · cases hC : CheckMaterialCache s1 (UnifyName env N) none with
    | error e => rfl
    | ok p =>
      obtain ⟨u, pm, s2⟩ := p
      have hi : s2.m_bInitialized = s1.m_bInitialized := by
        rcases CheckMaterialCache_cases s1 _ none u pm s2 hC with ⟨_, _, _, _, _, e⟩ | ⟨_, _, _, e⟩
        · rw [e]
        · rw [e]
      dsimp only
      rw [loadAsOwner_congr build1 build2 env s2 u _ mk nr (fun node => h s2 _ node hi)]

theorem loadSubMaterial_congr
    (build1 build2 : String → XmlNode → Nat → MatId → CMatMan →
      Except Fault (Option MatId × CMatMan))
    (load1 load2 : String → CMatMan → Except Fault (Option MatId × CMatMan))
    (x k : Nat) (c : XmlNode) (i : Nat) (u : CMatMan)
    (hb : ∀ name node prio par, build1 name node prio par u = build2 name node prio par u)
    (hl : ∀ name, load1 name u = load2 name u) :
    loadSubMaterial build1 load1 x k c i u = loadSubMaterial build2 load2 x k c i u := by
  unfold loadSubMaterial
  rw [hb, hl]

theorem loadSubMaterial_initialized
    (build : String → XmlNode → Nat → MatId → CMatMan → Except Fault (Option MatId × CMatMan))
    (load : String → CMatMan → Except Fault (Option MatId × CMatMan))
    (x k : Nat) (c : XmlNode) (i : Nat) (u u1 : CMatMan)
    (hb : ∀ name node prio par r u2, build name node prio par u = .ok (r, u2) →
      u2.m_bInitialized = true)
    (hl : ∀ name r u2, load name u = .ok (r, u2) → u2.m_bInitialized = true)
    (hu : u.m_bInitialized = true)
    (h : loadSubMaterial build load x k c i u = .ok u1) : u1.m_bInitialized = true := by
  unfold loadSubMaterial at h
  split at h
  · split at h
    · exact absurd h (by simp)
    · rename_i pc s1 hq
      simp only [Except.ok.injEq] at h
      rw [← h, (sameRegistry_SetSubMtl s1 x i _).initialized_eq]
      exact hb _ _ _ _ _ _ hq
    · rename_i s1 hq
      simp only [Except.ok.injEq] at h
      rw [← h, (sameRegistry_SetSubMtl s1 x i _).initialized_eq]
      exact hb _ _ _ _ _ _ hq
  · split at h
    · split at h
      · exact absurd h (by simp)
      · rename_i pc s1 hq
        simp only [Except.ok.injEq] at h
        rw [← h, (sameRegistry_SetSubMtl s1 x i _).initialized_eq]
        exact hl _ _ _ hq
      · rename_i s1 hq
        simp only [Except.ok.injEq] at h
        rw [← h]
        exact hl _ _ _ hq
    · simp only [Except.ok.injEq] at h
      rw [← h]
      exact hu

theorem loadSubMaterials_congr
    (build1 build2 : String → XmlNode → Nat → MatId → CMatMan →
      Except Fault (Option MatId × CMatMan))
    (load1 load2 : String → CMatMan → Except Fault (Option MatId × CMatMan))
    (x k : Nat)
    (hb : ∀ name node prio par u, u.m_bInitialized = true →
      build1 name node prio par u = build2 name node prio par u)
    (hl : ∀ name u, u.m_bInitialized = true → load1 name u = load2 name u)
    (hbi : ∀ name node prio par u r u2, u.m_bInitialized = true →
      build1 name node prio par u = .ok (r, u2) → u2.m_bInitialized = true)
    (hli : ∀ name u r u2, u.m_bInitialized = true → load1 name u = .ok (r, u2) →
      u2.m_bInitialized = true)
    (children : List XmlNode) :
    ∀ i u, u.m_bInitialized = true →
      loadSubMaterials build1 load1 x k children i u =
        loadSubMaterials build2 load2 x k children i u := by
  induction children with
  | nil => intro i u _; rfl
  | cons c rest ih =>
    intro i u hu
    rw [loadSubMaterials_cons, loadSubMaterials_cons,
      ← loadSubMaterial_congr build1 build2 load1 load2 x k c i u
        (fun name node prio par => hb name node prio par u hu) (fun name => hl name u hu)]
    cases hq : loadSubMaterial build1 load1 x k c i u with
    | error e => rfl
    | ok u1 =>
      exact ih (i + 1) u1
        (loadSubMaterial_initialized build1 load1 x k c i u u1
          (fun name node prio par r u2 => hbi name node prio par u r u2 hu)
          (fun name r u2 => hli name u r u2 hu) hu hq)

theorem makeMaterialBody_congr
    (build1 build2 : String → XmlNode → Nat → MatId → CMatMan →
      Except Fault (Option MatId × CMatMan))
    (load1 load2 : String → CMatMan → Except Fault (Option MatId × CMatMan))
    (env : Env) (s : CMatMan) (name : String) (node : XmlNode) (b : Bool) (prio : Nat)
    (ex : Option MatId)
    (hb : ∀ name node prio par u, u.m_bInitialized = true →
      build1 name node prio par u = build2 name node prio par u)
    (hl : ∀ name u, u.m_bInitialized = true → load1 name u = load2 name u)
    (hbi : ∀ name node prio par u r u2, u.m_bInitialized = true →
      build1 name node prio par u = .ok (r, u2) → u2.m_bInitialized = true)
    (hli : ∀ name u r u2, u.m_bInitialized = true → load1 name u = .ok (r, u2) →
      u2.m_bInitialized = true)
    (hs : s.m_bInitialized = true) :
    makeMaterialBody build1 load1 env s name node b prio ex =
      makeMaterialBody build2 load2 env s name node b prio ex := by
  unfold makeMaterialBody loadSubMaterialsNode
  dsimp only
  have ho : (obtainMaterial env s name (mtlFlagsFromXml env node b) ex).2.m_bInitialized = true := by
    cases ex with
    | none => exact (CreateMaterial_initialized env s name _).trans hs
    | some m => exact ((sameRegistry_SetFlags s m _).initialized_eq).trans hs
  have h1 : (loadMaterialBody env (obtainMaterial env s name (mtlFlagsFromXml env node b) ex).2
      (obtainMaterial env s name (mtlFlagsFromXml env node b) ex).1 name node
      (mtlFlagsFromXml env node b) prio).m_bInitialized = true :=
    ((sameRegistry_loadMaterialBody env _ _ name node _ prio).initialized_eq).trans ho
  cases node.findChild "SubMaterials" with
  | none => rfl
  | some subs =>
    dsimp only
    rw [loadSubMaterials_congr build1 build2 load1 load2 _ _ hb hl hbi hli subs.children 0 _
      (((sameRegistry_SetSubMtlCount _ _ _).initialized_eq).trans h1)]

/-- On a manager whose defaults are there the loader and the builder run without any call of
`InitDefaults`, down to every nested load and build. -/
theorem noInit_all (env : Env) (n : Nat) :
    (∀ s N mk nr lf, s.m_bInitialized = true →
      LoadMaterialInternal n env s N mk nr lf = LoadMaterialNoInit n env s N mk nr lf) ∧
    (∀ s name node b prio ex lf par, s.m_bInitialized = true →
      MakeMaterialFromXml n env s name node b prio ex lf par =
        MakeMaterialNoInit n env s name node b prio ex lf par) := by
  induction n with
  | zero =>
    refine ⟨fun s N mk nr lf _ => ?_, fun s name node b prio ex lf par _ => ?_⟩
    · rw [LoadMaterialInternal, LoadMaterialNoInit]
    · rw [MakeMaterialFromXml, MakeMaterialNoInit]
  | succ n ih =>
    refine ⟨fun s N mk nr lf hs => ?_, fun s name node b prio ex lf par hs => ?_⟩
    · rw [LoadMaterialInternal_succ, ensureDefaults_of_initialized n env s hs, LoadMaterialNoInit]
      dsimp only
      exact loadAfterInit_congr _ _ env s N mk nr
        (fun s2 name node hi => ih.2 s2 name node false 0 none lf none (hi.trans hs))
    · rw [MakeMaterialFromXml, MakeMaterialNoInit]
      exact makeMaterialBody_congr _ _ _ _ env s name node b prio ex
        (fun name node prio par u hu => ih.2 u name node true prio none lf (some par) hu)
        (fun name u hu => ih.1 u name true false lf hu)
        (fun name node prio par u r u2 hu hq =>
          ((grows_all n).2.2 env u name node true prio none lf (some par) r u2 hq).initialized hu)
        (fun name u r u2 _ hq => ((grows_all n).1 env u name true false lf r u2 hq).2.1)
        hs

/-- The body of `InitDefaults` in three parts: the head up to the default terrain layers
material, the load of the default layers material, and the tail. -/
theorem initDefaultsBody_eq (load : CMatMan → Except Fault (Option MatId × CMatMan))
    (env : Env) (s : CMatMan) :
    initDefaultsBody load env s =
      match (if (initDefaultsHead env s).m_pDefaultLayersMtl.isNone then
          (match load (initDefaultsHead env s) with
            | .error e => Except.error e
            | .ok (m, t) => Except.ok { t with m_pDefaultLayersMtl := m })
        else Except.ok (initDefaultsHead env s)) with
      | .error e => .error e
      | .ok s4 => .ok (initDefaultsTail env s4) := rfl

theorem initDefaultsBody_congr (load1 load2 : CMatMan → Except Fault (Option MatId × CMatMan))
    (env : Env) (s : CMatMan) (h : load1 (initDefaultsHead env s) = load2 (initDefaultsHead env s)) :
    initDefaultsBody load1 env s = initDefaultsBody load2 env s := by
  rw [initDefaultsBody_eq, initDefaultsBody_eq, h]

/-- C26: the recursion between `LoadMaterialInternal` and `InitDefaults` ends.  A call of
`InitDefaults` on an initialised manager returns at once and leaves the whole state as it is:
the name map, the pending-load table, the retention list and the five default materials.  On
a manager that is not initialised `InitDefaults` marks it initialised before anything else, so
the load of the default layers material starts on an initialised manager, and from there every
load and every build, down to all nested ones, is the loader and the builder without the call
of `InitDefaults`: the body of `InitDefaults` is not entered again.  Hence `InitDefaults`
returns when that load of the default layers material returns (and without any load when the
default layers material exists), and the state it returns is initialised, so a further call
returns at once with that state. -/
theorem init_defaults_is_entered_once (n : Nat) (env : Env) (s : CMatMan) :
    (s.m_bInitialized = true → InitDefaults (n + 1) env s = .ok s) ∧
    (initDefaultsHead env s).m_bInitialized = true ∧
    (∀ t N mk nr lf, t.m_bInitialized = true →
      LoadMaterialInternal n env t N mk nr lf = LoadMaterialNoInit n env t N mk nr lf) ∧
    (∀ t name node b prio ex lf par, t.m_bInitialized = true →
      MakeMaterialFromXml n env t name node b prio ex lf par =
        MakeMaterialNoInit n env t name node b prio ex lf par) ∧
    (s.m_bInitialized = false →
      InitDefaults (n + 1) env s =
        initDefaultsBody
          (fun t => LoadMaterialNoInit n env t "Materials/material_layers_default" false false 0)
          env s) ∧
    (s.m_bInitialized = false →
      ((initDefaultsHead env s).m_pDefaultLayersMtl.isNone = false ∨
        ∃ r, LoadMaterialNoInit n env (initDefaultsHead env s)
          "Materials/material_layers_default" false false 0 = .ok r) →
      ∃ t, InitDefaults (n + 1) env s = .ok t) ∧
    (∀ t, InitDefaults (n + 1) env s = .ok t →
      t.m_bInitialized = true ∧ ∀ k, InitDefaults (k + 1) env t = .ok t) := by
  have hhead := (initDefaultsHead_tables env s).2.2.2.2
  have hbody : s.m_bInitialized = false →
      InitDefaults (n + 1) env s =
        initDefaultsBody
          (fun t => LoadMaterialNoInit n env t "Materials/material_layers_default" false false 0)
          env s := by
    intro hs
    rw [InitDefaults, if_neg (by rw [hs]; simp)]
    exact initDefaultsBody_congr _ _ env s
      ((noInit_all env n).1 _ "Materials/material_layers_default" false false 0 hhead)
  have hret : ∀ u : CMatMan, u.m_bInitialized = true → ∀ k, InitDefaults (k + 1) env u = .ok u := by
    intro u hu k
    rw [InitDefaults, if_pos hu]
  refine ⟨fun hs => hret s hs n, hhead, (noInit_all env n).1, (noInit_all env n).2, hbody,
    fun hs hl => ?_, fun t ht => ?_⟩
  · rw [hbody hs, initDefaultsBody_eq]
    rcases hl with hl | ⟨r, hl⟩
    · rw [if_neg (by rw [hl]; simp)]
      exact ⟨_, rfl⟩
    · by_cases hd : (initDefaultsHead env s).m_pDefaultLayersMtl.isNone = true
      · rw [if_pos hd, hl]
        exact ⟨_, rfl⟩
      · rw [if_neg hd]
        exact ⟨_, rfl⟩
  · have hi := ((grows_all (n + 1)).2.1 env s t ht).2.1
    exact ⟨hi, hret t hi⟩

/-- The C26 theorem on the managers of the examples: `InitDefaults` returns on a new manager,
where the load of the default layers material finds no file, and returns the initialised
manager of the examples as it is. -/
theorem init_defaults_is_entered_once_witness :
    (∃ t, InitDefaults (1 + 1) demoEnv CMatMan.new = .ok t) ∧
    InitDefaults (1 + 1) demoEnv demoState = .ok demoState :=
  ⟨(init_defaults_is_entered_once 1 demoEnv CMatMan.new).2.2.2.2.2.1 (by decide!)
      (Or.inr ⟨match LoadMaterialNoInit 1 demoEnv (initDefaultsHead demoEnv CMatMan.new)
            "Materials/material_layers_default" false false 0 with
          | .ok r => r
          | .error _ => (none, CMatMan.new),
        by decide!⟩),
    (init_defaults_is_entered_once 1 demoEnv demoState).1 (by decide!)⟩

/-! ## C24: a rename can leave a record with a null event -/

/-- The failing input of C24: a new manager on which the material `a` is created and then
renamed to `b`.  The state is reachable, the pending-load table holds a record for `b` with a
null event, and the next load of `b` calls `Wait` through that null pointer. -/
theorem rename_leaves_null_record :
    Reachable demoEnv (RenameMaterial demoEnv (CreateMaterial demoEnv CMatMan.new "a" 0).2 0 "b") ∧
    mapFind (RenameMaterial demoEnv (CreateMaterial demoEnv CMatMan.new "a" 0).2 0
      "b").m_pendingMaterialLoads (UnifyName demoEnv "b") = some none ∧
    LoadMaterialInternal 3 demoEnv
      (RenameMaterial demoEnv (CreateMaterial demoEnv CMatMan.new "a" 0).2 0 "b") "b" false false
      0 = .error Fault.nullEvent :=
  ⟨Reachable.rename _ 0 "b" (Reachable.create _ "a" 0 Reachable.start) (by decide!)
    (by decide!), by decide!, by decide!⟩

/-- A rename of a material whose name is empty or has no pending-load record leaves a record
with a null event under the new name, whatever the state. -/
theorem rename_without_record (env : Env) (s : CMatMan) (pMtl : MatId) (sNewName : String)
    (h : s.GetName pMtl = "" ∨
      mapFind s.m_pendingMaterialLoads (UnifyName env (s.GetName pMtl)) = none) :
    mapFind (RenameMaterial env s pMtl sNewName).m_pendingMaterialLoads
      (UnifyName env sNewName) = some none ∧
    CheckMaterialCache (RenameMaterial env s pMtl sNewName) (UnifyName env sNewName) none =
      .error Fault.nullEvent := by
  have h1 : mapFind (RenameMaterial env s pMtl sNewName).m_pendingMaterialLoads
      (UnifyName env sNewName) = some none := by
    unfold RenameMaterial
    dsimp only
    rw [mapFind_mapAssign_self]
    rcases h with h | h
    · rw [if_neg (by rw [h]; simp)]
    · by_cases hn : s.GetName pMtl ≠ ""
      · rw [if_pos hn, h]
        rfl
      · rw [if_neg hn]
  refine ⟨h1, ?_⟩
  unfold CheckMaterialCache
  rw [h1]

/-! ## C25: the slot that `CloneMaterial` was asked to clone -/

/-- The failing input of C25: the multi-sub-material `a` of the examples (object 4, slots
holding the objects 5 and 6) cloned with the slot index 0.  The clone is the new object 7 and
no other object is made: its slot 0 holds object 5, the sub-material of the source itself.
With a negative index both slots hold new objects. -/
theorem clone_shares_the_requested_slot :
    demoLoaded.GetFlags 4 &&& demoEnv.MTL_FLAG_MULTI_SUBMTL ≠ 0 ∧
    (demoLoaded.mat 4).m_subMtls = [some 5, some 6] ∧ demoLoaded.materials.length = 7 ∧
    (CloneMaterial demoEnv demoLoaded 4 0).1 = 7 ∧
    ((CloneMaterial demoEnv demoLoaded 4 0).2.mat 7).m_subMtls = [some 5, some 6] ∧
    (CloneMaterial demoEnv demoLoaded 4 0).2.materials.length = 8 ∧
    ((CloneMaterial demoEnv demoLoaded 4 (-1)).2.mat 7).m_subMtls = [some 8, some 9] := by
  decide!

end MatMan
